import Mathlib

/-!
# Paltalk protocol plugin (gaim-pt): verification development

Shallow embedding of the wire codec (`paltalk-core.c`, `paltalk.h`), the
obfuscation function `pt_encode`, the RTP parser (`rtp.c`) and the voice
datagram writer (`paltalk-mediastream.c`).

Execution model.  The plugin is written for 32-bit little-endian x86 hosts
compiled with GCC: `long` is 32 bits wide (the code stores every 32-bit wire
integer through `long *`), plain `char` is signed, conversions to a narrower
integer type keep the low bits, and `htons`/`htonl` swap bytes.  A memory cell
is a natural number below 256; a C string is the list of its bytes without the
terminating NUL.  Functions whose C counterpart can read outside an object
return `none` there.
-/

set_option autoImplicit false

namespace Paltalk

/-! ## Machine integers and byte order -/

/-- Width in bits of `long` and `unsigned long` (ILP32). -/
def LONG_BITS : Nat := 32

/-- Conversion to `unsigned short`: the value modulo 2^16. -/
def u16 (v : Int) : Nat := (v % 65536).toNat

/-- Conversion to `unsigned long` / `uint32_t`: the value modulo 2^32. -/
def u32 (v : Int) : Nat := (v % 4294967296).toNat

/-- Conversion to `short`: the low 16 bits read as two's complement. -/
def s16 (v : Int) : Int :=
  if v % 65536 < 32768 then v % 65536 else v % 65536 - 65536

/-- Value of a plain (signed) `char` holding the byte `b`. -/
def schar (b : Nat) : Int := if b < 128 then (b : Int) else (b : Int) - 256

/-- The two bytes `(char *)&i` of a 16-bit object holding `htons(v)`. -/
def htons_bytes (v : Int) : List Nat := [u16 v / 256, u16 v % 256]

/-- The four bytes `(char *)&ltmp` of a `long` holding `htonl(v)`. -/
def htonl_bytes (v : Int) : List Nat :=
  [u32 v / 16777216, u32 v / 65536 % 256, u32 v / 256 % 256, u32 v % 256]

/-- The four bytes of a `long` in host (little-endian) order, as `memcpy(dst,&v,4)` copies
them. -/
def host_long_bytes (v : Int) : List Nat :=
  [u32 v % 256, u32 v / 256 % 256, u32 v / 65536 % 256, u32 v / 16777216]

/-- `ntohs(*(short *)(X+O))` as an unsigned 16-bit value; `none` outside the buffer. -/
def ntohs_at (X : List Nat) (O : Nat) : Option Nat :=
  match X.get? O, X.get? (O + 1) with
  | some b0, some b1 => some (b0 * 256 + b1)
  | _, _ => none

/-- `ntohl(*(long *)(X+O))` as an unsigned 32-bit value; `none` outside the buffer. -/
def ntohl_at (X : List Nat) (O : Nat) : Option Nat :=
  match X.get? O, X.get? (O + 1), X.get? (O + 2), X.get? (O + 3) with
  | some b0, some b1, some b2, some b3 =>
      some (b0 * 16777216 + b1 * 65536 + b2 * 256 + b3)
  | _, _, _, _ => none

/-- Bytes of an ASCII string literal of the source. -/
def cstr (s : String) : List Nat := s.toList.map Char.toNat

/-! ## `printf` conversions and `atoi` -/

/-- Decimal digits of `n`, most significant first, as ASCII codes (worker with fuel). -/
def dec_digits_aux : Nat → Nat → List Nat → List Nat
  | 0, _, acc => acc
  | fuel + 1, n, acc =>
      if n / 10 = 0 then (48 + n % 10) :: acc
      else dec_digits_aux fuel (n / 10) ((48 + n % 10) :: acc)

/-- Decimal digits of `n`, most significant first, as ASCII codes. -/
def dec_digits (n : Nat) : List Nat := dec_digits_aux (n + 1) n []

/-- The conversion `%.<prec>d` / `%.<prec>ld`: a minus sign for a negative value, then the
decimal digits padded with zeros to at least `prec` digits. -/
def printf_prec_d (prec : Nat) (v : Int) : List Nat :=
  let ds := dec_digits v.natAbs
  let padded := List.replicate (prec - ds.length) 48 ++ ds
  if v < 0 then 45 :: padded else padded

/-- The conversion `%d` / `%ld`. -/
def printf_d (v : Int) : List Nat := printf_prec_d 1 v

/-- The predicate `isspace` of the C locale. -/
def isspace (c : Nat) : Bool := c == 32 || (9 ≤ c && c ≤ 13)

/-- Digit accumulation of `atoi`: stops at the first byte that is not a digit. -/
def atoi_digits : List Nat → Nat → Nat
  | [], acc => acc
  | c :: rest, acc =>
      if 48 ≤ c ∧ c ≤ 57 then atoi_digits rest (acc * 10 + (c - 48)) else acc

/-- The leading white space skipped by `atoi`. -/
def atoi_skip : List Nat → List Nat
  | [] => []
  | c :: rest => if isspace c then atoi_skip rest else c :: rest

/-- The C library function `atoi` on a string. -/
def atoi (s : List Nat) : Int :=
  match atoi_skip s with
  | 45 :: rest => - (atoi_digits rest 0 : Int)
  | 43 :: rest => (atoi_digits rest 0 : Int)
  | rest => (atoi_digits rest 0 : Int)

/-! ## Session data (`paltalk.h`) -/

/-- Per-room data, `struct _PTRoomData` (the stream and back pointers are passed
separately). -/
structure PTRoomData where
  id : Int := 0
  owner : Int := 0
  u_bounce : Int := 0
  speaker : Option (List Nat) := none
  admin : Bool := false
  topic : Option (List Nat) := none
  mike : Bool := false
  text : Bool := false
  video : Bool := false
  bounce : List (List Nat) := []
  ban : List (List Nat) := []
  users : List (List (List Nat × List Nat)) := []
  deriving DecidableEq, Repr

/-- File transfer data, `struct _PTXferData`. -/
structure PTXferData where
  inpa : Int := 0
  fd : Int := 0
  phase : Int := 0
  id : Int := 0
  uin : Int := 0
  who : List Nat := []
  filename : List Nat := []
  deriving DecidableEq, Repr

/-- An open IM, `struct _PTIm`: UIN and nickname of the other user (`NULL` is `none`). -/
structure PTIm where
  uin : Option (List Nat) := none
  nick : Option (List Nat) := none
  deriving DecidableEq, Repr

/-- Session data, `struct _PTData`; `username` and `password` are what
`gaim_account_get_username(a)` and `gaim_account_get_password(a)` return, `sin_addr` and
`sin_port` the bytes of `host.sin_addr` and `host.sin_port` (network order). -/
structure PTData where
  time : Nat := 0
  wierd : Int := 0
  fd : Int := 0
  sin_addr : List Nat := [0, 0, 0, 0]
  sin_port : List Nat := [0, 0]
  serverkey : Option (List Nat) := none
  uin : Int := 0
  status : Int := 0
  owner : Int := 0
  locked : Int := 0
  xfers : List PTXferData := []
  chats : List PTRoomData := []
  ims : List PTIm := []
  username : List Nat := []
  password : List Nat := []
  deriving DecidableEq, Repr

/-! ## Obfuscation (`paltalk-core.c`, lines 32-96) -/

/-- The lymerick used in encoding. -/
def lymerick : List Nat := cstr
  ("Ginger was a big fat horse, a big fat horse was she. But don't tell that to MaryLou " ++
   "because in love with her is she.I tell you this in private, because I thought that y" ++
   "ou should know.But never say to MaryLou or both our heads will go.I've said it once," ++
   " I've said it twice, I'll say it once again.Not a word of this to you know who or it" ++
   " will be our end!\r")

/-- The element `lymerick[idx]` of the array the string literal denotes (its bytes and the
terminating NUL); `none` outside the array. -/
def lymerick_at (idx : Int) : Option Int :=
  if idx < 0 then none
  else if idx.toNat = lymerick.length then some 0
  else (lymerick.get? idx.toNat).map schar

/-- One step of the time counter: `(time * 214013) + 2530876` in `unsigned long`. -/
def next_time (t : Nat) : Nat := (t * 214013 + 2530876) % 2 ^ LONG_BITS

/-- The macro `ENCODE_TIME_DIGIT`:
`(int)(floor((((((X * 214013) + 2530876) >> 16) & 0x7FFF) / 32678.0f) * 10.0f)) & 7`.
With `x` the 15-bit integer operand, `floor((x / 32678.0f) * 10.0f)` is the integer
quotient `x * 10 / 32678`: the exact product `10 * x / 32678` is either an integer that
is computed without rounding (for `x` = 0, 16339, 32678) or differs from the nearest
integer by at least 1/16339, far more than the rounding error of the two single-precision
operations (`ENCODE_TIME_DIGIT_eq_floor` relates it to the exact floor). -/
def ENCODE_TIME_DIGIT (X : Nat) : Nat :=
  ((((X * 214013 + 2530876) % 2 ^ LONG_BITS) >>> 16) &&& 0x7FFF) * 10 / 32678 &&& 7

/-- The macro `GET_WIERD_NUMBER`: advances the time and sets `wierd`, all in integer
arithmetic on `unsigned long`. -/
def GET_WIERD_NUMBER (X : PTData) : PTData :=
  let time := next_time X.time
  { X with
    time := time
    wierd := (((((((time >>> 16) &&& 0x7FFF) / 32768) * 10) / 32678) * 200 : Nat) : Int) }

/-- Loop of `case 0:` / `case 1:` of `pt_encode`; `i` is the loop index, the list the
characters `str[i..]`. -/
def pt_encode_loop01 (cb : Int) : List Nat → Nat → Nat → List Nat → Option (List Nat × Nat)
  | [], _, time, out => some (out, time)
  | c :: rest, i, time, out =>
      match lymerick_at (cb + i) with
      | none => none
      | some l =>
          pt_encode_loop01 cb rest (i + 1) (next_time time)
            (out ++ printf_prec_d 3 (122 + ((i : Int) * (13 - i)) + schar c + l)
                 ++ printf_d (ENCODE_TIME_DIGIT time))

/-- Loop of `case 3:` / `case 2:` of `pt_encode`. -/
def pt_encode_loop23 (cb : Int) : List Nat → Nat → Nat → List Nat → Option (List Nat × Nat)
  | [], _, time, out => some (out, time)
  | c :: rest, i, time, out =>
      match lymerick_at (cb + i) with
      | none => none
      | some l =>
          pt_encode_loop23 cb rest (i + 1) (next_time time)
            (out ++ printf_prec_d 3 (122 + (i : Int) + schar c + l)
                 ++ printf_d (ENCODE_TIME_DIGIT time))

/-- Loop of `case 4:` of `pt_encode`; `cb` starts at 13 and is decremented each round. -/
def pt_encode_loop4 (the_short : Int) :
    List Nat → Nat → Int → Nat → List Nat → Option (List Nat × Nat)
  | [], _, _, time, out => some (out, time)
  | c :: rest, i, cb, time, out =>
      match lymerick_at (the_short + i) with
      | none => none
      | some l =>
          pt_encode_loop4 the_short rest (i + 1) (cb - 1) (next_time time)
            (out ++ printf_prec_d 3 (122 + schar c + l + (cb * i))
                 ++ printf_d (ENCODE_TIME_DIGIT time))

/-- The function `pt_encode(data, str, variant, the_short)`: the string returned and the
session afterwards.  For variants 1 and 2 the three characters `serverkey[4..6]` are copied
and NUL-terminated at index 3, which needs a key of at least seven characters. -/
def pt_encode (data : PTData) (str : List Nat) (variant : Int) (the_short : Int) :
    Option (List Nat × PTData) :=
  let cb0 : Option Int :=
    if variant = 1 ∨ variant = 2 then
      match data.serverkey with
      | none => none
      | some key =>
          if 7 ≤ key.length then some (atoi ((key.drop 4).take 3) - 509) else none
    else some 42
  match cb0 with
  | none => none
  | some cb =>
      let r : Option (List Nat × Nat) :=
        if variant = 0 ∨ variant = 1 then pt_encode_loop01 cb str 0 data.time []
        else if variant = 3 then pt_encode_loop23 data.wierd str 0 data.time []
        else if variant = 2 then pt_encode_loop23 cb str 0 data.time []
        else if variant = 4 then pt_encode_loop4 the_short str 0 13 data.time []
        else some ([], data.time)
      r.map (fun p => (p.1, { data with time := p.2 }))

/-! ## Claim-side definitions for the obfuscation -/

/-- Claim side: the time counter after `i` characters, `t_0 = t0` and
`t_(i+1) = t_i*214013 + 2530876` modulo the word size. -/
def spec_time (t0 : Nat) : Nat → Nat
  | 0 => t0
  | i + 1 => (spec_time t0 i * 214013 + 2530876) % 2 ^ LONG_BITS

/-- Claim side: the digit of group `i`,
`floor(((((t_i*214013+2530876) >> 16) & 0x7FFF) / 32678) * 10) & 7`. -/
def spec_digit (t0 : Nat) (i : Nat) : Nat :=
  Nat.floor (((((spec_time t0 (i + 1)) >>> 16) &&& 0x7FFF : Nat) : ℚ) / 32678 * 10) &&& 7

/-- Claim side: the base offset `cb` into the charm string (the auxiliary short for
variant 4). -/
def spec_base (data : PTData) (v a : Int) : Int :=
  if v = 0 then 42
  else if v = 1 ∨ v = 2 then atoi (((data.serverkey.getD []).drop 4).take 3) - 509
  else if v = 3 then data.wierd
  else a

/-- Claim side: the value `V(i)` of group `i`. -/
def spec_V (data : PTData) (s : List Nat) (v a : Int) (i : Nat) : Int :=
  let si := schar (s.getD i 0)
  let L := schar (lymerick.getD (spec_base data v a + i).toNat 0)
  if v = 0 ∨ v = 1 then 122 + (i : Int) * (13 - i) + si + L
  else if v = 2 ∨ v = 3 then 122 + (i : Int) + si + L
  else 122 + si + L + (13 - (i : Int)) * i

/-- Claim side: group `i`, `printf("%.3ld", V(i))` followed by the one digit. -/
def spec_group (data : PTData) (s : List Nat) (v a : Int) (i : Nat) : List Nat :=
  printf_prec_d 3 (spec_V data s v a i) ++ [48 + spec_digit data.time i]

/-- Claim side: the concatenation of the groups for `i = 0..|s|-1`. -/
def spec_encode (data : PTData) (s : List Nat) (v a : Int) : List Nat :=
  ((List.range s.length).map (spec_group data s v a)).flatten

/-! ## Frame header macros (`paltalk.h`, lines 59-65) -/

/-- Conversion to `long`: the low 32 bits read as two's complement. -/
def s32 (v : Int) : Int :=
  if v % 4294967296 < 2147483648 then v % 4294967296 else v % 4294967296 - 4294967296

/-- The macro `PACKET_GET_LONG(X,O)`: `(long)ntohl(*(long *)(X+O))`. -/
def PACKET_GET_LONG (X : List Nat) (O : Nat) : Option Int :=
  (ntohl_at X O).map (fun n => s32 n)

/-- The macro `PACKET_GET_SHORT(X,O)`: `(short)ntohs(*(short *)(X+O))`. -/
def PACKET_GET_SHORT (X : List Nat) (O : Nat) : Option Int :=
  (ntohs_at X O).map (fun n => s16 n)

/-- The macro `PACKET_GET_TYPE(X)`. -/
def PACKET_GET_TYPE (X : List Nat) : Option Int := PACKET_GET_SHORT X 0

/-- The macro `PACKET_GET_VERSION(X)`. -/
def PACKET_GET_VERSION (X : List Nat) : Option Int := PACKET_GET_SHORT X 2

/-- The macro `PACKET_GET_LENGTH(X)`. -/
def PACKET_GET_LENGTH (X : List Nat) : Option Int := PACKET_GET_SHORT X 4

/-- Claim side: the signed 16-bit big-endian value of the byte pair `hi`, `lo`. -/
def spec_i16be (hi lo : Nat) : Int :=
  if hi < 128 then (hi * 256 + lo : Nat) else ((hi * 256 + lo : Nat) : Int) - 65536

/-- Claim side: the unsigned 16-bit big-endian value of the byte pair `hi`, `lo`. -/
def spec_u16be (hi lo : Nat) : Int := (hi * 256 + lo : Nat)

/-! ## Reading one frame (`paltalk-core.c`, lines 515-536) -/

/-- What the next call of `read(2)` on a socket finds: bytes that have arrived, end of
stream, or a failure. -/
inductive ReadEvent where
  | data (bs : List Nat)
  | eof
  | error
  deriving DecidableEq, Repr

/-- The call `read(source, buf, n)` on a socket given by its pending events: the return
value, the bytes stored into `buf`, and the socket afterwards.  Data beyond `n` bytes stays
pending, end of stream persists, and `none` stands for a call that blocks for ever. -/
def sock_read (sock : List ReadEvent) (n : Nat) : Option (Int × List Nat × List ReadEvent) :=
  match sock with
  | [] => none
  | ReadEvent.data bs :: rest =>
      if bs.length ≤ n then some ((bs.length : Int), bs, rest)
      else some ((n : Int), bs.take n, ReadEvent.data (bs.drop n) :: rest)
  | ReadEvent.eof :: rest => some (0, [], ReadEvent.eof :: rest)
  | ReadEvent.error :: rest => some (-1, [], rest)

/-- Outcome of the framing part of `pt_callback`. -/
inductive FrameResult where
  | disconnected
  | frame (waitbuf : List Nat) (sock : List ReadEvent)
  deriving DecidableEq, Repr

/-- The loop `while (cur < waitlen)` of `pt_callback`; `body` is what has been stored at
`waitbuf+6` so far.  It returns the body and the socket, `none` for a failed read (the
caller reports the disconnection); the outer `none` is a loop that never ends (no fuel
left, or a read that blocks for ever). -/
def pt_callback_fill :
    Nat → List ReadEvent → List Nat → Int → Int → Option (Option (List Nat × List ReadEvent))
  | 0, _, _, _, _ => none
  | fuel + 1, sock, body, cur, waitlen =>
      if cur < waitlen then
        match sock_read sock (waitlen - cur).toNat with
        | none => none
        | some (br, bs, sock1) =>
            if br < 0 then some none
            else pt_callback_fill fuel sock1 (body ++ bs) (s16 (cur + br)) waitlen
      else some (some (body, sock))

/-- The framing part of `pt_callback` (from the first `read` to the `switch`): it reads the
6-byte header into `btmp`, allocates `waitbuf` with `g_strnfill(waitlen+7,0)`, copies the
header and fills in the body.  A header read of fewer than 6 bytes leaves bytes of `btmp`
indeterminate, and a length below -2 makes the allocation fail or too small for the header:
both are `none`, like a loop that never ends. -/
def pt_callback_frame (fuel : Nat) (sock : List ReadEvent) : Option FrameResult :=
  match sock_read sock 6 with
  | none => none
  | some (br, btmp, sock1) =>
      if br < 0 then some FrameResult.disconnected
      else if btmp.length < 6 then none
      else if btmp.getD 0 0 = 0 ∧ btmp.getD 1 0 = 0 ∧ btmp.getD 3 0 = 0 then
        some FrameResult.disconnected
      else
        match PACKET_GET_LENGTH btmp with
        | none => none
        | some waitlen =>
            if waitlen < -2 then none
            else
              match pt_callback_fill fuel sock1 [] 0 waitlen with
              | none => none
              | some none => some FrameResult.disconnected
              | some (some (body, sock2)) =>
                  some (FrameResult.frame
                    (btmp ++ body ++ List.replicate (waitlen + 2 - body.length).toNat 0) sock2)

/-! ## Packet types (`paltalk.h`, lines 67-167) and constants -/

def PT_VERSION : Int := 0x0053
def DEFAULT_HD_SERIAL : Nat := 0x261308E2
def IE_PRODUCT_ID : List Nat := cstr "51873-335-9659427-09862"
def WINBLOWS_VERSION : List Nat := cstr "5.0.2195.2.208"
def MAC_ADDRESS : List Nat := cstr "006AF2C00886"

def PACKET_FILE_XFER_RECV_INIT : Int := 0x0000
def PACKET_FILE_XFER_REJECT : Int := -5002
def PACKET_FILE_XFER_SEND_INIT : Int := -5001
def PACKET_GET_SERVICE_URL : Int := -2600
def PACKET_VERSION_INFO : Int := -2128
def PACKET_CHECKSUMS : Int := -2123
def PACKET_ECHO_RESPONSE : Int := -2103
def PACKET_VERSIONS : Int := -2102
def PACKET_UIN_FONTDEPTH_ETC : Int := -2100
def PACKET_LOGIN : Int := -1148
def PACKET_GET_UIN : Int := -1131
def PACKET_LYMERICK : Int := -1130
def PACKET_ROOM_CLOSE : Int := -940
def PACKET_ROOM_RED_DOT_VIDEO : Int := -931
def PACKET_ROOM_RED_DOT_TEXT : Int := -930
def PACKET_ROOM_UNBAN_USER : Int := -921
def PACKET_ROOM_BAN_USER : Int := -920
def PACKET_ROOM_UNBOUNCE_USER : Int := -911
def PACKET_ROOM_GET_ADMIN_INFO : Int := -900
def PACKET_CHANGE_STATUS : Int := -620
def PACKET_UNBLOCK_BUDDY : Int := -520
def PACKET_BLOCK_BUDDY : Int := -500
def PACKET_ROOM_UNREQUEST_MIC : Int := -399
def PACKET_ROOM_REQUEST_MIC : Int := -398
def PACKET_ROOM_UNRED_DOT_USER : Int := -397
def PACKET_ROOM_BOUNCE_REASON : Int := -390
def PACKET_ROOM_MEDIA_SERVER_ACK : Int := -383
def PACKET_ROOM_REMOVE_ALL_HANDS : Int := -382
def PACKET_ROOM_RED_DOT_USER : Int := -381
def PACKET_ROOM_BOUNCE_USER : Int := -380
def PACKET_ROOM_INVITE_OUT : Int := -360
def PACKET_ROOM_TOGGLE_ALL_MICS : Int := -355
def PACKET_ROOM_SET_TOPIC : Int := -351
def PACKET_ROOM_MESSAGE_OUT : Int := -350
def PACKET_DO_LIST_CATEGORY : Int := -330
def PACKET_ROOM_LEAVE : Int := -320
def PACKET_ROOM_JOIN_AS_ADMIN : Int := -316
def PACKET_ROOM_JOIN : Int := -310
def PACKET_ROOM_PRIVATE_INVITE : Int := -302
def PACKET_DO_SEARCH : Int := -69
def PACKET_ADD_BUDDY : Int := -67
def PACKET_REMOVE_BUDDY : Int := -66
def PACKET_IM_OUT : Int := -20

/-- The array `checksums` of `paltalk-core.c`. -/
def checksums : Nat → List Nat
  | 0 => cstr "90"
  | 1 => cstr "938749351"
  | 2 => cstr "1123530166"
  | 3 => cstr "-1040381015"
  | 4 => cstr "-878176803"
  | _ => cstr "\x7b0A7FA8AB-9BC1-49b6-9C66-5AFFA4CD57AB\x7d"

/-! ## Sending a frame (`paltalk-core.c`, lines 240-498) -/

/-- Hexadecimal digits of `n`, most significant first, in lower case (worker with fuel). -/
def hex_digits_aux : Nat → Nat → List Nat → List Nat
  | 0, _, acc => acc
  | fuel + 1, n, acc =>
      let d := n % 16
      let c := if d < 10 then 48 + d else 87 + d
      if n / 16 = 0 then c :: acc else hex_digits_aux fuel (n / 16) (c :: acc)

/-- The conversion `%.<prec>x` of an unsigned value. -/
def printf_prec_x (prec : Nat) (n : Nat) : List Nat :=
  let ds := hex_digits_aux (n + 1) n []
  List.replicate (prec - ds.length) 48 ++ ds

/-- The GLib function `g_strup`: ASCII letters to upper case. -/
def g_strup (s : List Nat) : List Nat :=
  s.map (fun c => if 97 ≤ c ∧ c ≤ 122 then c - 32 else c)

/-- The GLib predicate `g_ascii_isdigit`. -/
def g_ascii_isdigit (c : Nat) : Bool := 48 ≤ c && c ≤ 57

/-- The function `inet_ntoa` on the four bytes of an `in_addr` (network order). -/
def inet_ntoa (addr : List Nat) : List Nat :=
  printf_d (addr.getD 0 0) ++ [46] ++ printf_d (addr.getD 1 0) ++ [46]
    ++ printf_d (addr.getD 2 0) ++ [46] ++ printf_d (addr.getD 3 0)

/-- The macro `INIT_TIME`: `time(NULL) - 28800` stored into the `unsigned long` time. -/
def INIT_TIME (now : Nat) : Nat := u32 ((now : Int) - 28800)

/-- An argument of the variable argument list of `pt_send_packet`: an `int` or `long`, a
pointer to a NUL-terminated string (given by its characters), a pointer to a byte buffer,
or a pointer to a transfer. -/
inductive VaArg where
  | num (v : Int)
  | str (s : List Nat)
  | buf (b : List Nat)
  | xfer (xd : PTXferData)
  deriving DecidableEq, Repr

/-- The loop of `case PACKET_UIN_FONTDEPTH_ETC:` over the characters `IE_PRODUCT_ID[i..]`
with the index `j`, acting on the block `ctmp` that `g_strnfill(22,0)` allocated (23
bytes).  A store at an index outside the block leaves the block as it is. -/
def fontdepth_loop : List Nat → Int → List Nat → List Nat
  | [], _, ctmp => ctmp
  | c :: rest, j, ctmp =>
      fontdepth_loop rest (s16 (j + 1))
        (if g_ascii_isdigit c then
          ctmp.set j.toNat
            (((c : Int) + (Int.tmod (Int.tmod (j - 2) 5 - 47) 10) + 48) % 256).toNat
         else ctmp)

/-- The first four bytes of every frame: `type` and `PT_VERSION`, each high byte first
(`g_string_append_printf(out,"%c%c%c%c", ...)`). -/
def packet_header (type : Int) : List Nat := htons_bytes type ++ htons_bytes PT_VERSION

/-- Body of `case PACKET_FILE_XFER_RECV_INIT:` / `case PACKET_FILE_XFER_REJECT:`; `i` is 1
on the first label and 0 on the second. -/
def send_xfer_reject (ptd : PTData) (i : Int) (args : List VaArg) :
    Option (PTData × List Nat) :=
  match args with
  | VaArg.xfer xd :: _ =>
      some (ptd, [0x00, 0x0A] ++ (htonl_bytes xd.uin ++ htonl_bytes xd.id ++ htons_bytes i))
  | _ => none

/-- Body of `case PACKET_FILE_XFER_SEND_INIT:`. -/
def send_xfer_send_init (ptd : PTData) (args : List VaArg) : Option (PTData × List Nat) :=
  match args with
  | VaArg.xfer xd :: _ =>
      some (ptd, htons_bytes (xd.filename.length + 7)
        ++ (htonl_bytes xd.uin ++ cstr "C:\\" ++ xd.filename))
  | _ => none

/-- Body of `case PACKET_GET_SERVICE_URL:`. -/
def send_get_service_url (ptd : PTData) (args : List VaArg) : Option (PTData × List Nat) :=
  match args with
  | VaArg.num v :: _ => some (ptd, [0x00, 0x08] ++ (htonl_bytes v ++ [0x00, 0x00, 0x00, 0x01]))
  | _ => none

/-- Body of `case PACKET_VERSION_INFO:`. -/
def send_version_info (ptd : PTData) : Option (PTData × List Nat) :=
  some (ptd, htons_bytes (checksums 5).length ++ checksums 5)

/-- What `case PACKET_CHECKSUMS:` appends once the six strings are encoded: the length
`ltmp` and the text `"%s\n%s\n%s\n%s\n%s\n%s"`. -/
def checksums_body (s0 s1 s2 s3 s4 s5 : List Nat) : List Nat :=
  let ltmp : Int := s0.length + 9 + s1.length + s2.length + s3.length + s4.length
  htons_bytes ltmp ++ (s0 ++ [10] ++ s1 ++ [10] ++ s2 ++ [10] ++ s3 ++ [10]
    ++ s4 ++ [10] ++ s5)

/-- Body of `case PACKET_CHECKSUMS:`; each call of `pt_encode` continues from the session
the previous one left, and a call without a defined result ends the chain. -/
def send_checksums (ptd : PTData) : Option (PTData × List Nat) :=
  (pt_encode ptd (checksums 0) 1 0).bind fun r0 =>
  (pt_encode r0.2 (checksums 1) 1 0).bind fun r1 =>
  (pt_encode r1.2 (checksums 2) 1 0).bind fun r2 =>
  (pt_encode r2.2 (checksums 3) 1 0).bind fun r3 =>
  (pt_encode r3.2 (checksums 4) 1 0).bind fun r4 =>
  (pt_encode r4.2 (cstr "0") 1 0).bind fun r5 =>
  some (r5.2, checksums_body r0.1 r1.1 r2.1 r3.1 r4.1 r5.1)

/-- Body of `case PACKET_ECHO_RESPONSE:`; a negative length makes `g_string_append_len`
copy up to the first NUL. -/
def send_echo_response (ptd : PTData) (args : List VaArg) : Option (PTData × List Nat) :=
  match args with
  | VaArg.buf ctmp :: VaArg.num v :: _ =>
      let i : Int := s16 v
      if i < 0 then
        if 0 ∈ ctmp then some (ptd, htons_bytes i ++ ctmp.takeWhile (fun c => c != 0))
        else none
      else if i.toNat ≤ ctmp.length then some (ptd, htons_bytes i ++ ctmp.take i.toNat)
      else none
  | _ => none

/-- What `case PACKET_VERSIONS:` appends once the six strings `stmp[2..7]` are encoded:
the length `ltmp`, six constant bytes, the UIN, the host address and port, and the text
`"%d,%s,%s,%s,%s,%s,0,0,%s,%s"`. -/
def versions_body (d : PTData) (s2 s3 s4 s5 s6 s7 : List Nat) : List Nat :=
  let s8 := printf_d d.wierd
  let ltmp : Int := s2.length + 27 + s3.length + s4.length + s5.length
    + s6.length * 2 + s7.length + s8.length
  htons_bytes ltmp ++ ([0x00, 0x00, 0x00, 0x00, 0x00, 0x01]
    ++ htonl_bytes d.uin
    ++ [d.sin_addr.getD 0 0, d.sin_addr.getD 1 0, d.sin_addr.getD 2 0, d.sin_addr.getD 3 0]
    ++ [d.sin_port.getD 0 0, d.sin_port.getD 1 0]
    ++ printf_d d.wierd ++ [44] ++ s2 ++ [44] ++ s3 ++ [44] ++ s4 ++ [44] ++ s5
    ++ [44] ++ s6 ++ cstr ",0,0," ++ s6 ++ [44] ++ s7)

/-- Body of `case PACKET_VERSIONS:` once the string argument `ctmp` has been fetched. -/
def send_versions_text (ptd : PTData) (ctmp : List Nat) : Option (PTData × List Nat) :=
  (pt_encode (GET_WIERD_NUMBER ptd) (g_strup (printf_prec_x 8 DEFAULT_HD_SERIAL)) 3 0).bind
    fun r2 =>
  (pt_encode r2.2 (cstr "????????") 3 0).bind fun r3 =>
  (pt_encode r3.2 WINBLOWS_VERSION 3 0).bind fun r4 =>
  (pt_encode r4.2 ctmp 3 0).bind fun r5 =>
  (pt_encode r5.2 (cstr "-1") 3 0).bind fun r6 =>
  (pt_encode r6.2 IE_PRODUCT_ID 3 0).bind fun r7 =>
  some (r7.2, versions_body r7.2 r2.1 r3.1 r4.1 r5.1 r6.1 r7.1)

/-- Body of `case PACKET_VERSIONS:`. -/
def send_versions (ptd : PTData) (args : List VaArg) : Option (PTData × List Nat) :=
  match args with
  | VaArg.str ctmp :: _ => send_versions_text ptd ctmp
  | _ => none

/-- Body of `case PACKET_UIN_FONTDEPTH_ETC:`; the first 22 bytes of the block are sent. -/
def send_uin_fontdepth_etc (ptd : PTData) (now : Nat) : Option (PTData × List Nat) :=
  let d := { ptd with time := INIT_TIME now }
  let ctmp0 := ((List.replicate 23 0).set 0 (d.time % 7 + 48)).set 1 (d.time % 3 + 48)
  let ctmp := fontdepth_loop IE_PRODUCT_ID 2 ctmp0
  some (d, [0x00, 0x24] ++ ([0x00, 0x00, 0x00, 0x00, 0x00, 0x01] ++ htonl_bytes d.uin
    ++ [0x00, 0x00, 0x04, 0x45] ++ ctmp.take 22))

/-- Body of `case PACKET_LOGIN:`. -/
def send_login (ptd : PTData) : Option (PTData × List Nat) :=
  (pt_encode ptd ptd.password 1 0).bind fun r0 =>
  (pt_encode r0.2 (inet_ntoa r0.2.sin_addr) 2 0).bind fun r1 =>
  some (r1.2, htons_bytes (r0.1.length + r1.1.length + 5) ++ (htonl_bytes r1.2.uin
    ++ r0.1 ++ [10] ++ r1.1))

/-- Body of `case PACKET_GET_UIN:`. -/
def send_get_uin (ptd : PTData) : Option (PTData × List Nat) :=
  some (ptd, htons_bytes (ptd.username.length + 4) ++ ([0x00, 0x00, 0x00, 0x01]
    ++ ptd.username))

/-- Body of `case PACKET_LYMERICK:`. -/
def send_lymerick (ptd : PTData) : Option (PTData × List Nat) :=
  (pt_encode ptd (g_strup (printf_prec_x 8 DEFAULT_HD_SERIAL)) 0 0).bind fun r1 =>
  some (r1.2, [0x00, 0x2E] ++ (htonl_bytes r1.2.uin
    ++ [0x00, 0x00, 0x00, 0x01, 0x00, 0x02, 0x00, 0x00, 0x00, 0x1E] ++ r1.1))

/-- Body of the labels `PACKET_ROOM_RED_DOT_TEXT` .. `PACKET_ROOM_MEDIA_SERVER_ACK`: a
`long` and an `int`. -/
def send_long_short (ptd : PTData) (args : List VaArg) : Option (PTData × List Nat) :=
  match args with
  | VaArg.num v :: VaArg.num w :: _ =>
      some (ptd, [0x00, 0x06] ++ (htonl_bytes v ++ htons_bytes w))
  | _ => none

/-- Body of `case PACKET_ROOM_BOUNCE_REASON:`. -/
def send_bounce_reason (ptd : PTData) (args : List VaArg) : Option (PTData × List Nat) :=
  match args with
  | VaArg.str ctmp :: VaArg.num v :: VaArg.num w :: _ =>
      some (ptd, htons_bytes (ctmp.length + 10) ++ (htonl_bytes v ++ htonl_bytes w
        ++ cstr "BR: " ++ ctmp))
  | _ => none

/-- Body of the labels `PACKET_ROOM_BOUNCE_USER` .. `PACKET_ROOM_INVITE_OUT`: two `long`s. -/
def send_two_longs (ptd : PTData) (args : List VaArg) : Option (PTData × List Nat) :=
  match args with
  | VaArg.num v :: VaArg.num w :: _ =>
      some (ptd, [0x00, 0x08] ++ (htonl_bytes v ++ htonl_bytes w))
  | _ => none

/-- Body of the labels `PACKET_ROOM_REQUEST_MIC` .. `PACKET_CHANGE_STATUS`: one `long`. -/
def send_one_long (ptd : PTData) (args : List VaArg) : Option (PTData × List Nat) :=
  match args with
  | VaArg.num v :: _ => some (ptd, [0x00, 0x04] ++ htonl_bytes v)
  | _ => none

/-- Body of the labels `PACKET_ROOM_SET_TOPIC`, `PACKET_ROOM_MESSAGE_OUT`, `PACKET_IM_OUT`:
a string and a `long`. -/
def send_string_long (ptd : PTData) (args : List VaArg) : Option (PTData × List Nat) :=
  match args with
  | VaArg.str ctmp :: VaArg.num v :: _ =>
      some (ptd, htons_bytes (ctmp.length + 4) ++ (htonl_bytes v ++ ctmp))
  | _ => none

/-- Body of `case PACKET_DO_LIST_CATEGORY:`. -/
def send_do_list_category (ptd : PTData) (args : List VaArg) : Option (PTData × List Nat) :=
  match args with
  | VaArg.num v :: _ =>
      some (ptd, [0x00, 0x0C] ++ ([0x34, 0xE0, 0x12, 0x00, 0x00, 0x00, 0x00, 0x01]
        ++ htonl_bytes v))
  | _ => none

/-- Body of `case PACKET_ROOM_JOIN_AS_ADMIN:`. -/
def send_room_join_as_admin (ptd : PTData) (args : List VaArg) : Option (PTData × List Nat) :=
  match args with
  | VaArg.num v :: _ =>
      some (ptd, [0x00, 0x0C] ++ (htonl_bytes ptd.owner ++ htonl_bytes v
        ++ [0x00, 0x00, 0x08, 0x2A]))
  | _ => none

/-- Body of `case PACKET_ROOM_JOIN:`. -/
def send_room_join (ptd : PTData) (args : List VaArg) : Option (PTData × List Nat) :=
  match args with
  | VaArg.num i :: VaArg.num v :: rest =>
      if s16 i ≠ 0 then
        match rest with
        | VaArg.str ctmp :: _ =>
            some (ptd, htons_bytes (ctmp.length + 10) ++ (htonl_bytes v
              ++ [0x00, 0x00, 0x00, 0x00, 0x08, 0x2A] ++ ctmp))
        | _ => none
      else
        some (ptd, [0x00, 0x0A] ++ (htonl_bytes v ++ [0x00, 0x00, 0x00, 0x00, 0x08, 0x2A]))
  | _ => none

/-- Body of `case PACKET_ROOM_PRIVATE_INVITE:`. -/
def send_room_private_invite (ptd : PTData) (args : List VaArg) : Option (PTData × List Nat) :=
  match args with
  | VaArg.num v :: _ =>
      some (ptd, [0x00, 0x0C] ++ ([0x00, 0x01, 0x00, 0x00, 0x08, 0x2A, 0x00, 0x01]
        ++ htonl_bytes v))
  | _ => none

/-- Body of `case PACKET_DO_SEARCH:`. -/
def send_do_search (ptd : PTData) (args : List VaArg) : Option (PTData × List Nat) :=
  match args with
  | VaArg.str ctmp :: _ => some (ptd, htons_bytes ctmp.length ++ ctmp)
  | _ => none

/-- The `switch (type)` of `pt_send_packet`: what is appended to the four header bytes, and
the session afterwards; `now` is the value of `time(NULL)`.  `none` when an argument of the
expected kind is missing or a called function has no defined result; a type without a
`case` label appends nothing. -/
def pt_packet_body (ptd : PTData) (now : Nat) (type : Int) (args : List VaArg) :
    Option (PTData × List Nat) :=
  if type = PACKET_FILE_XFER_RECV_INIT then send_xfer_reject ptd 1 args
  else if type = PACKET_FILE_XFER_REJECT then send_xfer_reject ptd 0 args
  else if type = PACKET_FILE_XFER_SEND_INIT then send_xfer_send_init ptd args
  else if type = PACKET_GET_SERVICE_URL then send_get_service_url ptd args
  else if type = PACKET_VERSION_INFO then send_version_info ptd
  else if type = PACKET_CHECKSUMS then send_checksums ptd
  else if type = PACKET_ECHO_RESPONSE then send_echo_response ptd args
  else if type = PACKET_VERSIONS then send_versions ptd args
  else if type = PACKET_UIN_FONTDEPTH_ETC then send_uin_fontdepth_etc ptd now
  else if type = PACKET_LOGIN then send_login ptd
  else if type = PACKET_GET_UIN then send_get_uin ptd
  else if type = PACKET_LYMERICK then send_lymerick ptd
  else if type = PACKET_ROOM_RED_DOT_TEXT ∨ type = PACKET_ROOM_RED_DOT_VIDEO
      ∨ type = PACKET_ROOM_TOGGLE_ALL_MICS ∨ type = PACKET_ROOM_MEDIA_SERVER_ACK then
    send_long_short ptd args
  else if type = PACKET_ROOM_BOUNCE_REASON then send_bounce_reason ptd args
  else if type = PACKET_ROOM_BOUNCE_USER ∨ type = PACKET_ROOM_UNBOUNCE_USER
      ∨ type = PACKET_ROOM_RED_DOT_USER ∨ type = PACKET_ROOM_UNRED_DOT_USER
      ∨ type = PACKET_ROOM_UNBAN_USER ∨ type = PACKET_ROOM_BAN_USER
      ∨ type = PACKET_ROOM_INVITE_OUT then
    send_two_longs ptd args
  else if type = PACKET_ROOM_REQUEST_MIC ∨ type = PACKET_ROOM_UNREQUEST_MIC
      ∨ type = PACKET_ROOM_CLOSE ∨ type = PACKET_ROOM_REMOVE_ALL_HANDS
      ∨ type = PACKET_ROOM_GET_ADMIN_INFO ∨ type = PACKET_UNBLOCK_BUDDY
      ∨ type = PACKET_BLOCK_BUDDY ∨ type = PACKET_ROOM_LEAVE ∨ type = PACKET_ADD_BUDDY
      ∨ type = PACKET_REMOVE_BUDDY ∨ type = PACKET_CHANGE_STATUS then
    send_one_long ptd args
  else if type = PACKET_ROOM_SET_TOPIC ∨ type = PACKET_ROOM_MESSAGE_OUT
      ∨ type = PACKET_IM_OUT then
    send_string_long ptd args
  else if type = PACKET_DO_LIST_CATEGORY then send_do_list_category ptd args
  else if type = PACKET_ROOM_JOIN_AS_ADMIN then send_room_join_as_admin ptd args
  else if type = PACKET_ROOM_JOIN then send_room_join ptd args
  else if type = PACKET_ROOM_PRIVATE_INVITE then send_room_private_invite ptd args
  else if type = PACKET_DO_SEARCH then send_do_search ptd args
  else some (ptd, [])

/-- The function `pt_send_packet(ptd, type, ...)`: the session afterwards and the
`out->len` bytes of `out->str` handed to `write(ptd->fd, ...)`.  The string starts with the
header of `type`; for `PACKET_FILE_XFER_RECV_INIT` the type is first replaced by
`PACKET_FILE_XFER_REJECT` and the header is built again. -/
def pt_send_packet (ptd : PTData) (now : Nat) (type : Int) (args : List VaArg) :
    Option (PTData × List Nat) :=
  let type1 := if type = PACKET_FILE_XFER_RECV_INIT then PACKET_FILE_XFER_REJECT else type
  (pt_packet_body ptd now type args).map (fun r => (r.1, packet_header type1 ++ r.2))

/-- The packet types with a `case` label in the `switch` of `pt_send_packet`. -/
def pt_send_packet_handles (type : Int) : Bool :=
  type ∈ [PACKET_FILE_XFER_RECV_INIT, PACKET_FILE_XFER_REJECT, PACKET_FILE_XFER_SEND_INIT,
    PACKET_GET_SERVICE_URL, PACKET_VERSION_INFO, PACKET_CHECKSUMS, PACKET_ECHO_RESPONSE,
    PACKET_VERSIONS, PACKET_UIN_FONTDEPTH_ETC, PACKET_LOGIN, PACKET_GET_UIN, PACKET_LYMERICK,
    PACKET_ROOM_RED_DOT_TEXT, PACKET_ROOM_RED_DOT_VIDEO, PACKET_ROOM_TOGGLE_ALL_MICS,
    PACKET_ROOM_MEDIA_SERVER_ACK, PACKET_ROOM_BOUNCE_REASON, PACKET_ROOM_BOUNCE_USER,
    PACKET_ROOM_UNBOUNCE_USER, PACKET_ROOM_RED_DOT_USER, PACKET_ROOM_UNRED_DOT_USER,
    PACKET_ROOM_UNBAN_USER, PACKET_ROOM_BAN_USER, PACKET_ROOM_INVITE_OUT,
    PACKET_ROOM_REQUEST_MIC, PACKET_ROOM_UNREQUEST_MIC, PACKET_ROOM_CLOSE,
    PACKET_ROOM_REMOVE_ALL_HANDS, PACKET_ROOM_GET_ADMIN_INFO, PACKET_UNBLOCK_BUDDY,
    PACKET_BLOCK_BUDDY, PACKET_ROOM_LEAVE, PACKET_ADD_BUDDY, PACKET_REMOVE_BUDDY,
    PACKET_CHANGE_STATUS, PACKET_ROOM_SET_TOPIC, PACKET_ROOM_MESSAGE_OUT, PACKET_IM_OUT,
    PACKET_DO_LIST_CATEGORY, PACKET_ROOM_JOIN_AS_ADMIN, PACKET_ROOM_JOIN,
    PACKET_ROOM_PRIVATE_INVITE, PACKET_DO_SEARCH]

/-- Claim side: a byte string is a well-sized frame when its length is 6 plus the unsigned
16-bit big-endian value of its bytes 4-5. -/
def frame_sized (bytes : List Nat) : Prop :=
  ∃ L, ntohs_at bytes 4 = some L ∧ bytes.length = 6 + L

/-! ## RTP packets (`rtp.h`, `rtp.c`) -/

/-- The structure `struct rtp_packet`.  The six bit-fields hold their bit patterns (the
low `w` bits of what was assigned); `csrc` is empty when `csrc_count` is not positive. -/
structure RTPPacket where
  version : Nat := 0
  padding : Nat := 0
  extension : Nat := 0
  csrc_count : Nat := 0
  marker : Nat := 0
  payload_type : Nat := 0
  sequence : Nat := 0
  timestamp : Nat := 0
  ssrc : Nat := 0
  csrc : List Nat := []
  payload : List Nat := []
  payload_len : Int := 0
  deriving DecidableEq, Repr

/-- The value read from an `int` bit-field of width `w` holding the pattern `bits`: plain
`int` bit-fields are signed with GCC, so the top bit of the pattern is a sign bit. -/
def bitfield_int (w : Nat) (bits : Nat) : Int :=
  if bits % 2 ^ w < 2 ^ (w - 1) then ((bits % 2 ^ w : Nat) : Int)
  else ((bits % 2 ^ w : Nat) : Int) - ((2 ^ w : Nat) : Int)

/-- The value `sizeof(RTPPacket)`: the bit-fields and `sequence` share the first word, then
`timestamp`, `ssrc`, the two pointers and `payload_len` with two bytes of padding. -/
def sizeof_RTPPacket : Nat := 24

/-- The loop `for (i=0;i<p->csrc_count;i++) p->csrc[i] = ntohl(*(long *)(packet+12+(i*4)))`
for `i` from `i` to `i + n - 1`. -/
def rtp_read_csrc (packet : List Nat) : Nat → Nat → Option (List Nat)
  | _, 0 => some []
  | i, n + 1 =>
      match ntohl_at packet (12 + i * 4), rtp_read_csrc packet (i + 1) n with
      | some v, some rest => some (v :: rest)
      | _, _ => none

/-- The function `rtp_packet_parse(packet, packet_len)`: `some none` is the `NULL` result,
the outer `none` a read outside the datagram. -/
def rtp_packet_parse (packet : List Nat) (packet_len : Int) : Option (Option RTPPacket) :=
  if u32 packet_len < sizeof_RTPPacket then some none
  else
    match ntohs_at packet 0, ntohs_at packet 2, ntohl_at packet 4, ntohl_at packet 8 with
    | some q, some sequence, some timestamp, some ssrc =>
        let version := ((q &&& 0xC000) >>> 14) &&& 0x2
        let padding := ((q &&& 0x2000) >>> 13) &&& 0x1
        let extension := ((q &&& 0x1000) >>> 12) &&& 0x1
        let csrc_count := ((q &&& 0x0F00) >>> 8) &&& 0xF
        let marker := ((q &&& 0x0080) >>> 7) &&& 0x1
        let payload_type := q &&& 0x007F
        let cc : Int := bitfield_int 4 csrc_count
        let csrc : Option (List Nat) :=
          if cc > 0 then rtp_read_csrc packet 0 cc.toNat else some []
        match csrc with
        | none => none
        | some csrc =>
            let payload_len : Int := s16 (packet_len - (12 + cc * 4))
            if payload_len ≤ 0 then some none
            else if 12 + cc * 4 < 0 then none
            else if ((12 + cc * 4).toNat + payload_len.toNat) > packet.length then none
            else
              some (some
                { version := version, padding := padding, extension := extension,
                  csrc_count := csrc_count, marker := marker, payload_type := payload_type,
                  sequence := sequence, timestamp := timestamp, ssrc := ssrc, csrc := csrc,
                  payload := (packet.drop (12 + cc * 4).toNat).take payload_len.toNat,
                  payload_len := payload_len })
    | _, _, _, _ => none

/-- Claim side: the serialisation of an RTP packet, the 12-byte header (byte 0: version,
padding, extension, csrc_count; byte 1: marker, payload_type; sequence; timestamp; SSRC),
the CSRC list and the payload. -/
def spec_rtp_serialize (p : RTPPacket) : List Nat :=
  [p.version * 64 + p.padding * 32 + p.extension * 16 + p.csrc_count,
   p.marker * 128 + p.payload_type]
  ++ htons_bytes p.sequence ++ htonl_bytes p.timestamp ++ htonl_bytes p.ssrc
  ++ (p.csrc.map (fun (c : Nat) => htonl_bytes (c : Int))).flatten ++ p.payload

/-- Claim side: a well-formed RTP packet whose fields fit their wire widths. -/
def spec_rtp_well_formed (p : RTPPacket) : Prop :=
  p.version = 2 ∧ p.padding < 2 ∧ p.extension < 2 ∧ p.marker < 2 ∧ p.payload_type < 128 ∧
  p.csrc_count = p.csrc.length ∧ p.csrc_count < 16 ∧
  p.sequence < 65536 ∧ p.timestamp < 4294967296 ∧ p.ssrc < 4294967296 ∧
  (∀ c ∈ p.csrc, c < 4294967296) ∧
  p.payload ≠ [] ∧ p.payload_len = p.payload.length

/-! ## Voice datagrams (`paltalk-mediastream.c`, lines 51-83) -/

/-- The fields of `struct _GaimMediaStream` the voice path uses; `stream->data` (the room)
and its `ptd` are passed separately. -/
structure GaimMediaStream where
  sock : Int := 0
  frames : Int := 4
  m_req : Bool := false
  do_write : Bool := false
  deriving DecidableEq, Repr

/-- The 148-byte block `packet` that `pt_media_stream_audio_write` fills: the RTP header,
the four 33-byte frames and the four bytes of `ptd->uin` as they lie in memory. -/
def audio_packet (uin : Int) (rtpseq : Int) (now : Nat) (b0 b1 b2 b3 : List Nat) : List Nat :=
  htons_bytes 0x8003 ++ htons_bytes rtpseq ++ htonl_bytes now ++ htonl_bytes uin
    ++ b0.take 33 ++ b1.take 33 ++ b2.take 33 ++ b3.take 33 ++ host_long_bytes uin

/-- The function `pt_media_stream_audio_write(stream, buffers, size)` with the room `rd`
of the stream, its session `ptd`, the static `rtpseq` and the value `now` of `time(NULL)`:
the return value, the new `rtpseq` and the bytes written to `stream->sock`.  `none` when
`buffers` holds fewer than four frames of 33 bytes. -/
def pt_media_stream_audio_write (stream : Option GaimMediaStream)
    (buffers : Option (List (Option (List Nat)))) (size : Nat) (rd : PTRoomData) (ptd : PTData)
    (rtpseq : Int) (now : Nat) : Option (Int × Int × List Nat) :=
  match stream, buffers with
  | none, _ => some (-1, rtpseq, [])
  | _, none => some (-1, rtpseq, [])
  | some _, some bufs =>
      if size = 0 then some (-1, rtpseq, [])
      else
        match bufs with
        | [] => none
        | none :: _ => some (-1, rtpseq, [])
        | some b0 :: rest =>
            if rd.speaker.isSome then some (0, rtpseq, [])
            else
              match rest with
              | some b1 :: some b2 :: some b3 :: _ =>
                  if 33 ≤ b0.length ∧ 33 ≤ b1.length ∧ 33 ≤ b2.length ∧ 33 ≤ b3.length then
                    let rtpseq1 := s16 (rtpseq + 1)
                    some (148, rtpseq1,
                      htonl_bytes 148 ++ audio_packet ptd.uin rtpseq1 now b0 b1 b2 b3)
                  else none
              | _ => none

/-! ## Example sessions -/

/-- Example session: key `XXXX509`, time 0. -/
def session_509 : PTData := { serverkey := some (cstr "XXXX509") }

/-- Example session: logged in as UIN 777, in room 42, after `GET_WIERD_NUMBER`. -/
def session_777 : PTData :=
  GET_WIERD_NUMBER { uin := 777, status := 30, sin_addr := [10, 0, 0, 1], chats := [{ id := 42 }] }

/-- Example buffer of the frame-parse scenario: `FF EC 00 53 00 04 00 00 00 1E`. -/
def frame_im_out : List Nat := [0xFF, 0xEC, 0x00, 0x53, 0x00, 0x04, 0x00, 0x00, 0x00, 0x1E]

/-- Example datagram: version bits 01, payload type 3, 12 payload bytes. -/
def rtp_version_one : List Nat := [0x40, 0x03] ++ List.replicate 22 0

/-- Example datagram: a 12-byte header followed by 65537 payload bytes. -/
def rtp_huge : List Nat :=
  [0x80, 0x03, 0, 0, 0, 0, 0, 0, 0, 0, 0, 0] ++ List.replicate 65537 7

/-- Example datagram: 24 bytes with padding and marker set, csrc_count 2 and payload type
3. -/
def rtp_two_csrc : List Nat := [0xA2, 0x83, 0x04, 0xD2] ++ List.replicate 20 1

/-- The packet `rtp_packet_parse` returns for `rtp_two_csrc`. -/
def rtp_two_csrc_packet : RTPPacket :=
  { version := 2, padding := 1, extension := 0, csrc_count := 2, marker := 1,
    payload_type := 3, sequence := 1234, timestamp := 16843009, ssrc := 16843009,
    csrc := [16843009, 16843009], payload := [1, 1, 1, 1], payload_len := 4 }

/-- Example packet of the round-trip scenario: sequence 1234, timestamp 5000000, SSRC 777,
four GSM frames of `0xAA` and the trailer that `pt_media_stream_audio_write` appends. -/
def voice_packet_1234 : RTPPacket :=
  { version := 2, payload_type := 3, sequence := 1234, timestamp := 5000000, ssrc := 777,
    payload := List.replicate 132 0xAA ++ [0x09, 0x03, 0x00, 0x00], payload_len := 136 }

/-- Example packet: version 2, payload type 3 and the given payload, nothing else set. -/
def rtp_plain (payload : List Nat) : RTPPacket :=
  { version := 2, payload_type := 3, payload := payload, payload_len := payload.length }

/-- Example packet: eight CSRC entries and a one-byte payload. -/
def rtp_eight_csrc : RTPPacket :=
  { version := 2, payload_type := 3, csrc_count := 8, csrc := List.replicate 8 5,
    payload := [1], payload_len := 1 }

/-- Example frame buffer: 33 bytes of `0xAA`. -/
def gsm_frame_aa : List Nat := List.replicate 33 0xAA

/-! ## Nickname lookup (`paltalk-chat.c`, lines 118-185) -/

/-- The C library function `atol` (`strtol` in base 10): the value of `atoi`, clamped to
the range of a 32-bit `long`. -/
def atol (s : List Nat) : Int :=
  if atoi s > 2147483647 then 2147483647
  else if atoi s < -2147483648 then -2147483648
  else atoi s

/-- The GLib predicate `g_ascii_isalpha`. -/
def g_ascii_isalpha (c : Nat) : Bool := (65 ≤ c && c ≤ 90) || (97 ≤ c && c ≤ 122)

/-- The GLib function `g_hash_table_lookup` on a string table kept as a list of key/value
pairs: the value of the first pair with that key, `none` for `NULL`. -/
def g_hash_table_lookup (h : List (List Nat × List Nat)) (key : List Nat) :
    Option (List Nat) :=
  (h.find? (fun kv => kv.1 == key)).map (fun kv => kv.2)

/-- The function `pt_get_room_data(data, id)`: the first room of `data->chats` with that
id. -/
def pt_get_room_data (data : PTData) (id : Int) : Option PTRoomData :=
  data.chats.find? (fun rd => rd.id == id)

/-- Result of one of the search loops of `pt_get_cb_real_name`. -/
inductive Lookup where
  | undefined
  | notfound
  | found (r : Option (List Nat))
  deriving DecidableEq, Repr

/-- The loop `for (tmp=users;tmp;tmp=tmp->next) if (!strcmp(g_hash_table_lookup(htmp,key),
who)) return g_strdup(g_hash_table_lookup(htmp,res))`; `strcmp` on a missing key has no
defined result. -/
def users_lookup (key res who : List Nat) : List (List (List Nat × List Nat)) → Lookup
  | [] => Lookup.notfound
  | htmp :: rest =>
      match g_hash_table_lookup htmp key with
      | none => Lookup.undefined
      | some v =>
          if v = who then Lookup.found (g_hash_table_lookup htmp res)
          else users_lookup key res who rest

/-- The loop over `data->chats` with the inner loop over the users of each room. -/
def chats_lookup (key res who : List Nat) : List PTRoomData → Lookup
  | [] => Lookup.notfound
  | rd :: rest =>
      match users_lookup key res who rd.users with
      | Lookup.notfound => chats_lookup key res who rest
      | r => r

/-- The loop over `data->ims` looking for an entry whose `uin` is `who`, returning its
`nick`. -/
def ims_lookup_uin (who : List Nat) : List PTIm → Lookup
  | [] => Lookup.notfound
  | im :: rest =>
      if im.uin = some who then Lookup.found im.nick else ims_lookup_uin who rest

/-- The loop over `data->ims` looking for an entry whose `nick` is `who`, returning its
`uin`. -/
def ims_lookup_nick (who : List Nat) : List PTIm → Lookup
  | [] => Lookup.notfound
  | im :: rest =>
      if im.nick = some who then Lookup.found im.uin else ims_lookup_nick who rest

/-- The function `pt_get_cb_real_name(gc, id, who)`.  `buddies` lists the buddies of the
account with their `server_alias`, which is what `gaim_find_buddy(data->a, who)` searches.
The inner `none` is a `NULL` result, the outer `none` a `strcmp` on `NULL`. -/
def pt_get_cb_real_name (data : PTData) (buddies : List (List Nat × Option (List Nat)))
    (id : Int) (who : Option (List Nat)) : Option (Option (List Nat)) :=
  match who with
  | none => some none
  | some who =>
      let isNick := who.any g_ascii_isalpha
      let finish : Lookup → Option (Option (List Nat)) := fun r =>
        match r with
        | Lookup.undefined => none
        | Lookup.notfound => some (some who)
        | Lookup.found v => some v
      if !isNick || (who.head? = some 45 && g_ascii_isdigit (who.getD 1 0)) then
        if atol who = -2 ∨ atol who = 0 then some (some (cstr "Paltalk"))
        else if atol who = 28 then some (some (cstr "Paltalk Notifier"))
        else
          match buddies.find? (fun b => b.1 == who) with
          | some b => some b.2
          | none =>
              if id = -1 then
                match chats_lookup (cstr "uid") (cstr "nickname") who data.chats with
                | Lookup.notfound => finish (ims_lookup_uin who data.ims)
                | r => finish r
              else
                match pt_get_room_data data id with
                | some rd => finish (users_lookup (cstr "uid") (cstr "nickname") who rd.users)
                | none => some (some who)
      else
        if id = -1 then
          match ims_lookup_nick who data.ims with
          | Lookup.notfound =>
              finish (chats_lookup (cstr "nickname") (cstr "uid") who data.chats)
          | r => finish r
        else
          match pt_get_room_data data id with
          | some rd => finish (users_lookup (cstr "nickname") (cstr "uid") who rd.users)
          | none => some (some who)

/-! ## Receiving voice datagrams (`paltalk-mediastream.c`, lines 19-170) -/

/-- The chat flag `GAIM_CBFLAGS_SPEAKING`. -/
def GAIM_CBFLAGS_SPEAKING : Nat := 0x0010

/-- A line written into a chat by `gaim_conv_chat_write(chat, who, message, flags,
mtime)`. -/
structure ChatLine where
  who : List Nat := []
  message : List Nat := []
  mtime : Nat := 0
  deriving DecidableEq, Repr

/-- The chat conversation of a room as the UI keeps it: the participants with their flags,
the lines written so far (oldest first), its index in its window, the number of
conversations of that window and the index of the active one. -/
structure GaimConversation where
  in_room : List (List Nat × Nat) := []
  lines : List ChatLine := []
  index : Nat := 0
  count : Nat := 1
  active : Nat := 0
  deriving DecidableEq, Repr

/-- The libgaim function `gaim_conv_chat_user_get_flags`: the flags of the participant,
`GAIM_CBFLAGS_NONE` when there is none of that name. -/
def gaim_conv_chat_user_get_flags (c : GaimConversation) (user : List Nat) : Nat :=
  match c.in_room.find? (fun u => u.1 == user) with
  | some u => u.2
  | none => 0

/-- Worker of `gaim_conv_chat_user_set_flags`: the first participant of that name gets the
flags. -/
def set_flags_list (user : List Nat) (flags : Nat) :
    List (List Nat × Nat) → List (List Nat × Nat)
  | [] => []
  | u :: rest => if u.1 = user then (u.1, flags) :: rest else u :: set_flags_list user flags rest

/-- The libgaim function `gaim_conv_chat_user_set_flags`. -/
def gaim_conv_chat_user_set_flags (c : GaimConversation) (user : List Nat) (flags : Nat) :
    GaimConversation :=
  { c with in_room := set_flags_list user flags c.in_room }

/-- The libgaim function `gaim_conv_chat_write` for a system message. -/
def gaim_conv_chat_write (c : GaimConversation) (who message : List Nat) (mtime : Nat) :
    GaimConversation :=
  { c with lines := c.lines ++ [{ who := who, message := message, mtime := mtime }] }

/-- A `GTimer`: the moment it was last started, in microseconds, whether it runs, and the
moment it was last stopped (the field `end` of GLib). -/
structure GTimer where
  start : Nat := 0
  active : Bool := true
  stop : Nat := 0
  deriving DecidableEq, Repr

/-- What the voice path reads and writes besides the socket: the room of the stream, the
file-scope variables `speaker_timeout` and `speaker_timer`, and the chat conversation that
`gaim_find_chat(gc, rd->id)` finds (`none` for `NULL`). -/
structure VoiceState where
  rd : PTRoomData := {}
  speaker_timeout : Nat := 0
  speaker_timer : Option GTimer := none
  c : Option GaimConversation := none
  deriving DecidableEq, Repr

/-- The argument `*buffer` of `pt_media_stream_audio_read` after the call. -/
inductive BufferOut where
  | untouched
  | null
  | data (bs : List Nat)
  | freed
  deriving DecidableEq, Repr

/-- The loop `for (i=0;i<4;i++) { read(stream->sock,ctmp,1); ltmp = *ctmp & 0xFF; }`:
`cur` is the byte in `ctmp` (`none` while it is still the uninitialised byte of
`g_malloc(1)`); a read that returns no data leaves it as it is.  The outer `none` is a
read that blocks for ever. -/
def audio_read_prefix_bytes :
    Nat → List ReadEvent → Option Nat → Option (Option Nat × List ReadEvent)
  | 0, sock, cur => some (cur, sock)
  | n + 1, sock, cur =>
      match sock_read sock 1 with
      | none => none
      | some (_, bs, sock1) =>
          match bs with
          | b :: _ => audio_read_prefix_bytes n sock1 (some (b % 256))
          | [] => audio_read_prefix_bytes n sock1 cur

/-- The speaker part of `pt_media_stream_audio_read` (lines 134-170) for an accepted packet
whose SSRC resolves to the name `ctmp3`, at time `now` (microseconds). -/
def audio_read_speaker (st : VoiceState) (c : GaimConversation) (ctmp3 : List Nat)
    (now : Nat) : PTRoomData × GaimConversation :=
  let c1 : GaimConversation :=
    match st.rd.speaker with
    | some speaker =>
        if ctmp3 ≠ speaker then
          let ltmp := gaim_conv_chat_user_get_flags c ctmp3
          let c := gaim_conv_chat_user_set_flags c ctmp3
            (ltmp &&& (0xFFFFFFFF ^^^ GAIM_CBFLAGS_SPEAKING))
          let c := gaim_conv_chat_write c (cstr "System") (ctmp3 ++ cstr " has stopped speaking.")
            (now / 1000000)
          gaim_conv_chat_write c (cstr "System") (ctmp3 ++ cstr " has started speaking.")
            (now / 1000000)
        else c
    | none =>
        gaim_conv_chat_write c (cstr "System") (ctmp3 ++ cstr " has started speaking.")
          (now / 1000000)
  let ltmp := gaim_conv_chat_user_get_flags c1 ctmp3 ||| GAIM_CBFLAGS_SPEAKING
  ({ st.rd with speaker := some ctmp3 }, gaim_conv_chat_user_set_flags c1 ctmp3 ltmp)

/-- Result of `pt_media_stream_audio_read`: the return value, `*buffer`, the state and the
socket afterwards. -/
structure AudioRead where
  ret : Int
  buffer : BufferOut
  st : VoiceState
  sock : List ReadEvent
  deriving DecidableEq, Repr

/-- The part of `pt_media_stream_audio_read` after `rtp_packet_parse` returned the packet
`rtp` (lines 121-170). -/
def audio_read_packet (rtp : RTPPacket) (sock : List ReadEvent) (ptd : PTData)
    (buddies : List (List Nat × Option (List Nat))) (st : VoiceState) (now : Nat) :
    Option AudioRead :=
  if bitfield_int 7 rtp.payload_type ≠ 3 ∨ rtp.payload_len < 136 then
    some { ret := 0, buffer := BufferOut.null, st := st, sock := sock }
  else
    let timer : GTimer := { start := now, active := true }
    let timeout := if st.speaker_timeout = 0 then 1 else st.speaker_timeout
    let ctmp2 := printf_d (s32 rtp.ssrc)
    match pt_get_cb_real_name ptd buddies st.rd.id (some ctmp2), st.c with
    | some (some ctmp3), some c =>
        let r := audio_read_speaker st c ctmp3 now
        let st1 : VoiceState :=
          { rd := r.1, speaker_timeout := timeout, speaker_timer := some timer, c := some r.2 }
        if c.count > 1 ∧ c.index ≠ c.active then
          some { ret := 0, buffer := BufferOut.freed, st := st1, sock := sock }
        else
          some { ret := rtp.payload_len, buffer := BufferOut.data rtp.payload, st := st1,
                 sock := sock }
    | _, _ => none

/-- The reading part of `pt_media_stream_audio_read` (lines 96-113): the four one-byte
reads, the test `ltmp <= 0 || ltmp >= 150` and the call `read(stream->sock,ctmp,ltmp)`.
It returns the length `ltmp` with the bytes that `read` stored in `ctmp` (`none` when the
test sends the function back with 0) and the socket afterwards.  The outer `none` is a
read that blocks for ever or a prefix byte that was never read. -/
def audio_read_datagram (sock : List ReadEvent) :
    Option (Option (Nat × List Nat) × List ReadEvent) :=
  match audio_read_prefix_bytes 4 sock none with
  | none => none
  | some (none, _) => none
  | some (some ltmp, sock1) =>
      if ltmp ≤ 0 ∨ ltmp ≥ 150 then some (none, sock1)
      else
        match sock_read sock1 ltmp with
        | none => none
        | some (_, ctmp, sock2) => some (some (ltmp, ctmp), sock2)

/-- The function `pt_media_stream_audio_read(stream, buffer, s)`: `buffer` tells whether
the pointer is non-`NULL`, `sock` is the media socket `stream->sock`, `buddies` the buddy
list of the account and `now` the time in microseconds.  `gaim_timeout_add` returns a
non-zero handle, here 1.  `none` when the prefix byte or a byte the parser reads is
uninitialised, when a read blocks for ever, when the name lookup returns `NULL` or
compares with `NULL`, and when the chat conversation is missing. -/
def pt_media_stream_audio_read (stream : Option GaimMediaStream) (buffer : Bool)
    (sock : List ReadEvent) (ptd : PTData) (buddies : List (List Nat × Option (List Nat)))
    (st : VoiceState) (now : Nat) : Option AudioRead :=
  if !buffer || stream.isNone then
    some { ret := -1, buffer := BufferOut.untouched, st := st, sock := sock }
  else
    match audio_read_datagram sock with
    | none => none
    | some (none, sock1) =>
        some { ret := 0, buffer := BufferOut.untouched, st := st, sock := sock1 }
    | some (some (ltmp, ctmp), sock2) =>
        match rtp_packet_parse ctmp ltmp with
        | none => none
        | some none => some { ret := 0, buffer := BufferOut.null, st := st, sock := sock2 }
        | some (some rtp) => audio_read_packet rtp sock2 ptd buddies st now

/-- Example datagram: an RTP packet of payload type 3 from the given SSRC with 136 payload
bytes. -/
def voice_in (ssrc : Nat) : List Nat :=
  [0x80, 0x03, 0, 1, 0, 0, 0, 0] ++ htonl_bytes ssrc ++ List.replicate 136 0xAA

/-- The packet `rtp_packet_parse` returns for `voice_in ssrc`. -/
def voice_in_packet (ssrc : Nat) : RTPPacket :=
  { version := 2, payload_type := 3, sequence := 1, ssrc := ssrc,
    payload := List.replicate 136 0xAA, payload_len := 136 }

/-- Example state of the voice path: no speaker, no timer, and a chat whose participants
are shown under the names `111` and `222`. -/
def voice_state_idle : VoiceState :=
  { c := some { in_room := [(cstr "111", 0), (cstr "222", 0)] } }

/-- One call of `pt_media_stream_audio_read` on a socket holding the prefix `00 00 00 94`
and `voice_in ssrc`, at time `now`; the state afterwards. -/
def speaker_trace_step (st : VoiceState) (ssrc : Nat) (now : Nat) : Option VoiceState :=
  (pt_media_stream_audio_read (some {}) true
    [ReadEvent.data (htonl_bytes 148 ++ voice_in ssrc)] {} [] st now).map (fun r => r.st)

/-- The speaker trace of the claim: packets from SSRC 111 at 0, 100 and 200 ms. -/
def speaker_trace_200 : Option VoiceState :=
  ((speaker_trace_step voice_state_idle 111 0).bind
    (fun st => speaker_trace_step st 111 100000)).bind
    (fun st => speaker_trace_step st 111 200000)

/-- The speaker trace of the claim continued with a packet from SSRC 222 at 400 ms. -/
def speaker_trace_400 : Option VoiceState :=
  speaker_trace_200.bind (fun st => speaker_trace_step st 222 400000)

/-- What a test of the speaker notices observes of a state: the speaker, the participants
with their flags and the messages written to the chat. -/
def speaker_view (st : VoiceState) :
    Option (List Nat) × Option (List (List Nat × Nat) × List (List Nat)) :=
  (st.rd.speaker, st.c.map (fun c => (c.in_room, c.lines.map (fun l => l.message))))

/-! ## Joining a room (`paltalk-chat.c`, lines 22-67) -/

/-- Result of `pt_chat_join`: the session afterwards, the bytes written to the server
socket, and whether `gaim_request_input` opened the lockword prompt (whose answer goes to
`pt_lockword_callback`). -/
structure ChatJoin where
  ptd : PTData
  out : List Nat := []
  prompt : Bool := false
  deriving DecidableEq, Repr

/-- The function `pt_chat_join(gc, data)`; `data` is the table of the room list entry
(`none` for `NULL`).  The outer `none` is `atol(NULL)` for a table with neither `group_id`
nor `id`. -/
def pt_chat_join (ptd : PTData) (now : Nat) (data : Option (List (List Nat × List Nat))) :
    Option ChatJoin :=
  match data with
  | none => some { ptd := ptd }
  | some data =>
      let id? : Option Int :=
        match g_hash_table_lookup data (cstr "group_id") with
        | some ctmp => some (atol ctmp)
        | none => (g_hash_table_lookup data (cstr "id")).map atol
      match id? with
      | none => none
      | some id =>
          if id > 0 then
            if (g_hash_table_lookup data (cstr "l")).isSome then
              some { ptd := { ptd with locked := id }, prompt := true }
            else
              (pt_send_packet ptd now PACKET_ROOM_JOIN [VaArg.num 0, VaArg.num id]).map
                (fun r => { ptd := r.1, out := r.2 })
          else some { ptd := ptd }

/-- The function `pt_lockword_callback(ptd, passwd)`: the session afterwards and the bytes
written to the server socket. -/
def pt_lockword_callback (ptd : PTData) (now : Nat) (passwd : Option (List Nat)) :
    Option (PTData × List Nat) :=
  match passwd with
  | none => some (ptd, [])
  | some passwd =>
      pt_send_packet ptd now PACKET_ROOM_JOIN
        [VaArg.num 1, VaArg.num ptd.locked, VaArg.str passwd]

/-! ## Room commands (`paltalk-commands.c`, lines 19-240) -/

/-- The loop of `i_am_owner` over `rd->users`: `some (some false)` when it returns `FALSE`,
`some none` when it runs to the end, `none` for `atol(NULL)` on a record without `uid` or
`admin`. -/
def i_am_owner_loop (owner : Int) : List (List (List Nat × List Nat)) → Option (Option Bool)
  | [] => some none
  | htmp :: rest =>
      match g_hash_table_lookup htmp (cstr "uid") with
      | none => none
      | some uid =>
          if atol uid = owner then some (some false)
          else
            match g_hash_table_lookup htmp (cstr "admin") with
            | none => none
            | some admin =>
                if atoi admin = 1 then some (some false) else i_am_owner_loop owner rest

/-- The function `i_am_owner(rd, strict)`; `ptd` is `rd->ptd`. -/
def i_am_owner (rd : PTRoomData) (ptd : PTData) (strict : Bool) : Option Bool :=
  if rd.owner = ptd.uin then some true
  else if rd.admin then
    match i_am_owner_loop rd.owner rd.users with
    | none => none
    | some (some b) => some b
    | some none => if !strict then some true else some false
  else some false

/-- The return values `GAIM_CMD_RET_OK` and `GAIM_CMD_RET_FAILED`. -/
inductive GaimCmdRet where
  | OK
  | FAILED
  deriving DecidableEq, Repr

/-- What a command handler leaves behind: its return value, the message stored in
`*error`, the session, the bytes written to the server socket and whether it opened an
input prompt. -/
structure CmdResult where
  ret : GaimCmdRet
  error : Option (List Nat) := none
  ptd : PTData
  out : List Nat := []
  prompt : Bool := false
  deriving DecidableEq, Repr

/-- A handler that fails with the message `msg`. -/
def cmd_failed (ptd : PTData) (msg : String) : CmdResult :=
  { ret := GaimCmdRet.FAILED, error := some (cstr msg), ptd := ptd }

/-- A handler that returns `GAIM_CMD_RET_OK` after `pt_send_packet` wrote `r.2`. -/
def cmd_sent (r : PTData × List Nat) : CmdResult :=
  { ret := GaimCmdRet.OK, ptd := r.1, out := r.2 }

/-- The assignment to a field of the room that `pt_get_room_data(data, id)` returned: the
first room with that id is replaced by `f` of it. -/
def room_update (f : PTRoomData → PTRoomData) (id : Int) : List PTRoomData → List PTRoomData
  | [] => []
  | rd :: rest => if rd.id = id then f rd :: rest else rd :: room_update f id rest

/-- The idiom `atoi(args[0]) <= 0 ? atol(pt_get_cb_real_name(gc,id,args[0])) :
atol(args[0])` of the handlers; `none` when the lookup has no result or returns `NULL`. -/
def cmd_target (ptd : PTData) (buddies : List (List Nat × Option (List Nat))) (id : Int)
    (arg : List Nat) : Option Int :=
  if atoi arg ≤ 0 then
    match pt_get_cb_real_name ptd buddies id (some arg) with
    | some (some tmp) => some (atol tmp)
    | _ => none
  else some (atol arg)

/-- The target of `pt_ban`: the lookup of `args[0]` when `atoi` finds no positive number
and it is not `"all"`, `0xFFFFFFFF` for `"all"`, and `atol(args[0])` otherwise. -/
def ban_target (ptd : PTData) (buddies : List (List Nat × Option (List Nat))) (id : Int)
    (arg : List Nat) : Option Int :=
  if atoi arg ≤ 0 ∧ arg ≠ cstr "all" then
    match pt_get_cb_real_name ptd buddies id (some arg) with
    | some (some tmp) => some (atol tmp)
    | _ => none
  else if arg = cstr "all" then some (s32 0xFFFFFFFF)
  else some (atol arg)

/-- The handler `pt_ban(c, cmd, args, error, data)`: `id` is the id of the chat `c`, `arg`
the string `args[0]`, `data` is non-`NULL` for `ban` and `NULL` for `unban`.  `none` when
the chat has no room data or a called function has no defined result. -/
def pt_ban (ptd : PTData) (buddies : List (List Nat × Option (List Nat))) (now : Nat)
    (id : Int) (arg : List Nat) (data : Bool) : Option CmdResult :=
  match pt_get_room_data ptd id with
  | none => none
  | some rd =>
      match i_am_owner rd ptd true with
      | none => none
      | some false =>
          some (cmd_failed ptd "This command can only be used by the room's owner.")
      | some true =>
          if !data && rd.ban.isEmpty then
            some (cmd_failed ptd "No users are currently banned.")
          else
            (ban_target ptd buddies id arg).bind (fun uin =>
              (pt_send_packet ptd now
                (if data then PACKET_ROOM_BAN_USER else PACKET_ROOM_UNBAN_USER)
                [VaArg.num id, VaArg.num uin]).map cmd_sent)

/-- The handler `pt_bounce(c, cmd, args, error, data)`: for `bounce` it stores the target
in `rd->u_bounce` and opens the prompt whose answer goes to `pt_do_bounce`. -/
def pt_bounce (ptd : PTData) (buddies : List (List Nat × Option (List Nat))) (now : Nat)
    (id : Int) (arg : List Nat) (data : Bool) : Option CmdResult :=
  match pt_get_room_data ptd id with
  | none => none
  | some rd =>
      if !rd.admin then some (cmd_failed ptd "You're not an admin in this room.")
      else if !data && rd.bounce.isEmpty then
        some (cmd_failed ptd "No users are currently bounced.")
      else
        (cmd_target ptd buddies rd.id arg).bind (fun uin =>
          if data then
            let chats := room_update (fun r => { r with u_bounce := uin }) id ptd.chats
            some { ret := GaimCmdRet.OK, prompt := true, ptd := { ptd with chats := chats } }
          else
            (pt_send_packet ptd now PACKET_ROOM_UNBOUNCE_USER
              [VaArg.num rd.id, VaArg.num uin]).map cmd_sent)

/-- The callback `pt_do_bounce(data, reason)` of the bounce prompt: `id` names the room
`data` the prompt was opened for (`none` when that room is no longer in `ptd->chats`),
`reason` is `none` for `NULL`.  It returns the session and the bytes written to the server
socket. -/
def pt_do_bounce (ptd : PTData) (now : Nat) (id : Int) (reason : Option (List Nat)) :
    Option (PTData × List Nat) :=
  match pt_get_room_data ptd id with
  | none => none
  | some data =>
      match reason with
      | none => some (ptd, [])
      | some reason =>
          if data.u_bounce = 0 then some (ptd, [])
          else
            (pt_send_packet ptd now PACKET_ROOM_BOUNCE_USER
              [VaArg.num data.id, VaArg.num data.u_bounce]).bind (fun r1 =>
            (pt_send_packet r1.1 now PACKET_ROOM_BOUNCE_REASON
              [VaArg.str reason, VaArg.num data.id, VaArg.num data.u_bounce]).map (fun r2 =>
            let chats := room_update (fun r => { r with u_bounce := 0 }) id r2.1.chats
            ({ r2.1 with chats := chats }, r1.2 ++ r2.2)))

/-- The handler `pt_red_dot(c, cmd, args, error, data)`. -/
def pt_red_dot (ptd : PTData) (buddies : List (List Nat × Option (List Nat))) (now : Nat)
    (id : Int) (arg : List Nat) (data : Bool) : Option CmdResult :=
  match pt_get_room_data ptd id with
  | none => none
  | some rd =>
      if !rd.admin then some (cmd_failed ptd "You are not an admin in this room.")
      else
        let uin : Option Int :=
          if arg = cstr "all" then some (s32 0xFFFFFFFF) else cmd_target ptd buddies rd.id arg
        uin.bind (fun uin =>
          (pt_send_packet ptd now
            (if data then PACKET_ROOM_RED_DOT_USER else PACKET_ROOM_UNRED_DOT_USER)
            [VaArg.num rd.id, VaArg.num uin]).map cmd_sent)
/-! ## Room frames of `pt_callback` (`paltalk-core.c`, lines 656-767) and `pt_chat_leave` -/

def PACKET_ROOM_JOINED : Int := 0x0136
def PACKET_ROOM_USER_JOINED : Int := 0x0137
def PACKET_ROOM_MEDIA_SERVER : Int := 0x013B
def PACKET_ROOM_USERLIST : Int := 0x0154
def PACKET_ROOM_CLOSED : Int := 0x017C

/-- The separator `BSEP`: the string literal `"È"` of `paltalk.h`, which the source file
(UTF-8) holds as the two bytes C3 88; the comment beside it names the byte 0xC8. -/
def BSEP : List Nat := [0xC3, 0x88]

/-- The separator `FSEP` (a line feed). -/
def FSEP : Nat := 10

/-- The chat flags `GAIM_CBFLAGS_OP`, `GAIM_CBFLAGS_VIDEO` and `GAIM_CBFLAGS_MICREQUEST`. -/
def GAIM_CBFLAGS_OP : Nat := 0x0004
def GAIM_CBFLAGS_VIDEO : Nat := 0x0080
def GAIM_CBFLAGS_MICREQUEST : Nat := 0x0100

/-- The C string that starts at `buf+o`: the bytes up to the first NUL; `none` when the
buffer holds no NUL from there on. -/
def cstr_at (buf : List Nat) (o : Nat) : Option (List Nat) :=
  if (buf.drop o).contains 0 then some ((buf.drop o).takeWhile (fun b => b != 0)) else none

/-- The C library function `strchr` on a string: the offset of the first `c`, `none` for
`NULL`. -/
def strchr (s : List Nat) (c : Nat) : Option Nat :=
  if s.contains c then some (s.indexOf c) else none

/-- Worker of `g_strsplit`: the pieces of `s` between the bytes `delim`. -/
def split_on (delim : Nat) : List Nat → List (List Nat)
  | [] => [[]]
  | c :: rest =>
      if c = delim then [] :: split_on delim rest
      else
        match split_on delim rest with
        | [] => [[c]]
        | t :: ts => (c :: t) :: ts

/-- The GLib function `g_strsplit(s, delim, -1)` for a one-byte delimiter: the empty
string gives no piece at all. -/
def g_strsplit (s : List Nat) (delim : Nat) : List (List Nat) :=
  if s.isEmpty then [] else split_on delim s

/-- The test `!strncmp(tmp, pat, strlen(pat))`. -/
def strncmp_eq : List Nat → List Nat → Bool
  | _, [] => true
  | [], _ :: _ => false
  | c :: cs, p :: ps => c == p && strncmp_eq cs ps

/-- Worker of `g_strsplit` for a delimiter of several bytes: `skip` counts the bytes of a
delimiter still to pass, `cur` is the piece collected so far. -/
def split_on_str_go (delim : List Nat) : Nat → List Nat → List Nat → List (List Nat)
  | _, [], cur => [cur]
  | skip + 1, _ :: cs, cur => split_on_str_go delim skip cs cur
  | 0, c :: cs, cur =>
      if strncmp_eq (c :: cs) delim then cur :: split_on_str_go delim (delim.length - 1) cs []
      else split_on_str_go delim 0 cs (cur ++ [c])

/-- The GLib function `g_strsplit(s, delim, -1)` for a non-empty delimiter string: the
pieces between the occurrences of `delim`, found from the left; the empty string gives no
piece at all. -/
def g_strsplit_str (s : List Nat) (delim : List Nat) : List (List Nat) :=
  if s.isEmpty then [] else split_on_str_go delim 0 s []

/-- The GLib function `g_hash_table_insert` on a string table: an entry with the same key
is replaced. -/
def g_hash_table_insert (h : List (List Nat × List Nat)) (key value : List Nat) :
    List (List Nat × List Nat) :=
  (key, value) :: h.filter (fun kv => kv.1 != key)

/-- What `if (!(rd = pt_get_room_data(ptd, id))) { rd = g_new0(PTRoomData,1); rd->id = id;
rd->ptd = ptd; ptd->chats = g_list_append(ptd->chats, rd); }` leaves in the session. -/
def room_get_or_new (ptd : PTData) (id : Int) : PTData :=
  match pt_get_room_data ptd id with
  | some _ => ptd
  | none => { ptd with chats := ptd.chats ++ [{ id := id }] }

/-- The label `case PACKET_ROOM_JOINED:` of `pt_callback` on the frame `waitbuf`, as far as
the session goes (the chat window is opened by `serv_got_joined_chat`).  `none` when
`waitbuf+29` holds no line feed or lies outside the frame. -/
def pt_callback_room_joined (ptd : PTData) (waitbuf : List Nat) : Option PTData :=
  match PACKET_GET_LONG waitbuf 6, cstr_at waitbuf 29 with
  | some id, some s => if s.contains 10 then some (room_get_or_new ptd id) else none
  | _, _ => none

/-- The label `case PACKET_ROOM_MEDIA_SERVER:` of `pt_callback`, as far as the session goes
(the stream that `pt_media_stream_audio_connect` creates is kept apart).  `none` when the
address or the port lies outside the frame. -/
def pt_callback_room_media_server (ptd : PTData) (waitbuf : List Nat) : Option PTData :=
  match PACKET_GET_LONG waitbuf 6, ntohl_at waitbuf 10, ntohs_at waitbuf 20 with
  | some id, some _, some _ => some (room_get_or_new ptd id)
  | _, _, _ => none

/-- The loop `for (sltmp=rd->users;sltmp && sltmp->data;sltmp=sltmp->next)` of `case
PACKET_ROOM_USER_LEFT:`.  At the first record whose `uid` equals `btmp` the loop calls
`g_list_remove`, which unlinks and frees the node `sltmp`; the step `sltmp=sltmp->next`
then reads the freed node, where GLib's list allocator leaves no live successor, so the
loop ends there: the records behind the first one removed are not visited. -/
def user_left_loop (btmp : List Nat) :
    List (List (List Nat × List Nat)) → List (List (List Nat × List Nat))
  | [] => []
  | htmp :: rest =>
      if g_hash_table_lookup htmp (cstr "uid") = some btmp then rest
      else htmp :: user_left_loop btmp rest

/-- The label `case PACKET_ROOM_USER_LEFT:` of `pt_callback`, as far as the session goes:
the first record of `rd->users` whose `uid` is the decimal form of the UID at `waitbuf+10`
is removed, and no other field of the room is written.  `none` when the room is not open, a
field lies outside the frame or the name lookup has no defined result. -/
def pt_callback_room_user_left (ptd : PTData) (buddies : List (List Nat × Option (List Nat)))
    (waitbuf : List Nat) : Option PTData :=
  match PACKET_GET_LONG waitbuf 6, PACKET_GET_LONG waitbuf 10 with
  | some id, some uid =>
      match pt_get_room_data ptd id with
      | none => none
      | some rd =>
          let btmp := (printf_d uid).take 11
          match pt_get_cb_real_name ptd buddies rd.id (some btmp) with
          | none => none
          | some _ =>
              let chats :=
                room_update (fun r => { r with users := user_left_loop btmp r.users }) id
                  ptd.chats
              some { ptd with chats := chats }
  | _, _ => none

/-- The inner loop of `case PACKET_ROOM_USERLIST:` that fills the table of one user from
the pieces `key=value`; `none` for a piece without `=`. -/
def userlist_table : List (List Nat) → List (List Nat × List Nat) →
    Option (List (List Nat × List Nat))
  | [], htmp => some htmp
  | tok :: rest, htmp =>
      match strchr tok 61 with
      | none => none
      | some k => userlist_table rest (g_hash_table_insert htmp (tok.take k) (tok.drop (k + 1)))

/-- State of the loop of `case PACKET_ROOM_USERLIST:`: the session, the chat window found
by `gaim_find_chat(gc, ltmp)` and the bytes written to the server socket. -/
structure UserlistState where
  ptd : PTData
  c : Option GaimConversation
  out : List Nat := []
  deriving DecidableEq, Repr

/-- One round of the loop of `case PACKET_ROOM_USERLIST:` for the token `token` of the room
`ltmp`.  `none` for a piece without `=` and for a user without nickname in an open chat
window. -/
def userlist_entry (now : Nat) (ltmp : Int) (st : UserlistState) (token : List Nat) :
    Option UserlistState :=
  match userlist_table (g_strsplit token FSEP) [] with
  | none => none
  | some htmp =>
      let isAdmin : Bool :=
        match g_hash_table_lookup htmp (cstr "admin") with
        | some ctmp => atoi ctmp == 1
        | none => false
      let isMe : Bool :=
        match g_hash_table_lookup htmp (cstr "uid") with
        | some ctmp => isAdmin && atol ctmp == st.ptd.uin
        | none => false
      let j0 : Nat := if isAdmin then GAIM_CBFLAGS_OP else 0
      let j1 : Nat :=
        match g_hash_table_lookup htmp (cstr "req") with
        | some ctmp => if atoi ctmp > 0 then j0 ||| GAIM_CBFLAGS_MICREQUEST else j0
        | none => j0
      let j : Nat :=
        match g_hash_table_lookup htmp (cstr "pub") with
        | some ctmp => if ctmp.head? = some 121 then j1 ||| GAIM_CBFLAGS_VIDEO else j1
        | none => j1
      let sent : Option (PTData × List Nat) :=
        if isMe then
          let chats := room_update (fun r => { r with owner := st.ptd.owner, admin := true })
            ltmp st.ptd.chats
          pt_send_packet { st.ptd with chats := chats } now PACKET_ROOM_GET_ADMIN_INFO
            [VaArg.num ltmp]
        else some (st.ptd, [])
      match sent with
      | none => none
      | some (ptd1, bytes) =>
          let added : PTData :=
            { ptd1 with chats :=
                room_update (fun r => { r with users := r.users ++ [htmp] }) ltmp ptd1.chats }
          match st.c, g_hash_table_lookup htmp (cstr "nickname") with
          | none, _ => some { ptd := added, c := none, out := st.out ++ bytes }
          | some _, none => none
          | some c, some nick =>
              if c.in_room.any (fun u => u.1 == nick) then
                some { ptd := ptd1, c := some c, out := st.out ++ bytes }
              else
                some { ptd := added, c := some { c with in_room := c.in_room ++ [(nick, j)] },
                       out := st.out ++ bytes }

/-- The loop `for (i=0;tokens[i] && *tokens[i];i++)` of `case PACKET_ROOM_USERLIST:`. -/
def userlist_loop (now : Nat) (ltmp : Int) : List (List Nat) → UserlistState →
    Option UserlistState
  | [], st => some st
  | token :: rest, st =>
      if token.isEmpty then some st
      else
        match userlist_entry now ltmp st token with
        | none => none
        | some st1 => userlist_loop now ltmp rest st1

/-- The labels `case PACKET_ROOM_USER_JOINED:` / `case PACKET_ROOM_USERLIST:` of
`pt_callback`: the first line of the body names the room (its id starts at `waitbuf+15`),
the rest holds the users, separated by `BSEP`, as lines `key=value`.  `c` is the chat
window that `gaim_find_chat(gc, ltmp)` finds.  `none` when the body has no line feed or the
id lies outside the frame. -/
def pt_callback_room_userlist (ptd : PTData) (c : Option GaimConversation) (now : Nat)
    (waitbuf : List Nat) : Option UserlistState :=
  match cstr_at waitbuf 6 with
  | none => none
  | some s =>
      match strchr s 10 with
      | none => none
      | some k =>
          match cstr_at (waitbuf.take (6 + k) ++ [0] ++ waitbuf.drop (6 + k + 1)) 15 with
          | none => none
          | some idstr =>
              let ltmp := atol idstr
              let tokens := g_strsplit_str (s.drop (k + 1)) BSEP
              match pt_get_room_data ptd ltmp with
              | none => some { ptd := ptd, c := c }
              | some _ => userlist_loop now ltmp tokens { ptd := ptd, c := c }

/-- The function `pt_chat_leave(gc, id)`: the session afterwards and the bytes written to
the server socket; `pt_room_data_destroy` takes the room out of `ptd->chats`.  `none` when
no room with that id is open (`rd->stream` on `NULL`). -/
def pt_chat_leave (ptd : PTData) (now : Nat) (id : Int) : Option (PTData × List Nat) :=
  match pt_get_room_data ptd id with
  | none => none
  | some rd =>
      (pt_send_packet ptd now PACKET_ROOM_LEAVE [VaArg.num id]).map (fun r =>
        ({ r.1 with chats := r.1.chats.erase rd }, r.2))

/-- The label `case PACKET_ROOM_CLOSED:` of `pt_callback`. -/
def pt_callback_room_closed (ptd : PTData) (now : Nat) (waitbuf : List Nat) :
    Option (PTData × List Nat) :=
  match PACKET_GET_LONG waitbuf 6, cstr_at waitbuf 14 with
  | some id, some _ => pt_chat_leave ptd now id
  | _, _ => none

/-- The function `pt_login(account)` as far as the session goes: a zeroed `PTData` whose
UIN is the user name when that is a positive number. -/
def pt_login (username : List Nat) : PTData :=
  { uin := if atol username > 0 then atol username else 0, username := username }
/-! ## Sessions as far as their rooms go -/

/-- Two states of a room agree on the fields `id`, `owner`, `admin` and `u_bounce`. -/
def room_core_eq (r r1 : PTRoomData) : Prop :=
  r1.id = r.id ∧ r1.owner = r.owner ∧ r1.admin = r.admin ∧ r1.u_bounce = r.u_bounce

/-- Claim side: no two rooms of the list share an id, and a room whose `admin` flag is
false has `owner` and `u_bounce` zero. -/
def rooms_wf (l : List PTRoomData) : Prop :=
  (l.map (fun r => r.id)).Nodup ∧ ∀ r ∈ l, r.admin = false → r.owner = 0 ∧ r.u_bounce = 0

/-- One step of a session: a room frame handled by `pt_callback`, a call of `pt_chat_leave`,
`pt_bounce` or `pt_do_bounce`, or (`other`) any other handler of the plugin.  The handlers
under `other` neither add nor remove a room nor write the `id`, `owner`, `admin` or
`u_bounce` of one: `case PACKET_ROOM_ADMIN_INFO:` writes `mike`, `text`, `video`, `bounce`
and `ban`, `pt_toggle_reddot_effect` writes `text` and `video`, the voice path writes
`speaker` and `stream`, and the remaining ones write session fields only. -/
inductive SessionStep : PTData → PTData → Prop where
  | room_joined (ptd ptd1 : PTData) (waitbuf : List Nat) :
      pt_callback_room_joined ptd waitbuf = some ptd1 → SessionStep ptd ptd1
  | room_media_server (ptd ptd1 : PTData) (waitbuf : List Nat) :
      pt_callback_room_media_server ptd waitbuf = some ptd1 → SessionStep ptd ptd1
  | room_user_left (ptd ptd1 : PTData) (buddies : List (List Nat × Option (List Nat)))
      (waitbuf : List Nat) :
      pt_callback_room_user_left ptd buddies waitbuf = some ptd1 → SessionStep ptd ptd1
  | room_userlist (ptd : PTData) (c : Option GaimConversation) (now : Nat)
      (waitbuf : List Nat) (st : UserlistState) :
      pt_callback_room_userlist ptd c now waitbuf = some st → SessionStep ptd st.ptd
  | room_closed (ptd : PTData) (now : Nat) (waitbuf : List Nat) (r : PTData × List Nat) :
      pt_callback_room_closed ptd now waitbuf = some r → SessionStep ptd r.1
  | chat_leave (ptd : PTData) (now : Nat) (id : Int) (r : PTData × List Nat) :
      pt_chat_leave ptd now id = some r → SessionStep ptd r.1
  | bounce (ptd : PTData) (buddies : List (List Nat × Option (List Nat))) (now : Nat)
      (id : Int) (arg : List Nat) (data : Bool) (r : CmdResult) :
      pt_bounce ptd buddies now id arg data = some r → SessionStep ptd r.ptd
  | do_bounce (ptd : PTData) (now : Nat) (id : Int) (reason : Option (List Nat))
      (r : PTData × List Nat) :
      pt_do_bounce ptd now id reason = some r → SessionStep ptd r.1
  | other (ptd ptd1 : PTData) :
      List.Forall₂ room_core_eq ptd.chats ptd1.chats → SessionStep ptd ptd1

/-- The sessions that `pt_login` and any number of steps lead to. -/
inductive Reachable : PTData → Prop where
  | login (username : List Nat) : Reachable (pt_login username)
  | step (ptd ptd1 : PTData) : Reachable ptd → SessionStep ptd ptd1 → Reachable ptd1

/-- Example frame: `ROOM_JOINED` for room 42 named `Lobby`. -/
def frame_room_joined_42 : List Nat :=
  packet_header PACKET_ROOM_JOINED ++ [0, 29] ++ htonl_bytes 42 ++ List.replicate 19 0
    ++ cstr "Lobby\n" ++ [0]

/-- Example session: logged in under a nickname, then `ROOM_JOINED` for room 42. -/
def session_nick_42 : PTData := { username := cstr "nick", chats := [{ id := 42 }] }

/-- Example room: the local user is admin, nobody is banned, one user is bounced. -/
def room_42_bounced : PTRoomData := { id := 42, admin := true, bounce := [cstr "5,bob"] }

/-- Example room: the local user is admin, one user is banned, nobody is bounced. -/
def room_42_banned : PTRoomData := { id := 42, admin := true, ban := [cstr "5,bob"] }

/-- Example room list entry: `id=42`, `l=1`. -/
def roomlist_entry_42 : List (List Nat × List Nat) :=
  [(cstr "id", cstr "42"), (cstr "l", cstr "1")]

/-- Outcome of `if (sscanf(tmp, format, &v))` for a format with one conversion: `nomatch`
when `sscanf` returns 0, `eof` when it returns `EOF` because the input ended before the
conversion, `ok v` when it stored `v`. -/
inductive Scan (α : Type) where
  | nomatch
  | eof
  | ok (v : α)
  deriving DecidableEq, Repr

/-- Outcome of matching the literal characters at the start of a format. -/
inductive ScanLit where
  | nomatch
  | eof
  | matched (rest : List Nat)
  deriving DecidableEq, Repr

/-- The literal characters `fmt` of a `sscanf` format matched against the input: a white
space character of the format skips any white space of the input, every other character
has to be the next input character. -/
def scan_lit : List Nat → List Nat → ScanLit
  | [], inp => ScanLit.matched inp
  | f :: fs, inp =>
      if isspace f then scan_lit fs (atoi_skip inp)
      else
        match inp with
        | [] => ScanLit.eof
        | c :: cs => if c = f then scan_lit fs cs else ScanLit.nomatch

/-- Value of a hexadecimal digit, `none` for any other character. -/
def hex_value (c : Nat) : Option Nat :=
  if 48 ≤ c ∧ c ≤ 57 then some (c - 48)
  else if 97 ≤ c ∧ c ≤ 102 then some (c - 87)
  else if 65 ≤ c ∧ c ≤ 70 then some (c - 55)
  else none

/-- The hexadecimal digits at the start of the input: their number and their value. -/
def scan_hex : List Nat → Nat → Nat → Nat × Nat
  | [], n, acc => (n, acc)
  | c :: cs, n, acc =>
      match hex_value c with
      | some d => scan_hex cs (n + 1) (acc * 16 + d)
      | none => (n, acc)

/-- The decimal digits at the start of the input: their number and their value. -/
def scan_dec : List Nat → Nat → Nat → Nat × Nat
  | [], n, acc => (n, acc)
  | c :: cs, n, acc =>
      if 48 ≤ c ∧ c ≤ 57 then scan_dec cs (n + 1) (acc * 10 + (c - 48)) else (n, acc)

/-- The digits of the conversion `%lx` after the sign: a prefix `0x` is passed, its `0`
counting as a digit. -/
def scan_hex_body (body : List Nat) : Nat × Nat :=
  match body with
  | 48 :: x :: more => if x = 120 ∨ x = 88 then scan_hex more 1 0 else scan_hex body 0 0
  | _ => scan_hex body 0 0

/-- The conversion `%lx` of `sscanf` into a `long`: white space is skipped, a sign and a
prefix `0x` are accepted, at least one digit is needed (the `0` of the prefix counts), and
a value beyond `ULONG_MAX` is stored as `ULONG_MAX`. -/
def scan_lx (inp : List Nat) : Scan Int :=
  match atoi_skip inp with
  | [] => Scan.eof
  | c :: cs =>
      let neg := c == 45
      let body := if c = 45 ∨ c = 43 then cs else c :: cs
      let r : Nat × Nat := scan_hex_body body
      if r.1 = 0 then Scan.nomatch
      else
        let v : Nat := if r.2 > 4294967295 then 4294967295 else r.2
        Scan.ok (s32 (if neg ∧ r.2 ≤ 4294967295 then -(v : Int) else (v : Int)))

/-- The conversion `%ld` of `sscanf`: white space is skipped, a sign is accepted, at least
one digit is needed, and a value outside the range of `long` is stored as `LONG_MAX` or
`LONG_MIN`. -/
def scan_ld (inp : List Nat) : Scan Int :=
  match atoi_skip inp with
  | [] => Scan.eof
  | c :: cs =>
      let neg := c == 45
      let body := if c = 45 ∨ c = 43 then cs else c :: cs
      let r := scan_dec body 0 0
      if r.1 = 0 then Scan.nomatch
      else if neg then Scan.ok (if r.2 > 2147483648 then -2147483648 else -(r.2 : Int))
      else Scan.ok (if r.2 > 2147483647 then 2147483647 else (r.2 : Int))

/-- The call `sscanf(tmp, "<literal>%lx...", &ltmp)`. -/
def sscanf_lx (lit : String) (tmp : List Nat) : Scan Int :=
  match scan_lit (cstr lit) tmp with
  | ScanLit.nomatch => Scan.nomatch
  | ScanLit.eof => Scan.eof
  | ScanLit.matched rest => scan_lx rest

/-- The call `sscanf(tmp, "<literal>%ld...", &ltmp)`. -/
def sscanf_ld (lit : String) (tmp : List Nat) : Scan Int :=
  match scan_lit (cstr lit) tmp with
  | ScanLit.nomatch => Scan.nomatch
  | ScanLit.eof => Scan.eof
  | ScanLit.matched rest => scan_ld rest

/-- The call `sscanf(tmp, "<literal>%c", &d)`. -/
def sscanf_c (lit : String) (tmp : List Nat) : Scan Nat :=
  match scan_lit (cstr lit) tmp with
  | ScanLit.nomatch => Scan.nomatch
  | ScanLit.eof => Scan.eof
  | ScanLit.matched [] => Scan.eof
  | ScanLit.matched (c :: _) => Scan.ok c

/-- The GLib function `g_ascii_tolower`. -/
def g_ascii_tolower (c : Nat) : Nat := if 65 ≤ c ∧ c ≤ 90 then c + 32 else c

/-- The test `!g_ascii_strncasecmp(tmp, pat, strlen(pat))`: `pat` starts `tmp` up to the
case of ASCII letters. -/
def strncasecmp_eq : List Nat → List Nat → Bool
  | _, [] => true
  | [], _ :: _ => false
  | c :: cs, p :: ps => g_ascii_tolower c == g_ascii_tolower p && strncasecmp_eq cs ps

/-- The C library function `strstr`: the offset of the first occurrence, `none` for
`NULL`. -/
def strstr : List Nat → List Nat → Option Nat
  | [], needle => if needle.isEmpty then some 0 else none
  | c :: cs, needle =>
      if strncmp_eq (c :: cs) needle then some 0 else (strstr cs needle).map (fun k => k + 1)

/-- The libgaim function `gaim_strcasereplace(string, delimiter, replacement)`, scanning
from the left: `skip` counts the characters of a replaced occurrence still to pass. -/
def strcasereplace_go (del rep : List Nat) : Nat → List Nat → List Nat
  | _, [] => []
  | skip + 1, _ :: cs => strcasereplace_go del rep skip cs
  | 0, c :: cs =>
      if strncasecmp_eq (c :: cs) del then rep ++ strcasereplace_go del rep (del.length - 1) cs
      else c :: strcasereplace_go del rep 0 cs

/-- The libgaim function `gaim_strcasereplace`. -/
def gaim_strcasereplace (s : List Nat) (del rep : String) : List Nat :=
  strcasereplace_go (cstr del) (cstr rep) 0 s

/-- The expression `((ltmp & 0x0000FF) << 16) | (ltmp & 0x00FF00) | ((ltmp & 0xFF0000) >>
16)` on the bits of `ltmp`. -/
def swap_red_blue (ltmp : Int) : Nat :=
  (((u32 ltmp) &&& 0x0000FF) <<< 16) ||| ((u32 ltmp) &&& 0x00FF00)
    ||| (((u32 ltmp) &&& 0xFF0000) >>> 16)

/-- One round of the loop of `pt_convert_from_html` at the non-empty rest `tmp` of the
message: what is appended to `out`, and how many characters after the current one the
round passes before the next one starts.  `none` when `sscanf` returns `EOF` (the branch
is entered with an unset variable) or `strchr` finds no `>`. -/
def from_html_round (tmp : List Nat) : Option (List Nat × Nat) :=
  match sscanf_lx "<font color=\"#" tmp with
  | Scan.eof => none
  | Scan.ok ltmp =>
      (strchr tmp 62).map (fun k =>
        (cstr "<pfont color=\"#" ++ printf_d (swap_red_blue ltmp) ++ cstr "\">", k))
  | Scan.nomatch =>
      match sscanf_ld "<font size=\"" tmp with
      | Scan.eof => none
      | Scan.ok ltmp =>
          let size : Int := if ltmp < 3 then 8 else if ltmp < 4 then 10 else 12
          (strchr tmp 62).map (fun k =>
            (cstr "<pfont-size=\"" ++ printf_d size ++ cstr "\">", k))
      | Scan.nomatch =>
          if strncasecmp_eq tmp (cstr "<body") then (strchr tmp 62).map (fun k => ([], k))
          else if strncasecmp_eq tmp (cstr "</body>") then some ([], 6)
          else
            match sscanf_c "</" tmp with
            | Scan.eof => none
            | Scan.ok d => some (cstr "</p" ++ [g_ascii_tolower d], 2)
            | Scan.nomatch =>
                match sscanf_c "<" tmp with
                | Scan.eof => none
                | Scan.ok d => some (cstr "<p" ++ [g_ascii_tolower d], 1)
                | Scan.nomatch =>
                    if strncmp_eq tmp (cstr "&lt;") then some ([60], 3)
                    else if strncmp_eq tmp (cstr "&gt;") then some ([62], 3)
                    else if strncmp_eq tmp (cstr "&amp;") then some ([38], 4)
                    else if strncmp_eq tmp (cstr "&quot;") then some ([34], 5)
                    else some (tmp.take 1, 0)

/-- The loop `for (;*tmp;tmp++)` of `pt_convert_from_html`: `skip` counts the characters
the last round still passes, `out` is the string built so far. -/
def from_html_loop : Nat → List Nat → List Nat → Option (List Nat)
  | _, [], out => some out
  | skip + 1, _ :: cs, out => from_html_loop skip cs out
  | 0, c :: cs, out =>
      match from_html_round (c :: cs) with
      | none => none
      | some (add, skip) => from_html_loop skip cs (out ++ add)

/-- The conversion that `pt_convert_from_html` applies to the message before it looks for
`<pfont`: the four calls of `gaim_strcasereplace` and the loop. -/
def from_html_convert (message : List Nat) : Option (List Nat) :=
  let tmp := gaim_strcasereplace message "<FONT COLOR" "<font color"
  let tmp := gaim_strcasereplace tmp "<FONT SIZE" "<font size"
  let tmp := gaim_strcasereplace tmp "</FONT>" "</font>"
  let tmp := gaim_strcasereplace tmp "<A HREF" "<a href"
  from_html_loop 0 tmp []

/-- The function `pt_convert_from_html(message)` on a NUL-free message. -/
def pt_convert_from_html (message : List Nat) : Option (List Nat) :=
  (from_html_convert message).map (fun out =>
    if (strstr out (cstr "<pfont")).isNone then
      cstr "<pfont color=\"#0\"><pfont-size=\"10\">" ++ out ++ cstr "</pfont></pfont>"
    else out)

/-- Length of the UTF-8 character that starts the string, 0 when there is none (RFC 3629:
no overlong forms, no surrogates, nothing above U+10FFFF). -/
def utf8_char_len (s : List Nat) : Nat :=
  let cont := fun (k : Nat) => 0x80 ≤ s.getD k 0 ∧ s.getD k 0 ≤ 0xBF
  match s with
  | [] => 0
  | b :: _ =>
      if b < 0x80 then 1
      else if 0xC2 ≤ b ∧ b ≤ 0xDF then (if cont 1 then 2 else 0)
      else if b = 0xE0 then (if 0xA0 ≤ s.getD 1 0 ∧ s.getD 1 0 ≤ 0xBF ∧ cont 2 then 3 else 0)
      else if b = 0xED then (if 0x80 ≤ s.getD 1 0 ∧ s.getD 1 0 ≤ 0x9F ∧ cont 2 then 3 else 0)
      else if 0xE1 ≤ b ∧ b ≤ 0xEF then (if cont 1 ∧ cont 2 then 3 else 0)
      else if b = 0xF0 then
        (if 0x90 ≤ s.getD 1 0 ∧ s.getD 1 0 ≤ 0xBF ∧ cont 2 ∧ cont 3 then 4 else 0)
      else if 0xF1 ≤ b ∧ b ≤ 0xF3 then (if cont 1 ∧ cont 2 ∧ cont 3 then 4 else 0)
      else if b = 0xF4 then
        (if 0x80 ≤ s.getD 1 0 ∧ s.getD 1 0 ≤ 0x8F ∧ cont 2 ∧ cont 3 then 4 else 0)
      else 0

/-- Number of bytes of the longest valid UTF-8 start of the string, which is where
`g_utf8_validate` puts `end`; `skip` counts the bytes of the current character still to
pass. -/
def utf8_valid_len : Nat → List Nat → Nat
  | _, [] => 0
  | skip + 1, _ :: cs => 1 + utf8_valid_len skip cs
  | 0, c :: cs =>
      if utf8_char_len (c :: cs) = 0 then 0
      else 1 + utf8_valid_len (utf8_char_len (c :: cs) - 1) cs

/-- The GLib function `g_utf8_validate(str, -1, NULL)`. -/
def g_utf8_validate (s : List Nat) : Bool := utf8_valid_len 0 s == s.length

/-- The loop of the libgaim function `gaim_utf8_salvage`: the valid start is kept, the
byte after it becomes `?`, and the rest is treated the same way. -/
def utf8_salvage_loop : Nat → List Nat → List Nat
  | 0, _ => []
  | fuel + 1, s =>
      if s.length ≤ utf8_valid_len 0 s then s
      else s.take (utf8_valid_len 0 s) ++ 63 ::
        utf8_salvage_loop fuel (s.drop (utf8_valid_len 0 s + 1))

/-- The libgaim function `gaim_utf8_salvage`. -/
def gaim_utf8_salvage (s : List Nat) : List Nat := utf8_salvage_loop (s.length + 1) s

/-- The conversion `%s` of `sscanf`: white space is skipped and the characters up to the
next white space are stored; `none` at the end of the input. -/
def scan_s (inp : List Nat) : Option (List Nat × List Nat) :=
  match atoi_skip inp with
  | [] => none
  | c :: cs =>
      some ((c :: cs).takeWhile (fun b => !isspace b), (c :: cs).dropWhile (fun b => !isspace b))

/-- The part of `pt_convert_to_html` for offline messages, `<<(date time)>>`: what is
appended to `out` and the rest of the message the loop starts at.  `none` when `sscanf`
returns a non-zero value without having filled the four buffers `d[11]`, `t[6]`, `ap[3]`
and `tz[5]` within their sizes, or `strstr` finds no `)>>`. -/
def to_html_offline (tmp : List Nat) : Option (List Nat × List Nat) :=
  match scan_lit (cstr "<<(") tmp with
  | ScanLit.nomatch => some ([], tmp)
  | ScanLit.eof => none
  | ScanLit.matched r0 =>
      match scan_s r0 with
      | none => none
      | some (d, r1) =>
          match scan_s r1 with
          | none => none
          | some (t, r2) =>
              match scan_s r2 with
              | none => none
              | some (ap, r3) =>
                  match scan_s r3, strstr tmp (cstr ")>>") with
                  | some (tz, _), some k =>
                      if d.length ≤ 10 ∧ t.length ≤ 5 ∧ ap.length ≤ 2 ∧ tz.length ≤ 4 then
                        let tz1 :=
                          match strstr tz (cstr ")>>") with
                          | some j => tz.take j
                          | none => tz
                        some (cstr "[Sent On:  " ++ d ++ [32] ++ t ++ [32] ++ ap ++ [32] ++ tz1
                          ++ cstr "]\n", tmp.drop (k + 3))
                      else none
                  | _, _ => none

/-- One round of the loop of `pt_convert_to_html` at the non-empty rest `tmp` of the
message, as `from_html_round`. -/
def to_html_round (tmp : List Nat) : Option (List Nat × Nat) :=
  if tmp.head? = some 60 ∧ tmp.getD 1 0 ≠ 112 ∧ tmp.getD 1 0 ≠ 47 then some (cstr "&lt;", 0)
  else
    match sscanf_ld "<pfont color=\"#" tmp with
    | Scan.eof => none
    | Scan.ok ltmp =>
        (strchr tmp 62).map (fun k =>
          (cstr "<font color=\"#" ++ printf_prec_x 6 (swap_red_blue ltmp) ++ cstr "\">", k))
    | Scan.nomatch =>
        match sscanf_ld "<pfont-size=\"" tmp with
        | Scan.eof => none
        | Scan.ok ltmp =>
            let size : Int := if ltmp ≤ 8 then 2 else if ltmp < 12 then 3 else 4
            (strchr tmp 62).map (fun k =>
              (cstr "<font size=\"" ++ printf_d size ++ cstr "\">", k))
        | Scan.nomatch =>
            match sscanf_c "<p" tmp with
            | Scan.eof => none
            | Scan.ok d => some ([60, d], 2)
            | Scan.nomatch =>
                match sscanf_c "</p" tmp with
                | Scan.eof => none
                | Scan.ok d => some ([60, 47, d], 3)
                | Scan.nomatch => some (tmp.take 1, 0)

/-- The loop `for (;*tmp;tmp++)` of `pt_convert_to_html`, as `from_html_loop`. -/
def to_html_loop : Nat → List Nat → List Nat → Option (List Nat)
  | _, [], out => some out
  | skip + 1, _ :: cs, out => to_html_loop skip cs out
  | 0, c :: cs, out =>
      match to_html_round (c :: cs) with
      | none => none
      | some (add, skip) => to_html_loop skip cs (out ++ add)

/-- The function `pt_convert_to_html(message)` on a NUL-free message; an empty message
makes `sscanf` return `EOF` and `strstr` find nothing, which is `none`. -/
def pt_convert_to_html (message : List Nat) : Option (List Nat) :=
  let message := if g_utf8_validate message then message else gaim_utf8_salvage message
  match to_html_offline message with
  | none => none
  | some (out, tmp) => to_html_loop 0 tmp out

/-! ## The HTML subset of the round trip (claim side) -/

/-- Claim side: a piece of a message of the HTML subset: a character of plain text given by
its UTF-8 bytes, one of the tags `<b>`, `<i>`, `<u>`, `<br>`, a closing tag,
`<font color="#...">` with its hexadecimal digits, or `<font size="...">` with its decimal
digits. -/
inductive HtmlTok where
  | text (ch : List Nat)
  | tag (name : List Nat)
  | close (name : List Nat)
  | color (digits : List Nat)
  | size (digits : List Nat)
  deriving DecidableEq, Repr

/-- Claim side: the value of a string of hexadecimal digits. -/
def spec_hex (ds : List Nat) : Nat :=
  ds.foldl (fun a d => a * 16 + (hex_value d).getD 0) 0

/-- Claim side: the value of a string of decimal digits. -/
def spec_dec (ds : List Nat) : Nat := ds.foldl (fun a d => a * 10 + (d - 48)) 0

/-- Claim side: the pieces a message of the subset may hold: a character of plain text is
one UTF-8 character other than NUL, `<` and `&`, a colour has at least one hexadecimal digit
and a 24-bit value (`RRGGBB`), a size has at least one decimal digit. -/
def spec_tok_ok (t : HtmlTok) : Prop :=
  match t with
  | HtmlTok.text ch =>
      ch ≠ [] ∧ utf8_char_len ch = ch.length ∧ ∀ c ∈ ch, c ≠ 0 ∧ c ≠ 60 ∧ c ≠ 38
  | HtmlTok.tag name => name = cstr "b" ∨ name = cstr "i" ∨ name = cstr "u" ∨ name = cstr "br"
  | HtmlTok.close name =>
      name = cstr "b" ∨ name = cstr "i" ∨ name = cstr "u" ∨ name = cstr "font"
  | HtmlTok.color ds =>
      ds ≠ [] ∧ (∀ d ∈ ds, (hex_value d).isSome) ∧ spec_hex ds < 16777216
  | HtmlTok.size ds => ds ≠ [] ∧ ∀ d ∈ ds, 48 ≤ d ∧ d ≤ 57

/-- Claim side: the test `spec_tok_ok` can be evaluated. -/
instance spec_tok_ok_decidable (t : HtmlTok) : Decidable (spec_tok_ok t) := by
  cases t <;> unfold spec_tok_ok <;> infer_instance

/-- Claim side: the HTML text of a piece. -/
def spec_render_tok (t : HtmlTok) : List Nat :=
  match t with
  | HtmlTok.text ch => ch
  | HtmlTok.tag name => [60] ++ name ++ [62]
  | HtmlTok.close name => [60, 47] ++ name ++ [62]
  | HtmlTok.color ds => cstr "<font color=\"#" ++ ds ++ cstr "\">"
  | HtmlTok.size ds => cstr "<font size=\"" ++ ds ++ cstr "\">"

/-- Claim side: the HTML text of a message given by its pieces. -/
def spec_render (ts : List HtmlTok) : List Nat := (ts.map spec_render_tok).flatten

/-- Claim side: the pseudo-HTML text of a piece: tag names get the letter `p` in front,
a colour becomes the decimal number of its value with red and blue swapped, and the sizes
below 3, 3, and 4 and more become 8, 10 and 12. -/
def spec_pseudo_tok (t : HtmlTok) : List Nat :=
  match t with
  | HtmlTok.text ch => ch
  | HtmlTok.tag name => [60, 112] ++ name ++ [62]
  | HtmlTok.close name => [60, 47, 112] ++ name ++ [62]
  | HtmlTok.color ds =>
      cstr "<pfont color=\"#" ++ printf_d (swap_red_blue (spec_hex ds)) ++ cstr "\">"
  | HtmlTok.size ds =>
      cstr "<pfont-size=\""
        ++ (if spec_dec ds < 3 then cstr "8" else if spec_dec ds < 4 then cstr "10"
          else cstr "12")
        ++ cstr "\">"

/-- Claim side: the pseudo-HTML text of a message given by its pieces. -/
def spec_pseudo (ts : List HtmlTok) : List Nat := (ts.map spec_pseudo_tok).flatten

/-- Claim side: the piece after one round trip: a colour is written with six lower-case
digits, a size is 2, 3 or 4. -/
def spec_norm_tok (t : HtmlTok) : HtmlTok :=
  match t with
  | HtmlTok.color ds => HtmlTok.color (printf_prec_x 6 (spec_hex ds))
  | HtmlTok.size ds =>
      HtmlTok.size (if spec_dec ds < 3 then cstr "2" else if spec_dec ds < 4 then cstr "3"
        else cstr "4")
  | t => t

/-- Claim side: whether a piece opens a font tag. -/
def spec_is_font (t : HtmlTok) : Bool :=
  match t with
  | HtmlTok.color _ => true
  | HtmlTok.size _ => true
  | _ => false

/-- Claim side: the pieces of the message after one round trip: a message without font tag
is put between `<font color="#000000"><font size="3">` and `</font></font>`. -/
def spec_round_trip (ts : List HtmlTok) : List HtmlTok :=
  if ts.any spec_is_font then ts.map spec_norm_tok
  else [HtmlTok.color (cstr "000000"), HtmlTok.size (cstr "3")] ++ ts.map spec_norm_tok
    ++ [HtmlTok.close (cstr "font"), HtmlTok.close (cstr "font")]

/-- The composition `pt_convert_to_html(pt_convert_from_html(x))`. -/
def html_round_trip (x : List Nat) : Option (List Nat) :=
  (pt_convert_from_html x).bind pt_convert_to_html

/-- Example message of the subset, `<b>hé</b><font color="#FF8000">x</font><font
size="5">y</font><br>`. -/
def html_sample : List HtmlTok :=
  [HtmlTok.tag (cstr "b"), HtmlTok.text [104], HtmlTok.text [195, 169],
   HtmlTok.close (cstr "b"), HtmlTok.color (cstr "FF8000"), HtmlTok.text [120],
   HtmlTok.close (cstr "font"), HtmlTok.size (cstr "5"), HtmlTok.text [121],
   HtmlTok.close (cstr "font"), HtmlTok.tag (cstr "br")]

/-- Example message of plain text only: the characters `&amp;amp;`. -/
def html_amp_sample : List HtmlTok := (cstr "&amp;amp;").map (fun c => HtmlTok.text [c])


/-! ## The speaker timer (`paltalk-mediastream.c`, lines 19-49) -/

/-- The GLib function `g_timer_elapsed(timer, NULL)` at time `now`, in microseconds: the
time since the timer was started, up to now for a running timer and up to the last
`g_timer_stop` for a stopped one. -/
def g_timer_elapsed (timer : GTimer) (now : Nat) : Nat :=
  if timer.active then now - timer.start else timer.stop - timer.start

/-- The GLib function `g_timer_stop` at time `now`. -/
def g_timer_stop (timer : GTimer) (now : Nat) : GTimer :=
  { timer with active := false, stop := now }

/-- The timer callback `check_speaker_flag(data)` at time `now` (microseconds) for the
stream whose room is `st.rd`: the return value and the state afterwards.  The test
`g_timer_elapsed(speaker_timer,&ltmp) > 0.45` compares seconds, which is more than 450000
microseconds.  `none` when the speaker has to be cleared and the chat conversation is
missing. -/
def check_speaker_flag (st : VoiceState) (now : Nat) : Option (Bool × VoiceState) :=
  match st.speaker_timer with
  | none => some (false, st)
  | some timer =>
      match st.rd.speaker with
      | none => some (true, st)
      | some speaker =>
          if g_timer_elapsed timer now > 450000 then
            match st.c with
            | none => none
            | some c =>
                let ltmp := gaim_conv_chat_user_get_flags c speaker
                let c := gaim_conv_chat_user_set_flags c speaker
                  (ltmp &&& (0xFFFFFFFF ^^^ GAIM_CBFLAGS_SPEAKING))
                let c := gaim_conv_chat_write c (cstr "System")
                  (speaker ++ cstr " has stopped speaking.") (now / 1000000)
                let rd : PTRoomData := { st.rd with speaker := none }
                some (true, { st with rd := rd, speaker_timer := some (g_timer_stop timer now),
                                      c := some c })
          else some (true, st)

/-- The calls that the main loop makes for `gaim_timeout_add(500, check_speaker_flag,
stream)` while no packet arrives: the callback runs every 500 ms for as long as it returns
`TRUE`; `next` is the time of the next call in microseconds, and the result is the state
after at most `n` calls. -/
def speaker_ticks : Nat → VoiceState → Nat → Option VoiceState
  | 0, st, _ => some st
  | n + 1, st, next =>
      match check_speaker_flag st next with
      | none => none
      | some (false, st1) => some st1
      | some (true, st1) => speaker_ticks n st1 (next + 500000)

/-- Claim side: the state after the speaker `speaker` of the chat `c` was cleared at time
`now`: no speaker, the timer stopped, the flag `SPEAKING` of the speaker removed and one
line `<speaker> has stopped speaking.` written to the chat. -/
def spec_speaker_cleared (st : VoiceState) (timer : GTimer) (speaker : List Nat)
    (c : GaimConversation) (now : Nat) : VoiceState :=
  let rd : PTRoomData := { st.rd with speaker := none }
  let flags := gaim_conv_chat_user_get_flags c speaker &&& (0xFFFFFFFF ^^^ GAIM_CBFLAGS_SPEAKING)
  let line : ChatLine :=
    { who := cstr "System", message := speaker ++ cstr " has stopped speaking.",
      mtime := now / 1000000 }
  let c1 : GaimConversation :=
    { c with in_room := set_flags_list speaker flags c.in_room, lines := c.lines ++ [line] }
  { st with rd := rd, speaker_timer := some { timer with active := false, stop := now },
            c := some c1 }

/-- The file-scope variables `speaker_timeout` and `speaker_timer` are shared by all
streams: the state that a call on the stream of `dst` finds after a call that left `src`. -/
def voice_shared (src dst : VoiceState) : VoiceState :=
  { dst with speaker_timeout := src.speaker_timeout, speaker_timer := src.speaker_timer }

/-- Example state of a second stream: room 2, no speaker, a chat with the participant
`222`. -/
def voice_state_second : VoiceState :=
  { rd := { id := 2 }, c := some { in_room := [(cstr "222", 0)] } }

/-- Two streams: a packet from SSRC 111 on the first stream at 0 ms (which registers the
timer callback for that stream); the state of the first stream. -/
def two_streams_first : Option VoiceState := speaker_trace_step voice_state_idle 111 0

/-- Two streams, continued: a packet from SSRC 222 on the second stream at 100 ms; the
state of the second stream. -/
def two_streams_second : Option VoiceState :=
  two_streams_first.bind (fun a =>
    speaker_trace_step (voice_shared a voice_state_second) 222 100000)

/-- Two streams, continued: the state that the callback, registered for the first stream,
finds at its calls. -/
def two_streams_tick : Option VoiceState :=
  two_streams_first.bind (fun a => two_streams_second.map (fun b => voice_shared b a))

/-- The chat of the speaker trace after the packet from SSRC 222 at 400 ms. -/
def voice_chat_222 : GaimConversation :=
  { in_room := [(cstr "111", 16), (cstr "222", 16)],
    lines := [{ who := cstr "System", message := cstr "111 has started speaking." },
              { who := cstr "System", message := cstr "222 has stopped speaking." },
              { who := cstr "System", message := cstr "222 has started speaking." }] }

/-- The state of the speaker trace after the packet from SSRC 222 at 400 ms: the callback
was registered at 0 ms, the timer was restarted at 400 ms. -/
def voice_state_222 : VoiceState :=
  { rd := { speaker := some (cstr "222") }, speaker_timeout := 1,
    speaker_timer := some { start := 400000 }, c := some voice_chat_222 }



/-! ## The file transfer handshake (`paltalk-xfer.c`, lines 37-119) -/

/-- The type of a `GaimXfer`. -/
inductive GaimXferType where
  | GAIM_XFER_SEND
  | GAIM_XFER_RECEIVE
  deriving DecidableEq, Repr

/-- What `pt_xfer_connected` reads and writes of a `GaimXfer`: its type, size and file
name, its `PTXferData`, the UIN `xd->data->uin` of the session, and what the calls
`write(source, ...)`, `close(source)`, `gaim_xfer_cancel_remote(xfer)` and
`gaim_xfer_start(xfer, source, NULL, 0)` did so far (`started` is the descriptor given to
`gaim_xfer_start`). -/
structure GaimXfer where
  type : GaimXferType := GaimXferType.GAIM_XFER_RECEIVE
  size : Nat := 0
  filename : List Nat := []
  data : PTXferData := {}
  uin : Int := 0
  writes : List (List Nat) := []
  closed : Bool := false
  cancelled : Bool := false
  started : Option Int := none
  deriving DecidableEq, Repr

/-- The conversion `%d` of `sscanf` with the input that follows it: white space is
skipped, a sign is accepted and at least one digit is needed; a value outside the range of
`int` is stored as `INT_MAX` or `INT_MIN`. -/
def scan_d (inp : List Nat) : Scan (Int × List Nat) :=
  match atoi_skip inp with
  | [] => Scan.eof
  | c :: cs =>
      let neg := c == 45
      let body := if c = 45 ∨ c = 43 then cs else c :: cs
      let r := scan_dec body 0 0
      if r.1 = 0 then Scan.nomatch
      else if neg then
        Scan.ok (if r.2 > 2147483648 then -2147483648 else -(r.2 : Int), body.drop r.1)
      else Scan.ok (if r.2 > 2147483647 then 2147483647 else (r.2 : Int), body.drop r.1)

/-- The call `sscanf(inbuf,"SEND\x09%d\x09%d\x09%s\x09%d\x09%s\n",&ufrom,&uto,nick,&br,fn)`
on the string `inbuf`: the return value (`EOF` is -1) and the value stored in `br`, `none`
when the fourth conversion was not reached. -/
def sscanf_send (inbuf : List Nat) : Int × Option Int :=
  match scan_lit (cstr "SEND\t") inbuf with
  | ScanLit.nomatch => (0, none)
  | ScanLit.eof => (-1, none)
  | ScanLit.matched r0 =>
      match scan_d r0 with
      | Scan.eof => (-1, none)
      | Scan.nomatch => (0, none)
      | Scan.ok (_, r1) =>
          match scan_d r1 with
          | Scan.ok (_, r2) =>
              match scan_s r2 with
              | none => (2, none)
              | some (_, r3) =>
                  match scan_d r3 with
                  | Scan.ok (br, r4) =>
                      match scan_s r4 with
                      | none => (4, some br)
                      | some _ => (5, some br)
                  | _ => (3, none)
          | _ => (1, none)

/-- The end of a transfer in `pt_xfer_connected`: `xd->fd = -1; xd->inpa = -1;
gaim_xfer_cancel_remote(xfer);`, with or without `close(source)`. -/
def xfer_cancel (xfer : GaimXfer) (close : Bool) : GaimXfer :=
  let xd : PTXferData := { xfer.data with fd := -1, inpa := -1 }
  { xfer with data := xd, cancelled := true, closed := xfer.closed || close }

/-- The part of `pt_xfer_connected` after the read stored the bytes `inbuf` (lines 66-118);
`br` is the return value of the read. -/
def xfer_connected_input (xfer : GaimXfer) (source : Int) (br : Int) (inbuf : List Nat) :
    GaimXfer :=
  let xd0 : PTXferData := { xfer.data with fd := source, inpa := 1 }
  let x : GaimXfer := { xfer with data := xd0 }
  if inbuf.head? = none ∨ inbuf.head? = some 0 then xfer_cancel x false
  else if xd0.phase = 0 ∧ ¬ strncmp_eq inbuf (cstr "CONNECT\tOK\n") then xfer_cancel x true
  else if xd0.phase = 0 then
    let xd1 : PTXferData := { xd0 with phase := 1 }
    { x with data := xd1,
             writes := x.writes ++ [cstr "INTRO\t" ++ printf_d x.uin ++ [9] ++ printf_d xd0.id
               ++ [10]] }
  else if xd0.phase = 1 ∧ ¬ strncmp_eq inbuf (cstr "AUTH\tOK\n") then xfer_cancel x true
  else
    let xd2 : PTXferData := { xd0 with phase := 2 }
    let x2 : GaimXfer := { x with data := xd2 }
    if x.type = GaimXferType.GAIM_XFER_SEND ∧ strncmp_eq inbuf (cstr "SEND\tOK\n") then
      let xd3 : PTXferData := { xd2 with inpa := -1 }
      { x2 with data := xd3,
                writes := x.writes ++ [cstr "SEND\t" ++ printf_d x.uin ++ [9]
                  ++ printf_d xd0.uin ++ [9] ++ xd0.who ++ [9] ++ printf_d (s32 x.size) ++ [9]
                  ++ x.filename ++ [10]],
                started := some source }
    else if x.type = GaimXferType.GAIM_XFER_RECEIVE ∧ strncmp_eq inbuf (cstr "SEND") then
      let xd3 : PTXferData := { xd2 with inpa := -1 }
      let x3 : GaimXfer := { x2 with data := xd3 }
      let r := sscanf_send (inbuf.takeWhile (fun b => b != 0))
      if r.1 ≠ 0 then
        { x3 with size := u32 (r.2.getD br), started := some source }
      else x3
    else x2

/-- The function `pt_xfer_connected(data, source, cond)` for a transfer with its
`PTXferData` (it returns at once without them); `sock` is what the reads of `source` find.
`gaim_input_add` returns a non-zero handle, here 1.  `none` is a read that blocks for
ever. -/
def pt_xfer_connected (xfer : GaimXfer) (source : Int) (sock : List ReadEvent) :
    Option (GaimXfer × List ReadEvent) :=
  if xfer.data.inpa = -1 then some (xfer, sock)
  else if source < 0 then some (xfer_cancel xfer true, sock)
  else
    match sock_read sock 255 with
    | none => none
    | some (br, inbuf, sock1) =>
        if br < 0 then some (xfer_cancel xfer true, sock1)
        else some (xfer_connected_input xfer source br inbuf, sock1)

/-- Example transfer: a receive with id 7 in a session with UIN 777. -/
def xfer_receive_7 : GaimXfer := { data := { id := 7, fd := -1 }, uin := 777 }

/-- Example line of the server: nickname `my nick`, size 5678. -/
def xfer_send_line_space : List Nat := cstr "SEND\t1\t2\tmy nick\t5678\tf.txt\n"

/-- The three calls of the handshake on one descriptor, each finding the next input. -/
def xfer_handshake (xfer : GaimXfer) (source : Int) (i1 i2 i3 : List Nat) : Option GaimXfer :=
  ((pt_xfer_connected xfer source [ReadEvent.data i1]).bind
    (fun r1 => pt_xfer_connected r1.1 source [ReadEvent.data i2])).bind
    (fun r2 => (pt_xfer_connected r2.1 source [ReadEvent.data i3]).map (fun r3 => r3.1))

/-- Claim side: the line `SEND\t<from>\t<to>\t<nick>\t<size>\t<filename>\n`. -/
def spec_send_line (ufrom uto nick size fn : List Nat) : List Nat :=
  cstr "SEND\t" ++ ufrom ++ [9] ++ uto ++ [9] ++ nick ++ [9] ++ size ++ [9] ++ fn ++ [10]





/-- Example room in which the speaker field is set. -/
def room_speaking : PTRoomData := { id := 42, speaker := some (cstr "111") }



/-! ## Presence frames (`paltalk-core.c`, lines 908-936) -/

def PACKET_BUDDY_STATUSCHANGE : Int := 0x0190

/-- The status values of `paltalk.h` as values of a `long`: `STATUS_BLOCKED` is
`0xFFFFFFFFL`, which a `long` of 32 bits holds as -1. -/
def STATUS_BLOCKED : Int := -1
def STATUS_OFFLINE : Int := 0x00000000
def STATUS_ONLINE : Int := 0x0000001E
def STATUS_AWAY : Int := 0x00000046
def STATUS_DND : Int := 0x0000005A
def STATUS_INVISIBLE : Int := 0x0000006E

/-- The field `state` of a `GaimConnection`. -/
inductive GaimConnectionState where
  | GAIM_DISCONNECTED
  | GAIM_CONNECTED
  | GAIM_CONNECTING
  deriving DecidableEq, Repr

/-- A buddy of the buddy list: the name, the status bits `uc` and whether the buddy list
shows the buddy as present. -/
structure GaimBuddy where
  name : List Nat := []
  uc : Int := 0
  present : Bool := false
  deriving DecidableEq, Repr

/-- The buddy part of `case PACKET_BUDDY_STATUSCHANGE:` for the buddy found: the `switch`
on the status `v` sets `b->uc`, then the presence is updated for the values 0x01, 0x00 and
0x10. -/
def buddy_statuschange (b : GaimBuddy) (v : Int) : GaimBuddy :=
  let uc : Int :=
    if v = STATUS_OFFLINE then 0x00
    else if v = STATUS_ONLINE then 0x01
    else if v = STATUS_AWAY then 0x02
    else if v = STATUS_INVISIBLE then 0x04
    else if v = STATUS_DND then 0x08
    else if v = STATUS_BLOCKED then 0x10
    else b.uc
  { b with uc := uc,
           present := if uc = 0x01 then true else if uc = 0x00 ∨ uc = 0x10 then false
             else b.present }

/-- The buddy list after the buddy that `gaim_find_buddy` finds (the first of that name)
got the status `v`. -/
def blist_statuschange (name : List Nat) (v : Int) : List GaimBuddy → List GaimBuddy
  | [] => []
  | b :: rest =>
      if b.name = name then buddy_statuschange b v :: rest
      else b :: blist_statuschange name v rest

/-- Result of a `case` of `pt_callback`: the session, the state of the connection, the
buddy list and the frames written to the server, one entry for each call of
`pt_send_packet`. -/
structure StatusChange where
  ptd : PTData
  state : GaimConnectionState
  blist : List GaimBuddy
  out : List (List Nat) := []
  deriving DecidableEq, Repr

/-- The four calls of `pt_send_packet` in `case PACKET_BUDDY_STATUSCHANGE:`: the session
afterwards and the four frames. -/
def statuschange_frames (ptd : PTData) (now : Nat) : Option (PTData × List (List Nat)) :=
  (pt_send_packet ptd now PACKET_CHECKSUMS []).bind fun r1 =>
  (pt_send_packet r1.1 now PACKET_VERSIONS [VaArg.str MAC_ADDRESS]).bind fun r2 =>
  (pt_send_packet r2.1 now PACKET_UIN_FONTDEPTH_ETC []).bind fun r3 =>
  (pt_send_packet r3.1 now PACKET_VERSION_INFO []).bind fun r4 =>
  some (r4.1, [r1.2, r2.2, r3.2, r4.2])

/-- The `case PACKET_BUDDY_STATUSCHANGE:` of `pt_callback` on the frame `waitbuf`, at time
`now`.  `none` when the frame is too short for the fields read, or a frame cannot be
built. -/
def pt_callback_buddy_statuschange (ptd : PTData) (state : GaimConnectionState)
    (blist : List GaimBuddy) (now : Nat) (waitbuf : List Nat) : Option StatusChange :=
  match PACKET_GET_LONG waitbuf 6 with
  | none => none
  | some uin =>
      let btmp := (printf_d uin).take 11
      let blist1 : Option (List GaimBuddy) :=
        if blist.any (fun b => b.name == btmp) then
          (PACKET_GET_LONG waitbuf 10).map (fun v => blist_statuschange btmp v blist)
        else some blist
      match blist1 with
      | none => none
      | some bl =>
          if state ≠ GaimConnectionState.GAIM_CONNECTED then
            let ptd1 : PTData := { ptd with status := STATUS_ONLINE }
            (statuschange_frames ptd1 now).map (fun r =>
              { ptd := r.1, state := GaimConnectionState.GAIM_CONNECTED, blist := bl,
                out := r.2 })
          else some { ptd := ptd, state := state, blist := bl, out := [] }

/-- Example frame: `BUDDY_STATUSCHANGE` for the UIN 111 with the status `STATUS_ONLINE`. -/
def frame_statuschange_111 : List Nat :=
  [0x01, 0x90, 0x00, 0x53, 0x00, 0x08, 0, 0, 0, 111, 0, 0, 0, 0x1E, 0]

/-- Example session after the login: key `XXXX509`, UIN 777. -/
def session_login_777 : PTData := { serverkey := some (cstr "XXXX509"), uin := 777 }

/-- The handler of `BUDDY_STATUSCHANGE` called for each frame of `frames` in turn (each
with the time of its arrival); the frames written are collected in `out`.  No other
statement of the plugin assigns `gc->state`, so the frames of other types that arrive in
between leave the state of the connection as it is. -/
def pt_callback_buddy_statuschanges (r : StatusChange) :
    List (Nat × List Nat) → Option StatusChange
  | [] => some r
  | (now, waitbuf) :: rest =>
      match pt_callback_buddy_statuschange r.ptd r.state r.blist now waitbuf with
      | none => none
      | some r1 => pt_callback_buddy_statuschanges { r1 with out := r.out ++ r1.out } rest



/-! ## The ban and bounce lists (`paltalk-commands.c`, `paltalk-core.c` lines 943-995) -/

def PACKET_ROOM_ADMIN_INFO : Int := 0x0384

/-- The C library function `strrchr` on a string: the offset of the last `c`, `none` for
`NULL`. -/
def strrchr (s : List Nat) (c : Nat) : Option Nat :=
  if s.contains c then some (s.length - 1 - s.reverse.indexOf c) else none

/-- What a command handler that also writes to the conversation leaves behind: the result
and the texts given to `gaim_conversation_write`. -/
structure CmdConv where
  res : CmdResult
  conv : List (List Nat) := []
  deriving DecidableEq, Repr

/-- The loop of `pt_listbans` over a list: `"\t%s\n"` of what follows the first comma of
each entry; `none` when an entry has no comma (`strchr` gives `NULL`, and `NULL+1` is
printed). -/
def listbans_lines : List (List Nat) → Option (List Nat)
  | [] => some []
  | e :: rest =>
      match strchr e 44, listbans_lines rest with
      | some k, some s => some ([9] ++ e.drop (k + 1) ++ [10] ++ s)
      | _, _ => none

/-- The handler `pt_listbans(c, cmd, args, error, data)`: `id` is the id of the chat `c`,
`data` is non-`NULL` for the list of bans and `NULL` for the list of bounces.  `none` when
the chat has no room data or an entry cannot be printed. -/
def pt_listbans (ptd : PTData) (now : Nat) (id : Int) (data : Bool) : Option CmdConv :=
  match pt_get_room_data ptd id with
  | none => none
  | some rd =>
      if !rd.admin then
        some { res := cmd_failed ptd "You are not an admin in this room." }
      else if data && rd.ban.isEmpty then
        some { res := cmd_failed ptd "No users are currently banned." }
      else if !data && rd.bounce.isEmpty then
        some { res := cmd_failed ptd "No users are currently bounced." }
      else
        match listbans_lines (if data then rd.ban else rd.bounce) with
        | none => none
        | some lines =>
            let s := cstr "The following users are currently "
              ++ (if data then cstr "banned" else cstr "bounced") ++ cstr ":\n" ++ lines
            (pt_send_packet ptd now PACKET_ROOM_GET_ADMIN_INFO [VaArg.num id]).map (fun r =>
              { res := cmd_sent r, conv := [s] })

/-- The text `pt_toggle_reddot_effect` writes to the conversation for the room `rd`. -/
def reddot_effect_text (rd : PTRoomData) : List Nat :=
  cstr "reddot is currently affecting: [ Voice "
    ++ (if rd.text then cstr "Text  " else [])
    ++ (if rd.video then cstr "Video  " else [])
    ++ cstr "] privileges"

/-- The handler `pt_toggle_reddot_effect(c, cmd, args, error, data)`: `id` is the id of the
chat `c`, `arg` the string `args[0]`. -/
def pt_toggle_reddot_effect (ptd : PTData) (now : Nat) (id : Int) (arg : List Nat) :
    Option CmdConv :=
  match pt_get_room_data ptd id with
  | none => none
  | some rd =>
      if !rd.admin then
        some { res := cmd_failed ptd "You are not an admin in this room." }
      else
        let e : Nat := if arg = cstr "text" then 2 else if arg = cstr "video" then 1 else 0
        if e = 0 then
          some { res := cmd_failed ptd "You must specify one of 'video', or 'text'." }
        else if e = 1 then
          (pt_send_packet ptd now PACKET_ROOM_RED_DOT_VIDEO
            [VaArg.num rd.id, VaArg.num (if rd.video then 0 else 1)]).map (fun r =>
            let chats := room_update (fun x => { x with video := false }) id r.1.chats
            { res := { ret := GaimCmdRet.OK, out := r.2, ptd := { r.1 with chats := chats } },
              conv := [reddot_effect_text { rd with video := false }] })
        else
          (pt_send_packet ptd now PACKET_ROOM_RED_DOT_TEXT
            [VaArg.num rd.id, VaArg.num (if rd.text then 0 else 1)]).map (fun r =>
            let chats := room_update (fun x => { x with text := false }) id r.1.chats
            { res := { ret := GaimCmdRet.OK, out := r.2, ptd := { r.1 with chats := chats } },
              conv := [reddot_effect_text { rd with text := false }] })

/-- What the token loop of `case PACKET_ROOM_ADMIN_INFO:` assigns: the three flags (when
their token came) and the pointer `ctmp2` (`none` for `NULL`). -/
structure AdminInfo where
  mike : Option Bool := none
  text : Option Bool := none
  video : Option Bool := none
  ctmp2 : Option (List Nat) := none
  deriving DecidableEq, Repr

/-- The loop `for (i=0;tokens[i] && *tokens[i];i++)` of `case PACKET_ROOM_ADMIN_INFO:`.  A
token without `=` leaves `ctmp` `NULL`: for `mike`, `text` and `video` that is
`atol(NULL)` (`none`), for `bounce` it makes `ctmp2` `NULL`. -/
def admin_info_tokens : List (List Nat) → AdminInfo → Option AdminInfo
  | [], a => some a
  | tok :: rest, a =>
      if tok.isEmpty then some a
      else
        match strchr tok 61 with
        | none =>
            if tok = cstr "mike" ∨ tok = cstr "text" ∨ tok = cstr "video" then none
            else if tok = cstr "bounce" then admin_info_tokens rest { a with ctmp2 := none }
            else admin_info_tokens rest a
        | some k =>
            let name := tok.take k
            let val := tok.drop (k + 1)
            let a1 := if name = cstr "mike" then { a with mike := some (atol val != 0) } else a
            let a2 := if name = cstr "text" then { a1 with text := some (atol val != 0) } else a1
            let a3 :=
              if name = cstr "video" then { a2 with video := some (atol val != 0) } else a2
            let a4 := if name = cstr "bounce" then { a3 with ctmp2 := some val } else a3
            admin_info_tokens rest a4

/-- The entries a list gets from the pieces `tokens2` of `g_strsplit`: the pieces up to the
first empty one (`for (j=0;tokens2[j] && *tokens2[j];j++) ... g_list_append`). -/
def admin_info_list (tokens2 : List (List Nat)) : List (List Nat) :=
  tokens2.takeWhile (fun t => !t.isEmpty)

/-- The assignments of `case PACKET_ROOM_ADMIN_INFO:` to the room: the flags, the bounce
list when `ctmp2` is not `NULL` (the pieces of `g_strsplit(ctmp2,BSEP,-1)`) and the ban
list when `ctmp3` is not `NULL` (the pieces of `g_strsplit(ctmp3,FSEP,-1)`); the old
entries are freed and the list is set to `NULL` before the new entries are appended. -/
def admin_info_apply (a : AdminInfo) (ctmp3 : Option (List Nat)) (rd : PTRoomData) :
    PTRoomData :=
  { rd with
    mike := a.mike.getD rd.mike,
    text := a.text.getD rd.text,
    video := a.video.getD rd.video,
    bounce := match a.ctmp2 with
      | some c => admin_info_list (g_strsplit_str c BSEP)
      | none => rd.bounce,
    ban := match ctmp3 with
      | some c => admin_info_list (g_strsplit c FSEP)
      | none => rd.ban }

/-- The label `case PACKET_ROOM_ADMIN_INFO:` of `pt_callback` on the frame `waitbuf` (with
the NUL bytes that end the buffer): the session afterwards.  `none` when the text has no
line break or no byte 0xC8 after it (`*ctmp = 0` and `*ctmp2 = 0` on `NULL`), when the
string at `waitbuf+12` is outside the buffer, or when a field of a room that is not open
is assigned. -/
def pt_callback_room_admin_info (ptd : PTData) (waitbuf : List Nat) : Option PTData :=
  match cstr_at waitbuf 6 with
  | none => none
  | some s =>
      match strchr s 10 with
      | none => none
      | some k =>
          let ctmp := s.drop (k + 1)
          match cstr_at (waitbuf.set (6 + k) 0) 12 with
          | none => none
          | some num =>
              let ltmp := atol num
              match strrchr ctmp 0xC8 with
              | none => none
              | some j =>
                  let ctmp2 := ctmp.drop (j + 1)
                  let ctmp3 : Option (List Nat) :=
                    if strncmp_eq ctmp2 (cstr "ban=") then some (ctmp2.drop 4) else none
                  match admin_info_tokens (g_strsplit (ctmp.take j) FSEP)
                      { ctmp2 := some ctmp2 } with
                  | none => none
                  | some a =>
                      match pt_get_room_data ptd ltmp with
                      | none =>
                          if a.mike.isNone ∧ a.text.isNone ∧ a.video.isNone
                              ∧ a.ctmp2.isNone ∧ ctmp3.isNone then some ptd
                          else none
                      | some _ =>
                          let chats := room_update (admin_info_apply a ctmp3) ltmp ptd.chats
                          some { ptd with chats := chats }

/-- Claim side: the ban list and the bounce list of every room of the session. -/
def spec_room_lists (ptd : PTData) : List (Int × List (List Nat) × List (List Nat)) :=
  ptd.chats.map (fun r => (r.id, r.ban, r.bounce))

/-- Example session: the user 7 owns room 42 and is an admin of it; one user is banned, one
bounced, and the bounce prompt is open for the user 9. -/
def session_owner_42 : PTData :=
  { uin := 7,
    chats := [{ id := 42, owner := 7, admin := true, u_bounce := 9, video := true,
                ban := [cstr "3,carol"], bounce := [cstr "1,alice"] }] }

/-- Example frame: `ROOM_ADMIN_INFO` for room 42 with the flags, a `bounce` value that
names two users with the byte 0xC8 between them, and two banned users after the last byte
0xC8. -/
def frame_admin_info_42 : List Nat :=
  [0x03, 0x84, 0x00, 0x53, 0x00, 0x47]
    ++ cstr "group=42\nmike=1\ntext=0\nvideo=1\nbounce=1,alice" ++ [0xC8] ++ cstr "2,bob\n"
    ++ [0xC8] ++ cstr "ban=3,carol\n4,dave" ++ [0, 0]

/-- Example frame: as `frame_admin_info_42`, with the two bytes of `BSEP` between the two
users of the `bounce` value. -/
def frame_admin_info_42_bsep : List Nat :=
  [0x03, 0x84, 0x00, 0x53, 0x00, 0x48]
    ++ cstr "group=42\nmike=1\ntext=0\nvideo=1\nbounce=1,alice" ++ BSEP ++ cstr "2,bob\n"
    ++ [0xC8] ++ cstr "ban=3,carol\n4,dave" ++ [0, 0]





/-! ## The indices of the product-id loop (`paltalk-core.c`, lines 337-354) -/

/-- The indices `j` at which the loop `for (i=0;i<strlen(IE_PRODUCT_ID);i++,j++) if
(g_ascii_isdigit(*(IE_PRODUCT_ID+i))) ctmp[j] = ...` of `case PACKET_UIN_FONTDEPTH_ETC:`
stores, in the order of the stores; the list is `IE_PRODUCT_ID[i..]`, `j` the value of the
`short j` (2 at the start). -/
def fontdepth_stores : List Nat → Int → List Int
  | [], _ => []
  | c :: rest, j =>
      (if g_ascii_isdigit c then [j] else []) ++ fontdepth_stores rest (s16 (j + 1))

/-- The block `g_strnfill(22,0)`: 22 bytes of the fill byte and the terminating NUL. -/
def fontdepth_block : List Nat := List.replicate 23 0



/-! ## Sending to a room (`paltalk-chat.c`, lines 79-116) -/

/-- What `pt_chat_send` leaves behind: its return value, the session, the frames written
to the server (one entry for each call of `pt_send_packet`) and the messages given to
`serv_got_chat_in`. -/
structure ChatSend where
  ret : Int := 1
  ptd : PTData
  out : List (List Nat) := []
  shown : List (List Nat) := []
  deriving DecidableEq, Repr

/-- The loop `for (i=0;tokens[i] && *tokens[i];i++)` of `pt_chat_send`: it ends at the
first empty token.  `echo` is `!strstr(what,"/w ")`, `conv` tells whether `gaim_find_chat`
found the conversation (`c->account` is read for the echo). -/
def chat_send_loop (now : Nat) (conv echo : Bool) (id : Int) :
    List (List Nat) → ChatSend → Option ChatSend
  | [], st => some st
  | tok :: rest, st =>
      if tok.isEmpty then some st
      else if echo && !conv then none
      else
        match pt_convert_from_html tok with
        | none => none
        | some tmp =>
            match pt_send_packet st.ptd now PACKET_ROOM_MESSAGE_OUT
                [VaArg.str tmp, VaArg.num id] with
            | none => none
            | some r =>
                chat_send_loop now conv echo id rest
                  { st with ptd := r.1, out := st.out ++ [r.2],
                            shown := if echo then st.shown ++ [tok] else st.shown }

/-- The function `pt_chat_send(gc, id, what)`; `conv` tells whether the chat `id` has a
conversation.  `none` when `c->account` is read with `c` being `NULL` or a conversion has
no defined result. -/
def pt_chat_send (ptd : PTData) (now : Nat) (conv : Bool) (id : Int) (what : List Nat) :
    Option ChatSend :=
  let echo := (strstr what (cstr "/w ")).isNone
  if (strchr what 10).isSome then
    chat_send_loop now conv echo id (g_strsplit what 10) { ptd := ptd }
  else if (strstr what (cstr "<br>")).isSome then
    chat_send_loop now conv echo id (g_strsplit_str what (cstr "<br>")) { ptd := ptd }
  else
    match pt_convert_from_html what with
    | none => none
    | some tmp =>
        match pt_send_packet ptd now PACKET_ROOM_MESSAGE_OUT [VaArg.str tmp, VaArg.num id] with
        | none => none
        | some r => if conv then some { ptd := r.1, out := [r.2], shown := [what] } else none

/-- The frame `ROOM_MESSAGE_OUT` with the text `tmp` for the room `id`. -/
def room_message_out (tmp : List Nat) (id : Int) : List Nat :=
  packet_header PACKET_ROOM_MESSAGE_OUT
    ++ (htons_bytes (tmp.length + 4) ++ (htonl_bytes id ++ tmp))

/-- Claim side: the non-empty lines of a message. -/
def spec_nonempty_lines (what : List Nat) : List (List Nat) :=
  (split_on 10 what).filter (fun t => !t.isEmpty)

/-- Claim side: the lines of a message before its first empty line. -/
def spec_leading_lines (what : List Nat) : List (List Nat) :=
  (g_strsplit what 10).takeWhile (fun t => !t.isEmpty)



/-! ## The reference count of a device handle (`device.c`, lines 101-140 and 335-400) -/

/-- The structure `GaimMediaDeviceHandle` as far as its life goes: the `guint refc`, the
flag `paused`, and whether `oss_dev_destroy` has freed the handle. -/
structure GaimMediaDeviceHandle where
  refc : Nat := 0
  paused : Bool := false
  destroyed : Bool := false
  deriving DecidableEq, Repr

/-- The function `oss_dev_destroy(h)`: the handle is freed. -/
def oss_dev_destroy (h : GaimMediaDeviceHandle) : GaimMediaDeviceHandle :=
  { h with destroyed := true }

/-- The function `oss_dev_unref(handle)`; `none` when the handle has been freed before. -/
def oss_dev_unref (dev : GaimMediaDeviceHandle) : Option GaimMediaDeviceHandle :=
  if dev.destroyed then none
  else if dev.refc = 0 then some (oss_dev_destroy dev)
  else some { dev with refc := dev.refc - 1 }

/-- The function `oss_dev_ref(handle)`: `dev->refc++` on a `guint`; `none` when the handle
has been freed before. -/
def oss_dev_ref (dev : GaimMediaDeviceHandle) : Option GaimMediaDeviceHandle :=
  if dev.destroyed then none
  else some { dev with refc := (dev.refc + 1) % 4294967296 }

/-- The function `oss_open(id, mode)`: `id` is `none` for `NULL`, `openable` tells whether
`open(id, flags)` succeeds; the result `none` is `NULL`. -/
def oss_open (id : Option (List Nat)) (openable : Bool) : Option GaimMediaDeviceHandle :=
  match id with
  | none => none
  | some _ => if openable then some { refc := 1 } else none

/-- The function `oss_close(handle)`; `none` when the handle has been freed before. -/
def oss_close (h : GaimMediaDeviceHandle) : Option GaimMediaDeviceHandle :=
  if h.destroyed then none
  else if h.refc > 0 then oss_dev_unref h
  else some (oss_dev_destroy h)

/-- The test `dev->refc > 0 && !dev->paused` of the loop of `oss_dev_write_thread`. -/
def oss_dev_write_thread_runs (dev : GaimMediaDeviceHandle) : Bool :=
  decide (dev.refc > 0) && !dev.paused

/-- A call of `h->ref(h)` or of `h->unref(h)`. -/
inductive DevOp where
  | ref
  | unref
  deriving DecidableEq, Repr

/-- The calls `ops` made in turn on the handle. -/
def oss_dev_ops (dev : GaimMediaDeviceHandle) : List DevOp → Option GaimMediaDeviceHandle
  | [] => some dev
  | DevOp.ref :: rest =>
      match oss_dev_ref dev with
      | none => none
      | some d => oss_dev_ops d rest
  | DevOp.unref :: rest =>
      match oss_dev_unref dev with
      | none => none
      | some d => oss_dev_ops d rest

/-- Claim side: starting from the count `c`, no call of unref in `ops` comes when the
count is 0. -/
def spec_order_ok : Nat → List DevOp → Bool
  | _, [] => true
  | c, DevOp.ref :: rest => spec_order_ok (c + 1) rest
  | c, DevOp.unref :: rest => decide (1 ≤ c) && spec_order_ok (c - 1) rest

/-! ## The frames after the login, byte by byte (claim side) -/
/-- Claim side: the session after a string `s` was encoded: the time counter has advanced
by one step for each character. -/
def spec_after (d : PTData) (s : List Nat) : PTData :=
  { d with time := spec_time d.time s.length }

/-- Claim side: the session after the six strings of `CHECKSUMS` were encoded. -/
def spec_checksums_after (d : PTData) : PTData :=
  spec_after (spec_after (spec_after (spec_after (spec_after (spec_after d (checksums 0))
    (checksums 1)) (checksums 2)) (checksums 3)) (checksums 4)) (cstr "0")

/-- Claim side: the frame `CHECKSUMS` of a session `d`: the five constants and `"0"`, each
encoded under variant 1 from the time the one before left, with line feeds between them,
after the length field. -/
def spec_checksums_frame (d : PTData) : List Nat :=
  let c1 := spec_after d (checksums 0)
  let c2 := spec_after c1 (checksums 1)
  let c3 := spec_after c2 (checksums 2)
  let c4 := spec_after c3 (checksums 3)
  let c5 := spec_after c4 (checksums 4)
  let e0 := spec_encode d (checksums 0) 1 0
  let e1 := spec_encode c1 (checksums 1) 1 0
  let e2 := spec_encode c2 (checksums 2) 1 0
  let e3 := spec_encode c3 (checksums 3) 1 0
  let e4 := spec_encode c4 (checksums 4) 1 0
  let e5 := spec_encode c5 (cstr "0") 1 0
  packet_header PACKET_CHECKSUMS
    ++ (htons_bytes (e0.length + 9 + e1.length + e2.length + e3.length + e4.length)
    ++ (e0 ++ [10] ++ e1 ++ [10] ++ e2 ++ [10] ++ e3 ++ [10] ++ e4 ++ [10] ++ e5))

/-- Claim side: the session at the start of `VERSIONS`: one more step of the time counter,
and the number `wierd` set to 0. -/
def spec_versions_start (d : PTData) : PTData :=
  { d with time := next_time d.time, wierd := 0 }

/-- Claim side: the session after the six strings of `VERSIONS` were encoded. -/
def spec_versions_after (d : PTData) : PTData :=
  spec_after (spec_after (spec_after (spec_after (spec_after (spec_after
    (spec_versions_start d) (cstr "261308E2")) (cstr "????????")) WINBLOWS_VERSION)
    MAC_ADDRESS) (cstr "-1")) IE_PRODUCT_ID

/-- Claim side: the frame `VERSIONS` of a session `d`: the length field, six constant
bytes, the UIN, the address and port of the host, and the text `0,s2,s3,s4,s5,s6,0,0,s6,s7`
of the six strings encoded under variant 3 with the base 0. -/
def spec_versions_frame (d : PTData) : List Nat :=
  let v0 := spec_versions_start d
  let v1 := spec_after v0 (cstr "261308E2")
  let v2 := spec_after v1 (cstr "????????")
  let v3 := spec_after v2 WINBLOWS_VERSION
  let v4 := spec_after v3 MAC_ADDRESS
  let v5 := spec_after v4 (cstr "-1")
  let s2 := spec_encode v0 (cstr "261308E2") 3 0
  let s3 := spec_encode v1 (cstr "????????") 3 0
  let s4 := spec_encode v2 WINBLOWS_VERSION 3 0
  let s5 := spec_encode v3 MAC_ADDRESS 3 0
  let s6 := spec_encode v4 (cstr "-1") 3 0
  let s7 := spec_encode v5 IE_PRODUCT_ID 3 0
  packet_header PACKET_VERSIONS
    ++ (htons_bytes (s2.length + 27 + s3.length + s4.length + s5.length + s6.length * 2
          + s7.length + 1)
    ++ ([0x00, 0x00, 0x00, 0x00, 0x00, 0x01] ++ htonl_bytes d.uin
    ++ [d.sin_addr.getD 0 0, d.sin_addr.getD 1 0, d.sin_addr.getD 2 0, d.sin_addr.getD 3 0]
    ++ [d.sin_port.getD 0 0, d.sin_port.getD 1 0]
    ++ cstr "0" ++ [44] ++ s2 ++ [44] ++ s3 ++ [44] ++ s4 ++ [44] ++ s5 ++ [44] ++ s6
    ++ cstr ",0,0," ++ s6 ++ [44] ++ s7))

/-- Claim side: the frame `UIN_FONTDEPTH_ETC`: the UIN and the block of 22 bytes, two
digits of the time of day and the permuted digits of the product id. -/
def spec_fontdepth_frame (uin : Int) (now : Nat) : List Nat :=
  packet_header PACKET_UIN_FONTDEPTH_ETC
    ++ ([0x00, 0x24] ++ ([0x00, 0x00, 0x00, 0x00, 0x00, 0x01] ++ htonl_bytes uin
    ++ [0x00, 0x00, 0x04, 0x45]
    ++ [INIT_TIME now % 7 + 48, INIT_TIME now % 3 + 48, 94, 91, 99, 99, 96, 0, 93, 94, 97,
        0, 98, 96, 96, 101, 97, 91, 97, 0, 92, 102]))

/-- Claim side: the frame `VERSION_INFO`. -/
def spec_version_info_frame : List Nat :=
  packet_header PACKET_VERSION_INFO
    ++ ([0x00, 0x26] ++ cstr "\x7b0A7FA8AB-9BC1-49b6-9C66-5AFFA4CD57AB\x7d")

/-- Claim side: the four frames that follow the first `BUDDY_STATUSCHANGE`, byte by
byte. -/
def spec_login_frames (ptd : PTData) (now : Nat) : List (List Nat) :=
  [spec_checksums_frame ptd, spec_versions_frame (spec_checksums_after ptd),
   spec_fontdepth_frame ptd.uin now, spec_version_info_frame]

/-- Example value: the four frames written for `session_login_777` at the time 5. -/
def login_frames_777 : List (List Nat) :=
  [[0xF7, 0xB5, 0x00, 0x53, 0x00, 0xB1]
     ++ cstr "25002872\n"
     ++ cstr "250329013102310031153334247033643080\n"
     ++ cstr "2423288330403065312132732443332731353270\n"
     ++ cstr "23812880302230713074327725213325307032212377\n"
     ++ cstr "2386295730973110308333152502339230763244\n"
     ++ cstr "2413",
   [0xF7, 0xCA, 0x00, 0x53, 0x01, 0x30, 0, 0, 0, 0, 0, 1, 0, 0, 3, 9, 0, 0, 0, 0, 0, 0]
     ++ cstr "0,"
     ++ cstr "24332823283727922751297022972985,"
     ++ cstr "25632913297329112901304622313116,"
     ++ cstr "24612740282127402774290021713012273529602102280221432895,"
     ++ cstr "241527602880293329702911227629602753302122002840,"
     ++ cstr "23832771,"
     ++ cstr "0,"
     ++ cstr "0,"
     ++ cstr "23832771,"
     ++ cstr "24622775290028302781286521102991280229162210284421952900293629002251286028573140"
     ++ cstr "230230153056",
   [0xF7, 0xCC, 0x00, 0x53, 0x00, 0x24, 0, 0, 0, 0, 0, 1, 0, 0, 3, 9, 0, 0, 4, 69,
    48, 48, 94, 91, 99, 99, 96, 0, 93, 94, 97, 0, 98, 96, 96, 101, 97, 91, 97, 0, 92, 102],
   [0xF7, 0xB0, 0x00, 0x53, 0x00, 0x26]
     ++ cstr "\x7b0A7FA8AB-9BC1-49b6-9C66-5AFFA4CD57AB\x7d"]


/-! # Theorems -/

/-! ## Obfuscation -/

set_option maxRecDepth 100000 in
theorem lymerick_length : lymerick.length = 354 := by decide

theorem ENCODE_TIME_DIGIT_eq_floor (X : Nat) :
    ENCODE_TIME_DIGIT X =
      Nat.floor ((((((X * 214013 + 2530876) % 2 ^ LONG_BITS) >>> 16) &&& 0x7FFF : Nat) : ℚ)
        / 32678 * 10) &&& 7 := by
  unfold ENCODE_TIME_DIGIT
  congr 1
  rw [← Nat.floor_div_eq_div (α := ℚ)]
  congr 1
  push_cast
  ring

theorem ENCODE_TIME_DIGIT_le (X : Nat) : ENCODE_TIME_DIGIT X ≤ 7 := by
  unfold ENCODE_TIME_DIGIT
  exact Nat.and_le_right

theorem printf_d_small (d : Nat) (h : d ≤ 7) : printf_d (d : Int) = [48 + d] := by
  interval_cases d <;> rfl


theorem lymerick_at_inside (idx : Int) (h0 : 0 ≤ idx) (h1 : idx < lymerick.length) :
    lymerick_at idx = some (schar (lymerick.getD idx.toNat 0)) := by
  unfold lymerick_at
  have h2 : idx.toNat < lymerick.length := by omega
  rw [if_neg (by omega), if_neg (by omega)]
  rw [List.getD_eq_getElem?_getD, List.get?_eq_getElem?, List.getElem?_eq_getElem h2]
  simp only [Option.map_some', Option.getD_some]


theorem spec_time_shift (t0 : Nat) (k : Nat) :
    spec_time (next_time t0) k = spec_time t0 (k + 1) := by
  induction k with
  | zero => simp only [spec_time, next_time]
  | succ n ih => rw [spec_time, ih]; simp only [spec_time]

theorem spec_digit_eq (t0 i : Nat) : spec_digit t0 i = ENCODE_TIME_DIGIT (spec_time t0 i) := by
  rw [ENCODE_TIME_DIGIT_eq_floor]
  simp only [spec_digit, spec_time]

theorem range_succ_map_flatten {α : Type} (n : Nat) (f : Nat → List α) :
    ((List.range (n + 1)).map f).flatten
      = f 0 ++ ((List.range n).map (fun k => f (k + 1))).flatten := by
  rw [List.range_succ_eq_map]
  simp [List.map_map, Function.comp_def]

theorem loop01_spec (cb : Int) : ∀ (rest : List Nat) (i time : Nat) (out : List Nat),
    (∀ k < rest.length, 0 ≤ cb + ((i + k : Nat) : Int) ∧ cb + ((i + k : Nat) : Int) < lymerick.length) →
    pt_encode_loop01 cb rest i time out =
      some (out ++ ((List.range rest.length).map (fun k =>
          printf_prec_d 3 (122 + (((i + k : Nat) : Int) * (13 - ((i + k : Nat) : Int)))
              + schar (rest.getD k 0)
              + schar (lymerick.getD (cb + ((i + k : Nat) : Int)).toNat 0))
            ++ [48 + ENCODE_TIME_DIGIT (spec_time time k)])).flatten,
        spec_time time rest.length) := by
  intro rest
  induction rest with
  | nil => intro i time out _; simp [pt_encode_loop01, spec_time]
  | cons c rest ih =>
      intro i time out h
      have h0 := h 0 (by simp)
      simp only [Nat.add_zero] at h0
      rewrite [pt_encode_loop01, lymerick_at_inside _ h0.1 h0.2]
      simp only
      rewrite [ih (i + 1) (next_time time) _ (fun k hk => by
        have := h (k + 1) (by simpa using hk)
        rw [show i + 1 + k = i + (k + 1) by omega]; exact this)]
      rewrite [List.length_cons, range_succ_map_flatten]
      simp only [Nat.add_zero, List.getD_cons_zero, List.getD_cons_succ, List.append_assoc,
        printf_d_small _ (ENCODE_TIME_DIGIT_le time), spec_time_shift]
      simp only [show ∀ k, i + 1 + k = i + (k + 1) from fun k => by omega]
      rfl


theorem loop23_spec (cb : Int) : ∀ (rest : List Nat) (i time : Nat) (out : List Nat),
    (∀ k < rest.length, 0 ≤ cb + ((i + k : Nat) : Int) ∧ cb + ((i + k : Nat) : Int) < lymerick.length) →
    pt_encode_loop23 cb rest i time out =
      some (out ++ ((List.range rest.length).map (fun k =>
          printf_prec_d 3 (122 + ((i + k : Nat) : Int)
              + schar (rest.getD k 0)
              + schar (lymerick.getD (cb + ((i + k : Nat) : Int)).toNat 0))
            ++ [48 + ENCODE_TIME_DIGIT (spec_time time k)])).flatten,
        spec_time time rest.length) := by
  intro rest
  induction rest with
  | nil => intro i time out _; simp [pt_encode_loop23, spec_time]
  | cons c rest ih =>
      intro i time out h
      have h0 := h 0 (by simp)
      simp only [Nat.add_zero] at h0
      rewrite [pt_encode_loop23, lymerick_at_inside _ h0.1 h0.2]
      simp only
      rewrite [ih (i + 1) (next_time time) _ (fun k hk => by
        have := h (k + 1) (by simpa using hk)
        rw [show i + 1 + k = i + (k + 1) by omega]; exact this)]
      rewrite [List.length_cons, range_succ_map_flatten]
      simp only [Nat.add_zero, List.getD_cons_zero, List.getD_cons_succ, List.append_assoc,
        printf_d_small _ (ENCODE_TIME_DIGIT_le time), spec_time_shift]
      simp only [show ∀ k, i + 1 + k = i + (k + 1) from fun k => by omega]
      rfl

theorem loop4_spec (a : Int) : ∀ (rest : List Nat) (i : Nat) (cb : Int) (time : Nat)
    (out : List Nat),
    (∀ k < rest.length, 0 ≤ a + ((i + k : Nat) : Int) ∧ a + ((i + k : Nat) : Int) < lymerick.length) →
    pt_encode_loop4 a rest i cb time out =
      some (out ++ ((List.range rest.length).map (fun k =>
          printf_prec_d 3 (122 + schar (rest.getD k 0)
              + schar (lymerick.getD (a + ((i + k : Nat) : Int)).toNat 0)
              + (cb - (k : Int)) * ((i + k : Nat) : Int))
            ++ [48 + ENCODE_TIME_DIGIT (spec_time time k)])).flatten,
        spec_time time rest.length) := by
  intro rest
  induction rest with
  | nil => intro i cb time out _; simp [pt_encode_loop4, spec_time]
  | cons c rest ih =>
      intro i cb time out h
      have h0 := h 0 (by simp)
      simp only [Nat.add_zero] at h0
      rewrite [pt_encode_loop4, lymerick_at_inside _ h0.1 h0.2]
      simp only
      rewrite [ih (i + 1) (cb - 1) (next_time time) _ (fun k hk => by
        have := h (k + 1) (by simpa using hk)
        rw [show i + 1 + k = i + (k + 1) by omega]; exact this)]
      rewrite [List.length_cons, range_succ_map_flatten]
      simp only [Nat.add_zero, List.getD_cons_zero, List.getD_cons_succ, List.append_assoc,
        printf_d_small _ (ENCODE_TIME_DIGIT_le time), spec_time_shift, Nat.cast_zero, sub_zero]
      simp only [show ∀ k, i + 1 + k = i + (k + 1) from fun k => by omega,
        show ∀ k : Nat, cb - 1 - (k : Int) = cb - ((k + 1 : Nat) : Int) from fun k => by
          push_cast; ring]
      rfl

theorem map_flatten_congr {α : Type} (n : Nat) (f g : Nat → List α)
    (h : ∀ k < n, f k = g k) :
    ((List.range n).map f).flatten = ((List.range n).map g).flatten := by
  congr 1
  apply List.map_congr_left
  intro k hk
  exact h k (List.mem_range.mp hk)

/-- Closed form of `pt_encode`: the loops of the source compute `spec_encode` and advance
the session time by one step per input character. -/
theorem pt_encode_closed_form (data : PTData) (s : List Nat) (v a : Int)
    (hv : v = 0 ∨ v = 1 ∨ v = 2 ∨ v = 3 ∨ v = 4)
    (hkey : v = 1 ∨ v = 2 → ∃ key, data.serverkey = some key ∧ 7 ≤ key.length)
    (hidx : ∀ i < s.length, 0 ≤ spec_base data v a + (i : Int) ∧
      spec_base data v a + (i : Int) < lymerick.length) :
    pt_encode data s v a =
      some (spec_encode data s v a, { data with time := spec_time data.time s.length }) := by
  unfold pt_encode spec_encode
  rcases hv with hv | hv | hv | hv | hv <;> subst hv
  · have hb : spec_base data 0 a = 42 := by simp [spec_base]
    rw [hb] at hidx
    simp only [show ¬ ((0:Int) = 1 ∨ (0:Int) = 2) by decide, if_false, true_or, if_true]
    rewrite [loop01_spec 42 s 0 data.time [] (by simpa using hidx)]
    simp only [Option.map_some', List.nil_append, Nat.zero_add]
    congr 2
    apply map_flatten_congr
    intro k _
    simp [spec_group, spec_V, spec_digit_eq, hb]
  · obtain ⟨key, hk, hlen⟩ := hkey (Or.inl rfl)
    have hb : spec_base data 1 a = atoi ((key.drop 4).take 3) - 509 := by
      simp [spec_base, hk]
    rw [hb] at hidx
    simp only [true_or, or_true, if_true, hk, hlen]
    rewrite [loop01_spec _ s 0 data.time [] (by simpa using hidx)]
    simp only [Option.map_some', List.nil_append, Nat.zero_add]
    congr 2
    apply map_flatten_congr
    intro k _
    simp [spec_group, spec_V, spec_digit_eq, hb]
  · obtain ⟨key, hk, hlen⟩ := hkey (Or.inr rfl)
    have hb : spec_base data 2 a = atoi ((key.drop 4).take 3) - 509 := by
      simp [spec_base, hk]
    rw [hb] at hidx
    simp only [true_or, or_true, if_true, hk, hlen,
      show ¬ ((2:Int) = 0 ∨ (2:Int) = 1) by decide, show ¬ ((2:Int) = 3) by decide, if_false]
    rewrite [loop23_spec _ s 0 data.time [] (by simpa using hidx)]
    simp only [Option.map_some', List.nil_append, Nat.zero_add]
    congr 2
    apply map_flatten_congr
    intro k _
    simp [spec_group, spec_V, spec_digit_eq, hb]
  · have hb : spec_base data 3 a = data.wierd := by simp [spec_base]
    rw [hb] at hidx
    simp only [show ¬ ((3:Int) = 1 ∨ (3:Int) = 2) by decide,
      show ¬ ((3:Int) = 0 ∨ (3:Int) = 1) by decide, if_false, if_true]
    rewrite [loop23_spec _ s 0 data.time [] (by simpa using hidx)]
    simp only [Option.map_some', List.nil_append, Nat.zero_add]
    congr 2
    apply map_flatten_congr
    intro k _
    simp [spec_group, spec_V, spec_digit_eq, hb]
  · have hb : spec_base data 4 a = a := by simp [spec_base]
    rw [hb] at hidx
    simp only [show ¬ ((4:Int) = 0) by decide, show ¬ ((4:Int) = 1) by decide,
      show ¬ ((4:Int) = 2) by decide, show ¬ ((4:Int) = 3) by decide, or_self, if_false,
      if_true]
    rewrite [loop4_spec _ s 0 13 data.time [] (by simpa using hidx)]
    simp only [Option.map_some', List.nil_append, Nat.zero_add]
    congr 2
    apply map_flatten_congr
    intro k _
    simp [spec_group, spec_V, spec_digit_eq, hb]

/-- C4: with every charm index inside the charm string (and, for variants 1 and 2, a
server key of at least seven characters), `pt_encode` returns the concatenation of the
groups `printf("%.3ld", V(i))` followed by the time digit, and leaves the session time at
`t_|s|`. -/
theorem pt_encode_eq_spec (data : PTData) (s : List Nat) (v a : Int)
    (hv : v = 0 ∨ v = 1 ∨ v = 2 ∨ v = 3 ∨ v = 4)
    (hkey : v = 1 ∨ v = 2 → ∃ key, data.serverkey = some key ∧ 7 ≤ key.length)
    (hidx : ∀ i < s.length, 0 ≤ spec_base data v a + (i : Int) ∧
      spec_base data v a + (i : Int) < lymerick.length) :
    pt_encode data s v a =
      some (spec_encode data s v a, { data with time := spec_time data.time s.length }) :=
  pt_encode_closed_form data s v a hv hkey hidx

set_option maxRecDepth 100000 in
/-- C4 (witness): the session with key `XXXX509` and time 0 encodes `"90"` under variant 1
to the two groups `2500` and `2872`. -/
theorem pt_encode_eq_spec_witness :
    pt_encode session_509 (cstr "90") 1 0 =
      some (spec_encode session_509 (cstr "90") 1 0,
        { serverkey := some (cstr "XXXX509"),
          time := spec_time (0 : Nat) (cstr "90").length }) ∧
    pt_encode session_509 (cstr "90") 1 0 =
      some (cstr "25002872", { serverkey := some (cstr "XXXX509"), time := 477016968 }) :=
  ⟨pt_encode_eq_spec session_509 (cstr "90") 1 0
    (by decide) (fun _ => ⟨cstr "XXXX509", rfl, by decide⟩)
    (by
      intro i hi
      have hi2 : i < 2 := hi
      rw [lymerick_length]
      interval_cases i <;> decide), by decide⟩


set_option maxRecDepth 100000 in
theorem lymerick_head : lymerick.getD 0 0 = 71 ∧ lymerick.getD 1 0 = 105 := by decide

theorem pt_encode_ninety (data : PTData) (key : List Nat) (a : Int)
    (hk : data.serverkey = some key) (hlen : 7 ≤ key.length)
    (h509 : (key.drop 4).take 3 = cstr "509") :
    pt_encode data (cstr "90") 1 a =
      some (cstr "250" ++ [48 + spec_digit data.time 0] ++ (cstr "287"
              ++ [48 + spec_digit data.time 1]),
            { data with time := spec_time data.time 2 }) := by
  have hb : spec_base data 1 a = 0 := by
    simp only [spec_base, hk, Option.getD_some, h509, show ¬ ((1:Int) = 0) by decide, if_false,
      true_or, if_true, show atoi (cstr "509") = 509 by decide]
    decide
  have hpt := pt_encode_closed_form data (cstr "90") 1 a (by decide) (fun _ => ⟨key, hk, hlen⟩)
    (by
      intro i hi
      have hi2 : i < 2 := hi
      rw [hb, lymerick_length]
      omega)
  have h0 : spec_V data (cstr "90") 1 a 0 = 250 := by
    simp only [spec_V, hb, or_true, if_true, Nat.cast_zero, add_zero, Int.toNat_zero,
      lymerick_head.1]
    decide
  have h1 : spec_V data (cstr "90") 1 a 1 = 287 := by
    simp only [spec_V, hb, or_true, if_true, Nat.cast_one, zero_add, Int.toNat_one,
      lymerick_head.2]
    decide
  have e : spec_encode data (cstr "90") 1 a =
      spec_group data (cstr "90") 1 a 0 ++ spec_group data (cstr "90") 1 a 1 := by
    simp only [spec_encode, show (cstr "90").length = 2 by decide,
      show List.range 2 = [0, 1] by decide, List.map_cons, List.map_nil, List.flatten_cons,
      List.flatten_nil, List.append_nil]
  have g0 : spec_group data (cstr "90") 1 a 0 = cstr "250" ++ [48 + spec_digit data.time 0] := by
    simp only [spec_group, h0]
    exact congrArg (fun x => x ++ [48 + spec_digit data.time 0])
      (show printf_prec_d 3 250 = cstr "250" by decide)
  have g1 : spec_group data (cstr "90") 1 a 1 = cstr "287" ++ [48 + spec_digit data.time 1] := by
    simp only [spec_group, h1]
    exact congrArg (fun x => x ++ [48 + spec_digit data.time 1])
      (show printf_prec_d 3 287 = cstr "287" by decide)
  rewrite [e, g0, g1, show (cstr "90").length = 2 by decide] at hpt
  exact hpt

theorem dec_digits_aux_digits : ∀ (fuel n : Nat) (acc : List Nat),
    (∀ c ∈ acc, 48 ≤ c ∧ c ≤ 57) → ∀ c ∈ dec_digits_aux fuel n acc, 48 ≤ c ∧ c ≤ 57 := by
  intro fuel
  induction fuel with
  | zero => intro n acc h; simpa [dec_digits_aux] using h
  | succ f ih =>
      intro n acc h
      have hacc : ∀ c ∈ (48 + n % 10) :: acc, 48 ≤ c ∧ c ≤ 57 := by
        intro c hc
        rcases List.mem_cons.mp hc with hc | hc
        · subst hc; omega
        · exact h c hc
      rw [dec_digits_aux]
      split
      · exact hacc
      · exact ih _ _ hacc

theorem dec_digits_aux_length : ∀ (fuel n : Nat) (acc : List Nat) (k : Nat),
    1 ≤ k → n < 10 ^ k → (dec_digits_aux fuel n acc).length ≤ acc.length + k := by
  intro fuel
  induction fuel with
  | zero => intro n acc k _ _; simp [dec_digits_aux]
  | succ f ih =>
      intro n acc k hk hn
      rw [dec_digits_aux]
      split
      · simp only [List.length_cons]; omega
      · rename_i hne
        have h10 : 10 ≤ n := by omega
        have hk2 : 2 ≤ k := by
          rcases Nat.lt_or_ge k 2 with h | h
          · have : k = 1 := by omega
            subst this
            simp at hn
            omega
          · exact h
        have hdiv : n / 10 < 10 ^ (k - 1) := by
          rw [Nat.div_lt_iff_lt_mul (by decide)]
          have : 10 ^ (k - 1) * 10 = 10 ^ k := by
            rw [← pow_succ]; congr 1; omega
          omega
        have := ih (n / 10) ((48 + n % 10) :: acc) (k - 1) (by omega) hdiv
        simp only [List.length_cons] at this
        omega

theorem dec_digits_aux_length_pos : ∀ (fuel n : Nat) (acc : List Nat),
    acc.length + 1 ≤ (dec_digits_aux (fuel + 1) n acc).length := by
  intro fuel
  induction fuel with
  | zero =>
      intro n acc
      rw [dec_digits_aux]
      split <;> simp [dec_digits_aux]
  | succ f ih =>
      intro n acc
      rw [dec_digits_aux]
      split
      · simp
      · have := ih (n / 10) ((48 + n % 10) :: acc)
        simp only [List.length_cons] at this
        omega

theorem printf3_length (v : Int) (h0 : 0 ≤ v) (h1 : v ≤ 999) :
    (printf_prec_d 3 v).length = 3 := by
  unfold printf_prec_d
  have hlen : (dec_digits v.natAbs).length ≤ 3 := by
    have := dec_digits_aux_length (v.natAbs + 1) v.natAbs [] 3 (by decide) (by omega)
    simpa [dec_digits] using this
  simp only [if_neg (not_lt.mpr h0), List.length_append, List.length_replicate]
  omega

theorem printf3_digits (v : Int) (h0 : 0 ≤ v) :
    ∀ c ∈ printf_prec_d 3 v, 48 ≤ c ∧ c ≤ 57 := by
  unfold printf_prec_d
  simp only [if_neg (not_lt.mpr h0)]
  intro c hc
  rcases List.mem_append.mp hc with hc | hc
  · rw [List.mem_replicate] at hc
    omega
  · exact dec_digits_aux_digits _ _ [] (by simp) c hc

theorem printf_neg_head (prec : Nat) (v : Int) (h : v < 0) :
    (printf_prec_d prec v).head? = some 45 := by
  unfold printf_prec_d
  simp [h]


theorem flatten_four_length {α : Type} : ∀ (L : List (List α)),
    (∀ g ∈ L, g.length = 4) → L.flatten.length = 4 * L.length := by
  intro L
  induction L with
  | nil => intro _; rfl
  | cons g L ih =>
      intro h
      have hg := h g (List.mem_cons_self _ _)
      have := ih (fun x hx => h x (List.mem_cons_of_mem _ hx))
      simp only [List.flatten_cons, List.length_append, List.length_cons]
      omega

theorem flatten_four_get {α : Type} : ∀ (L : List (List α)) (i j : Nat),
    (∀ g ∈ L, g.length = 4) → j < 4 →
    L.flatten.get? (4 * i + j) = (L.get? i).bind (fun g => g.get? j) := by
  intro L
  induction L with
  | nil => intro i j _ _; simp
  | cons g L ih =>
      intro i j h hj
      have hg := h g (List.mem_cons_self _ _)
      cases i with
      | zero =>
          simp only [List.flatten_cons, Nat.mul_zero, Nat.zero_add, List.get?_eq_getElem?,
            List.getElem?_cons_zero, Option.some_bind]
          rw [List.getElem?_append_left (by omega)]
      | succ i =>
          have := ih i j (fun x hx => h x (List.mem_cons_of_mem _ hx)) hj
          simp only [List.get?_eq_getElem?] at this
          simp only [List.flatten_cons, List.get?_eq_getElem?, List.getElem?_cons_succ]
          rw [List.getElem?_append_right (by omega)]
          rw [show 4 * (i + 1) + j - g.length = 4 * i + j by omega]
          exact this

set_option maxRecDepth 100000 in
theorem lymerick_bounds : ∀ c ∈ lymerick, 13 ≤ c ∧ c ≤ 122 := by decide

theorem lymerick_getD_bounds (j : Nat) (h : j < lymerick.length) :
    13 ≤ schar (lymerick.getD j 0) ∧ schar (lymerick.getD j 0) ≤ 122 := by
  have hm : lymerick.getD j 0 ∈ lymerick := by
    rw [List.getD_eq_getElem _ _ h]
    exact List.getElem_mem h
  have := lymerick_bounds _ hm
  unfold schar
  split <;> omega

theorem schar_bounds (c : Nat) (h : c < 256) : -128 ≤ schar c ∧ schar c ≤ 127 := by
  unfold schar
  split <;> omega

theorem getD_byte (s : List Nat) (hs : ∀ c ∈ s, c < 256) (i : Nat) : s.getD i 0 < 256 := by
  rcases Nat.lt_or_ge i s.length with h | h
  · rw [List.getD_eq_getElem _ _ h]
    exact hs _ (List.getElem_mem h)
  · rw [List.getD_eq_default _ _ h]
    decide


theorem spec_V_bounds (data : PTData) (s : List Nat) (v a : Int)
    (hv : v = 0 ∨ v = 1 ∨ v = 2 ∨ v = 3 ∨ v = 4)
    (hidx : ∀ i < s.length, 0 ≤ spec_base data v a + (i : Int) ∧
      spec_base data v a + (i : Int) < lymerick.length)
    (hs : ∀ c ∈ s, c < 256) (hsmall : v = 2 ∨ v = 3 ∨ s.length ≤ 14) :
    ∀ i < s.length, 0 ≤ spec_V data s v a i ∧ spec_V data s v a i ≤ 999 := by
  intro i hi
  have hL := lymerick_getD_bounds (spec_base data v a + (i : Int)).toNat
    (by have := hidx i hi; omega)
  have hc := schar_bounds _ (getD_byte s hs i)
  have hlen := lymerick_length
  have hi2 : (i : Int) < 354 := by
    have h0 := hidx 0 (by omega)
    have h1 := hidx i hi
    rw [hlen] at h1
    simp only [Nat.cast_zero, add_zero] at h0
    omega
  unfold spec_V
  simp only
  generalize schar (s.getD i 0) = si at hc ⊢
  generalize schar (lymerick.getD (spec_base data v a + (i : Int)).toNat 0) = l at hL ⊢
  rcases hv with hv | hv | hv | hv | hv <;> subst hv
  · have h14 : i < 14 := by omega
    simp only [true_or, if_true]
    interval_cases i <;> simp <;> omega
  · have h14 : i < 14 := by omega
    simp only [or_true, if_true]
    interval_cases i <;> simp <;> omega
  · simp only [show ¬ ((2:Int) = 0 ∨ (2:Int) = 1) by decide, if_false, true_or, if_true]
    omega
  · simp only [show ¬ ((3:Int) = 0 ∨ (3:Int) = 1) by decide, if_false, or_true, if_true]
    omega
  · have h14 : i < 14 := by omega
    simp only [show ¬ ((4:Int) = 0 ∨ (4:Int) = 1) by decide,
      show ¬ ((4:Int) = 2 ∨ (4:Int) = 3) by decide, if_false]
    interval_cases i <;> simp <;> omega


theorem spec_group_length (data : PTData) (s : List Nat) (v a : Int) (i : Nat)
    (h : 0 ≤ spec_V data s v a i ∧ spec_V data s v a i ≤ 999) :
    (spec_group data s v a i).length = 4 := by
  unfold spec_group
  rw [List.length_append, printf3_length _ h.1 h.2]
  rfl

theorem spec_digit_le (t0 i : Nat) : spec_digit t0 i ≤ 7 := by
  rw [spec_digit_eq]
  exact ENCODE_TIME_DIGIT_le _

/-- Shape of the output of `pt_encode`: groups of three digits and a time digit, as long
as every group value lies in `0..999`. -/
theorem pt_encode_groups (data : PTData) (s : List Nat) (v a : Int)
    (hv : v = 0 ∨ v = 1 ∨ v = 2 ∨ v = 3 ∨ v = 4)
    (hkey : v = 1 ∨ v = 2 → ∃ key, data.serverkey = some key ∧ 7 ≤ key.length)
    (hidx : ∀ i < s.length, 0 ≤ spec_base data v a + (i : Int) ∧
      spec_base data v a + (i : Int) < lymerick.length) :
    ((∀ c ∈ s, c < 256) → (v = 2 ∨ v = 3 ∨ s.length ≤ 14) →
        ∀ i < s.length, 0 ≤ spec_V data s v a i ∧ spec_V data s v a i ≤ 999) ∧
    ((∀ i < s.length, 0 ≤ spec_V data s v a i ∧ spec_V data s v a i ≤ 999) →
      ∃ out data1, pt_encode data s v a = some (out, data1) ∧
        out.length = 4 * s.length ∧ (∀ c ∈ out, 48 ≤ c ∧ c ≤ 57) ∧
        ∀ i < s.length, ∃ d, d ≤ 7 ∧ out.get? (4 * i + 3) = some (48 + d)) := by
  refine ⟨fun hs hsmall => spec_V_bounds data s v a hv hidx hs hsmall, fun hV => ?_⟩
  refine ⟨_, _, pt_encode_closed_form data s v a hv hkey hidx, ?_, ?_, ?_⟩
  · unfold spec_encode
    rw [flatten_four_length]
    · simp
    · intro g hg
      obtain ⟨i, hi, rfl⟩ := List.mem_map.mp hg
      exact spec_group_length data s v a i (hV i (List.mem_range.mp hi))
  · intro c hc
    unfold spec_encode at hc
    obtain ⟨g, hg, hcg⟩ := List.mem_flatten.mp hc
    obtain ⟨i, hi, rfl⟩ := List.mem_map.mp hg
    unfold spec_group at hcg
    rcases List.mem_append.mp hcg with h | h
    · exact printf3_digits _ (hV i (List.mem_range.mp hi)).1 c h
    · have := spec_digit_le data.time i
      simp only [List.mem_singleton] at h
      omega
  · intro i hi
    refine ⟨spec_digit data.time i, spec_digit_le _ _, ?_⟩
    unfold spec_encode
    rw [flatten_four_get _ i 3 _ (by decide)]
    · have h3 := printf3_length _ (hV i hi).1 (hV i hi).2
      simp only [List.get?_eq_getElem?, List.getElem?_map, List.getElem?_range hi,
        Option.map_some', Option.some_bind, spec_group]
      rw [List.getElem?_append_right (by omega), h3]
      rfl
    · intro g hg
      obtain ⟨k, hk, rfl⟩ := List.mem_map.mp hg
      exact spec_group_length data s v a k (hV k (List.mem_range.mp hk))

/-- C5 (amended): with the charm indices in range and every group value `V(i)` in
`0..999`, the output of `pt_encode` consists of decimal digits only, has length `4*|s|`,
and the last character of each group is a digit in `0..7`; the group values are in that
range for every string under variants 2 and 3 and for strings of at most 14 characters
under variants 0, 1 and 4. -/
theorem pt_encode_digit_groups (data : PTData) (s : List Nat) (v a : Int)
    (hv : v = 0 ∨ v = 1 ∨ v = 2 ∨ v = 3 ∨ v = 4)
    (hkey : v = 1 ∨ v = 2 → ∃ key, data.serverkey = some key ∧ 7 ≤ key.length)
    (hidx : ∀ i < s.length, 0 ≤ spec_base data v a + (i : Int) ∧
      spec_base data v a + (i : Int) < lymerick.length) :
    ((∀ c ∈ s, c < 256) → (v = 2 ∨ v = 3 ∨ s.length ≤ 14) →
        ∀ i < s.length, 0 ≤ spec_V data s v a i ∧ spec_V data s v a i ≤ 999) ∧
    ((∀ i < s.length, 0 ≤ spec_V data s v a i ∧ spec_V data s v a i ≤ 999) →
      ∃ out data1, pt_encode data s v a = some (out, data1) ∧
        out.length = 4 * s.length ∧ (∀ c ∈ out, 48 ≤ c ∧ c ≤ 57) ∧
        ∀ i < s.length, ∃ d, d ≤ 7 ∧ out.get? (4 * i + 3) = some (48 + d)) :=
  pt_encode_groups data s v a hv hkey hidx

/-- C5 (witness): for `"90"` under variant 1 with key digits `509` the output has length 8
and begins `"250"` followed by a digit in `0..7`. -/
theorem pt_encode_digit_groups_witness :
    ∃ out data1,
      pt_encode session_509 (cstr "90") 1 0 = some (out, data1) ∧
      out.length = 4 * (cstr "90").length ∧ (∀ c ∈ out, 48 ≤ c ∧ c ≤ 57) ∧
      ∀ i < (cstr "90").length, ∃ d, d ≤ 7 ∧ out.get? (4 * i + 3) = some (48 + d) :=
  (pt_encode_digit_groups session_509 (cstr "90") 1 0
    (by decide) (fun _ => ⟨cstr "XXXX509", rfl, by decide⟩)
    (by
      intro i hi
      have hi2 : i < 2 := hi
      rw [lymerick_length]
      interval_cases i <;> decide)).2
    (by
      intro i hi
      have hi2 : i < 2 := hi
      interval_cases i <;> decide)

set_option maxRecDepth 100000 in
/-- C5 (counterexample): a 30-character string under variant 1 with all charm indices in
range is encoded to 124 characters, among them minus signs. -/
theorem pt_encode_long_input_minus :
    (pt_encode session_509 (List.replicate 30 97) 1 0).map
        (fun r => (r.1.length, decide (45 ∈ r.1))) = some (124, true) ∧
    4 * (List.replicate 30 97).length = 120 := by
  decide

/-! ## Determinism of the obfuscation -/

theorem GET_WIERD_NUMBER_wierd (X : PTData) : (GET_WIERD_NUMBER X).wierd = 0 := by
  unfold GET_WIERD_NUMBER
  simp only
  have h : (next_time X.time >>> 16 &&& 0x7FFF) / 32768 = 0 := by
    apply Nat.div_eq_of_lt
    have : next_time X.time >>> 16 &&& 0x7FFF ≤ 0x7FFF := Nat.and_le_right
    omega
  rw [h]
  rfl

theorem map_time_map (d : PTData) (r : Option (List Nat × Nat)) :
    (r.map (fun p => (p.1, { d with time := p.2 }))).map
      (fun (q : List Nat × PTData) => (q.1, q.2.time)) = r := by
  cases r <;> rfl

/-- C6: two sessions that agree on the server key and the time counter, and whose `wierd`
is 0 or was produced by `GET_WIERD_NUMBER`, encode the same string under the same variant
0-3 to the same output and are left with the same time counter, whatever their other
fields and the auxiliary short are. -/
theorem pt_encode_deterministic (d1 d2 : PTData) (s : List Nat) (v a1 a2 : Int)
    (hv : v = 0 ∨ v = 1 ∨ v = 2 ∨ v = 3)
    (hkey : d1.serverkey = d2.serverkey) (ht : d1.time = d2.time)
    (hw1 : d1.wierd = 0 ∨ ∃ d0, d1 = GET_WIERD_NUMBER d0)
    (hw2 : d2.wierd = 0 ∨ ∃ d0, d2 = GET_WIERD_NUMBER d0) :
    (pt_encode d1 s v a1).map (fun r => (r.1, r.2.time)) =
      (pt_encode d2 s v a2).map (fun r => (r.1, r.2.time)) := by
  have e1 : d1.wierd = 0 := by
    rcases hw1 with h | ⟨d0, h⟩
    · exact h
    · rw [h]; exact GET_WIERD_NUMBER_wierd d0
  have e2 : d2.wierd = 0 := by
    rcases hw2 with h | ⟨d0, h⟩
    · exact h
    · rw [h]; exact GET_WIERD_NUMBER_wierd d0
  have h4 : ¬ v = 4 := by omega
  unfold pt_encode
  simp only [e1, e2, hkey, ht, if_neg h4]
  split
  · rfl
  · simp only [Option.map_map]
    rfl

/-- C6 (witness): a fresh session and one that differs in uin, status, host and rooms and
went through `GET_WIERD_NUMBER` give the same encoding of `"90"` under variant 3. -/
theorem pt_encode_deterministic_witness :
    (pt_encode { time := 2530876 } (cstr "90") 3 0).map (fun r => (r.1, r.2.time)) =
      (pt_encode session_777 (cstr "90") 3 5).map (fun r => (r.1, r.2.time)) :=
  pt_encode_deterministic { time := 2530876 } session_777 (cstr "90") 3 0 5
    (by decide) (by decide) (by decide) (Or.inl (by decide)) (Or.inr ⟨_, rfl⟩)

/-! ## Frame header and frame reading -/

theorem s16_be (hi lo : Nat) (h0 : hi < 256) (h1 : lo < 256) :
    s16 ((hi : Int) * 256 + (lo : Int)) = spec_i16be hi lo := by
  unfold s16 spec_i16be
  have e : ((hi : Int) * 256 + (lo : Int)) % 65536 = (hi : Int) * 256 + (lo : Int) := by
    apply Int.emod_eq_of_lt <;> omega
  rw [e]
  push_cast
  by_cases h : hi < 128
  · rw [if_pos (by omega), if_pos h]
  · rw [if_neg (by omega), if_neg h]

theorem s16_small (n : Int) (h0 : 0 ≤ n) (h1 : n < 32768) : s16 n = n := by
  unfold s16
  have e : n % 65536 = n := Int.emod_eq_of_lt h0 (by omega)
  rw [e, if_pos h1]

theorem fill_done (fuel : Nat) (sock : List ReadEvent) (body : List Nat) (cur waitlen : Int)
    (h : ¬ cur < waitlen) :
    pt_callback_fill (fuel + 1) sock body cur waitlen = some (some (body, sock)) := by
  rw [pt_callback_fill, if_neg h]

theorem fill_one_chunk (fuel : Nat) (rest : List Nat) (n : Nat) (hn : n < 32768)
    (hlen : n ≤ rest.length) :
    ∃ sock, pt_callback_fill (fuel + 2) [ReadEvent.data rest] [] 0 n
      = some (some (rest.take n, sock)) := by
  rcases Nat.eq_zero_or_pos n with h0 | hpos
  · subst h0
    exact ⟨_, by simpa using fill_done (fuel + 1) [ReadEvent.data rest] [] 0 0 (by simp)⟩
  · have hs : s16 (0 + (n : Int)) = n := by
      rw [zero_add]; exact s16_small _ (by omega) (by omega)
    rw [pt_callback_fill, if_pos (by omega)]
    simp only [sub_zero, Int.toNat_ofNat, sock_read]
    by_cases hle : rest.length ≤ n
    · refine ⟨[], ?_⟩
      have hnn : ¬ ((rest.length : Int) < 0) := by omega
      have e : rest.length = n := by omega
      simp only [if_pos hle, if_neg hnn, List.nil_append]
      rw [e, hs, fill_done _ _ _ _ _ (by omega), List.take_of_length_le (by omega)]
    · refine ⟨[ReadEvent.data (rest.drop n)], ?_⟩
      have hnn : ¬ ((n : Int) < 0) := by omega
      simp only [if_neg hle, if_neg hnn, List.nil_append]
      rw [hs, fill_done _ _ _ _ _ (by omega)]

theorem six_bytes (X : List Nat) (hlen : 6 ≤ X.length) :
    ∃ b0 b1 b2 b3 b4 b5 rest, X = b0 :: b1 :: b2 :: b3 :: b4 :: b5 :: rest := by
  match X, hlen with
  | b0 :: b1 :: b2 :: b3 :: b4 :: b5 :: rest, _ => exact ⟨b0, b1, b2, b3, b4, b5, rest, rfl⟩

/-- C3 (amended): on a buffer of at least 6 bytes the three macros return the signed
16-bit big-endian values of bytes 0-1, 2-3 and 4-5; the length equals the unsigned value
when that is below 0x8000; and when the socket holds the header followed by at least that
many bytes, the frame handed to the dispatcher is the header, the `body_length` bytes after
it, and two NUL bytes of padding. -/
theorem packet_header_fields (X : List Nat) (fuel : Nat) (hlen : 6 ≤ X.length)
    (hb : ∀ b ∈ X, b < 256) :
    PACKET_GET_TYPE X = some (spec_i16be (X.getD 0 0) (X.getD 1 0)) ∧
    PACKET_GET_VERSION X = some (spec_i16be (X.getD 2 0) (X.getD 3 0)) ∧
    PACKET_GET_LENGTH X = some (spec_i16be (X.getD 4 0) (X.getD 5 0)) ∧
    (X.getD 4 0 < 128 →
      PACKET_GET_LENGTH X = some (spec_u16be (X.getD 4 0) (X.getD 5 0))) ∧
    (X.getD 4 0 < 128 → ¬ (X.getD 0 0 = 0 ∧ X.getD 1 0 = 0 ∧ X.getD 3 0 = 0) →
      6 + (X.getD 4 0 * 256 + X.getD 5 0) ≤ X.length →
      ∃ sock, pt_callback_frame (fuel + 2) [ReadEvent.data X] =
        some (FrameResult.frame
          (X.take 6 ++ (X.drop 6).take (X.getD 4 0 * 256 + X.getD 5 0) ++ [0, 0]) sock)) := by
  obtain ⟨b0, b1, b2, b3, b4, b5, rest, rfl⟩ := six_bytes X hlen
  have h0 := hb b0 (by simp)
  have h1 := hb b1 (by simp)
  have h2 := hb b2 (by simp)
  have h3 := hb b3 (by simp)
  have h4 := hb b4 (by simp)
  have h5 := hb b5 (by simp)
  simp only [List.getD_cons_zero, List.getD_cons_succ]
  have hT : PACKET_GET_TYPE (b0 :: b1 :: b2 :: b3 :: b4 :: b5 :: rest)
      = some (spec_i16be b0 b1) := by
    simp [PACKET_GET_TYPE, PACKET_GET_SHORT, ntohs_at, s16_be b0 b1 h0 h1]
  have hV : PACKET_GET_VERSION (b0 :: b1 :: b2 :: b3 :: b4 :: b5 :: rest)
      = some (spec_i16be b2 b3) := by
    simp [PACKET_GET_VERSION, PACKET_GET_SHORT, ntohs_at, s16_be b2 b3 h2 h3]
  have hL : PACKET_GET_LENGTH (b0 :: b1 :: b2 :: b3 :: b4 :: b5 :: rest)
      = some (spec_i16be b4 b5) := by
    simp [PACKET_GET_LENGTH, PACKET_GET_SHORT, ntohs_at, s16_be b4 b5 h4 h5]
  refine ⟨hT, hV, hL, ?_, ?_⟩
  · intro h
    rw [hL]
    simp [spec_i16be, spec_u16be, h]
  · intro h hdisc hbody
    have hn : b4 * 256 + b5 < 32768 := by omega
    have hw : spec_i16be b4 b5 = ((b4 * 256 + b5 : Nat) : Int) := by
      simp [spec_i16be, h]
    have hbody2 : b4 * 256 + b5 ≤ rest.length := by
      simp only [List.length_cons] at hbody
      omega
    obtain ⟨sock, hfill⟩ := fill_one_chunk fuel rest (b4 * 256 + b5) hn hbody2
    have hL6 : PACKET_GET_LENGTH [b0, b1, b2, b3, b4, b5] = some (spec_i16be b4 b5) := by
      simp [PACKET_GET_LENGTH, PACKET_GET_SHORT, ntohs_at, s16_be b4 b5 h4 h5]
    have hw2 : ¬ (((b4 * 256 + b5 : Nat) : Int) < -2) := by omega
    have hpad : (((b4 * 256 + b5 : Nat) : Int) + 2
        - ((List.take (b4 * 256 + b5) rest).length : Int)).toNat = 2 := by
      rw [List.length_take, Nat.min_eq_left hbody2]
      omega
    rcases rest with _ | ⟨r0, rest1⟩
    · have hz : b4 * 256 + b5 = 0 := by simpa using hbody2
      refine ⟨[], ?_⟩
      simp only [pt_callback_frame, sock_read]
      simp [hdisc, hL, hw, hz, fill_done]
    · refine ⟨sock, ?_⟩
      have hread : sock_read [ReadEvent.data (b0 :: b1 :: b2 :: b3 :: b4 :: b5 :: r0 :: rest1)] 6
          = some (6, [b0, b1, b2, b3, b4, b5], [ReadEvent.data (r0 :: rest1)]) := by
        simp [sock_read]
      simp only [pt_callback_frame, hread, hL6, hw, hfill, hpad]
      simp [hdisc]
      omega


/-- C3 (witness): `FF EC 00 53 00 04 00 00 00 1E` gives opcode -20 (`PACKET_IM_OUT`),
version 0x0053, body length 4 and body `00 00 00 1E`. -/
theorem packet_header_fields_witness :
    (PACKET_GET_TYPE frame_im_out = some (spec_i16be 0xFF 0xEC) ∧
      PACKET_GET_VERSION frame_im_out = some (spec_i16be 0x00 0x53) ∧
      PACKET_GET_LENGTH frame_im_out = some (spec_i16be 0x00 0x04) ∧
      ((0 : Nat) < 128 → PACKET_GET_LENGTH frame_im_out = some (spec_u16be 0x00 0x04)) ∧
      ((0 : Nat) < 128 → ¬ ((0xFF : Nat) = 0 ∧ (0xEC : Nat) = 0 ∧ (0x53 : Nat) = 0) →
        6 + (0 * 256 + 4) ≤ frame_im_out.length →
        ∃ sock, pt_callback_frame (0 + 2) [ReadEvent.data frame_im_out] =
          some (FrameResult.frame
            (frame_im_out.take 6 ++ (frame_im_out.drop 6).take (0 * 256 + 4) ++ [0, 0])
            sock))) ∧
    PACKET_GET_TYPE frame_im_out = some PACKET_IM_OUT ∧
    PACKET_GET_VERSION frame_im_out = some 0x0053 ∧
    PACKET_GET_LENGTH frame_im_out = some 4 ∧
    pt_callback_frame 2 [ReadEvent.data frame_im_out] =
      some (FrameResult.frame ([0xFF, 0xEC, 0x00, 0x53, 0x00, 0x04]
        ++ [0x00, 0x00, 0x00, 0x1E] ++ [0, 0]) []) :=
  ⟨packet_header_fields frame_im_out 0 (by decide) (by decide),
    by decide, by decide, by decide, by decide⟩

/-- C3 (counterexample): on the header `00 14 00 53 80 00` the macro `PACKET_GET_LENGTH`
returns -32768, while the unsigned big-endian value of bytes 4-5 is 32768. -/
theorem packet_get_length_signed :
    PACKET_GET_LENGTH [0x00, 0x14, 0x00, 0x53, 0x80, 0x00] = some (-32768) ∧
    spec_u16be 0x80 0x00 = 32768 := by
  decide

/-! ## Frames emitted by `pt_send_packet` -/

theorem packet_header_length (t : Int) : (packet_header t).length = 4 := rfl

theorem htonl_bytes_length (v : Int) : (htonl_bytes v).length = 4 := rfl

theorem htons_bytes_length (v : Int) : (htons_bytes v).length = 2 := rfl

theorem frame_sized_fixed (t : Int) (hi lo : Nat) (rest : List Nat)
    (h : rest.length = hi * 256 + lo) :
    frame_sized (packet_header t ++ ([hi, lo] ++ rest)) := by
  refine ⟨hi * 256 + lo, ?_, ?_⟩
  · simp [ntohs_at, packet_header, htons_bytes]
  · simp [packet_header, htons_bytes, h]; omega

theorem frame_sized_htons (t : Int) (n : Int) (rest : List Nat)
    (h : n = rest.length) (hfit : (packet_header t ++ (htons_bytes n ++ rest)).length < 6 + 65536) :
    frame_sized (packet_header t ++ (htons_bytes n ++ rest)) := by
  have hlen : rest.length < 65536 := by
    simp [packet_header, htons_bytes] at hfit; omega
  have hu : u16 n = rest.length := by
    unfold u16; rw [h]; omega
  unfold htons_bytes
  rw [hu]
  apply frame_sized_fixed
  omega

theorem send_xfer_reject_sized (ptd : PTData) (i t : Int) (args : List VaArg)
    (r : PTData × List Nat) (h : send_xfer_reject ptd i args = some r) :
    frame_sized (packet_header t ++ r.2) := by
  unfold send_xfer_reject at h
  split at h
  · simp only [Option.some.injEq] at h
    subst h
    exact frame_sized_fixed _ _ _ _ (by simp [htonl_bytes_length, htons_bytes_length])
  · simp at h

theorem send_get_service_url_sized (ptd : PTData) (t : Int) (args : List VaArg)
    (r : PTData × List Nat) (h : send_get_service_url ptd args = some r) :
    frame_sized (packet_header t ++ r.2) := by
  unfold send_get_service_url at h
  split at h
  · simp only [Option.some.injEq] at h
    subst h
    exact frame_sized_fixed _ _ _ _ (by simp [htonl_bytes_length, htons_bytes_length])
  · simp at h

theorem send_long_short_sized (ptd : PTData) (t : Int) (args : List VaArg)
    (r : PTData × List Nat) (h : send_long_short ptd args = some r) :
    frame_sized (packet_header t ++ r.2) := by
  unfold send_long_short at h
  split at h
  · simp only [Option.some.injEq] at h
    subst h
    exact frame_sized_fixed _ _ _ _ (by simp [htonl_bytes_length, htons_bytes_length])
  · simp at h

theorem send_two_longs_sized (ptd : PTData) (t : Int) (args : List VaArg)
    (r : PTData × List Nat) (h : send_two_longs ptd args = some r) :
    frame_sized (packet_header t ++ r.2) := by
  unfold send_two_longs at h
  split at h
  · simp only [Option.some.injEq] at h
    subst h
    exact frame_sized_fixed _ _ _ _ (by simp [htonl_bytes_length, htons_bytes_length])
  · simp at h

theorem send_one_long_sized (ptd : PTData) (t : Int) (args : List VaArg)
    (r : PTData × List Nat) (h : send_one_long ptd args = some r) :
    frame_sized (packet_header t ++ r.2) := by
  unfold send_one_long at h
  split at h
  · simp only [Option.some.injEq] at h
    subst h
    exact frame_sized_fixed _ _ _ _ (by simp [htonl_bytes_length, htons_bytes_length])
  · simp at h

theorem send_do_list_category_sized (ptd : PTData) (t : Int) (args : List VaArg)
    (r : PTData × List Nat) (h : send_do_list_category ptd args = some r) :
    frame_sized (packet_header t ++ r.2) := by
  unfold send_do_list_category at h
  split at h
  · simp only [Option.some.injEq] at h
    subst h
    exact frame_sized_fixed _ _ _ _ (by simp [htonl_bytes_length, htons_bytes_length])
  · simp at h

theorem send_room_join_as_admin_sized (ptd : PTData) (t : Int) (args : List VaArg)
    (r : PTData × List Nat) (h : send_room_join_as_admin ptd args = some r) :
    frame_sized (packet_header t ++ r.2) := by
  unfold send_room_join_as_admin at h
  split at h
  · simp only [Option.some.injEq] at h
    subst h
    exact frame_sized_fixed _ _ _ _ (by simp [htonl_bytes_length, htons_bytes_length])
  · simp at h

theorem send_room_private_invite_sized (ptd : PTData) (t : Int) (args : List VaArg)
    (r : PTData × List Nat) (h : send_room_private_invite ptd args = some r) :
    frame_sized (packet_header t ++ r.2) := by
  unfold send_room_private_invite at h
  split at h
  · simp only [Option.some.injEq] at h
    subst h
    exact frame_sized_fixed _ _ _ _ (by simp [htonl_bytes_length, htons_bytes_length])
  · simp at h

theorem fontdepth_loop_length : ∀ (s : List Nat) (j : Int) (ctmp : List Nat),
    (fontdepth_loop s j ctmp).length = ctmp.length := by
  intro s
  induction s with
  | nil => intro j ctmp; rfl
  | cons c rest ih =>
      intro j ctmp
      rw [fontdepth_loop, ih]
      split <;> simp

theorem send_uin_fontdepth_etc_sized (ptd : PTData) (now : Nat) (t : Int)
    (r : PTData × List Nat) (h : send_uin_fontdepth_etc ptd now = some r) :
    frame_sized (packet_header t ++ r.2) := by
  unfold send_uin_fontdepth_etc at h
  simp only [Option.some.injEq] at h
  subst h
  exact frame_sized_fixed _ _ _ _
    (by simp [htonl_bytes_length, fontdepth_loop_length])


theorem send_xfer_send_init_sized (ptd : PTData) (t : Int) (args : List VaArg)
    (r : PTData × List Nat) (h : send_xfer_send_init ptd args = some r)
    (hfit : (packet_header t ++ r.2).length < 6 + 65536) :
    frame_sized (packet_header t ++ r.2) := by
  unfold send_xfer_send_init at h
  split at h
  · simp only [Option.some.injEq] at h
    subst h
    exact frame_sized_htons _ _ _ (by simp [htonl_bytes_length, cstr]; omega) hfit
  · simp at h

theorem send_version_info_sized (ptd : PTData) (t : Int)
    (r : PTData × List Nat) (h : send_version_info ptd = some r) :
    frame_sized (packet_header t ++ r.2) := by
  unfold send_version_info at h
  simp only [Option.some.injEq] at h
  subst h
  exact frame_sized_htons _ _ _ rfl
    (by
      rw [List.length_append, List.length_append, packet_header_length, htons_bytes_length,
        show (checksums 5).length = 38 by decide]
      decide)

theorem send_get_uin_sized (ptd : PTData) (t : Int)
    (r : PTData × List Nat) (h : send_get_uin ptd = some r)
    (hfit : (packet_header t ++ r.2).length < 6 + 65536) :
    frame_sized (packet_header t ++ r.2) := by
  unfold send_get_uin at h
  simp only [Option.some.injEq] at h
  subst h
  exact frame_sized_htons _ _ _ (by simp; omega) hfit

theorem send_string_long_sized (ptd : PTData) (t : Int) (args : List VaArg)
    (r : PTData × List Nat) (h : send_string_long ptd args = some r)
    (hfit : (packet_header t ++ r.2).length < 6 + 65536) :
    frame_sized (packet_header t ++ r.2) := by
  unfold send_string_long at h
  split at h
  · simp only [Option.some.injEq] at h
    subst h
    exact frame_sized_htons _ _ _ (by simp [htonl_bytes_length]; omega) hfit
  · simp at h

theorem send_do_search_sized (ptd : PTData) (t : Int) (args : List VaArg)
    (r : PTData × List Nat) (h : send_do_search ptd args = some r)
    (hfit : (packet_header t ++ r.2).length < 6 + 65536) :
    frame_sized (packet_header t ++ r.2) := by
  unfold send_do_search at h
  split at h
  · simp only [Option.some.injEq] at h
    subst h
    exact frame_sized_htons _ _ _ rfl hfit
  · simp at h

theorem send_room_join_sized (ptd : PTData) (t : Int) (args : List VaArg)
    (r : PTData × List Nat) (h : send_room_join ptd args = some r)
    (hfit : (packet_header t ++ r.2).length < 6 + 65536) :
    frame_sized (packet_header t ++ r.2) := by
  unfold send_room_join at h
  split at h
  · split at h
    · split at h
      · simp only [Option.some.injEq] at h
        subst h
        exact frame_sized_htons _ _ _ (by simp [htonl_bytes_length]; omega) hfit
      · simp at h
    · simp only [Option.some.injEq] at h
      subst h
      exact frame_sized_fixed _ _ _ _ (by simp [htonl_bytes_length])
  · simp at h

theorem send_echo_response_sized (ptd : PTData) (t : Int) (b : List Nat) (v : Int)
    (rest : List VaArg) (r : PTData × List Nat) (hv : 0 ≤ s16 v)
    (h : send_echo_response ptd (VaArg.buf b :: VaArg.num v :: rest) = some r)
    (hfit : (packet_header t ++ r.2).length < 6 + 65536) :
    frame_sized (packet_header t ++ r.2) := by
  unfold send_echo_response at h
  simp only [if_neg (not_lt.mpr hv)] at h
  split at h
  · rename_i hle
    simp only [Option.some.injEq] at h
    subst h
    exact frame_sized_htons _ _ _ (by rw [List.length_take, Nat.min_eq_left hle]; omega) hfit
  · simp at h

theorem send_login_sized (ptd : PTData) (t : Int)
    (r : PTData × List Nat) (h : send_login ptd = some r)
    (hfit : (packet_header t ++ r.2).length < 6 + 65536) :
    frame_sized (packet_header t ++ r.2) := by
  unfold send_login at h
  obtain ⟨r0, -, h⟩ := Option.bind_eq_some.mp h
  obtain ⟨r1, -, h⟩ := Option.bind_eq_some.mp h
  simp only [Option.some.injEq] at h
  subst h
  exact frame_sized_htons _ _ _ (by simp [htonl_bytes_length]; omega) hfit

theorem lymerick_at_bounds (idx l : Int) (h : lymerick_at idx = some l) : 0 ≤ l ∧ l ≤ 122 := by
  unfold lymerick_at at h
  split at h
  · simp at h
  · split at h
    · simp only [Option.some.injEq] at h
      omega
    · cases hg : lymerick.get? idx.toNat with
      | none => rw [hg] at h; simp at h
      | some c =>
          rw [hg] at h
          simp only [Option.map_some', Option.some.injEq] at h
          have hm : c ∈ lymerick := List.get?_mem hg
          have hb := lymerick_bounds c hm
          rw [← h]
          unfold schar
          split <;> omega

theorem pt_encode_zero_length (d : PTData) (r : List Nat × PTData)
    (h : pt_encode d (cstr "0") 1 0 = some r) : r.1.length = 4 := by
  unfold pt_encode at h
  simp only [true_or, if_true] at h
  split at h
  · simp at h
  · rename_i cb _
    simp only [show cstr "0" = [48] by decide, pt_encode_loop01] at h
    cases hl : lymerick_at (cb + ((0 : Nat) : Int)) with
    | none => rw [hl] at h; simp at h
    | some l =>
        rw [hl] at h
        simp only [pt_encode_loop01, or_true, if_true, Option.map_some',
          Option.some.injEq] at h
        have hb := lymerick_at_bounds _ _ hl
        rw [← h]
        simp only [List.nil_append, List.length_append,
          printf_d_small _ (ENCODE_TIME_DIGIT_le d.time), List.length_singleton]
        have hs : schar (Char.toNat '0') = 48 := by decide
        rw [hs, printf3_length _ (by simp; omega) (by simp; omega)]



theorem send_checksums_sized (ptd : PTData) (t : Int)
    (r : PTData × List Nat) (h : send_checksums ptd = some r)
    (hfit : (packet_header t ++ r.2).length < 6 + 65536) :
    frame_sized (packet_header t ++ r.2) := by
  unfold send_checksums at h
  obtain ⟨r0, -, h⟩ := Option.bind_eq_some.mp h
  obtain ⟨r1, -, h⟩ := Option.bind_eq_some.mp h
  obtain ⟨r2, -, h⟩ := Option.bind_eq_some.mp h
  obtain ⟨r3, -, h⟩ := Option.bind_eq_some.mp h
  obtain ⟨r4, -, h⟩ := Option.bind_eq_some.mp h
  obtain ⟨r5, h5, h⟩ := Option.bind_eq_some.mp h
  have hz := pt_encode_zero_length _ _ h5
  simp only [Option.some.injEq] at h
  subst h
  unfold checksums_body at hfit ⊢
  exact frame_sized_htons _ _ _
    (by simp only [List.length_append, List.length_singleton]; push_cast; omega) hfit

theorem versions_body_sized (d : PTData) (t : Int) (s2 s3 s4 s5 s6 s7 : List Nat)
    (hfit : (packet_header t ++ versions_body d s2 s3 s4 s5 s6 s7).length < 6 + 65536) :
    frame_sized (packet_header t ++ versions_body d s2 s3 s4 s5 s6 s7) := by
  unfold versions_body at hfit ⊢
  exact frame_sized_htons _ _ _
    (by
      simp only [List.length_append, List.length_singleton, htonl_bytes_length,
        List.length_cons, List.length_nil, show (cstr ",0,0,").length = 5 by decide]
      push_cast
      omega) hfit

theorem send_versions_sized (ptd : PTData) (t : Int) (args : List VaArg)
    (r : PTData × List Nat) (h : send_versions ptd args = some r)
    (hfit : (packet_header t ++ r.2).length < 6 + 65536) :
    frame_sized (packet_header t ++ r.2) := by
  unfold send_versions at h
  split at h
  · unfold send_versions_text at h
    obtain ⟨r2, -, h⟩ := Option.bind_eq_some.mp h
    obtain ⟨r3, -, h⟩ := Option.bind_eq_some.mp h
    obtain ⟨r4, -, h⟩ := Option.bind_eq_some.mp h
    obtain ⟨r5, -, h⟩ := Option.bind_eq_some.mp h
    obtain ⟨r6, -, h⟩ := Option.bind_eq_some.mp h
    obtain ⟨r7, -, h⟩ := Option.bind_eq_some.mp h
    simp only [Option.some.injEq] at h
    subst h
    exact versions_body_sized _ _ _ _ _ _ _ _ hfit
  · simp at h

theorem hd_serial_string : g_strup (printf_prec_x 8 DEFAULT_HD_SERIAL) = cstr "261308E2" := by
  decide

theorem send_lymerick_sized (ptd : PTData) (t : Int)
    (r : PTData × List Nat) (h : send_lymerick ptd = some r) :
    frame_sized (packet_header t ++ r.2) := by
  unfold send_lymerick at h
  obtain ⟨r1, h1, h⟩ := Option.bind_eq_some.mp h
  rw [hd_serial_string] at h1
  have hidx : ∀ i < (cstr "261308E2").length,
      0 ≤ spec_base ptd 0 0 + (i : Int) ∧ spec_base ptd 0 0 + (i : Int) < lymerick.length := by
    intro i hi
    have hi2 : i < 8 := hi
    rw [lymerick_length]
    simp only [spec_base, if_true]
    omega
  have hg := pt_encode_groups ptd (cstr "261308E2") 0 0 (by decide)
    (by intro hc; rcases hc with hc | hc <;> exact absurd hc (by decide)) hidx
  obtain ⟨out, data1, he, hl, -, -⟩ := hg.2 (hg.1 (by decide) (by decide))
  rw [he] at h1
  simp only [Option.some.injEq] at h1 h
  subst h1
  subst h
  exact frame_sized_fixed _ _ _ _
    (by
      simp only [List.length_append, htonl_bytes_length, List.length_cons, List.length_nil, hl,
        show (cstr "261308E2").length = 8 by decide])


/-- Every frame that `pt_send_packet` emits for a type with a `case` label other than
`PACKET_ROOM_BOUNCE_REASON` is as long as its length field says, as long as the body fits
a 16-bit length (and the count passed with `PACKET_ECHO_RESPONSE` is not negative). -/
theorem pt_send_packet_frame_sized (ptd : PTData) (now : Nat) (t : Int) (args : List VaArg)
    (d1 : PTData) (bytes : List Nat)
    (hh : pt_send_packet_handles t = true) (hne : t ≠ PACKET_ROOM_BOUNCE_REASON)
    (hecho : t = PACKET_ECHO_RESPONSE →
      ∃ b v rest, args = VaArg.buf b :: VaArg.num v :: rest ∧ 0 ≤ s16 v)
    (h : pt_send_packet ptd now t args = some (d1, bytes))
    (hfit : bytes.length < 6 + 65536) :
    frame_sized bytes := by
  unfold pt_send_packet at h
  obtain ⟨r, hb, h⟩ := Option.map_eq_some'.mp h
  simp only [Prod.mk.injEq] at h
  obtain ⟨-, rfl⟩ := h
  generalize (if t = PACKET_FILE_XFER_RECV_INIT then PACKET_FILE_XFER_REJECT else t) = t1
    at hfit ⊢
  unfold pt_packet_body at hb
  by_cases c1 : t = PACKET_FILE_XFER_RECV_INIT
  · simp only [if_pos c1] at hb
    exact send_xfer_reject_sized ptd 1 _ args r hb
  simp only [if_neg c1] at hb
  by_cases c2 : t = PACKET_FILE_XFER_REJECT
  · simp only [if_pos c2] at hb
    exact send_xfer_reject_sized ptd 0 _ args r hb
  simp only [if_neg c2] at hb
  by_cases c3 : t = PACKET_FILE_XFER_SEND_INIT
  · simp only [if_pos c3] at hb
    exact send_xfer_send_init_sized ptd _ args r hb hfit
  simp only [if_neg c3] at hb
  by_cases c4 : t = PACKET_GET_SERVICE_URL
  · simp only [if_pos c4] at hb
    exact send_get_service_url_sized ptd _ args r hb
  simp only [if_neg c4] at hb
  by_cases c5 : t = PACKET_VERSION_INFO
  · simp only [if_pos c5] at hb
    exact send_version_info_sized ptd _ r hb
  simp only [if_neg c5] at hb
  by_cases c6 : t = PACKET_CHECKSUMS
  · simp only [if_pos c6] at hb
    exact send_checksums_sized ptd _ r hb hfit
  simp only [if_neg c6] at hb
  by_cases c7 : t = PACKET_ECHO_RESPONSE
  · simp only [if_pos c7] at hb
    obtain ⟨b, v, rest, rfl, hv⟩ := hecho c7
    exact send_echo_response_sized ptd _ b v rest r hv hb hfit
  simp only [if_neg c7] at hb
  by_cases c8 : t = PACKET_VERSIONS
  · simp only [if_pos c8] at hb
    exact send_versions_sized ptd _ args r hb hfit
  simp only [if_neg c8] at hb
  by_cases c9 : t = PACKET_UIN_FONTDEPTH_ETC
  · simp only [if_pos c9] at hb
    exact send_uin_fontdepth_etc_sized ptd now _ r hb
  simp only [if_neg c9] at hb
  by_cases c10 : t = PACKET_LOGIN
  · simp only [if_pos c10] at hb
    exact send_login_sized ptd _ r hb hfit
  simp only [if_neg c10] at hb
  by_cases c11 : t = PACKET_GET_UIN
  · simp only [if_pos c11] at hb
    exact send_get_uin_sized ptd _ r hb hfit
  simp only [if_neg c11] at hb
  by_cases c12 : t = PACKET_LYMERICK
  · simp only [if_pos c12] at hb
    exact send_lymerick_sized ptd _ r hb
  simp only [if_neg c12] at hb
  by_cases c13 : t = PACKET_ROOM_RED_DOT_TEXT ∨ t = PACKET_ROOM_RED_DOT_VIDEO
      ∨ t = PACKET_ROOM_TOGGLE_ALL_MICS ∨ t = PACKET_ROOM_MEDIA_SERVER_ACK
  · simp only [if_pos c13] at hb
    exact send_long_short_sized ptd _ args r hb
  simp only [if_neg c13] at hb
  by_cases c14 : t = PACKET_ROOM_BOUNCE_REASON
  · simp only [if_pos c14] at hb
    exact absurd c14 hne
  simp only [if_neg c14] at hb
  by_cases c15 : t = PACKET_ROOM_BOUNCE_USER ∨ t = PACKET_ROOM_UNBOUNCE_USER
      ∨ t = PACKET_ROOM_RED_DOT_USER ∨ t = PACKET_ROOM_UNRED_DOT_USER
      ∨ t = PACKET_ROOM_UNBAN_USER ∨ t = PACKET_ROOM_BAN_USER
      ∨ t = PACKET_ROOM_INVITE_OUT
  · simp only [if_pos c15] at hb
    exact send_two_longs_sized ptd _ args r hb
  simp only [if_neg c15] at hb
  by_cases c16 : t = PACKET_ROOM_REQUEST_MIC ∨ t = PACKET_ROOM_UNREQUEST_MIC
      ∨ t = PACKET_ROOM_CLOSE ∨ t = PACKET_ROOM_REMOVE_ALL_HANDS
      ∨ t = PACKET_ROOM_GET_ADMIN_INFO ∨ t = PACKET_UNBLOCK_BUDDY
      ∨ t = PACKET_BLOCK_BUDDY ∨ t = PACKET_ROOM_LEAVE ∨ t = PACKET_ADD_BUDDY
      ∨ t = PACKET_REMOVE_BUDDY ∨ t = PACKET_CHANGE_STATUS
  · simp only [if_pos c16] at hb
    exact send_one_long_sized ptd _ args r hb
  simp only [if_neg c16] at hb
  by_cases c17 : t = PACKET_ROOM_SET_TOPIC ∨ t = PACKET_ROOM_MESSAGE_OUT
      ∨ t = PACKET_IM_OUT
  · simp only [if_pos c17] at hb
    exact send_string_long_sized ptd _ args r hb hfit
  simp only [if_neg c17] at hb
  by_cases c18 : t = PACKET_DO_LIST_CATEGORY
  · simp only [if_pos c18] at hb
    exact send_do_list_category_sized ptd _ args r hb
  simp only [if_neg c18] at hb
  by_cases c19 : t = PACKET_ROOM_JOIN_AS_ADMIN
  · simp only [if_pos c19] at hb
    exact send_room_join_as_admin_sized ptd _ args r hb
  simp only [if_neg c19] at hb
  by_cases c20 : t = PACKET_ROOM_JOIN
  · simp only [if_pos c20] at hb
    exact send_room_join_sized ptd _ args r hb hfit
  simp only [if_neg c20] at hb
  by_cases c21 : t = PACKET_ROOM_PRIVATE_INVITE
  · simp only [if_pos c21] at hb
    exact send_room_private_invite_sized ptd _ args r hb
  simp only [if_neg c21] at hb
  by_cases c22 : t = PACKET_DO_SEARCH
  · simp only [if_pos c22] at hb
    exact send_do_search_sized ptd _ args r hb hfit
  simp only [if_neg c22] at hb
  exfalso
  simp only [not_or] at c13 c15 c16 c17
  simp only [pt_send_packet_handles, List.mem_cons, List.mem_singleton, decide_eq_true_eq,
    List.not_mem_nil, or_false, c1, c2, c3, c4, c5, c6, c7, c8, c9, c10, c11, c12, c14, c18, c19, c20, c21, c22,
    c13.1, c13.2.1, c13.2.2.1, c13.2.2.2,
    c15.1, c15.2.1, c15.2.2.1, c15.2.2.2.1, c15.2.2.2.2.1, c15.2.2.2.2.2.1, c15.2.2.2.2.2.2,
    c16.1, c16.2.1, c16.2.2.1, c16.2.2.2.1, c16.2.2.2.2.1, c16.2.2.2.2.2.1, c16.2.2.2.2.2.2.1,
    c16.2.2.2.2.2.2.2.1, c16.2.2.2.2.2.2.2.2.1, c16.2.2.2.2.2.2.2.2.2.1, c16.2.2.2.2.2.2.2.2.2.2,
    c17.1, c17.2.1, c17.2.2] at hh

/-- C1 (code evaluated at the failing input): the `ROOM_BOUNCE_REASON` frame for the
reason `"spam"`, room 42 and user 7 is 22 bytes long while its length field is 14. -/
theorem pt_send_packet_bounce_reason_length :
    (pt_send_packet {} 0 PACKET_ROOM_BOUNCE_REASON
        [VaArg.str (cstr "spam"), VaArg.num 42, VaArg.num 7]).map
        (fun r => (r.2.length, PACKET_GET_LENGTH r.2, r.2.drop 6)) =
      some (22, some 14, htonl_bytes 42 ++ htonl_bytes 7 ++ cstr "BR: spam") := by
  decide

theorem s16_u16 (t : Int) (h0 : -32768 ≤ t) (h1 : t < 32768) :
    s16 ((u16 t : Int) / 256 * 256 + (u16 t : Int) % 256) = t := by
  unfold s16 u16
  have hnn : 0 ≤ t % 65536 := Int.emod_nonneg _ (by decide)
  have hlt : t % 65536 < 65536 := Int.emod_lt_of_pos _ (by decide)
  have e : (((t % 65536).toNat : Nat) : Int) / 256 * 256 + (((t % 65536).toNat : Nat) : Int) % 256
      = t % 65536 := by
    omega
  rw [e, Int.emod_emod_of_dvd _ (dvd_refl _)]
  split <;> omega

/-- C2 (amended): the frame emitted for a packet type `t` parses back to `t`, except that
`PACKET_FILE_XFER_RECV_INIT` (0) is sent as `PACKET_FILE_XFER_REJECT` (-5002); the version
field is always `0x0053`. -/
theorem pt_send_packet_type_version (ptd : PTData) (now : Nat) (t : Int) (args : List VaArg)
    (d1 : PTData) (bytes : List Nat) (h0 : -32768 ≤ t) (h1 : t < 32768)
    (h : pt_send_packet ptd now t args = some (d1, bytes)) :
    PACKET_GET_TYPE bytes =
      some (if t = PACKET_FILE_XFER_RECV_INIT then PACKET_FILE_XFER_REJECT else t) ∧
    PACKET_GET_VERSION bytes = some 0x0053 := by
  unfold pt_send_packet at h
  cases hb : pt_packet_body ptd now t args with
  | none => rw [hb] at h; simp at h
  | some r =>
      rw [hb] at h
      simp only [Option.map_some', Option.some.injEq, Prod.mk.injEq] at h
      obtain ⟨-, rfl⟩ := h
      have hr : -32768 ≤ (if t = PACKET_FILE_XFER_RECV_INIT then PACKET_FILE_XFER_REJECT else t)
          ∧ (if t = PACKET_FILE_XFER_RECV_INIT then PACKET_FILE_XFER_REJECT else t) < 32768 := by
        split
        · decide
        · exact ⟨h0, h1⟩
      generalize (if t = PACKET_FILE_XFER_RECV_INIT then PACKET_FILE_XFER_REJECT else t) = t1
        at hr ⊢
      constructor
      · simp [PACKET_GET_TYPE, PACKET_GET_SHORT, ntohs_at, packet_header, htons_bytes,
          s16_u16 t1 hr.1 hr.2]
      · simp only [PACKET_GET_VERSION, PACKET_GET_SHORT, ntohs_at, packet_header, htons_bytes]
        simp
        decide

/-- C2 (witness): an `IM_OUT` frame parses back to type -20 and version 0x0053. -/
theorem pt_send_packet_type_version_witness :
    pt_send_packet {} 0 PACKET_IM_OUT [VaArg.str (cstr "hi"), VaArg.num 30] =
      some ({}, [0xFF, 0xEC, 0x00, 0x53, 0x00, 0x06, 0, 0, 0, 30, 104, 105]) ∧
    PACKET_GET_TYPE [0xFF, 0xEC, 0x00, 0x53, 0x00, 0x06, 0, 0, 0, 30, 104, 105] =
      some (if PACKET_IM_OUT = PACKET_FILE_XFER_RECV_INIT then PACKET_FILE_XFER_REJECT
        else PACKET_IM_OUT) ∧
    PACKET_GET_VERSION [0xFF, 0xEC, 0x00, 0x53, 0x00, 0x06, 0, 0, 0, 30, 104, 105]
      = some 0x0053 :=
  ⟨by decide,
    pt_send_packet_type_version {} 0 PACKET_IM_OUT [VaArg.str (cstr "hi"), VaArg.num 30] {} _
      (by decide) (by decide) (by decide)⟩

/-- C2 (counterexample): for `PACKET_FILE_XFER_RECV_INIT` (0) the emitted frame parses to
type -5002. -/
theorem pt_send_packet_recv_init_type :
    (pt_send_packet {} 0 PACKET_FILE_XFER_RECV_INIT [VaArg.xfer { id := 9, uin := 5 }]).map
        (fun r => PACKET_GET_TYPE r.2) = some (some (-5002)) ∧
    PACKET_FILE_XFER_RECV_INIT = 0 := by
  decide

/-! ## RTP parsing -/

theorem shiftRight_and (a b i : Nat) : (a &&& b) >>> i = (a >>> i) &&& (b >>> i) := by
  apply Nat.eq_of_testBit_eq
  intro j
  simp only [Nat.testBit_shiftRight, Nat.testBit_and]

theorem bits_pad (q : Nat) : ((q &&& 0x2000) >>> 13) &&& 0x1 = q / 8192 % 2 := by
  rw [shiftRight_and, Nat.and_assoc]
  simp only [Nat.reduceShiftRight, Nat.and_self, Nat.and_one_is_mod, Nat.shiftRight_eq_div_pow]
  norm_num

theorem bits_ext (q : Nat) : ((q &&& 0x1000) >>> 12) &&& 0x1 = q / 4096 % 2 := by
  rw [shiftRight_and, Nat.and_assoc]
  simp only [Nat.reduceShiftRight, Nat.and_self, Nat.and_one_is_mod, Nat.shiftRight_eq_div_pow]
  norm_num

theorem bits_marker (q : Nat) : ((q &&& 0x0080) >>> 7) &&& 0x1 = q / 128 % 2 := by
  rw [shiftRight_and, Nat.and_assoc]
  simp only [Nat.reduceShiftRight, Nat.and_self, Nat.and_one_is_mod, Nat.shiftRight_eq_div_pow]
  norm_num

theorem bits_cc (q : Nat) : ((q &&& 0x0F00) >>> 8) &&& 0xF = q / 256 % 16 := by
  rw [shiftRight_and, Nat.and_assoc]
  simp only [Nat.reduceShiftRight, Nat.and_self, Nat.shiftRight_eq_div_pow]
  exact Nat.and_pow_two_sub_one_eq_mod _ 4

theorem bits_pt (q : Nat) : q &&& 0x007F = q % 128 := Nat.and_pow_two_sub_one_eq_mod q 7

theorem bits_ver (q : Nat) (h : q / 16384 = 2) : ((q &&& 0xC000) >>> 14) &&& 0x2 = 2 := by
  rw [shiftRight_and, Nat.and_assoc]
  simp only [Nat.reduceShiftRight, Nat.shiftRight_eq_div_pow]
  norm_num [h]
  decide

theorem bitfield_int_small (c : Nat) (h : c < 8) : bitfield_int 4 c = c := by
  unfold bitfield_int
  have e : c % 2 ^ 4 = c := Nat.mod_eq_of_lt (by omega)
  rw [e, if_pos (by simpa using h)]

theorem ntohl_at_getD (p : List Nat) (o : Nat) (h : o + 3 < p.length) :
    ntohl_at p o = some (p.getD o 0 * 16777216 + p.getD (o + 1) 0 * 65536
      + p.getD (o + 2) 0 * 256 + p.getD (o + 3) 0) := by
  unfold ntohl_at
  simp only [List.get?_eq_getElem?, List.getD_eq_getElem?_getD]
  rw [List.getElem?_eq_getElem (by omega), List.getElem?_eq_getElem (by omega),
    List.getElem?_eq_getElem (by omega), List.getElem?_eq_getElem (by omega)]
  simp only [Option.getD_some]

theorem ntohs_at_getD (p : List Nat) (o : Nat) (h : o + 1 < p.length) :
    ntohs_at p o = some (p.getD o 0 * 256 + p.getD (o + 1) 0) := by
  unfold ntohs_at
  simp only [List.get?_eq_getElem?, List.getD_eq_getElem?_getD]
  rw [List.getElem?_eq_getElem (by omega), List.getElem?_eq_getElem (by omega)]
  simp only [Option.getD_some]

theorem ntohl_at_none (p : List Nat) (o : Nat) (h : p.length ≤ o + 3) : ntohl_at p o = none := by
  unfold ntohl_at
  have h3 : p.get? (o + 3) = none := by
    rw [List.get?_eq_getElem?]; exact List.getElem?_eq_none h
  rw [h3]
  split
  · rename_i h4; cases h4
  · rfl

theorem rtp_read_csrc_spec (p : List Nat) : ∀ (n i : Nat) (l : List Nat),
    rtp_read_csrc p i n = some l →
    l.length = n ∧ (0 < n → 12 + (i + n) * 4 ≤ p.length) ∧
    ∀ k < n, l.getD k 0 = p.getD (12 + (i + k) * 4) 0 * 16777216
      + p.getD (12 + (i + k) * 4 + 1) 0 * 65536 + p.getD (12 + (i + k) * 4 + 2) 0 * 256
      + p.getD (12 + (i + k) * 4 + 3) 0 := by
  intro n
  induction n with
  | zero =>
      intro i l h
      simp only [rtp_read_csrc, Option.some.injEq] at h
      subst h
      exact ⟨rfl, fun h => absurd h (by omega), fun k hk => absurd hk (by omega)⟩
  | succ n ih =>
      intro i l h
      rw [rtp_read_csrc] at h
      rcases Nat.lt_or_ge (12 + i * 4 + 3) p.length with hin | hout
      · rw [ntohl_at_getD p _ hin] at h
        cases hr : rtp_read_csrc p (i + 1) n with
        | none => rw [hr] at h; simp at h
        | some rest =>
            rw [hr] at h
            simp only [Option.some.injEq] at h
            subst h
            obtain ⟨h1, h2, h3⟩ := ih (i + 1) rest hr
            refine ⟨by simp [h1], fun _ => ?_, ?_⟩
            · rcases Nat.eq_zero_or_pos n with hz | hp
              · subst hz; omega
              · have := h2 hp; omega
            · intro k hk
              cases k with
              | zero => simp
              | succ k =>
                  have := h3 k (by omega)
                  simp only [List.getD_cons_succ]
                  rw [this, show i + 1 + k = i + (k + 1) by omega]
      · rw [ntohl_at_none p _ hout] at h
        simp at h


theorem u32_small (n : Nat) (h : n < 4294967296) : u32 (n : Int) = n := by
  unfold u32
  omega

/-- C7 (amended): for a byte string shorter than 65549 bytes whose csrc_count bits are at
most 7, a packet returned by `rtp_packet_parse` has padding, extension, csrc_count, marker,
payload_type, sequence, timestamp, ssrc, the CSRC entries, the payload and `payload_len` as
the wire layout says. -/
theorem rtp_packet_parse_fields (p : List Nat) (pkt : RTPPacket)
    (hb : ∀ b ∈ p, b < 256) (hlen : p.length < 65549) (hcc : p.getD 0 0 % 16 < 8)
    (h : rtp_packet_parse p p.length = some (some pkt)) :
    pkt.padding = p.getD 0 0 / 32 % 2 ∧
    pkt.extension = p.getD 0 0 / 16 % 2 ∧
    pkt.csrc_count = p.getD 0 0 % 16 ∧
    pkt.marker = p.getD 1 0 / 128 ∧
    pkt.payload_type = p.getD 1 0 % 128 ∧
    pkt.sequence = p.getD 2 0 * 256 + p.getD 3 0 ∧
    pkt.timestamp = p.getD 4 0 * 16777216 + p.getD 5 0 * 65536 + p.getD 6 0 * 256
      + p.getD 7 0 ∧
    pkt.ssrc = p.getD 8 0 * 16777216 + p.getD 9 0 * 65536 + p.getD 10 0 * 256
      + p.getD 11 0 ∧
    (∀ k < pkt.csrc_count, pkt.csrc.getD k 0 = p.getD (12 + 4 * k) 0 * 16777216
      + p.getD (12 + 4 * k + 1) 0 * 65536 + p.getD (12 + 4 * k + 2) 0 * 256
      + p.getD (12 + 4 * k + 3) 0) ∧
    pkt.payload = p.drop (12 + 4 * pkt.csrc_count) ∧
    pkt.payload_len = (p.length : Int) - 12 - 4 * pkt.csrc_count := by
  unfold rtp_packet_parse at h
  rw [u32_small _ (by omega)] at h
  have h24 : 24 ≤ p.length := by
    by_contra hc
    rw [if_pos (by unfold sizeof_RTPPacket; omega)] at h
    simp at h
  rw [if_neg (by unfold sizeof_RTPPacket; omega)] at h
  rw [ntohs_at_getD p 0 (by omega), ntohs_at_getD p 2 (by omega), ntohl_at_getD p 4 (by omega),
    ntohl_at_getD p 8 (by omega)] at h
  simp only [Nat.zero_add] at h
  have hb0 : p.getD 0 0 < 256 := getD_byte p hb 0
  have hb1 : p.getD 1 0 < 256 := getD_byte p hb 1
  generalize p.getD 0 0 = b0 at h hb0 hcc ⊢
  generalize p.getD 1 0 = b1 at h hb1 ⊢
  have ecc : (b0 * 256 + b1) / 256 % 16 = b0 % 16 := by omega
  simp only [bits_pad, bits_ext, bits_marker, bits_cc, bits_pt, ecc,
    bitfield_int_small _ hcc] at h
  generalize hc : b0 % 16 = c at h hcc ⊢
  have hcs : ∃ l, (if ((c : Nat) : Int) > 0 then rtp_read_csrc p 0 ((c : Int).toNat)
      else some []) = some l ∧ (0 < c → 12 + c * 4 ≤ p.length) ∧
      ∀ k < c, l.getD k 0 = p.getD (12 + 4 * k) 0 * 16777216
        + p.getD (12 + 4 * k + 1) 0 * 65536 + p.getD (12 + 4 * k + 2) 0 * 256
        + p.getD (12 + 4 * k + 3) 0 := by
    by_cases hpos : 0 < c
    · rw [if_pos (by omega), Int.toNat_ofNat] at h ⊢
      cases hr : rtp_read_csrc p 0 c with
      | none => rw [hr] at h; simp at h
      | some l =>
          obtain ⟨-, h2, h3⟩ := rtp_read_csrc_spec p c 0 l hr
          refine ⟨l, rfl, fun hp => by have := h2 hp; omega, fun k hk => ?_⟩
          have := h3 k hk
          rw [this, show 12 + (0 + k) * 4 = 12 + 4 * k by omega]
    · have hz : c = 0 := by omega
      subst hz
      exact ⟨[], by simp, fun hp => absurd hp (by omega), fun k hk => absurd hk (by omega)⟩
  obtain ⟨l, hl, hbound, hcsrc⟩ := hcs
  rw [hl] at h
  simp only at h
  generalize hx : s16 ((p.length : Int) - (12 + (c : Int) * 4)) = pl at h
  have hpl : 0 < pl → pl = (p.length : Int) - (12 + (c : Int) * 4) := by
    intro hp
    unfold s16 at hx
    split at hx <;> omega
  by_cases hp : pl ≤ 0
  · rw [if_pos hp] at h
    simp at h
  · rw [if_neg hp, if_neg (by omega)] at h
    have e := hpl (by omega)
    split at h
    · simp at h
    · simp only [Option.some.injEq] at h
      subst h
      simp only
      refine ⟨by omega, by omega, trivial, by omega, by omega, trivial, trivial, trivial,
        hcsrc, ?_, by omega⟩
      rw [show (12 + (c : Int) * 4).toNat = 12 + 4 * c by omega]
      apply List.take_of_length_le
      rw [List.length_drop]
      omega


/-- C7 (witness): a 24-byte datagram with csrc_count 2, marker set and payload type 3. -/
theorem rtp_packet_parse_fields_witness :
    rtp_packet_parse rtp_two_csrc rtp_two_csrc.length = some (some rtp_two_csrc_packet) ∧
    rtp_two_csrc_packet.padding = rtp_two_csrc.getD 0 0 / 32 % 2 ∧
    rtp_two_csrc_packet.csrc_count = rtp_two_csrc.getD 0 0 % 16 ∧
    rtp_two_csrc_packet.payload = rtp_two_csrc.drop (12 + 4 * rtp_two_csrc_packet.csrc_count) ∧
    rtp_two_csrc_packet.payload_len
      = (rtp_two_csrc.length : Int) - 12 - 4 * rtp_two_csrc_packet.csrc_count :=
  have h := rtp_packet_parse_fields rtp_two_csrc rtp_two_csrc_packet
    (by decide) (by decide) (by decide) (by decide)
  ⟨by decide, h.1, h.2.2.1, h.2.2.2.2.2.2.2.2.2.1, h.2.2.2.2.2.2.2.2.2.2⟩

theorem rtp_parse_wrapped (t : List Nat) (n : Nat) (len : Int) (hn : t.length = 65536 + n)
    (hlen : len = ((65548 + n : Nat) : Int)) (h1 : 0 < n) (h2 : n < 32768) :
    rtp_packet_parse ([0x80, 0x03, 0, 0, 0, 0, 0, 0, 0, 0, 0, 0] ++ t) len =
      some (some { version := 2, payload_type := 3, payload := t.take n, payload_len := n }) := by
  have hs : s16 (((65548 + n : Nat) : Int) - (12 + 0 * 4)) = n := by
    unfold s16
    split <;> omega
  unfold rtp_packet_parse
  rw [hlen, u32_small _ (by omega), if_neg (by unfold sizeof_RTPPacket; omega)]
  simp only [List.cons_append, List.nil_append, ntohs_at, ntohl_at, List.get?_cons_zero,
    List.get?_cons_succ, Nat.zero_add, Nat.reduceAdd]
  simp only [show ((0x80 * 256 + 0x03 &&& 0x0F00) >>> 8) &&& 0xF = 0 by decide,
    show bitfield_int 4 0 = 0 by decide, hs]
  simp only [show ¬ ((0 : Int) > 0) by decide, if_false]
  rw [if_neg (by omega), if_neg (by decide), if_neg (by simp [hn]; omega)]
  simp only [show ((12 : Int) + 0 * 4).toNat = 12 by decide, Int.toNat_ofNat]
  rfl

theorem rtp_huge_parse :
    rtp_packet_parse rtp_huge 65549 =
      some (some { version := 2, payload_type := 3, payload := [7], payload_len := 1 }) := by
  unfold rtp_huge
  rw [rtp_parse_wrapped (List.replicate 65537 7) 1 65549
    (by rw [List.length_replicate]) (by decide) (by decide) (by decide), List.take_replicate]
  rfl

theorem rtp_huge_length : rtp_huge.length = 65549 := by
  unfold rtp_huge
  rw [List.length_append, List.length_replicate]
  rfl

/-- C7 (counterexample): a datagram whose version bits are 01 is parsed to version 0, and a
datagram of 65549 bytes is parsed to a packet with `payload_len` 1 and one payload byte
instead of the 65537 bytes after the header. -/
theorem rtp_packet_parse_version_and_length :
    (rtp_packet_parse rtp_version_one 24).map (fun r => r.map (fun p => p.version))
      = some (some 0) ∧
    rtp_version_one.getD 0 0 / 64 = 1 ∧
    (rtp_packet_parse rtp_huge 65549).map
      (fun r => r.map (fun p => (p.payload_len, p.payload))) = some (some (1, [7])) ∧
    rtp_huge.length = 65549 :=
  ⟨by decide, by decide, by rw [rtp_huge_parse]; rfl, rtp_huge_length⟩

/-! ## RTP round trip -/

theorem htonl_value (c : Nat) (h : c < 4294967296) :
    u32 (c : Int) / 16777216 * 16777216 + u32 (c : Int) / 65536 % 256 * 65536
      + u32 (c : Int) / 256 % 256 * 256 + u32 (c : Int) % 256 = c := by
  rw [u32_small c h]
  omega

theorem u16_small (n : Nat) (h : n < 65536) : u16 (n : Int) = n := by
  unfold u16
  omega

theorem ntohl_at_cons (x : Nat) (l : List Nat) (o : Nat) :
    ntohl_at (x :: l) (o + 1) = ntohl_at l o := by
  unfold ntohl_at
  simp only [List.get?_cons_succ, show o + 1 + 1 = (o + 1) + 1 by rfl,
    show o + 1 + 2 = (o + 2) + 1 by rfl, show o + 1 + 3 = (o + 3) + 1 by rfl]

theorem ntohl_at_append (pre : List Nat) (c : Nat) (rest : List Nat) (h : c < 4294967296) :
    ntohl_at (pre ++ (htonl_bytes c ++ rest)) pre.length = some c := by
  induction pre with
  | nil =>
      simp only [List.nil_append, List.length_nil, ntohl_at, htonl_bytes, List.cons_append,
        List.get?_cons_zero, List.get?_cons_succ, Nat.zero_add]
      rw [htonl_value c h]
  | cons x pre ih =>
      rw [List.cons_append, List.length_cons, ntohl_at_cons, ih]

theorem rtp_read_csrc_append : ∀ (cs : List Nat) (pre post : List Nat) (i : Nat),
    pre.length = 12 + i * 4 → (∀ c ∈ cs, c < 4294967296) →
    rtp_read_csrc (pre ++ ((cs.map (fun (c : Nat) => htonl_bytes (c : Int))).flatten ++ post))
      i cs.length = some cs := by
  intro cs
  induction cs with
  | nil => intro pre post i _ _; rfl
  | cons c cs ih =>
      intro pre post i hpre hcs
      have hc := hcs c (List.mem_cons_self _ _)
      simp only [List.map_cons, List.flatten_cons, List.length_cons, List.append_assoc]
      rw [rtp_read_csrc, ← hpre, ntohl_at_append pre c _ hc]
      have hrec := ih (pre ++ htonl_bytes c) post (i + 1)
        (by rw [List.length_append, htonl_bytes_length, hpre]; omega)
        (fun x hx => hcs x (List.mem_cons_of_mem _ hx))
      rw [List.append_assoc] at hrec
      rw [hrec]

theorem flatten_htonl_length (cs : List Nat) :
    ((cs.map (fun (c : Nat) => htonl_bytes (c : Int))).flatten).length = 4 * cs.length := by
  induction cs with
  | nil => rfl
  | cons c cs ih =>
      simp only [List.map_cons, List.flatten_cons, List.length_append, htonl_bytes_length, ih,
        List.length_cons]
      omega

/-- C8 (amended): for a well-formed RTP packet with at most 7 CSRC entries, a payload of at
most 32767 bytes and a serialisation of at least `sizeof(RTPPacket)` = 24 bytes,
`rtp_packet_parse` applied to the serialisation returns the packet. -/
theorem rtp_parse_serialize (p : RTPPacket) (hwf : spec_rtp_well_formed p)
    (hcc : p.csrc_count < 8) (hmin : sizeof_RTPPacket ≤ (spec_rtp_serialize p).length)
    (hmax : p.payload.length < 32768) :
    rtp_packet_parse (spec_rtp_serialize p) (spec_rtp_serialize p).length = some (some p) := by
  obtain ⟨hv, hpad, hext, hm, hpt, hcl, -, hseq, hts, hss, hcs, hne, hpl⟩ := hwf
  have hlen : (spec_rtp_serialize p).length = 12 + 4 * p.csrc.length + p.payload.length := by
    simp only [spec_rtp_serialize, List.length_append, List.length_cons, List.length_nil,
      htons_bytes_length, htonl_bytes_length, flatten_htonl_length]
  rw [hlen] at hmin ⊢
  unfold sizeof_RTPPacket at hmin
  have hpos : 0 < p.payload.length := List.length_pos.mpr hne
  have hs : s16 (((12 + 4 * p.csrc.length + p.payload.length : Nat) : Int)
      - (12 + ((p.csrc.length : Nat) : Int) * 4)) = p.payload.length := by
    unfold s16
    split <;> omega
  have hser : spec_rtp_serialize p =
      [p.version * 64 + p.padding * 32 + p.extension * 16 + p.csrc_count,
        p.marker * 128 + p.payload_type, u16 p.sequence / 256, u16 p.sequence % 256,
        u32 p.timestamp / 16777216, u32 p.timestamp / 65536 % 256, u32 p.timestamp / 256 % 256,
        u32 p.timestamp % 256, u32 p.ssrc / 16777216, u32 p.ssrc / 65536 % 256,
        u32 p.ssrc / 256 % 256, u32 p.ssrc % 256]
      ++ ((p.csrc.map (fun (c : Nat) => htonl_bytes (c : Int))).flatten ++ p.payload) := by
    simp only [spec_rtp_serialize, htons_bytes, htonl_bytes, List.cons_append, List.nil_append,
      List.append_assoc]
  have hq : ntohs_at (spec_rtp_serialize p) 0 = some ((p.version * 64 + p.padding * 32
      + p.extension * 16 + p.csrc_count) * 256 + (p.marker * 128 + p.payload_type)) := by
    rw [hser]; rfl
  have hsq : ntohs_at (spec_rtp_serialize p) 2 = some p.sequence := by
    rw [hser]
    simp only [ntohs_at, List.cons_append, List.get?_cons_succ, List.get?_cons_zero,
      u16_small _ hseq]
    congr 1
    omega
  have hts2 : ntohl_at (spec_rtp_serialize p) 4 = some p.timestamp := by
    rw [hser]
    simp only [ntohl_at, List.cons_append, List.get?_cons_succ, List.get?_cons_zero]
    rw [htonl_value _ hts]
  have hss2 : ntohl_at (spec_rtp_serialize p) 8 = some p.ssrc := by
    rw [hser]
    simp only [ntohl_at, List.cons_append, List.get?_cons_succ, List.get?_cons_zero]
    rw [htonl_value _ hss]
  have hrd : rtp_read_csrc (spec_rtp_serialize p) 0 p.csrc.length = some p.csrc := by
    rw [hser]
    exact rtp_read_csrc_append p.csrc _ p.payload 0 rfl hcs
  have hdrop : (spec_rtp_serialize p).drop (12 + 4 * p.csrc.length) = p.payload := by
    rw [hser, ← List.append_assoc]
    exact List.drop_left' (by
      simp only [List.length_append, List.length_cons, List.length_nil, flatten_htonl_length])
  have hccbits : ((((p.version * 64 + p.padding * 32 + p.extension * 16 + p.csrc_count) * 256
      + (p.marker * 128 + p.payload_type)) &&& 0x0F00) >>> 8) &&& 0xF = p.csrc.length := by
    rw [bits_cc]; omega
  unfold rtp_packet_parse
  rw [u32_small _ (by omega), if_neg (by unfold sizeof_RTPPacket; omega), hq, hsq, hts2, hss2]
  simp only [hccbits, bitfield_int_small _ (hcl ▸ hcc)]
  have hcsrc : (if ((p.csrc.length : Nat) : Int) > 0 then
      rtp_read_csrc (spec_rtp_serialize p) 0 ((p.csrc.length : Nat) : Int).toNat
      else some []) = some p.csrc := by
    by_cases h0 : 0 < p.csrc.length
    · rw [if_pos (by omega), Int.toNat_ofNat, hrd]
    · rw [if_neg (by omega)]
      have : p.csrc = [] := List.length_eq_zero.mp (by omega)
      rw [this]
  rw [hcsrc]
  simp only [hs]
  rw [if_neg (by omega), if_neg (by omega), if_neg (by rw [hlen]; omega)]
  have e1 : (12 + ((p.csrc.length : Nat) : Int) * 4).toNat = 12 + 4 * p.csrc.length := by omega
  rw [e1, hdrop, Int.toNat_ofNat, List.take_of_length_le (le_refl _)]
  have hbv : ((((p.version * 64 + p.padding * 32 + p.extension * 16 + p.csrc_count) * 256
      + (p.marker * 128 + p.payload_type)) &&& 0xC000) >>> 14) &&& 0x2 = p.version := by
    rw [bits_ver _ (by omega), hv]
  rw [hbv, bits_pad, bits_ext, bits_marker, bits_pt]
  obtain ⟨version, padding, extension, csrc_count, marker, payload_type, sequence, timestamp,
    ssrc, csrc, payload, payload_len⟩ := p
  simp only at hv hpad hext hm hpt hcl hseq hts hss hcs hne hpl hcc hmax ⊢
  simp only [Option.some.injEq, RTPPacket.mk.injEq, true_and, and_true]
  refine ⟨by omega, by omega, hcl.symm, by omega, by omega, hpl.symm⟩

set_option maxRecDepth 100000 in
/-- C8 (witness): the datagram that `pt_media_stream_audio_write` builds for sequence
1234, timestamp 5000000, UID 777 and four frames of `0xAA` is the serialisation of
`voice_packet_1234` and parses back to it, with payload length 136. -/
theorem rtp_parse_serialize_witness :
    spec_rtp_well_formed voice_packet_1234 ∧
    pt_media_stream_audio_write (some {})
        (some (List.replicate 4 (some (List.replicate 33 0xAA)))) 4 {} { uin := 777 } 1233
        5000000 = some (148, 1234, htonl_bytes 148 ++ spec_rtp_serialize voice_packet_1234) ∧
    rtp_packet_parse (spec_rtp_serialize voice_packet_1234)
      (spec_rtp_serialize voice_packet_1234).length = some (some voice_packet_1234) ∧
    voice_packet_1234.payload_len = 136 :=
  have hwf : spec_rtp_well_formed voice_packet_1234 := by
    unfold spec_rtp_well_formed
    decide
  ⟨hwf, by decide,
    rtp_parse_serialize voice_packet_1234 hwf (by decide) (by decide) (by decide), rfl⟩

theorem rtp_plain_serialize (t : List Nat) :
    spec_rtp_serialize (rtp_plain t) = [0x80, 0x03, 0, 0, 0, 0, 0, 0, 0, 0, 0, 0] ++ t := by
  simp only [spec_rtp_serialize, rtp_plain, List.map_nil, List.flatten_nil, List.append_nil]
  rfl

theorem rtp_parse_too_long (t : List Nat) :
    rtp_packet_parse ([0x80, 0x03, 0, 0, 0, 0, 0, 0, 0, 0, 0, 0] ++ t) 32780 = some none := by
  unfold rtp_packet_parse
  rw [show u32 32780 = 32780 by decide, if_neg (by decide)]
  simp only [List.cons_append, List.nil_append, ntohs_at, ntohl_at, List.get?_cons_zero,
    List.get?_cons_succ, Nat.zero_add, Nat.reduceAdd]
  simp only [show ((0x80 * 256 + 0x03 &&& 0x0F00) >>> 8) &&& 0xF = 0 by decide,
    show bitfield_int 4 0 = 0 by decide,
    show s16 ((32780 : Int) - (12 + 0 * 4)) = -32768 by decide]
  simp only [show ¬ ((0 : Int) > 0) by decide, if_false]
  rw [if_pos (by decide)]

/-- C8 (counterexample): the serialisation of a well-formed packet is not parsed back when
it is shorter than 24 bytes (17 bytes: `NULL`), when the packet has 8 CSRC entries (the
signed 4-bit count reads -8), or when the payload has 32768 bytes (`payload_len` is a
`short`: `NULL`). -/
theorem rtp_parse_serialize_fails :
    (spec_rtp_well_formed (rtp_plain [1, 2, 3, 4, 5]) ∧
      rtp_packet_parse (spec_rtp_serialize (rtp_plain [1, 2, 3, 4, 5])) 17 = some none) ∧
    (spec_rtp_well_formed rtp_eight_csrc ∧ (spec_rtp_serialize rtp_eight_csrc).length = 45 ∧
      rtp_packet_parse (spec_rtp_serialize rtp_eight_csrc) 45 = none) ∧
    (spec_rtp_well_formed (rtp_plain (List.replicate 32768 0)) ∧
      rtp_packet_parse (spec_rtp_serialize (rtp_plain (List.replicate 32768 0))) 32780
        = some none) := by
  refine ⟨⟨?_, by decide⟩, ⟨?_, by decide, by decide⟩, ⟨?_, ?_⟩⟩
  · unfold spec_rtp_well_formed; decide
  · unfold spec_rtp_well_formed; decide
  · unfold spec_rtp_well_formed
    simp only [rtp_plain, List.length_replicate, List.length_nil, List.not_mem_nil]
    refine ⟨trivial, by decide, by decide, by decide, by decide, trivial, by decide, by decide,
      by decide, by decide, fun c hc => absurd hc (by simp), ?_, trivial⟩
    intro h
    have h2 := List.length_replicate 32768 (0 : Nat)
    rw [h] at h2
    exact absurd h2 (by decide)
  · rw [rtp_plain_serialize]
    exact rtp_parse_too_long _

/-! ## Outbound voice datagrams -/

theorem host_long_bytes_length (v : Int) : (host_long_bytes v).length = 4 := rfl

theorem audio_packet_length (uin rtpseq : Int) (now : Nat) (b0 b1 b2 b3 : List Nat)
    (h0 : 33 ≤ b0.length) (h1 : 33 ≤ b1.length) (h2 : 33 ≤ b2.length) (h3 : 33 ≤ b3.length) :
    (audio_packet uin rtpseq now b0 b1 b2 b3).length = 148 := by
  simp only [audio_packet, List.length_append, htons_bytes_length, htonl_bytes_length,
    host_long_bytes_length, List.length_take]
  omega

theorem audio_packet_drop (uin rtpseq : Int) (now : Nat) (b0 b1 b2 b3 : List Nat) :
    (audio_packet uin rtpseq now b0 b1 b2 b3).drop 12
      = b0.take 33 ++ b1.take 33 ++ b2.take 33 ++ b3.take 33 ++ host_long_bytes uin := by
  simp only [audio_packet, htons_bytes, htonl_bytes, List.cons_append, List.nil_append,
    List.append_assoc, List.drop_succ_cons, List.drop_zero]

theorem audio_packet_parse (uin rtpseq : Int) (now : Nat) (b0 b1 b2 b3 : List Nat)
    (h0 : 33 ≤ b0.length) (h1 : 33 ≤ b1.length) (h2 : 33 ≤ b2.length) (h3 : 33 ≤ b3.length) :
    ∃ r : RTPPacket,
      rtp_packet_parse (audio_packet uin rtpseq now b0 b1 b2 b3) 148 = some (some r) ∧
      r.payload = (audio_packet uin rtpseq now b0 b1 b2 b3).drop 12 ∧ r.payload_len = 136 := by
  have hlen := audio_packet_length uin rtpseq now b0 b1 b2 b3 h0 h1 h2 h3
  have hdl : ((audio_packet uin rtpseq now b0 b1 b2 b3).drop 12).length = 136 := by
    rw [List.length_drop, hlen]
  generalize hp : audio_packet uin rtpseq now b0 b1 b2 b3 = pk at hlen hdl
  have hshape : ∃ a b c0 c1 c2 c3 d0 d1 d2 d3 t,
      pk = 128 :: 3 :: a :: b :: c0 :: c1 :: c2 :: c3 :: d0 :: d1 :: d2 :: d3 :: t := by
    rw [← hp]
    simp only [audio_packet, htons_bytes, htonl_bytes, List.cons_append, List.nil_append,
      List.append_assoc, show u16 0x8003 / 256 = 128 by decide,
      show u16 0x8003 % 256 = 3 by decide]
    exact ⟨_, _, _, _, _, _, _, _, _, _, _, rfl⟩
  obtain ⟨a, b, c0, c1, c2, c3, d0, d1, d2, d3, t, hpk⟩ := hshape
  subst hpk
  simp only [List.drop_succ_cons, List.drop_zero] at hdl
  unfold rtp_packet_parse
  rw [show u32 148 = 148 by decide, if_neg (by decide)]
  simp only [ntohs_at, ntohl_at, List.get?_cons_zero, List.get?_cons_succ, Nat.zero_add,
    Nat.reduceAdd]
  simp only [show ((128 * 256 + 3 &&& 0x0F00) >>> 8) &&& 0xF = 0 by decide,
    show bitfield_int 4 0 = 0 by decide,
    show s16 ((148 : Int) - (12 + 0 * 4)) = 136 by decide]
  simp only [show ¬ ((0 : Int) > 0) by decide, show ¬ ((136 : Int) ≤ 0) by decide,
    show ¬ ((12 : Int) + 0 * 4 < 0) by decide, if_false,
    show ((12 : Int) + 0 * 4).toNat = 12 by decide, show (136 : Int).toNat = 136 by decide]
  rw [if_neg (by rw [hlen]; decide)]
  refine ⟨_, rfl, ?_, rfl⟩
  simp only [List.drop_succ_cons, List.drop_zero]
  exact List.take_of_length_le (by omega)

/-- C9: whenever `pt_media_stream_audio_write` sends (a stream, four frame buffers of at
least 33 bytes, a non-zero size, no speaker set), it returns 148 and writes the four bytes
`00 00 00 94` (148 in big-endian) followed by a block of exactly 148 bytes; parsed as an
RTP packet that block has as payload the 136 bytes after its 12-byte header. -/
theorem pt_media_stream_audio_write_sends (s : GaimMediaStream) (b0 b1 b2 b3 : List Nat)
    (more : List (Option (List Nat))) (size : Nat) (rd : PTRoomData) (ptd : PTData)
    (rtpseq : Int) (now : Nat) (hsize : size ≠ 0) (hspeaker : rd.speaker = none)
    (h0 : 33 ≤ b0.length) (h1 : 33 ≤ b1.length) (h2 : 33 ≤ b2.length) (h3 : 33 ≤ b3.length) :
    ∃ (seq : Int) (packet : List Nat) (r : RTPPacket),
      pt_media_stream_audio_write (some s)
          (some (some b0 :: some b1 :: some b2 :: some b3 :: more)) size rd ptd rtpseq now
        = some (148, seq, [0, 0, 0, 148] ++ packet) ∧
      packet.length = 148 ∧
      rtp_packet_parse packet 148 = some (some r) ∧
      r.payload = packet.drop 12 ∧ r.payload.length = 136 ∧ r.payload_len = 136 := by
  obtain ⟨r, hr, hpay, hpl⟩ :=
    audio_packet_parse ptd.uin (s16 (rtpseq + 1)) now b0 b1 b2 b3 h0 h1 h2 h3
  have hlen := audio_packet_length ptd.uin (s16 (rtpseq + 1)) now b0 b1 b2 b3 h0 h1 h2 h3
  refine ⟨s16 (rtpseq + 1), audio_packet ptd.uin (s16 (rtpseq + 1)) now b0 b1 b2 b3, r,
    ?_, hlen, hr, hpay, ?_, hpl⟩
  · simp only [pt_media_stream_audio_write, if_neg hsize, hspeaker, Option.isSome_none,
      Bool.false_eq_true, if_false, h0, h1, h2, h3, and_self, if_true]
    rfl
  · rw [hpay, List.length_drop, hlen]

set_option maxRecDepth 100000 in
/-- C9 (witness): a call with four frames of `0xAA`, UID 777, `rtpseq` 1233 and time
5000000. -/
theorem pt_media_stream_audio_write_sends_witness :
    (4 : Nat) ≠ 0 ∧ ({} : PTRoomData).speaker = none ∧ 33 ≤ gsm_frame_aa.length ∧
    ∃ (seq : Int) (packet : List Nat) (r : RTPPacket),
      pt_media_stream_audio_write (some {})
          (some (some gsm_frame_aa :: some gsm_frame_aa :: some gsm_frame_aa ::
            some gsm_frame_aa :: [])) 4 {} session_777 1233 5000000
        = some (148, seq, [0, 0, 0, 148] ++ packet) ∧
      packet.length = 148 ∧
      rtp_packet_parse packet 148 = some (some r) ∧
      r.payload = packet.drop 12 ∧ r.payload.length = 136 ∧ r.payload_len = 136 :=
  ⟨by decide, rfl, by decide,
    pt_media_stream_audio_write_sends {} gsm_frame_aa gsm_frame_aa gsm_frame_aa gsm_frame_aa
      [] 4 {} session_777 1233 5000000 (by decide) rfl (by decide) (by decide) (by decide)
      (by decide)⟩

/-- Layout of the block built by `pt_media_stream_audio_write`: bytes 0-1 are `80 03`,
bytes 8-11 the UID in network order, bytes 12..143 the four frames in order, and bytes
144..147 the UID as it lies in memory. -/
theorem audio_packet_layout (uin rtpseq : Int) (now : Nat) (b0 b1 b2 b3 : List Nat)
    (h0 : 33 ≤ b0.length) (h1 : 33 ≤ b1.length) (h2 : 33 ≤ b2.length) (h3 : 33 ≤ b3.length) :
    (audio_packet uin rtpseq now b0 b1 b2 b3).take 2 = [0x80, 0x03] ∧
    ((audio_packet uin rtpseq now b0 b1 b2 b3).drop 8).take 4 = htonl_bytes uin ∧
    ((audio_packet uin rtpseq now b0 b1 b2 b3).drop 12).take 132
      = b0.take 33 ++ b1.take 33 ++ b2.take 33 ++ b3.take 33 ∧
    (audio_packet uin rtpseq now b0 b1 b2 b3).drop 144 = host_long_bytes uin := by
  have e0 : (b0.take 33).length = 33 := by rw [List.length_take]; omega
  have e1 : (b1.take 33).length = 33 := by rw [List.length_take]; omega
  have e2 : (b2.take 33).length = 33 := by rw [List.length_take]; omega
  have e3 : (b3.take 33).length = 33 := by rw [List.length_take]; omega
  have hd := audio_packet_drop uin rtpseq now b0 b1 b2 b3
  refine ⟨?_, ?_, ?_, ?_⟩
  · simp only [audio_packet, htons_bytes, List.cons_append, List.nil_append,
      List.append_assoc, show u16 0x8003 / 256 = 128 by decide,
      show u16 0x8003 % 256 = 3 by decide]
    rfl
  · simp only [audio_packet, htons_bytes, htonl_bytes, List.cons_append, List.nil_append,
      List.append_assoc, List.drop_succ_cons, List.drop_zero, List.take_succ_cons,
      List.take_zero]
  · rw [hd]
    exact List.take_left' (by simp only [List.length_append, e0, e1, e2, e3])
  · have h144 : (144 : Nat) = 12 + 132 := rfl
    rw [h144, ← List.drop_drop, hd]
    exact List.drop_left' (by simp only [List.length_append, e0, e1, e2, e3])

set_option maxRecDepth 100000 in
/-- C10: for UID 777 and four frames of `0xAA` the block built by
`pt_media_stream_audio_write` starts with `80 03`, carries the UID in big-endian order in
bytes 8-11 (`00 00 03 09`) and the four frames in bytes 12..143, but its last four bytes
144..147 are `09 03 00 00`, the UID in host (little-endian) order, not the bytes 8-11. -/
theorem pt_media_stream_audio_write_trailer :
    ∃ (packet : List Nat),
      pt_media_stream_audio_write (some {})
          (some (List.replicate 4 (some gsm_frame_aa))) 4 {} session_777 1233 5000000
        = some (148, 1234, [0, 0, 0, 148] ++ packet) ∧
      packet.take 2 = [0x80, 0x03] ∧
      (packet.drop 8).take 4 = [0x00, 0x00, 0x03, 0x09] ∧
      (packet.drop 12).take 132
        = gsm_frame_aa ++ gsm_frame_aa ++ gsm_frame_aa ++ gsm_frame_aa ∧
      packet.drop 144 = [0x09, 0x03, 0x00, 0x00] ∧
      packet.drop 144 ≠ (packet.drop 8).take 4 :=
  ⟨audio_packet 777 1234 5000000 gsm_frame_aa gsm_frame_aa gsm_frame_aa gsm_frame_aa,
    by decide, by decide, by decide, by decide, by decide, by decide⟩

/-! ## Receiving voice datagrams -/

theorem rtp_parse_payload_type (p : List Nat) (n : Int) (r : RTPPacket)
    (h : rtp_packet_parse p n = some (some r)) : r.payload_type < 128 := by
  unfold rtp_packet_parse at h
  split at h
  · simp at h
  · split at h
    · simp only at h
      split at h
      · simp at h
      · split at h
        · simp at h
        · split at h
          · simp at h
          · split at h
            · simp at h
            · simp only [Option.some.injEq] at h
              subst h
              simp only [bits_pt]
              omega
    · simp at h

theorem bitfield_int_seven (b : Nat) (h : b < 128) : bitfield_int 7 b ≠ 3 ↔ b ≠ 3 := by
  unfold bitfield_int
  have e : b % 2 ^ 7 = b := Nat.mod_eq_of_lt (by omega)
  rw [e]
  split <;> omega

theorem audio_read_packet_drop (rtp : RTPPacket) (sock : List ReadEvent) (ptd : PTData)
    (buddies : List (List Nat × Option (List Nat))) (st : VoiceState) (now : Nat)
    (hpt : rtp.payload_type < 128) (hc : rtp.payload_type ≠ 3 ∨ rtp.payload_len < 136) :
    audio_read_packet rtp sock ptd buddies st now
      = some { ret := 0, buffer := BufferOut.null, st := st, sock := sock } := by
  unfold audio_read_packet
  rw [if_pos]
  rcases hc with hc | hc
  · exact Or.inl ((bitfield_int_seven _ hpt).mpr hc)
  · exact Or.inr hc

theorem audio_read_speaker_fst (st : VoiceState) (c : GaimConversation) (name : List Nat)
    (now : Nat) : (audio_read_speaker st c name now).1 = { st.rd with speaker := some name } := by
  unfold audio_read_speaker
  simp only

theorem audio_read_packet_eq (rtp : RTPPacket) (sock : List ReadEvent) (ptd : PTData)
    (buddies : List (List Nat × Option (List Nat))) (st : VoiceState) (now : Nat)
    (hpt : rtp.payload_type < 128) (hc : ¬ (rtp.payload_type ≠ 3 ∨ rtp.payload_len < 136))
    (name : List Nat) (c : GaimConversation)
    (hn : pt_get_cb_real_name ptd buddies st.rd.id (some (printf_d (s32 rtp.ssrc)))
      = some (some name)) (hcv : st.c = some c) :
    audio_read_packet rtp sock ptd buddies st now =
      some { ret := if c.count > 1 ∧ c.index ≠ c.active then 0 else rtp.payload_len,
             buffer := if c.count > 1 ∧ c.index ≠ c.active then BufferOut.freed
               else BufferOut.data rtp.payload,
             st := { rd := { st.rd with speaker := some name },
                     speaker_timeout := if st.speaker_timeout = 0 then 1 else st.speaker_timeout,
                     speaker_timer := some { start := now, active := true },
                     c := some (audio_read_speaker st c name now).2 },
             sock := sock } := by
  unfold audio_read_packet
  rw [if_neg]
  · simp only [hn, hcv, audio_read_speaker_fst]
    split <;> rfl
  · intro hx
    apply hc
    rcases hx with hx | hx
    · exact Or.inl ((bitfield_int_seven _ hpt).mp hx)
    · exact Or.inr hx

theorem audio_read_packet_accept (rtp : RTPPacket) (sock : List ReadEvent) (ptd : PTData)
    (buddies : List (List Nat × Option (List Nat))) (st : VoiceState) (now : Nat)
    (hpt : rtp.payload_type < 128) (hc : ¬ (rtp.payload_type ≠ 3 ∨ rtp.payload_len < 136))
    (r : AudioRead) (h : audio_read_packet rtp sock ptd buddies st now = some r) :
    r.buffer ≠ BufferOut.null := by
  have hb : ¬ (bitfield_int 7 rtp.payload_type ≠ 3 ∨ rtp.payload_len < 136) := by
    intro hx
    apply hc
    rcases hx with hx | hx
    · exact Or.inl ((bitfield_int_seven _ hpt).mp hx)
    · exact Or.inr hx
  cases hn : pt_get_cb_real_name ptd buddies st.rd.id (some (printf_d (s32 rtp.ssrc))) with
  | none =>
      have e : audio_read_packet rtp sock ptd buddies st now = none := by
        unfold audio_read_packet
        rw [if_neg hb]
        simp only [hn]
      rw [e] at h
      cases h
  | some v =>
      cases v with
      | none =>
          have e : audio_read_packet rtp sock ptd buddies st now = none := by
            unfold audio_read_packet
            rw [if_neg hb]
            simp only [hn]
          rw [e] at h
          cases h
      | some name =>
          cases hcv : st.c with
          | none =>
              have e : audio_read_packet rtp sock ptd buddies st now = none := by
                unfold audio_read_packet
                rw [if_neg hb]
                simp only [hn, hcv]
              rw [e] at h
              cases h
          | some c =>
              rw [audio_read_packet_eq rtp sock ptd buddies st now hpt hc name c hn hcv] at h
              simp only [Option.some.injEq] at h
              subst h
              simp only
              split <;> simp

theorem audio_read_of_datagram (s : GaimMediaStream) (sock sock2 : List ReadEvent)
    (ptd : PTData) (buddies : List (List Nat × Option (List Nat))) (st : VoiceState)
    (now ltmp : Nat) (ctmp : List Nat) (rtp : RTPPacket)
    (hd : audio_read_datagram sock = some (some (ltmp, ctmp), sock2))
    (hp : rtp_packet_parse ctmp ltmp = some (some rtp)) :
    pt_media_stream_audio_read (some s) true sock ptd buddies st now
      = audio_read_packet rtp sock2 ptd buddies st now := by
  unfold pt_media_stream_audio_read
  simp only [Bool.not_true, Option.isNone_some, Bool.or_self, Bool.false_eq_true, if_false, hd,
    hp]

theorem sock_read_one (b : Nat) (d : List Nat) (more : List ReadEvent) :
    sock_read (ReadEvent.data (b :: d) :: more) 1
      = some (1, [b], if d = [] then more else ReadEvent.data d :: more) := by
  cases d with
  | nil => simp [sock_read]
  | cons x t =>
      simp only [sock_read, List.length_cons]
      rw [if_neg (by omega)]
      simp

theorem audio_read_prefix_bytes_chunk (p0 p1 p2 p3 : Nat) (d : List Nat) (more : List ReadEvent) :
    audio_read_prefix_bytes 4 (ReadEvent.data (p0 :: p1 :: p2 :: p3 :: d) :: more) none
      = some (some (p3 % 256), if d = [] then more else ReadEvent.data d :: more) := by
  simp only [audio_read_prefix_bytes, sock_read_one, List.cons_ne_nil, if_false]

theorem audio_read_datagram_chunk (p0 p1 p2 p3 : Nat) (d : List Nat) (more : List ReadEvent)
    (hp : p3 < 256) :
    (p3 = 0 ∨ 150 ≤ p3 →
      audio_read_datagram (ReadEvent.data (p0 :: p1 :: p2 :: p3 :: d) :: more)
        = some (none, if d = [] then more else ReadEvent.data d :: more)) ∧
    (0 < p3 → p3 < 150 → p3 ≤ d.length →
      audio_read_datagram (ReadEvent.data (p0 :: p1 :: p2 :: p3 :: d) :: more)
        = some (some (p3, d.take p3),
            if d.length = p3 then more else ReadEvent.data (d.drop p3) :: more)) := by
  have e : p3 % 256 = p3 := Nat.mod_eq_of_lt hp
  constructor
  · intro h
    unfold audio_read_datagram
    rw [audio_read_prefix_bytes_chunk, e]
    simp only
    rw [if_pos (by omega)]
  · intro h0 h1 h2
    unfold audio_read_datagram
    rw [audio_read_prefix_bytes_chunk, e]
    simp only
    rw [if_neg (by omega)]
    have hd : d ≠ [] := by
      intro hx
      rw [hx] at h2
      simp at h2
      omega
    rw [if_neg hd]
    unfold sock_read
    simp only
    by_cases hl : d.length = p3
    · rw [if_pos (by omega), if_pos hl, ← hl, List.take_length]
    · rw [if_neg (by omega), if_neg hl]

/-- C11: for a datagram that `pt_media_stream_audio_read` has read and `rtp_packet_parse`
accepts, the function drops the packet (returns 0, sets `*buffer` to `NULL` and leaves the
room, the speaker timer and the chat unchanged) exactly when its payload type is not 3 or
its payload length is below 136; every other packet, once its SSRC resolves to a name and
the chat exists, makes that name the speaker, restarts the speaker timer and hands back a
buffer. -/
theorem pt_media_stream_audio_read_drops (s : GaimMediaStream) (sock sock2 : List ReadEvent)
    (ptd : PTData) (buddies : List (List Nat × Option (List Nat))) (st : VoiceState)
    (now ltmp : Nat) (ctmp : List Nat) (rtp : RTPPacket)
    (hd : audio_read_datagram sock = some (some (ltmp, ctmp), sock2))
    (hp : rtp_packet_parse ctmp ltmp = some (some rtp)) :
    ((rtp.payload_type ≠ 3 ∨ rtp.payload_len < 136) →
      pt_media_stream_audio_read (some s) true sock ptd buddies st now
        = some { ret := 0, buffer := BufferOut.null, st := st, sock := sock2 }) ∧
    (¬ (rtp.payload_type ≠ 3 ∨ rtp.payload_len < 136) →
      ∀ name c, pt_get_cb_real_name ptd buddies st.rd.id (some (printf_d (s32 rtp.ssrc)))
          = some (some name) → st.c = some c →
        ∃ r, pt_media_stream_audio_read (some s) true sock ptd buddies st now = some r ∧
          r.buffer ≠ BufferOut.null ∧
          r.st.rd.speaker = some name ∧
          r.st.speaker_timer = some { start := now, active := true } ∧
          r.st.speaker_timeout ≠ 0) ∧
    (∀ r, pt_media_stream_audio_read (some s) true sock ptd buddies st now = some r →
      ((r.ret = 0 ∧ r.buffer = BufferOut.null ∧ r.st = st)
        ↔ (rtp.payload_type ≠ 3 ∨ rtp.payload_len < 136))) := by
  have hpt := rtp_parse_payload_type ctmp ltmp rtp hp
  rw [audio_read_of_datagram s sock sock2 ptd buddies st now ltmp ctmp rtp hd hp]
  refine ⟨fun hc => audio_read_packet_drop rtp sock2 ptd buddies st now hpt hc, ?_, ?_⟩
  · intro hc name c hn hcv
    have he := audio_read_packet_eq rtp sock2 ptd buddies st now hpt hc name c hn hcv
    refine ⟨_, he, audio_read_packet_accept rtp sock2 ptd buddies st now hpt hc _ he, rfl, rfl,
      ?_⟩
    simp only
    split <;> omega
  · intro r hr
    by_cases hc : rtp.payload_type ≠ 3 ∨ rtp.payload_len < 136
    · rw [audio_read_packet_drop rtp sock2 ptd buddies st now hpt hc] at hr
      simp only [Option.some.injEq] at hr
      subst hr
      exact ⟨fun _ => hc, fun _ => ⟨rfl, rfl, rfl⟩⟩
    · have hb := audio_read_packet_accept rtp sock2 ptd buddies st now hpt hc r hr
      exact ⟨fun hx => absurd hx.2.1 hb, fun hx => absurd hx hc⟩

set_option maxRecDepth 1000000 in
/-- C11 (witness): the datagram `voice_in 111` behind the prefix `00 00 00 94` is read,
parsed and not dropped. -/
theorem pt_media_stream_audio_read_drops_witness :
    audio_read_datagram [ReadEvent.data (htonl_bytes 148 ++ voice_in 111)]
      = some (some (148, voice_in 111), []) ∧
    rtp_packet_parse (voice_in 111) (148 : Nat) = some (some (voice_in_packet 111)) ∧
    ∀ r, pt_media_stream_audio_read (some {}) true
        [ReadEvent.data (htonl_bytes 148 ++ voice_in 111)] {} [] voice_state_idle 0 = some r →
      ((r.ret = 0 ∧ r.buffer = BufferOut.null ∧ r.st = voice_state_idle)
        ↔ ((voice_in_packet 111).payload_type ≠ 3 ∨ (voice_in_packet 111).payload_len < 136)) :=
  ⟨rfl, rfl,
    (pt_media_stream_audio_read_drops {} [ReadEvent.data (htonl_bytes 148 ++ voice_in 111)] []
      {} [] voice_state_idle 0 148 (voice_in 111) (voice_in_packet 111) rfl rfl).2.2⟩

/-- C12 (amended): `pt_media_stream_audio_read` takes as datagram length the last of the
four prefix bytes; a length of 0 or of 150 and more makes it return without reading the
datagram, any other length is the size of the one `read` that fetches the datagram.  With
the first three prefix bytes zero that byte is the 32-bit big-endian value of the
prefix. -/
theorem audio_read_datagram_length (p0 p1 p2 p3 : Nat) (d : List Nat)
    (more : List ReadEvent) (hp : p3 < 256) :
    (p3 = 0 ∨ 150 ≤ p3 →
      audio_read_datagram (ReadEvent.data (p0 :: p1 :: p2 :: p3 :: d) :: more)
        = some (none, if d = [] then more else ReadEvent.data d :: more)) ∧
    (0 < p3 → p3 < 150 → p3 ≤ d.length →
      audio_read_datagram (ReadEvent.data (p0 :: p1 :: p2 :: p3 :: d) :: more)
        = some (some (p3, d.take p3),
            if d.length = p3 then more else ReadEvent.data (d.drop p3) :: more)) ∧
    (p0 = 0 → p1 = 0 → p2 = 0 → ntohl_at [p0, p1, p2, p3] 0 = some p3) := by
  refine ⟨(audio_read_datagram_chunk p0 p1 p2 p3 d more hp).1,
    (audio_read_datagram_chunk p0 p1 p2 p3 d more hp).2, ?_⟩
  intro h0 h1 h2
  subst h0 h1 h2
  simp [ntohl_at]

set_option maxRecDepth 1000000 in
/-- C12 (witness): behind the prefix `00 00 00 94` the 148 bytes of `voice_in 111` are
read. -/
theorem audio_read_datagram_length_witness :
    (148 : Nat) < 256 ∧
    audio_read_datagram
        (ReadEvent.data (0 :: 0 :: 0 :: 148 :: (voice_in 111 ++ [1, 2, 3])) :: [])
      = some (some (148, (voice_in 111 ++ [1, 2, 3]).take 148),
          if (voice_in 111 ++ [1, 2, 3]).length = 148 then []
          else ReadEvent.data ((voice_in 111 ++ [1, 2, 3]).drop 148) :: []) :=
  ⟨by decide,
    (audio_read_datagram_length 0 0 0 148 (voice_in 111 ++ [1, 2, 3]) [] (by decide)).2.1
      (by decide) (by decide) (by decide)⟩

set_option maxRecDepth 1000000 in
/-- C12 (counterexample): behind the prefix `00 00 01 94`, whose big-endian value is 404,
only 148 bytes are read as the datagram; behind the prefix `00 00 00 C8` (200) nothing is
read at all. -/
theorem audio_read_datagram_low_byte :
    ntohl_at [0, 0, 1, 148] 0 = some 404 ∧
    audio_read_datagram [ReadEvent.data ([0, 0, 1, 148] ++ List.replicate 404 7)]
      = some (some (148, List.replicate 148 7), [ReadEvent.data (List.replicate 256 7)]) ∧
    audio_read_datagram [ReadEvent.data ([0, 0, 0, 200] ++ List.replicate 200 7)]
      = some (none, [ReadEvent.data (List.replicate 200 7)]) :=
  ⟨rfl, rfl, rfl⟩

set_option maxRecDepth 1000000 in
/-- C20 (code evaluated at the failing input): after accepted packets from SSRC 111 at 0,
100 and 200 ms the chat holds the one notice "111 has started speaking."; the packet from
SSRC 222 at 400 ms adds "222 has stopped speaking." and "222 has started speaking.", and
the participant 111 keeps the SPEAKING flag (16). -/
theorem pt_media_stream_audio_read_speaker_change :
    speaker_trace_200.map speaker_view
      = some (some (cstr "111"), some ([(cstr "111", 16), (cstr "222", 0)],
          [cstr "111 has started speaking."])) ∧
    speaker_trace_400.map speaker_view
      = some (some (cstr "222"), some ([(cstr "111", 16), (cstr "222", 16)],
          [cstr "111 has started speaking.", cstr "222 has stopped speaking.",
           cstr "222 has started speaking."])) :=
  ⟨rfl, rfl⟩

/-! ## Frames of the room commands -/

theorem pt_send_packet_two_longs (ptd : PTData) (now : Nat) (t : Int) (v w : Int)
    (ht : t = PACKET_ROOM_BAN_USER ∨ t = PACKET_ROOM_UNBAN_USER ∨ t = PACKET_ROOM_BOUNCE_USER
      ∨ t = PACKET_ROOM_UNBOUNCE_USER ∨ t = PACKET_ROOM_RED_DOT_USER
      ∨ t = PACKET_ROOM_UNRED_DOT_USER) :
    pt_send_packet ptd now t [VaArg.num v, VaArg.num w]
      = some (ptd, packet_header t ++ ([0x00, 0x08] ++ (htonl_bytes v ++ htonl_bytes w))) := by
  rcases ht with h | h | h | h | h | h <;> subst h <;> rfl

theorem pt_send_packet_one_long (ptd : PTData) (now : Nat) (t : Int) (v : Int)
    (ht : t = PACKET_ROOM_LEAVE ∨ t = PACKET_ROOM_GET_ADMIN_INFO) :
    pt_send_packet ptd now t [VaArg.num v]
      = some (ptd, packet_header t ++ ([0x00, 0x04] ++ htonl_bytes v)) := by
  rcases ht with h | h <;> subst h <;> rfl

theorem pt_send_packet_bounce_reason (ptd : PTData) (now : Nat) (reason : List Nat)
    (v w : Int) :
    pt_send_packet ptd now PACKET_ROOM_BOUNCE_REASON [VaArg.str reason, VaArg.num v, VaArg.num w]
      = some (ptd, packet_header PACKET_ROOM_BOUNCE_REASON
          ++ (htons_bytes (reason.length + 10) ++ (htonl_bytes v ++ htonl_bytes w
            ++ cstr "BR: " ++ reason))) := rfl

/-! ## Room commands -/

theorem i_am_owner_strict (rd : PTRoomData) (ptd : PTData) (b : Bool)
    (h : i_am_owner rd ptd true = some b) : b = true ↔ rd.owner = ptd.uin := by
  unfold i_am_owner at h
  by_cases ho : rd.owner = ptd.uin
  · rw [if_pos ho] at h
    simp only [Option.some.injEq] at h
    simp [← h, ho]
  · rw [if_neg ho] at h
    have hb : b = false := by
      split at h
      · split at h
        · simp at h
        · rename_i b1 hl
          simp only [Option.some.injEq] at h
          subst h
          clear ho
          generalize rd.users = us at hl
          induction us with
          | nil => simp [i_am_owner_loop] at hl
          | cons u us ih =>
              unfold i_am_owner_loop at hl
              split at hl
              · simp at hl
              · split at hl
                · simp only [Option.some.injEq] at hl
                  exact hl.symm
                · split at hl
                  · simp at hl
                  · split at hl
                    · simp only [Option.some.injEq] at hl
                      exact hl.symm
                    · exact ih hl
        · simp only [Bool.not_true, Bool.false_eq_true, if_false, Option.some.injEq] at h
          exact h.symm
      · simp only [Option.some.injEq] at h
        exact h.symm
    simp [hb, ho]

theorem i_am_owner_self (rd : PTRoomData) (ptd : PTData) (strict : Bool)
    (h : rd.owner = ptd.uin) : i_am_owner rd ptd strict = some true := by
  unfold i_am_owner
  rw [if_pos h]

theorem i_am_owner_plain (rd : PTRoomData) (ptd : PTData) (strict : Bool)
    (h : rd.owner ≠ ptd.uin) (ha : rd.admin = false) :
    i_am_owner rd ptd strict = some false := by
  unfold i_am_owner
  rw [if_neg h, ha]
  rfl

theorem pt_ban_not_owner (ptd : PTData) (buddies : List (List Nat × Option (List Nat)))
    (now : Nat) (id : Int) (arg : List Nat) (data : Bool) (rd : PTRoomData)
    (hrd : pt_get_room_data ptd id = some rd) (ho : i_am_owner rd ptd true = some false) :
    pt_ban ptd buddies now id arg data
      = some (cmd_failed ptd "This command can only be used by the room's owner.") := by
  unfold pt_ban
  simp only [hrd, ho]

theorem pt_ban_none_banned (ptd : PTData) (buddies : List (List Nat × Option (List Nat)))
    (now : Nat) (id : Int) (arg : List Nat) (rd : PTRoomData)
    (hrd : pt_get_room_data ptd id = some rd) (ho : i_am_owner rd ptd true = some true)
    (hb : rd.ban = []) :
    pt_ban ptd buddies now id arg false
      = some (cmd_failed ptd "No users are currently banned.") := by
  unfold pt_ban
  simp only [hrd, ho, hb]
  rfl

theorem pt_ban_sends (ptd : PTData) (buddies : List (List Nat × Option (List Nat)))
    (now : Nat) (id : Int) (arg : List Nat) (data : Bool) (rd : PTRoomData) (uin : Int)
    (hrd : pt_get_room_data ptd id = some rd) (ho : i_am_owner rd ptd true = some true)
    (hb : data = true ∨ rd.ban ≠ []) (ht : ban_target ptd buddies id arg = some uin) :
    pt_ban ptd buddies now id arg data
      = some (cmd_sent (ptd,
          packet_header (if data then PACKET_ROOM_BAN_USER else PACKET_ROOM_UNBAN_USER)
            ++ ([0x00, 0x08] ++ (htonl_bytes id ++ htonl_bytes uin)))) := by
  unfold pt_ban
  simp only [hrd, ho, ht]
  have hc : (!data && rd.ban.isEmpty) = false := by
    rcases hb with hb | hb
    · simp [hb]
    · cases hl : rd.ban with
      | nil => exact absurd hl hb
      | cons a l => simp
  rw [hc]
  simp only [Bool.false_eq_true, if_false, Option.some_bind]
  rw [pt_send_packet_two_longs]
  · rfl
  · cases data
    · exact Or.inr (Or.inl rfl)
    · exact Or.inl rfl

theorem pt_ban_out (ptd : PTData) (buddies : List (List Nat × Option (List Nat)))
    (now : Nat) (id : Int) (arg : List Nat) (data : Bool) (rd : PTRoomData) (r : CmdResult)
    (hrd : pt_get_room_data ptd id = some rd)
    (h : pt_ban ptd buddies now id arg data = some r) (hout : r.out ≠ []) :
    rd.owner = ptd.uin := by
  cases ho : i_am_owner rd ptd true with
  | none =>
      unfold pt_ban at h
      simp only [hrd, ho] at h
      cases h
  | some b =>
      cases b with
      | true => exact (i_am_owner_strict rd ptd true ho).mp rfl
      | false =>
          rw [pt_ban_not_owner ptd buddies now id arg data rd hrd ho] at h
          simp only [Option.some.injEq] at h
          subst h
          exact absurd rfl hout

theorem pt_bounce_not_admin (ptd : PTData) (buddies : List (List Nat × Option (List Nat)))
    (now : Nat) (id : Int) (arg : List Nat) (data : Bool) (rd : PTRoomData)
    (hrd : pt_get_room_data ptd id = some rd) (ha : rd.admin = false) :
    pt_bounce ptd buddies now id arg data
      = some (cmd_failed ptd "You're not an admin in this room.") := by
  unfold pt_bounce
  simp only [hrd, ha]
  rfl

theorem pt_bounce_none_bounced (ptd : PTData) (buddies : List (List Nat × Option (List Nat)))
    (now : Nat) (id : Int) (arg : List Nat) (rd : PTRoomData)
    (hrd : pt_get_room_data ptd id = some rd) (ha : rd.admin = true) (hb : rd.bounce = []) :
    pt_bounce ptd buddies now id arg false
      = some (cmd_failed ptd "No users are currently bounced.") := by
  unfold pt_bounce
  simp only [hrd, ha, hb]
  rfl

theorem pt_bounce_unbounce_sends (ptd : PTData)
    (buddies : List (List Nat × Option (List Nat))) (now : Nat) (id : Int) (arg : List Nat)
    (rd : PTRoomData) (uin : Int) (hrd : pt_get_room_data ptd id = some rd)
    (ha : rd.admin = true) (hb : rd.bounce ≠ [])
    (ht : cmd_target ptd buddies rd.id arg = some uin) :
    pt_bounce ptd buddies now id arg false
      = some (cmd_sent (ptd, packet_header PACKET_ROOM_UNBOUNCE_USER
          ++ ([0x00, 0x08] ++ (htonl_bytes rd.id ++ htonl_bytes uin)))) := by
  unfold pt_bounce
  simp only [hrd, ha, ht]
  have hc : rd.bounce.isEmpty = false := by
    cases hl : rd.bounce with
    | nil => exact absurd hl hb
    | cons a l => rfl
  rw [hc]
  simp only [Bool.not_true, Bool.false_eq_true, if_false, Bool.and_false, Option.some_bind]
  rw [pt_send_packet_two_longs _ _ _ _ _ (Or.inr (Or.inr (Or.inr (Or.inl rfl))))]
  rfl

theorem pt_red_dot_not_admin (ptd : PTData) (buddies : List (List Nat × Option (List Nat)))
    (now : Nat) (id : Int) (arg : List Nat) (data : Bool) (rd : PTRoomData)
    (hrd : pt_get_room_data ptd id = some rd) (ha : rd.admin = false) :
    pt_red_dot ptd buddies now id arg data
      = some (cmd_failed ptd "You are not an admin in this room.") := by
  unfold pt_red_dot
  simp only [hrd, ha]
  rfl

theorem pt_do_bounce_idle (ptd : PTData) (now : Nat) (id : Int) (reason : Option (List Nat))
    (rd : PTRoomData) (hrd : pt_get_room_data ptd id = some rd) (hu : rd.u_bounce = 0) :
    pt_do_bounce ptd now id reason = some (ptd, []) := by
  unfold pt_do_bounce
  simp only [hrd, hu]
  cases reason <;> rfl

theorem pt_do_bounce_sends (ptd : PTData) (now : Nat) (id : Int) (reason : List Nat)
    (rd : PTRoomData) (hrd : pt_get_room_data ptd id = some rd) (hu : rd.u_bounce ≠ 0) :
    pt_do_bounce ptd now id (some reason)
      = some ({ ptd with chats := room_update (fun r => { r with u_bounce := 0 }) id ptd.chats },
          packet_header PACKET_ROOM_BOUNCE_USER
            ++ ([0x00, 0x08] ++ (htonl_bytes rd.id ++ htonl_bytes rd.u_bounce))
          ++ (packet_header PACKET_ROOM_BOUNCE_REASON
            ++ (htons_bytes (reason.length + 10) ++ (htonl_bytes rd.id
              ++ htonl_bytes rd.u_bounce ++ cstr "BR: " ++ reason)))) := by
  unfold pt_do_bounce
  simp only [hrd, if_neg hu]
  rw [pt_send_packet_two_longs _ _ _ _ _ (Or.inr (Or.inr (Or.inl rfl)))]
  simp only [Option.some_bind]
  rw [pt_send_packet_bounce_reason]
  rfl

/-! ## Joining a locked room -/

theorem pt_send_packet_room_join_locked (ptd : PTData) (now : Nat) (v : Int)
    (passwd : List Nat) :
    pt_send_packet ptd now PACKET_ROOM_JOIN [VaArg.num 1, VaArg.num v, VaArg.str passwd]
      = some (ptd, packet_header PACKET_ROOM_JOIN ++ (htons_bytes (passwd.length + 10)
          ++ (htonl_bytes v ++ [0x00, 0x00, 0x00, 0x00, 0x08, 0x2A] ++ passwd))) := rfl

/-- C15 (amended): joining the locked room 42 opens the lockword prompt and writes nothing;
answering it with `"secret"` emits exactly one frame, with opcode `ROOM_JOIN` (-310), a
length field of 16, and as body the room id 42 as a 32-bit big-endian value, the six bytes
`00 00 00 00 08 2A` and the bytes of `"secret"`. -/
theorem pt_chat_join_locked_frame (ptd : PTData) (now : Nat) :
    pt_chat_join ptd now (some roomlist_entry_42)
      = some { ptd := { ptd with locked := 42 }, out := [], prompt := true } ∧
    pt_lockword_callback { ptd with locked := 42 } now (some (cstr "secret"))
      = some ({ ptd with locked := 42 },
          [0xFE, 0xCA, 0x00, 0x53, 0x00, 0x10] ++ [0, 0, 0, 42]
            ++ [0x00, 0x00, 0x00, 0x00, 0x08, 0x2A] ++ cstr "secret") ∧
    PACKET_GET_TYPE [0xFE, 0xCA, 0x00, 0x53, 0x00, 0x10] = some PACKET_ROOM_JOIN ∧
    PACKET_GET_LENGTH [0xFE, 0xCA, 0x00, 0x53, 0x00, 0x10]
      = some (([0, 0, 0, 42] ++ [0x00, 0x00, 0x00, 0x00, 0x08, 0x2A]
          ++ cstr "secret").length : Int) := by
  refine ⟨rfl, ?_, rfl, rfl⟩
  unfold pt_lockword_callback
  simp only
  rw [pt_send_packet_room_join_locked]
  rfl

/-- C15 (counterexample): the length field of the `ROOM_JOIN` frame for room 42 and the
lockword `"secret"` is 16, not 20. -/
theorem pt_chat_join_locked_length :
    ((pt_chat_join {} 0 (some roomlist_entry_42)).bind
      (fun j => pt_lockword_callback j.ptd 0 (some (cstr "secret")))).map
        (fun r => PACKET_GET_LENGTH r.2) = some (some 16) ∧
    ((pt_chat_join {} 0 (some roomlist_entry_42)).bind
      (fun j => pt_lockword_callback j.ptd 0 (some (cstr "secret")))).map
        (fun r => PACKET_GET_LENGTH r.2) ≠ some (some 20) :=
  ⟨rfl, by decide⟩

/-! ## Rooms of a session -/

theorem pt_get_room_data_mem (ptd : PTData) (id : Int) (rd : PTRoomData)
    (h : pt_get_room_data ptd id = some rd) : rd ∈ ptd.chats ∧ rd.id = id := by
  unfold pt_get_room_data at h
  refine ⟨List.mem_of_find?_eq_some h, ?_⟩
  have := List.find?_some h
  simpa using this

theorem pt_get_room_data_none (ptd : PTData) (id : Int)
    (h : pt_get_room_data ptd id = none) : id ∉ ptd.chats.map (fun r => r.id) := by
  unfold pt_get_room_data at h
  rw [List.find?_eq_none] at h
  intro hm
  obtain ⟨r, hr, he⟩ := List.mem_map.mp hm
  exact h r hr (by simpa using he)

theorem room_update_ids (f : PTRoomData → PTRoomData) (id : Int) (l : List PTRoomData)
    (hf : ∀ r, (f r).id = r.id) :
    (room_update f id l).map (fun r => r.id) = l.map (fun r => r.id) := by
  induction l with
  | nil => rfl
  | cons x xs ih =>
      unfold room_update
      split
      · simp [hf]
      · simp [ih]

theorem room_update_mem (f : PTRoomData → PTRoomData) (id : Int) (l : List PTRoomData)
    (r1 : PTRoomData) (h : r1 ∈ room_update f id l) :
    r1 ∈ l ∨ ∃ r, l.find? (fun rd => rd.id == id) = some r ∧ r1 = f r := by
  induction l with
  | nil => simp [room_update] at h
  | cons x xs ih =>
      unfold room_update at h
      by_cases hx : x.id = id
      · rw [if_pos hx] at h
        rcases List.mem_cons.mp h with h | h
        · exact Or.inr ⟨x, by simp [List.find?, hx], h⟩
        · exact Or.inl (List.mem_cons_of_mem _ h)
      · rw [if_neg hx] at h
        rcases List.mem_cons.mp h with h | h
        · exact Or.inl (h ▸ List.mem_cons_self _ _)
        · rcases ih h with h1 | ⟨r, hr, he⟩
          · exact Or.inl (List.mem_cons_of_mem _ h1)
          · refine Or.inr ⟨r, ?_, he⟩
            simp only [List.find?]
            have : (x.id == id) = false := by simpa using hx
            rw [this]
            exact hr

theorem rooms_wf_update (f : PTRoomData → PTRoomData) (id : Int) (l : List PTRoomData)
    (hf : ∀ r, (f r).id = r.id)
    (hg : ∀ r, l.find? (fun rd => rd.id == id) = some r →
      (r.admin = false → r.owner = 0 ∧ r.u_bounce = 0) →
      (f r).admin = false → (f r).owner = 0 ∧ (f r).u_bounce = 0)
    (h : rooms_wf l) : rooms_wf (room_update f id l) := by
  refine ⟨by rw [room_update_ids f id l hf]; exact h.1, ?_⟩
  intro r1 hr1
  rcases room_update_mem f id l r1 hr1 with hm | ⟨r, hr, he⟩
  · exact h.2 r1 hm
  · subst he
    exact hg r hr (h.2 r (List.mem_of_find?_eq_some hr))

theorem rooms_wf_get_or_new (ptd : PTData) (id : Int) (h : rooms_wf ptd.chats) :
    rooms_wf (room_get_or_new ptd id).chats := by
  unfold room_get_or_new
  cases hg : pt_get_room_data ptd id with
  | some rd => exact h
  | none =>
      simp only
      constructor
      · rw [List.map_append, List.nodup_append]
        refine ⟨h.1, List.nodup_singleton _, ?_⟩
        intro a ha hb
        simp only [List.map_cons, List.map_nil, List.mem_singleton] at hb
        subst hb
        exact pt_get_room_data_none ptd _ hg ha
      · intro r hr
        rcases List.mem_append.mp hr with hr | hr
        · exact h.2 r hr
        · simp only [List.mem_singleton] at hr
          subst hr
          intro _
          exact ⟨rfl, rfl⟩

theorem rooms_wf_erase (l : List PTRoomData) (rd : PTRoomData) (h : rooms_wf l) :
    rooms_wf (l.erase rd) :=
  ⟨List.Nodup.sublist ((List.erase_sublist rd l).map _) h.1,
    fun r hr => h.2 r (List.mem_of_mem_erase hr)⟩

theorem rooms_wf_other (l l1 : List PTRoomData) (hc : List.Forall₂ room_core_eq l l1)
    (h : rooms_wf l) : rooms_wf l1 := by
  induction hc with
  | nil => exact h
  | @cons a b l l1 hab _ ih =>
      have ht : rooms_wf l :=
        ⟨(List.nodup_cons.mp h.1).2, fun r hr => h.2 r (List.mem_cons_of_mem _ hr)⟩
      have iht := ih ht
      have hids : l1.map (fun r => r.id) = l.map (fun r => r.id) := by
        clear ih ht iht h hab
        rename_i hrest
        induction hrest with
        | nil => rfl
        | cons hxy _ ih2 => simp [hxy.1, ih2]
      constructor
      · rw [List.map_cons, List.nodup_cons, hids, hab.1]
        exact List.nodup_cons.mp h.1
      · intro r hr
        rcases List.mem_cons.mp hr with hr | hr
        · subst hr
          intro hadm
          have := h.2 a (List.mem_cons_self _ _) (by rw [← hab.2.2.1]; exact hadm)
          rw [hab.2.1, hab.2.2.2]
          exact this
        · exact iht.2 r hr

theorem rooms_wf_room_joined (ptd ptd1 : PTData) (waitbuf : List Nat)
    (h : pt_callback_room_joined ptd waitbuf = some ptd1) (hw : rooms_wf ptd.chats) :
    rooms_wf ptd1.chats := by
  unfold pt_callback_room_joined at h
  split at h
  · split at h
    · simp only [Option.some.injEq] at h
      subst h
      exact rooms_wf_get_or_new ptd _ hw
    · cases h
  · cases h

theorem rooms_wf_room_media_server (ptd ptd1 : PTData) (waitbuf : List Nat)
    (h : pt_callback_room_media_server ptd waitbuf = some ptd1) (hw : rooms_wf ptd.chats) :
    rooms_wf ptd1.chats := by
  unfold pt_callback_room_media_server at h
  split at h
  · simp only [Option.some.injEq] at h
    subst h
    exact rooms_wf_get_or_new ptd _ hw
  · cases h

theorem room_user_left_chats (ptd ptd1 : PTData)
    (buddies : List (List Nat × Option (List Nat))) (waitbuf : List Nat)
    (h : pt_callback_room_user_left ptd buddies waitbuf = some ptd1) :
    ∃ id uid, PACKET_GET_LONG waitbuf 6 = some id ∧
      PACKET_GET_LONG waitbuf 10 = some uid ∧
      ptd1.chats = room_update
        (fun r => { r with users := user_left_loop ((printf_d uid).take 11) r.users }) id
        ptd.chats ∧
      ptd1 = { ptd with chats := ptd1.chats } := by
  unfold pt_callback_room_user_left at h
  split at h
  · rename_i id uid h6 h10
    split at h
    · cases h
    · simp only at h
      split at h
      · cases h
      · simp only [Option.some.injEq] at h
        subst h
        exact ⟨id, uid, h6, h10, rfl, rfl⟩
  · cases h

theorem rooms_wf_room_user_left (ptd ptd1 : PTData)
    (buddies : List (List Nat × Option (List Nat))) (waitbuf : List Nat)
    (h : pt_callback_room_user_left ptd buddies waitbuf = some ptd1)
    (hw : rooms_wf ptd.chats) : rooms_wf ptd1.chats := by
  obtain ⟨id, uid, -, -, he, -⟩ := room_user_left_chats ptd ptd1 buddies waitbuf h
  rw [he]
  exact rooms_wf_update _ id ptd.chats (fun _ => rfl) (fun r _ hr ha => hr ha) hw

theorem rooms_wf_userlist_entry (now : Nat) (ltmp : Int) (st st1 : UserlistState)
    (token : List Nat) (h : userlist_entry now ltmp st token = some st1)
    (hw : rooms_wf st.ptd.chats) : rooms_wf st1.ptd.chats := by
  unfold userlist_entry at h
  split at h
  · cases h
  · rename_i htmp _
    simp only at h
    split at h
    · cases h
    · rename_i ptd1 bytes hs
      have hw1 : rooms_wf ptd1.chats := by
        split at hs
        · rw [pt_send_packet_one_long _ _ _ _ (Or.inr rfl)] at hs
          simp only [Option.some.injEq, Prod.mk.injEq] at hs
          rw [← hs.1]
          exact rooms_wf_update _ ltmp st.ptd.chats (fun _ => rfl)
            (fun r _ _ ha => by simp at ha) hw
        · simp only [Option.some.injEq, Prod.mk.injEq] at hs
          rw [← hs.1]
          exact hw
      have hw2 : rooms_wf (room_update (fun r => { r with users := r.users ++ [htmp] }) ltmp
          ptd1.chats) :=
        rooms_wf_update _ ltmp ptd1.chats (fun _ => rfl) (fun r _ hr ha => hr ha) hw1
      split at h
      · simp only [Option.some.injEq] at h
        subst h
        exact hw2
      · cases h
      · split at h
        · simp only [Option.some.injEq] at h
          subst h
          exact hw1
        · simp only [Option.some.injEq] at h
          subst h
          exact hw2

theorem rooms_wf_userlist_loop (now : Nat) (ltmp : Int) (tokens : List (List Nat))
    (st st1 : UserlistState) (h : userlist_loop now ltmp tokens st = some st1)
    (hw : rooms_wf st.ptd.chats) : rooms_wf st1.ptd.chats := by
  induction tokens generalizing st with
  | nil =>
      simp only [userlist_loop, Option.some.injEq] at h
      subst h
      exact hw
  | cons t ts ih =>
      unfold userlist_loop at h
      split at h
      · simp only [Option.some.injEq] at h
        subst h
        exact hw
      · split at h
        · cases h
        · rename_i st2 he
          exact ih st2 h (rooms_wf_userlist_entry now ltmp st st2 t he hw)

theorem rooms_wf_room_userlist (ptd : PTData) (c : Option GaimConversation) (now : Nat)
    (waitbuf : List Nat) (st : UserlistState)
    (h : pt_callback_room_userlist ptd c now waitbuf = some st) (hw : rooms_wf ptd.chats) :
    rooms_wf st.ptd.chats := by
  unfold pt_callback_room_userlist at h
  split at h
  · cases h
  · split at h
    · cases h
    · split at h
      · cases h
      · simp only at h
        split at h
        · simp only [Option.some.injEq] at h
          subst h
          exact hw
        · exact rooms_wf_userlist_loop now _ _ _ st h hw

theorem pt_chat_leave_chats (ptd : PTData) (now : Nat) (id : Int) (r : PTData × List Nat)
    (h : pt_chat_leave ptd now id = some r) :
    ∃ rd, pt_get_room_data ptd id = some rd ∧
      r = ({ ptd with chats := ptd.chats.erase rd },
        packet_header PACKET_ROOM_LEAVE ++ ([0x00, 0x04] ++ htonl_bytes id)) := by
  unfold pt_chat_leave at h
  split at h
  · cases h
  · rename_i rd hrd
    rw [pt_send_packet_one_long _ _ _ _ (Or.inl rfl)] at h
    simp only [Option.map_some', Option.some.injEq] at h
    exact ⟨rd, hrd, h.symm⟩

theorem rooms_wf_chat_leave (ptd : PTData) (now : Nat) (id : Int) (r : PTData × List Nat)
    (h : pt_chat_leave ptd now id = some r) (hw : rooms_wf ptd.chats) :
    rooms_wf r.1.chats := by
  obtain ⟨rd, -, he⟩ := pt_chat_leave_chats ptd now id r h
  subst he
  exact rooms_wf_erase _ rd hw

theorem rooms_wf_room_closed (ptd : PTData) (now : Nat) (waitbuf : List Nat)
    (r : PTData × List Nat) (h : pt_callback_room_closed ptd now waitbuf = some r)
    (hw : rooms_wf ptd.chats) : rooms_wf r.1.chats := by
  unfold pt_callback_room_closed at h
  split at h
  · exact rooms_wf_chat_leave ptd now _ r h hw
  · cases h

theorem rooms_wf_bounce (ptd : PTData) (buddies : List (List Nat × Option (List Nat)))
    (now : Nat) (id : Int) (arg : List Nat) (data : Bool) (r : CmdResult)
    (h : pt_bounce ptd buddies now id arg data = some r) (hw : rooms_wf ptd.chats) :
    rooms_wf r.ptd.chats := by
  unfold pt_bounce at h
  split at h
  · cases h
  · rename_i rd hrd
    split at h
    · simp only [Option.some.injEq] at h
      subst h
      exact hw
    · rename_i hadm
      split at h
      · simp only [Option.some.injEq] at h
        subst h
        exact hw
      · obtain ⟨uin, -, h⟩ := Option.bind_eq_some.mp h
        split at h
        · simp only [Option.some.injEq] at h
          subst h
          refine rooms_wf_update _ id ptd.chats (fun _ => rfl) ?_ hw
          intro r0 hr0 _ ha
          unfold pt_get_room_data at hrd
          rw [hrd] at hr0
          simp only [Option.some.injEq] at hr0
          subst hr0
          simp only at ha
          rw [ha] at hadm
          simp at hadm
        · rw [pt_send_packet_two_longs _ _ _ _ _ (Or.inr (Or.inr (Or.inr (Or.inl rfl))))] at h
          simp only [Option.map_some', Option.some.injEq] at h
          subst h
          exact hw

theorem rooms_wf_do_bounce (ptd : PTData) (now : Nat) (id : Int)
    (reason : Option (List Nat)) (r : PTData × List Nat)
    (h : pt_do_bounce ptd now id reason = some r) (hw : rooms_wf ptd.chats) :
    rooms_wf r.1.chats := by
  cases hrd : pt_get_room_data ptd id with
  | none =>
      unfold pt_do_bounce at h
      simp only [hrd] at h
      cases h
  | some rd =>
      by_cases hu : rd.u_bounce = 0
      · rw [pt_do_bounce_idle ptd now id reason rd hrd hu] at h
        simp only [Option.some.injEq] at h
        subst h
        exact hw
      · cases reason with
        | none =>
            unfold pt_do_bounce at h
            simp only [hrd, Option.some.injEq] at h
            subst h
            exact hw
        | some reason =>
            rw [pt_do_bounce_sends ptd now id reason rd hrd hu] at h
            simp only [Option.some.injEq] at h
            subst h
            exact rooms_wf_update _ id ptd.chats (fun _ => rfl)
              (fun r0 _ hr0 ha => ⟨(hr0 ha).1, rfl⟩) hw

theorem rooms_wf_step (ptd ptd1 : PTData) (hs : SessionStep ptd ptd1)
    (hw : rooms_wf ptd.chats) : rooms_wf ptd1.chats := by
  cases hs
  case room_joined waitbuf h => exact rooms_wf_room_joined ptd ptd1 waitbuf h hw
  case room_media_server waitbuf h => exact rooms_wf_room_media_server ptd ptd1 waitbuf h hw
  case room_user_left buddies waitbuf h =>
      exact rooms_wf_room_user_left ptd ptd1 buddies waitbuf h hw
  case room_userlist c now waitbuf st h => exact rooms_wf_room_userlist ptd c now waitbuf st h hw
  case room_closed now waitbuf r h => exact rooms_wf_room_closed ptd now waitbuf r h hw
  case chat_leave now id r h => exact rooms_wf_chat_leave ptd now id r h hw
  case bounce buddies now id arg data r h => exact rooms_wf_bounce ptd buddies now id arg data r h hw
  case do_bounce now id reason r h => exact rooms_wf_do_bounce ptd now id reason r h hw
  case other h => exact rooms_wf_other _ _ h hw

theorem rooms_wf_reachable (ptd : PTData) (h : Reachable ptd) : rooms_wf ptd.chats := by
  induction h with
  | login username => exact ⟨List.nodup_nil, fun r hr => by simp [pt_login] at hr⟩
  | step ptd ptd1 _ hs ih => exact rooms_wf_step ptd ptd1 hs ih

theorem room_update_map {β : Type} (g : PTRoomData → β) (f : PTRoomData → PTRoomData)
    (id : Int) (l : List PTRoomData) (hf : ∀ r, g (f r) = g r) :
    (room_update f id l).map g = l.map g := by
  induction l with
  | nil => rfl
  | cons x xs ih =>
      unfold room_update
      split
      · simp [hf]
      · simp [ih]

theorem rooms_filter_le_one (l : List PTRoomData) (h : (l.map (fun r => r.id)).Nodup)
    (id : Int) : (l.filter (fun rd => rd.id == id)).length ≤ 1 := by
  induction l with
  | nil => simp
  | cons x xs ih =>
      rw [List.map_cons, List.nodup_cons] at h
      by_cases hx : x.id = id
      · have hnone : xs.filter (fun rd => rd.id == id) = [] := by
          rw [List.filter_eq_nil_iff]
          intro a ha hp
          apply h.1
          rw [hx]
          exact List.mem_map.mpr ⟨a, ha, by simpa using hp⟩
        rw [List.filter_cons_of_pos (by simpa using hx), hnone]
        simp
      · rw [List.filter_cons_of_neg (by simpa using hx)]
        exact ih h.2

theorem reachable_nick_42 : Reachable session_nick_42 :=
  Reachable.step (pt_login (cstr "nick")) session_nick_42 (Reachable.login (cstr "nick"))
    (SessionStep.room_joined _ _ frame_room_joined_42 rfl)

/-- C13 (amended): in every reachable session, for a room whose `admin` flag is false,
`pt_bounce` and `pt_red_dot` fail with an error and emit nothing, `pt_do_bounce` emits
nothing, and `pt_ban`, whose test is `i_am_owner` (room owner equal to the local UID),
fails with an error and emits nothing unless the local UID is 0. -/
theorem room_commands_admin_guard (ptd : PTData) (hr : Reachable ptd)
    (buddies : List (List Nat × Option (List Nat))) (now : Nat) (id : Int) (arg : List Nat)
    (data : Bool) (rd : PTRoomData) (hrd : pt_get_room_data ptd id = some rd)
    (ha : rd.admin = false) :
    pt_bounce ptd buddies now id arg data
      = some (cmd_failed ptd "You're not an admin in this room.") ∧
    pt_red_dot ptd buddies now id arg data
      = some (cmd_failed ptd "You are not an admin in this room.") ∧
    (∀ reason, pt_do_bounce ptd now id reason = some (ptd, [])) ∧
    (ptd.uin ≠ 0 → pt_ban ptd buddies now id arg data
      = some (cmd_failed ptd "This command can only be used by the room's owner.")) ∧
    (∀ r, pt_ban ptd buddies now id arg data = some r → r.out ≠ [] → ptd.uin = 0) := by
  have hz := (rooms_wf_reachable ptd hr).2 rd (pt_get_room_data_mem ptd id rd hrd).1 ha
  refine ⟨pt_bounce_not_admin ptd buddies now id arg data rd hrd ha,
    pt_red_dot_not_admin ptd buddies now id arg data rd hrd ha,
    fun reason => pt_do_bounce_idle ptd now id reason rd hrd hz.2, ?_, ?_⟩
  · intro hu
    apply pt_ban_not_owner ptd buddies now id arg data rd hrd
    exact i_am_owner_plain rd ptd true (by rw [hz.1]; exact fun e => hu e.symm) ha
  · intro r h hout
    have := pt_ban_out ptd buddies now id arg data rd r hrd h hout
    rw [← this, hz.1]

/-- C13 (witness): the session that logged in as UID 7 and was told it joined room 42. -/
theorem room_commands_admin_guard_witness :
    pt_bounce { session_nick_42 with uin := 7 } [] 0 42 (cstr "5") true
      = some (cmd_failed { session_nick_42 with uin := 7 }
          "You're not an admin in this room.") ∧
    pt_ban { session_nick_42 with uin := 7 } [] 0 42 (cstr "5") true
      = some (cmd_failed { session_nick_42 with uin := 7 }
          "This command can only be used by the room's owner.") :=
  have h := room_commands_admin_guard { session_nick_42 with uin := 7 }
    (Reachable.step _ _ reachable_nick_42
      (SessionStep.other _ _ (List.Forall₂.cons ⟨rfl, rfl, rfl, rfl⟩ List.Forall₂.nil)))
    [] 0 42 (cstr "5") true { id := 42 } rfl rfl
  ⟨h.1, h.2.2.2.1 (by decide)⟩

/-- C13 (counterexample): after a login under a nickname (local UID still 0) and a
`ROOM_JOINED` frame for room 42, the room's `admin` flag is false and `pt_ban` emits a
`ROOM_BAN_USER` frame. -/
theorem pt_ban_without_admin :
    Reachable session_nick_42 ∧
    (pt_get_room_data session_nick_42 42).map (fun rd => rd.admin) = some false ∧
    (pt_ban session_nick_42 [] 0 42 (cstr "5") true).map (fun r => (r.ret, r.out))
      = some (GaimCmdRet.OK,
          [0xFC, 0x68, 0x00, 0x53, 0x00, 0x08, 0, 0, 0, 42, 0, 0, 0, 5]) ∧
    PACKET_GET_TYPE [0xFC, 0x68, 0x00, 0x53, 0x00, 0x08, 0, 0, 0, 42, 0, 0, 0, 5]
      = some PACKET_ROOM_BAN_USER :=
  ⟨reachable_nick_42, rfl, rfl, rfl⟩

/-- C14 (amended): `unban` fails with an error and emits nothing for a room whose ban list
is empty, `unbounce` does so for a room whose bounce list is empty; with a non-empty ban
list, the owner test passed and a target, `unban` emits its `ROOM_UNBAN_USER` frame, and
with a non-empty bounce list, the admin flag set and a target, `unbounce` emits its
`ROOM_UNBOUNCE_USER` frame. -/
theorem unban_unbounce_lists (ptd : PTData) (buddies : List (List Nat × Option (List Nat)))
    (now : Nat) (id : Int) (arg : List Nat) (rd : PTRoomData)
    (hrd : pt_get_room_data ptd id = some rd) :
    (rd.ban = [] → ∀ b, i_am_owner rd ptd true = some b →
      pt_ban ptd buddies now id arg false
        = some (cmd_failed ptd (if b then "No users are currently banned."
            else "This command can only be used by the room's owner."))) ∧
    (rd.bounce = [] →
      pt_bounce ptd buddies now id arg false
        = some (cmd_failed ptd (if rd.admin then "No users are currently bounced."
            else "You're not an admin in this room."))) ∧
    (rd.ban ≠ [] → i_am_owner rd ptd true = some true →
      ∀ uin, ban_target ptd buddies id arg = some uin →
        pt_ban ptd buddies now id arg false
          = some (cmd_sent (ptd, packet_header PACKET_ROOM_UNBAN_USER
              ++ ([0x00, 0x08] ++ (htonl_bytes id ++ htonl_bytes uin))))) ∧
    (rd.bounce ≠ [] → rd.admin = true →
      ∀ uin, cmd_target ptd buddies rd.id arg = some uin →
        pt_bounce ptd buddies now id arg false
          = some (cmd_sent (ptd, packet_header PACKET_ROOM_UNBOUNCE_USER
              ++ ([0x00, 0x08] ++ (htonl_bytes rd.id ++ htonl_bytes uin))))) := by
  refine ⟨?_, ?_, ?_, ?_⟩
  · intro hb b ho
    cases b with
    | true => exact pt_ban_none_banned ptd buddies now id arg rd hrd ho hb
    | false => exact pt_ban_not_owner ptd buddies now id arg false rd hrd ho
  · intro hb
    cases ha : rd.admin with
    | true => exact pt_bounce_none_bounced ptd buddies now id arg rd hrd ha hb
    | false => exact pt_bounce_not_admin ptd buddies now id arg false rd hrd ha
  · intro hb ho uin ht
    exact pt_ban_sends ptd buddies now id arg false rd uin hrd ho (Or.inr hb) ht
  · intro hb ha uin ht
    exact pt_bounce_unbounce_sends ptd buddies now id arg rd uin hrd ha hb ht

/-- C14 (witness): an admin's room 42 with one bounced user and nobody banned: `unban`
fails, `unbounce 5` emits its frame. -/
theorem unban_unbounce_lists_witness :
    pt_ban { chats := [room_42_bounced] } [] 0 42 (cstr "5") false
      = some (cmd_failed { chats := [room_42_bounced] } "No users are currently banned.") ∧
    pt_bounce { chats := [room_42_bounced] } [] 0 42 (cstr "5") false
      = some (cmd_sent ({ chats := [room_42_bounced] },
          packet_header PACKET_ROOM_UNBOUNCE_USER
            ++ ([0x00, 0x08] ++ (htonl_bytes 42 ++ htonl_bytes 5)))) :=
  have h := unban_unbounce_lists { chats := [room_42_bounced] } [] 0 42 (cstr "5")
    room_42_bounced rfl
  ⟨h.1 rfl true rfl, h.2.2.2 (by decide) rfl 5 rfl⟩

/-- C14 (counterexample): with an empty ban list and one bounced user `unbounce` emits a
`ROOM_UNBOUNCE_USER` frame, and with one banned user and an empty bounce list it fails. -/
theorem unbounce_uses_bounce_list :
    room_42_bounced.ban = [] ∧
    (pt_bounce { chats := [room_42_bounced] } [] 0 42 (cstr "5") false).map
        (fun r => (r.ret, r.out))
      = some (GaimCmdRet.OK,
          [0xFC, 0x71, 0x00, 0x53, 0x00, 0x08, 0, 0, 0, 42, 0, 0, 0, 5]) ∧
    room_42_banned.ban ≠ [] ∧ room_42_banned.admin = true ∧
    (pt_bounce { chats := [room_42_banned] } [] 0 42 (cstr "5") false).map
        (fun r => (r.ret, r.out, r.error))
      = some (GaimCmdRet.FAILED, [], some (cstr "No users are currently bounced.")) :=
  ⟨rfl, rfl, by decide, rfl, rfl⟩

/-- C18: in every reachable session the list of open rooms holds at most one room per id;
`ROOM_JOINED` and `ROOM_MEDIA_SERVER` for an id that has a room leave the session as it is,
and for a new id they append exactly one zeroed room with that id. -/
theorem rooms_one_per_id (ptd : PTData) (h : Reachable ptd) :
    (∀ id : Int, (ptd.chats.filter (fun rd => rd.id == id)).length ≤ 1) ∧
    (∀ waitbuf ptd1, (pt_callback_room_joined ptd waitbuf = some ptd1
        ∨ pt_callback_room_media_server ptd waitbuf = some ptd1) →
      ∃ id, PACKET_GET_LONG waitbuf 6 = some id ∧
        ((pt_get_room_data ptd id).isSome → ptd1 = ptd) ∧
        (pt_get_room_data ptd id = none →
          ptd1.chats = ptd.chats ++ [{ id := id }] ∧ ptd1 = { ptd with chats := ptd1.chats })) := by
  refine ⟨rooms_filter_le_one ptd.chats (rooms_wf_reachable ptd h).1, ?_⟩
  intro waitbuf ptd1 hh
  have key : ∃ id, PACKET_GET_LONG waitbuf 6 = some id ∧ ptd1 = room_get_or_new ptd id := by
    rcases hh with hh | hh
    · unfold pt_callback_room_joined at hh
      split at hh
      · rename_i id s h6 _
        split at hh
        · simp only [Option.some.injEq] at hh
          exact ⟨id, h6, hh.symm⟩
        · cases hh
      · cases hh
    · unfold pt_callback_room_media_server at hh
      split at hh
      · rename_i id _ _ h6 _ _
        simp only [Option.some.injEq] at hh
        exact ⟨id, h6, hh.symm⟩
      · cases hh
  obtain ⟨id, h6, he⟩ := key
  refine ⟨id, h6, ?_, ?_⟩
  · intro hs
    rw [he]
    unfold room_get_or_new
    cases hg : pt_get_room_data ptd id with
    | none => rw [hg] at hs; cases hs
    | some rd => rfl
  · intro hn
    rw [he]
    unfold room_get_or_new
    rw [hn]
    exact ⟨rfl, rfl⟩

/-- C18 (witness): the session with room 42 open has one room of id 42, and a second
`ROOM_JOINED` frame for room 42 leaves it as it is. -/
theorem rooms_one_per_id_witness :
    (session_nick_42.chats.filter (fun rd => rd.id == 42)).length ≤ 1 ∧
    pt_callback_room_joined session_nick_42 frame_room_joined_42 = some session_nick_42 :=
  ⟨(rooms_one_per_id session_nick_42 reachable_nick_42).1 42, rfl⟩

theorem g_ascii_tolower_lt (c : Nat) (h : c ≠ 60) : g_ascii_tolower c ≠ 60 := by
  unfold g_ascii_tolower
  split <;> omega

theorem strncasecmp_eq_lt (c : Nat) (cs ps : List Nat) (h : c ≠ 60) :
    strncasecmp_eq (c :: cs) (60 :: ps) = false := by
  have h1 := g_ascii_tolower_lt c h
  have h2 : g_ascii_tolower 60 = 60 := rfl
  simp [strncasecmp_eq, h2, h1]

theorem strncmp_eq_ne (c p : Nat) (cs ps : List Nat) (h : c ≠ p) :
    strncmp_eq (c :: cs) (p :: ps) = false := by
  simp [strncmp_eq, h]

theorem scan_lit_ne (c f : Nat) (cs fs : List Nat) (hf : isspace f = false) (h : c ≠ f) :
    scan_lit (f :: fs) (c :: cs) = ScanLit.nomatch := by
  simp [scan_lit, hf, h]

theorem strcasereplace_plain (del rep : List Nat) (s : List Nat) (h : ∀ c ∈ s, c ≠ 60) :
    strcasereplace_go (60 :: del) rep 0 s = s := by
  induction s with
  | nil => rfl
  | cons c cs ih =>
      unfold strcasereplace_go
      rw [strncasecmp_eq_lt c cs del (h c (List.mem_cons_self _ _))]
      simp only [Bool.false_eq_true, if_false]
      rw [ih (fun x hx => h x (List.mem_cons_of_mem _ hx))]

theorem from_html_round_plain (c : Nat) (cs : List Nat) (h1 : c ≠ 60) (h2 : c ≠ 38) :
    from_html_round (c :: cs) = some ([c], 0) := by
  have e1 : sscanf_lx "<font color=\"#" (c :: cs) = Scan.nomatch := by
    unfold sscanf_lx
    rw [show cstr "<font color=\"#" = 60 :: cstr "font color=\"#" from rfl,
      scan_lit_ne c 60 cs _ rfl h1]
  have e2 : sscanf_ld "<font size=\"" (c :: cs) = Scan.nomatch := by
    unfold sscanf_ld
    rw [show cstr "<font size=\"" = 60 :: cstr "font size=\"" from rfl,
      scan_lit_ne c 60 cs _ rfl h1]
  have e3 : sscanf_c "</" (c :: cs) = Scan.nomatch := by
    unfold sscanf_c
    rw [show cstr "</" = 60 :: cstr "/" from rfl, scan_lit_ne c 60 cs _ rfl h1]
  have e4 : sscanf_c "<" (c :: cs) = Scan.nomatch := by
    unfold sscanf_c
    rw [show cstr "<" = 60 :: [] from rfl, scan_lit_ne c 60 cs _ rfl h1]
  unfold from_html_round
  rw [e1]
  simp only
  rw [e2]
  simp only
  rw [show cstr "<body" = 60 :: cstr "body" from rfl,
    show cstr "</body>" = 60 :: cstr "/body>" from rfl,
    strncasecmp_eq_lt c cs _ h1, strncasecmp_eq_lt c cs _ h1, e3]
  simp only [Bool.false_eq_true, if_false]
  rw [e4]
  simp only
  rw [show cstr "&lt;" = 38 :: cstr "lt;" from rfl, show cstr "&gt;" = 38 :: cstr "gt;" from rfl,
    show cstr "&amp;" = 38 :: cstr "amp;" from rfl,
    show cstr "&quot;" = 38 :: cstr "quot;" from rfl,
    strncmp_eq_ne c 38 cs _ h2, strncmp_eq_ne c 38 cs _ h2, strncmp_eq_ne c 38 cs _ h2,
    strncmp_eq_ne c 38 cs _ h2]
  rfl

theorem from_html_loop_plain (s out : List Nat) (h : ∀ c ∈ s, c ≠ 60 ∧ c ≠ 38) :
    from_html_loop 0 s out = some (out ++ s) := by
  induction s generalizing out with
  | nil => simp [from_html_loop]
  | cons c cs ih =>
      unfold from_html_loop
      rw [from_html_round_plain c cs (h c (List.mem_cons_self _ _)).1
        (h c (List.mem_cons_self _ _)).2]
      simp only
      rw [ih _ (fun x hx => h x (List.mem_cons_of_mem _ hx))]
      simp

theorem strstr_plain (s ps : List Nat) (h : ∀ c ∈ s, c ≠ 60) : strstr s (60 :: ps) = none := by
  induction s with
  | nil => rfl
  | cons c cs ih =>
      unfold strstr
      rw [strncmp_eq_ne c 60 cs ps (h c (List.mem_cons_self _ _)),
        ih (fun x hx => h x (List.mem_cons_of_mem _ hx))]
      rfl

theorem from_html_convert_plain (m : List Nat) (h : ∀ c ∈ m, c ≠ 60 ∧ c ≠ 38) :
    from_html_convert m = some m := by
  have hl : ∀ c ∈ m, c ≠ 60 := fun c hc => (h c hc).1
  unfold from_html_convert gaim_strcasereplace
  simp only
  rw [show cstr "<FONT COLOR" = 60 :: cstr "FONT COLOR" from rfl,
    show cstr "<FONT SIZE" = 60 :: cstr "FONT SIZE" from rfl,
    show cstr "</FONT>" = 60 :: cstr "/FONT>" from rfl,
    show cstr "<A HREF" = 60 :: cstr "A HREF" from rfl,
    strcasereplace_plain _ _ m hl, strcasereplace_plain _ _ m hl, strcasereplace_plain _ _ m hl,
    strcasereplace_plain _ _ m hl, from_html_loop_plain m [] h]
  rfl

/-- C16: `pt_convert_from_html(m)` is the converted message put between
`<pfont color="#0"><pfont-size="10">` and `</pfont></pfont>` when the converted message
holds no `<pfont`, and the converted message itself otherwise; for a message without `<` and
`&` the converted message is the message, so the result is that prefix, the message and
that suffix. -/
theorem pt_convert_from_html_wraps (m : List Nat) :
    (∀ c, from_html_convert m = some c → strstr c (cstr "<pfont") = none →
      pt_convert_from_html m = some (cstr "<pfont color=\"#0\"><pfont-size=\"10\">" ++ c
        ++ cstr "</pfont></pfont>")) ∧
    (∀ c, from_html_convert m = some c → strstr c (cstr "<pfont") ≠ none →
      pt_convert_from_html m = some c) ∧
    ((∀ c ∈ m, c ≠ 60 ∧ c ≠ 38) →
      pt_convert_from_html m = some (cstr "<pfont color=\"#0\"><pfont-size=\"10\">" ++ m
        ++ cstr "</pfont></pfont>")) := by
  have w1 : ∀ c, from_html_convert m = some c → strstr c (cstr "<pfont") = none →
      pt_convert_from_html m = some (cstr "<pfont color=\"#0\"><pfont-size=\"10\">" ++ c
        ++ cstr "</pfont></pfont>") := by
    intro c hc hs
    unfold pt_convert_from_html
    rw [hc, Option.map_some', hs]
    rfl
  refine ⟨w1, ?_, ?_⟩
  · intro c hc hs
    unfold pt_convert_from_html
    rw [hc, Option.map_some']
    cases hx : strstr c (cstr "<pfont") with
    | none => exact absurd hx hs
    | some k => rfl
  · intro h
    apply w1 m (from_html_convert_plain m h)
    exact strstr_plain m _ (fun c hc => (h c hc).1)

/-- C16 (witness): the message `hi`. -/
theorem pt_convert_from_html_wraps_witness :
    pt_convert_from_html (cstr "hi")
      = some (cstr "<pfont color=\"#0\"><pfont-size=\"10\">" ++ cstr "hi"
        ++ cstr "</pfont></pfont>") :=
  (pt_convert_from_html_wraps (cstr "hi")).2.2 (by decide)


/-! ## Digits -/

theorem scan_dec_digits (ds rest : List Nat) (c : Nat) (hc : ¬ (48 ≤ c ∧ c ≤ 57))
    (hd : ∀ d ∈ ds, 48 ≤ d ∧ d ≤ 57) (k a : Nat) :
    scan_dec (ds ++ c :: rest) k a
      = (k + ds.length, ds.foldl (fun a d => a * 10 + (d - 48)) a) := by
  induction ds generalizing k a with
  | nil => simp [scan_dec, hc]
  | cons d ds ih =>
      simp only [List.cons_append, scan_dec, List.foldl_cons, List.length_cons, List.append_eq]
      rw [if_pos (hd d (List.mem_cons_self _ _)), ih (fun x hx => hd x (List.mem_cons_of_mem _ hx))]
      congr 1
      omega

theorem scan_hex_digits (ds rest : List Nat) (c : Nat) (hc : hex_value c = none)
    (hd : ∀ d ∈ ds, (hex_value d).isSome) (k a : Nat) :
    scan_hex (ds ++ c :: rest) k a
      = (k + ds.length, ds.foldl (fun a d => a * 16 + (hex_value d).getD 0) a) := by
  induction ds generalizing k a with
  | nil => simp [scan_hex, hc]
  | cons d ds ih =>
      have hdd := hd d (List.mem_cons_self _ _)
      obtain ⟨v, hv⟩ := Option.isSome_iff_exists.mp hdd
      simp only [List.cons_append, scan_hex, List.foldl_cons, List.length_cons, hv,
        Option.getD_some, List.append_eq]
      rw [ih (fun x hx => hd x (List.mem_cons_of_mem _ hx))]
      congr 1
      omega

theorem dec_digits_aux_spec : ∀ (fuel n : Nat) (acc : List Nat), n < 10 ^ (fuel + 1) →
    ∃ ds, dec_digits_aux (fuel + 1) n acc = ds ++ acc ∧ ds ≠ [] ∧
      (∀ d ∈ ds, 48 ≤ d ∧ d ≤ 57) ∧
      ∀ a, ds.foldl (fun a d => a * 10 + (d - 48)) a = a * 10 ^ ds.length + n := by
  intro fuel
  induction fuel with
  | zero =>
      intro n acc hn
      refine ⟨[48 + n], ?_, by simp, ?_, ?_⟩
      · rw [dec_digits_aux, if_pos (by omega)]
        have : n % 10 = n := by omega
        rw [this]
        rfl
      · intro d hd
        simp only [List.mem_singleton] at hd
        omega
      · intro a
        simp
  | succ f ih =>
      intro n acc hn
      rw [dec_digits_aux]
      by_cases h0 : n / 10 = 0
      · rw [if_pos h0]
        refine ⟨[48 + n % 10], rfl, by simp, ?_, ?_⟩
        · intro d hd
          simp only [List.mem_singleton] at hd
          omega
        · intro a
          simp
          omega
      · rw [if_neg h0]
        have hlt : n / 10 < 10 ^ (f + 1) := by
          rw [Nat.div_lt_iff_lt_mul (by decide)]
          calc n < 10 ^ (f + 1 + 1) := hn
            _ = 10 ^ (f + 1) * 10 := by rw [Nat.pow_succ]
        obtain ⟨ds, h1, h2, h3, h4⟩ := ih (n / 10) ((48 + n % 10) :: acc) hlt
        refine ⟨ds ++ [48 + n % 10], ?_, by simp, ?_, ?_⟩
        · rw [h1]
          simp
        · intro d hd
          rcases List.mem_append.mp hd with hd | hd
          · exact h3 d hd
          · simp only [List.mem_singleton] at hd
            omega
        · intro a
          rw [List.foldl_append, h4]
          simp only [List.foldl_cons, List.foldl_nil, List.length_append, List.length_singleton,
            Nat.add_sub_cancel_left]
          rw [Nat.pow_succ]
          have := Nat.div_add_mod n 10
          nlinarith [Nat.div_add_mod n 10]

theorem lt_ten_pow (n : Nat) : n < 10 ^ (n + 1) := by
  have := Nat.lt_pow_self (show 1 < 10 by decide) n
  calc n < 10 ^ n := this
    _ ≤ 10 ^ (n + 1) := Nat.pow_le_pow_right (by decide) (by omega)

theorem dec_digits_spec (n : Nat) :
    dec_digits n ≠ [] ∧ (∀ d ∈ dec_digits n, 48 ≤ d ∧ d ≤ 57) ∧
    spec_dec (dec_digits n) = n := by
  obtain ⟨ds, h1, h2, h3, h4⟩ := dec_digits_aux_spec n n [] (lt_ten_pow n)
  unfold dec_digits spec_dec
  rw [h1, List.append_nil]
  refine ⟨h2, h3, ?_⟩
  rw [h4]
  simp

theorem printf_d_nat (n : Nat) : printf_d (n : Int) = dec_digits n := by
  unfold printf_d printf_prec_d
  have hl : 1 ≤ (dec_digits n).length := by
    have := (dec_digits_spec n).1
    cases h : dec_digits n with
    | nil => exact absurd h this
    | cons a l => simp
  simp only [Int.natAbs_ofNat]
  rw [if_neg (by omega), show 1 - (dec_digits n).length = 0 by omega]
  rfl


theorem testBit_255 (i : Nat) : Nat.testBit 255 i = decide (i < 8) :=
  Nat.testBit_two_pow_sub_one 8 i

theorem testBit_65280 (i : Nat) : Nat.testBit 65280 i = (decide (8 ≤ i) && decide (i < 16)) := by
  have : (65280 : Nat) = 255 <<< 8 := by decide
  rw [this, Nat.testBit_shiftLeft, testBit_255]
  by_cases h : 8 ≤ i <;> simp [h]
  omega

theorem testBit_16711680 (i : Nat) :
    Nat.testBit 16711680 i = (decide (16 ≤ i) && decide (i < 24)) := by
  have : (16711680 : Nat) = 255 <<< 16 := by decide
  rw [this, Nat.testBit_shiftLeft, testBit_255]
  by_cases h : 16 ≤ i <;> simp [h]
  omega

theorem swap_bits (v i : Nat) :
    Nat.testBit (((v &&& 0x0000FF) <<< 16) ||| (v &&& 0x00FF00) ||| ((v &&& 0xFF0000) >>> 16)) i
      = if i < 8 then Nat.testBit v (i + 16)
        else if i < 16 then Nat.testBit v i
        else if i < 24 then Nat.testBit v (i - 16)
        else false := by
  simp only [Nat.testBit_or, Nat.testBit_and, Nat.testBit_shiftLeft, Nat.testBit_shiftRight,
    testBit_255, testBit_65280, testBit_16711680]
  by_cases h1 : i < 8
  · have e : 16 + i = i + 16 := by omega
    simp [h1, e, show ¬ (16 ≤ i) by omega, show ¬ (8 ≤ i) by omega, show i + 16 < 24 by omega]
  · by_cases h2 : i < 16
    · simp [h1, h2, show ¬ (16 ≤ i) by omega, show 8 ≤ i by omega,
        show ¬ (16 + i < 24) by omega]
    · by_cases h3 : i < 24
      · simp [h1, h2, h3, show 16 ≤ i by omega, show i - 16 < 8 by omega,
          show ¬ (16 + i < 24) by omega]
      · simp [h1, h2, h3, show 16 ≤ i by omega, show ¬ (i - 16 < 8) by omega,
          show ¬ (16 + i < 24) by omega]

theorem swap_red_blue_eq (w : Nat) (h : w < 4294967296) :
    swap_red_blue (w : Int)
      = ((w &&& 0x0000FF) <<< 16) ||| (w &&& 0x00FF00) ||| ((w &&& 0xFF0000) >>> 16) := by
  unfold swap_red_blue
  rw [u32_small w h]

theorem swap_red_blue_lt (v : Nat) (h : v < 4294967296) :
    swap_red_blue (v : Int) < 16777216 := by
  rw [swap_red_blue_eq v h]
  apply Nat.lt_pow_two_of_testBit _ (n := 24)
  intro i hi
  rw [swap_bits]
  simp [show ¬ (i < 8) by omega, show ¬ (i < 16) by omega, show ¬ (i < 24) by omega]

theorem swap_red_blue_swap (v : Nat) (h : v < 16777216) :
    swap_red_blue ((swap_red_blue (v : Int) : Nat) : Int) = v := by
  have hl := swap_red_blue_lt v (by omega)
  rw [swap_red_blue_eq _ (by omega), swap_red_blue_eq v (by omega)]
  apply Nat.eq_of_testBit_eq
  intro i
  simp only [swap_bits]
  by_cases h1 : i < 8
  · simp [h1, show ¬ (i + 16 < 8) by omega, show ¬ (i + 16 < 16) by omega,
      show i + 16 < 24 by omega]
  · by_cases h2 : i < 16
    · simp [h1, h2]
    · by_cases h3 : i < 24
      · simp [h1, h2, h3, show i - 16 < 8 by omega, show i - 16 + 16 = i by omega]
      · simp only [h1, h2, h3, if_false]
        symm
        apply Nat.testBit_lt_two_pow
        calc v < 16777216 := h
          _ = 2 ^ 24 := by decide
          _ ≤ 2 ^ i := Nat.pow_le_pow_right (by decide) (by omega)


theorem hex_value_range (d : Nat) (h : (hex_value d).isSome) :
    (48 ≤ d ∧ d ≤ 57) ∨ (97 ≤ d ∧ d ≤ 102) ∨ (65 ≤ d ∧ d ≤ 70) := by
  unfold hex_value at h
  split at h
  · left; assumption
  · split at h
    · right; left; assumption
    · split at h
      · right; right; assumption
      · simp at h

theorem hex_value_digit (d : Nat) (h : d < 16) :
    hex_value (if d < 10 then 48 + d else 87 + d) = some d := by
  unfold hex_value
  by_cases h1 : d < 10
  · rw [if_pos h1, if_pos (by omega)]
    congr 1
    omega
  · rw [if_neg h1, if_neg (by omega), if_pos (by omega)]
    congr 1
    omega

theorem hex_digits_aux_spec : ∀ (fuel n : Nat) (acc : List Nat), n < 16 ^ (fuel + 1) →
    ∃ ds, hex_digits_aux (fuel + 1) n acc = ds ++ acc ∧ ds ≠ [] ∧
      (∀ d ∈ ds, (hex_value d).isSome) ∧
      ∀ a, ds.foldl (fun a d => a * 16 + (hex_value d).getD 0) a = a * 16 ^ ds.length + n := by
  intro fuel
  induction fuel with
  | zero =>
      intro n acc hn
      refine ⟨[if n % 16 < 10 then 48 + n % 16 else 87 + n % 16], ?_, by simp, ?_, ?_⟩
      · rw [hex_digits_aux]
        rw [if_pos (by omega)]
        rfl
      · intro d hd
        simp only [List.mem_singleton] at hd
        rw [hd, hex_value_digit _ (Nat.mod_lt _ (by decide))]
        rfl
      · intro a
        simp only [List.foldl_cons, List.foldl_nil, List.length_singleton]
        rw [hex_value_digit _ (Nat.mod_lt _ (by decide))]
        simp only [Option.getD_some]
        omega
  | succ f ih =>
      intro n acc hn
      rw [hex_digits_aux]
      by_cases h0 : n / 16 = 0
      · rw [if_pos h0]
        refine ⟨[if n % 16 < 10 then 48 + n % 16 else 87 + n % 16], rfl, by simp, ?_, ?_⟩
        · intro d hd
          simp only [List.mem_singleton] at hd
          rw [hd, hex_value_digit _ (Nat.mod_lt _ (by decide))]
          rfl
        · intro a
          simp only [List.foldl_cons, List.foldl_nil, List.length_singleton]
          rw [hex_value_digit _ (Nat.mod_lt _ (by decide))]
          simp only [Option.getD_some]
          omega
      · rw [if_neg h0]
        have hlt : n / 16 < 16 ^ (f + 1) := by
          rw [Nat.div_lt_iff_lt_mul (by decide)]
          calc n < 16 ^ (f + 1 + 1) := hn
            _ = 16 ^ (f + 1) * 16 := by rw [Nat.pow_succ]
        obtain ⟨ds, h1, h2, h3, h4⟩ :=
          ih (n / 16) ((if n % 16 < 10 then 48 + n % 16 else 87 + n % 16) :: acc) hlt
        refine ⟨ds ++ [if n % 16 < 10 then 48 + n % 16 else 87 + n % 16], ?_, by simp, ?_, ?_⟩
        · rw [h1]
          simp
        · intro d hd
          rcases List.mem_append.mp hd with hd | hd
          · exact h3 d hd
          · simp only [List.mem_singleton] at hd
            rw [hd, hex_value_digit _ (Nat.mod_lt _ (by decide))]
            rfl
        · intro a
          rw [List.foldl_append, h4]
          simp only [List.foldl_cons, List.foldl_nil, List.length_append, List.length_singleton]
          rw [hex_value_digit _ (Nat.mod_lt _ (by decide))]
          simp only [Option.getD_some]
          rw [Nat.pow_succ]
          nlinarith [Nat.div_add_mod n 16]

theorem lt_sixteen_pow (n : Nat) : n < 16 ^ (n + 1) := by
  have := Nat.lt_pow_self (show 1 < 16 by decide) n
  calc n < 16 ^ n := this
    _ ≤ 16 ^ (n + 1) := Nat.pow_le_pow_right (by decide) (by omega)

theorem foldl_hex_zeros (k : Nat) (ds : List Nat) :
    (List.replicate k 48 ++ ds).foldl (fun a d => a * 16 + (hex_value d).getD 0) 0
      = ds.foldl (fun a d => a * 16 + (hex_value d).getD 0) 0 := by
  induction k with
  | zero => rfl
  | succ k ih =>
      rw [List.replicate_succ, List.cons_append, List.foldl_cons]
      exact ih

theorem printf_prec_x_spec (p n : Nat) :
    printf_prec_x p n ≠ [] ∧ (∀ d ∈ printf_prec_x p n, (hex_value d).isSome) ∧
    spec_hex (printf_prec_x p n) = n := by
  obtain ⟨ds, h1, h2, h3, h4⟩ := hex_digits_aux_spec n n [] (lt_sixteen_pow n)
  unfold printf_prec_x spec_hex
  simp only
  rw [h1, List.append_nil]
  refine ⟨?_, ?_, ?_⟩
  · intro h
    rw [List.append_eq_nil] at h
    exact h2 h.2
  · intro d hd
    rcases List.mem_append.mp hd with hd | hd
    · rw [(List.mem_replicate.mp hd).2]
      rfl
    · exact h3 d hd
  · rw [foldl_hex_zeros, h4]
    simp


theorem strchr_gt (body rest : List Nat) (h : 62 ∉ body) :
    strchr (body ++ 62 :: rest) 62 = some body.length := by
  unfold strchr
  rw [if_pos (by simp)]
  congr 1
  induction body with
  | nil => simp [List.indexOf_cons]
  | cons b bs ih =>
      have hb : b ≠ 62 := fun e => h (e ▸ List.mem_cons_self _ _)
      rw [List.cons_append, List.indexOf_cons_ne _ hb, ih (fun hx => h (List.mem_cons_of_mem _ hx))]
      rfl

theorem from_html_loop_skip (l rest out : List Nat) :
    from_html_loop l.length (l ++ rest) out = from_html_loop 0 rest out := by
  induction l with
  | nil => rfl
  | cons c cs ih =>
      rw [List.length_cons, List.cons_append, from_html_loop]
      exact ih

theorem to_html_loop_skip (l rest out : List Nat) :
    to_html_loop l.length (l ++ rest) out = to_html_loop 0 rest out := by
  induction l with
  | nil => rfl
  | cons c cs ih =>
      rw [List.length_cons, List.cons_append, to_html_loop]
      exact ih

theorem atoi_skip_cons (c : Nat) (cs : List Nat) (h : isspace c = false) :
    atoi_skip (c :: cs) = c :: cs := by
  simp [atoi_skip, h]



theorem s32_small (n : Nat) (h : n < 2147483648) : s32 (n : Int) = n := by
  unfold s32
  have e : (n : Int) % 4294967296 = n := Int.emod_eq_of_lt (by omega) (by omega)
  rw [e, if_pos (by omega)]

theorem hex_value_not_space (d : Nat) (h : (hex_value d).isSome) :
    isspace d = false ∧ d ≠ 45 ∧ d ≠ 43 ∧ d ≠ 120 ∧ d ≠ 88 ∧ d ≠ 62 ∧ d ≠ 60 ∧ d < 128 := by
  have := hex_value_range d h
  refine ⟨?_, by omega, by omega, by omega, by omega, by omega, by omega, by omega⟩
  unfold isspace
  simp
  omega

theorem dec_not_space (d : Nat) (h : 48 ≤ d ∧ d ≤ 57) :
    isspace d = false ∧ d ≠ 45 ∧ d ≠ 43 ∧ d ≠ 62 ∧ d < 128 := by
  refine ⟨?_, by omega, by omega, by omega, by omega⟩
  unfold isspace
  simp
  omega

theorem scan_lx_digits (ds rest : List Nat) (h0 : ds ≠ [])
    (hd : ∀ d ∈ ds, (hex_value d).isSome) (hv : spec_hex ds < 16777216) :
    scan_lx (ds ++ 34 :: rest) = Scan.ok (spec_hex ds : Int) := by
  have hs := scan_hex_digits ds rest 34 rfl hd 0 0
  cases ds with
  | nil => exact absurd rfl h0
  | cons d ds1 =>
      obtain ⟨h1, h2, h3, -⟩ := hex_value_not_space d (hd d (List.mem_cons_self _ _))
      have hb : scan_hex_body (d :: ds1 ++ 34 :: rest) = scan_hex (d :: ds1 ++ 34 :: rest) 0 0 := by
        unfold scan_hex_body
        split
        · rename_i x more heq
          have hx : x ≠ 120 ∧ x ≠ 88 := by
            cases ds1 with
            | nil =>
                simp only [List.cons_append, List.nil_append, List.cons.injEq] at heq
                omega
            | cons y ys =>
                simp only [List.cons_append, List.cons.injEq] at heq
                have := hex_value_not_space y (hd y (by simp))
                omega
          rw [if_neg (by omega)]
        · rfl
      unfold scan_lx
      rw [List.cons_append, atoi_skip_cons _ _ h1]
      simp only [h2, h3, or_self, if_false]
      rw [List.cons_append] at hb hs
      rw [hb, hs]
      simp only [List.length_cons, Nat.zero_add, Nat.add_one_ne_zero, if_false]
      have hv2 : spec_hex (d :: ds1) = List.foldl (fun a d => a * 16 + (hex_value d).getD 0) 0 (d :: ds1) := rfl
      rw [← hv2]
      have : ¬ (spec_hex (d :: ds1) > 4294967295) := by omega
      simp only [this, if_false]
      have hne : (d == 45) = false := by simp [h2]
      simp only [hne, Bool.false_eq_true, false_and, if_false]
      rw [s32_small _ (by omega)]

theorem scan_ld_digits (ds rest : List Nat) (h0 : ds ≠ [])
    (hd : ∀ d ∈ ds, 48 ≤ d ∧ d ≤ 57) :
    scan_ld (ds ++ 34 :: rest)
      = Scan.ok (if spec_dec ds > 2147483647 then 2147483647 else (spec_dec ds : Int)) := by
  have hs := scan_dec_digits ds rest 34 (by decide) hd 0 0
  cases ds with
  | nil => exact absurd rfl h0
  | cons d ds1 =>
      obtain ⟨h1, h2, h3, -⟩ := dec_not_space d (hd d (List.mem_cons_self _ _))
      unfold scan_ld
      rw [List.cons_append, atoi_skip_cons _ _ h1]
      simp only [h2, h3, or_self, if_false]
      rw [List.cons_append] at hs
      rw [hs]
      simp only [List.length_cons, Nat.zero_add, Nat.add_one_ne_zero, if_false]
      have hne : (d == 45) = false := by simp [h2]
      simp only [hne, Bool.false_eq_true, if_false]
      rfl



theorem strcasereplace_go_skip (del rep l rest : List Nat) :
    strcasereplace_go del rep l.length (l ++ rest) = strcasereplace_go del rep 0 rest := by
  induction l with
  | nil => rfl
  | cons c cs ih =>
      rw [List.length_cons, List.cons_append, strcasereplace_go]
      exact ih

theorem strcasereplace_plain_app (del rep l rest : List Nat) (h : ∀ c ∈ l, c ≠ 60) :
    strcasereplace_go (60 :: del) rep 0 (l ++ rest)
      = l ++ strcasereplace_go (60 :: del) rep 0 rest := by
  induction l with
  | nil => rfl
  | cons c cs ih =>
      rw [List.cons_append, strcasereplace_go]
      rw [strncasecmp_eq_lt c _ del (h c (List.mem_cons_self _ _))]
      simp only [Bool.false_eq_true, if_false]
      rw [ih (fun x hx => h x (List.mem_cons_of_mem _ hx))]
      rfl

theorem strcasereplace_miss (del rep body rest : List Nat) (h : ∀ c ∈ body, c ≠ 60)
    (hm : strncasecmp_eq (60 :: (body ++ rest)) (60 :: del) = false) :
    strcasereplace_go (60 :: del) rep 0 (60 :: body ++ rest)
      = 60 :: body ++ strcasereplace_go (60 :: del) rep 0 rest := by
  rw [List.cons_append, strcasereplace_go, hm]
  simp only [Bool.false_eq_true, if_false]
  rw [strcasereplace_plain_app del rep body rest h]
  rfl

theorem strcasereplace_hit (del rep r body rest : List Nat) (h : ∀ c ∈ body, c ≠ 60)
    (hl : r.length = del.length)
    (hm : strncasecmp_eq (60 :: (r ++ body ++ rest)) (60 :: del) = true) :
    strcasereplace_go (60 :: del) (60 :: rep) 0 (60 :: r ++ body ++ rest)
      = 60 :: rep ++ body ++ strcasereplace_go (60 :: del) (60 :: rep) 0 rest := by
  rw [List.cons_append, List.cons_append, strcasereplace_go, hm]
  simp only [if_true]
  rw [List.length_cons, Nat.add_sub_cancel, ← hl, List.append_assoc, strcasereplace_go_skip,
    strcasereplace_plain_app del _ body rest h]
  simp



theorem hex_digits_ne_lt (ds : List Nat) (hd : ∀ d ∈ ds, (hex_value d).isSome) :
    ∀ c ∈ ds, c ≠ 60 := fun c hc => (hex_value_not_space c (hd c hc)).2.2.2.2.2.2.1

theorem dec_digits_ne_lt (ds : List Nat) (hd : ∀ d ∈ ds, 48 ≤ d ∧ d ≤ 57) :
    ∀ c ∈ ds, c ≠ 60 := fun c hc => by have := hd c hc; omega

theorem color_body_ne_lt (ds : List Nat) (hd : ∀ d ∈ ds, (hex_value d).isSome) (a b : List Nat)
    (ha : ∀ c ∈ a, c ≠ 60) (hb : ∀ c ∈ b, c ≠ 60) : ∀ c ∈ a ++ ds ++ b, c ≠ 60 := by
  intro c hc
  simp only [List.mem_append] at hc
  rcases hc with (hc | hc) | hc
  · exact ha c hc
  · exact hex_digits_ne_lt ds hd c hc
  · exact hb c hc

theorem size_body_ne_lt (ds : List Nat) (hd : ∀ d ∈ ds, 48 ≤ d ∧ d ≤ 57) (a b : List Nat)
    (ha : ∀ c ∈ a, c ≠ 60) (hb : ∀ c ∈ b, c ≠ 60) : ∀ c ∈ a ++ ds ++ b, c ≠ 60 := by
  intro c hc
  simp only [List.mem_append] at hc
  rcases hc with (hc | hc) | hc
  · exact ha c hc
  · exact dec_digits_ne_lt ds hd c hc
  · exact hb c hc

theorem strcasereplace_color_tok (t : HtmlTok) (rest : List Nat) (h : spec_tok_ok t) :
    strcasereplace_go (cstr "<FONT COLOR") (cstr "<font color") 0 (spec_render_tok t ++ rest)
      = spec_render_tok t ++ strcasereplace_go (cstr "<FONT COLOR") (cstr "<font color") 0 rest := by
  cases t with
  | text ch => exact strcasereplace_plain_app _ _ ch rest (fun x hx => (h.2.2 x hx).2.1)
  | tag name =>
      rcases h with h | h | h | h <;> rw [h] <;>
        exact strcasereplace_miss _ _ _ rest (by decide) (by
          simp [strncasecmp_eq, g_ascii_tolower, cstr])
  | close name =>
      rcases h with h | h | h | h <;> rw [h] <;>
        exact strcasereplace_miss _ _ _ rest (by decide) (by
          simp [strncasecmp_eq, g_ascii_tolower, cstr])
  | color ds =>
      have := strcasereplace_hit (cstr "FONT COLOR") (cstr "font color") (cstr "font color")
        (cstr "=\"#" ++ ds ++ cstr "\">") rest
        (color_body_ne_lt ds h.2.1 _ _ (by decide) (by decide)) rfl (by
          simp [strncasecmp_eq, g_ascii_tolower, cstr])
      simpa [spec_render_tok, cstr] using this
  | size ds =>
      have := strcasereplace_miss (cstr "FONT COLOR") (cstr "<font color")
        (cstr "font size=\"" ++ ds ++ cstr "\">") rest
        (size_body_ne_lt ds h.2 _ _ (by decide) (by decide)) (by
          simp [strncasecmp_eq, g_ascii_tolower, cstr])
      simpa [spec_render_tok, cstr] using this

theorem strcasereplace_size_tok (t : HtmlTok) (rest : List Nat) (h : spec_tok_ok t) :
    strcasereplace_go (cstr "<FONT SIZE") (cstr "<font size") 0 (spec_render_tok t ++ rest)
      = spec_render_tok t ++ strcasereplace_go (cstr "<FONT SIZE") (cstr "<font size") 0 rest := by
  cases t with
  | text ch => exact strcasereplace_plain_app _ _ ch rest (fun x hx => (h.2.2 x hx).2.1)
  | tag name =>
      rcases h with h | h | h | h <;> rw [h] <;>
        exact strcasereplace_miss _ _ _ rest (by decide) (by
          simp [strncasecmp_eq, g_ascii_tolower, cstr])
  | close name =>
      rcases h with h | h | h | h <;> rw [h] <;>
        exact strcasereplace_miss _ _ _ rest (by decide) (by
          simp [strncasecmp_eq, g_ascii_tolower, cstr])
  | color ds =>
      have := strcasereplace_miss (cstr "FONT SIZE") (cstr "<font size")
        (cstr "font color=\"#" ++ ds ++ cstr "\">") rest
        (color_body_ne_lt ds h.2.1 _ _ (by decide) (by decide)) (by
          simp [strncasecmp_eq, g_ascii_tolower, cstr])
      simpa [spec_render_tok, cstr] using this
  | size ds =>
      have := strcasereplace_hit (cstr "FONT SIZE") (cstr "font size") (cstr "font size")
        (cstr "=\"" ++ ds ++ cstr "\">") rest
        (size_body_ne_lt ds h.2 _ _ (by decide) (by decide)) rfl (by
          simp [strncasecmp_eq, g_ascii_tolower, cstr])
      simpa [spec_render_tok, cstr] using this

theorem strcasereplace_close_tok (t : HtmlTok) (rest : List Nat) (h : spec_tok_ok t) :
    strcasereplace_go (cstr "</FONT>") (cstr "</font>") 0 (spec_render_tok t ++ rest)
      = spec_render_tok t ++ strcasereplace_go (cstr "</FONT>") (cstr "</font>") 0 rest := by
  cases t with
  | text ch => exact strcasereplace_plain_app _ _ ch rest (fun x hx => (h.2.2 x hx).2.1)
  | tag name =>
      rcases h with h | h | h | h <;> rw [h] <;>
        exact strcasereplace_miss _ _ _ rest (by decide) (by
          simp [strncasecmp_eq, g_ascii_tolower, cstr])
  | close name =>
      rcases h with h | h | h | h
      · rw [h]
        exact strcasereplace_miss _ _ _ rest (by decide) (by
          simp [strncasecmp_eq, g_ascii_tolower, cstr])
      · rw [h]
        exact strcasereplace_miss _ _ _ rest (by decide) (by
          simp [strncasecmp_eq, g_ascii_tolower, cstr])
      · rw [h]
        exact strcasereplace_miss _ _ _ rest (by decide) (by
          simp [strncasecmp_eq, g_ascii_tolower, cstr])
      · rw [h]
        have := strcasereplace_hit (cstr "/FONT>") (cstr "/font>") (cstr "/font>") [] rest
          (by decide) rfl (by simp [strncasecmp_eq, g_ascii_tolower, cstr])
        simpa [spec_render_tok, cstr] using this
  | color ds =>
      have := strcasereplace_miss (cstr "/FONT>") (cstr "</font>")
        (cstr "font color=\"#" ++ ds ++ cstr "\">") rest
        (color_body_ne_lt ds h.2.1 _ _ (by decide) (by decide)) (by
          simp [strncasecmp_eq, g_ascii_tolower, cstr])
      simpa [spec_render_tok, cstr] using this
  | size ds =>
      have := strcasereplace_miss (cstr "/FONT>") (cstr "</font>")
        (cstr "font size=\"" ++ ds ++ cstr "\">") rest
        (size_body_ne_lt ds h.2 _ _ (by decide) (by decide)) (by
          simp [strncasecmp_eq, g_ascii_tolower, cstr])
      simpa [spec_render_tok, cstr] using this

theorem strcasereplace_href_tok (t : HtmlTok) (rest : List Nat) (h : spec_tok_ok t) :
    strcasereplace_go (cstr "<A HREF") (cstr "<a href") 0 (spec_render_tok t ++ rest)
      = spec_render_tok t ++ strcasereplace_go (cstr "<A HREF") (cstr "<a href") 0 rest := by
  cases t with
  | text ch => exact strcasereplace_plain_app _ _ ch rest (fun x hx => (h.2.2 x hx).2.1)
  | tag name =>
      rcases h with h | h | h | h <;> rw [h] <;>
        exact strcasereplace_miss _ _ _ rest (by decide) (by
          simp [strncasecmp_eq, g_ascii_tolower, cstr])
  | close name =>
      rcases h with h | h | h | h <;> rw [h] <;>
        exact strcasereplace_miss _ _ _ rest (by decide) (by
          simp [strncasecmp_eq, g_ascii_tolower, cstr])
  | color ds =>
      have := strcasereplace_miss (cstr "A HREF") (cstr "<a href")
        (cstr "font color=\"#" ++ ds ++ cstr "\">") rest
        (color_body_ne_lt ds h.2.1 _ _ (by decide) (by decide)) (by
          simp [strncasecmp_eq, g_ascii_tolower, cstr])
      simpa [spec_render_tok, cstr] using this
  | size ds =>
      have := strcasereplace_miss (cstr "A HREF") (cstr "<a href")
        (cstr "font size=\"" ++ ds ++ cstr "\">") rest
        (size_body_ne_lt ds h.2 _ _ (by decide) (by decide)) (by
          simp [strncasecmp_eq, g_ascii_tolower, cstr])
      simpa [spec_render_tok, cstr] using this

theorem strcasereplace_render (ts : List HtmlTok) (h : ∀ t ∈ ts, spec_tok_ok t) :
    strcasereplace_go (cstr "<FONT COLOR") (cstr "<font color") 0 (spec_render ts) = spec_render ts
    ∧ strcasereplace_go (cstr "<FONT SIZE") (cstr "<font size") 0 (spec_render ts) = spec_render ts
    ∧ strcasereplace_go (cstr "</FONT>") (cstr "</font>") 0 (spec_render ts) = spec_render ts
    ∧ strcasereplace_go (cstr "<A HREF") (cstr "<a href") 0 (spec_render ts) = spec_render ts := by
  induction ts with
  | nil => exact ⟨rfl, rfl, rfl, rfl⟩
  | cons t ts ih =>
      have ht := h t (List.mem_cons_self _ _)
      obtain ⟨i1, i2, i3, i4⟩ := ih (fun x hx => h x (List.mem_cons_of_mem _ hx))
      have e : spec_render (t :: ts) = spec_render_tok t ++ spec_render ts := rfl
      rw [e, strcasereplace_color_tok t _ ht, strcasereplace_size_tok t _ ht,
        strcasereplace_close_tok t _ ht, strcasereplace_href_tok t _ ht, i1, i2, i3, i4]
      exact ⟨rfl, rfl, rfl, rfl⟩



theorem from_html_loop_jump (body rest out add : List Nat)
    (hr : from_html_round (60 :: body ++ 62 :: rest) = some (add, body.length + 1)) :
    from_html_loop 0 (60 :: body ++ 62 :: rest) out = from_html_loop 0 rest (out ++ add) := by
  rw [List.cons_append, from_html_loop]
  rw [List.cons_append] at hr
  rw [hr]
  simp only
  have := from_html_loop_skip (body ++ [62]) rest (out ++ add)
  simpa using this

theorem strchr_tag (body rest : List Nat) (h : 62 ∉ body) :
    strchr (60 :: body ++ 62 :: rest) 62 = some (body.length + 1) := by
  have := strchr_gt (60 :: body) rest (by
    intro hx
    rcases List.mem_cons.mp hx with hx | hx
    · exact absurd hx (by decide)
    · exact h hx)
  simpa using this

theorem scan_lit_font_color (x : List Nat) :
    scan_lit (cstr "<font color=\"#") (cstr "<font color=\"#" ++ x) = ScanLit.matched x := by
  simp [scan_lit, cstr, isspace, atoi_skip]

theorem scan_lit_font_size (x : List Nat) :
    scan_lit (cstr "<font size=\"") (cstr "<font size=\"" ++ x) = ScanLit.matched x := by
  simp [scan_lit, cstr, isspace, atoi_skip]

theorem scan_lit_font_color_size (x : List Nat) :
    scan_lit (cstr "<font color=\"#") (cstr "<font size=\"" ++ x) = ScanLit.nomatch := by
  simp [scan_lit, cstr, isspace, atoi_skip]

theorem hex_digits_ne_gt (ds : List Nat) (hd : ∀ d ∈ ds, (hex_value d).isSome) :
    62 ∉ ds := fun hc => (hex_value_not_space 62 (hd 62 hc)).2.2.2.2.2.1 rfl

theorem dec_digits_ne_gt (ds : List Nat) (hd : ∀ d ∈ ds, 48 ≤ d ∧ d ≤ 57) :
    62 ∉ ds := fun hc => by have := hd 62 hc; omega

theorem from_html_round_color (ds rest : List Nat) (h : spec_tok_ok (HtmlTok.color ds)) :
    from_html_round (60 :: (cstr "font color=\"#" ++ ds ++ [34]) ++ 62 :: rest)
      = some (spec_pseudo_tok (HtmlTok.color ds), (cstr "font color=\"#" ++ ds ++ [34]).length + 1) := by
  have e1 : sscanf_lx "<font color=\"#" (60 :: (cstr "font color=\"#" ++ ds ++ [34]) ++ 62 :: rest)
      = Scan.ok (spec_hex ds : Int) := by
    unfold sscanf_lx
    have := scan_lit_font_color (ds ++ 34 :: 62 :: rest)
    have e : cstr "<font color=\"#" ++ (ds ++ 34 :: 62 :: rest)
        = 60 :: (cstr "font color=\"#" ++ ds ++ [34]) ++ 62 :: rest := by
      simp [cstr]
    rw [e] at this
    rw [this]
    exact scan_lx_digits ds _ h.1 h.2.1 h.2.2
  have e2 := strchr_tag (cstr "font color=\"#" ++ ds ++ [34]) rest (by
    intro hx
    simp only [List.mem_append] at hx
    rcases hx with (hx | hx) | hx
    · revert hx; decide
    · exact hex_digits_ne_gt ds h.2.1 hx
    · revert hx; decide)
  unfold from_html_round
  rw [e1]
  simp only
  rw [e2]
  rfl

theorem from_html_round_size (ds rest : List Nat) (h : spec_tok_ok (HtmlTok.size ds)) :
    from_html_round (60 :: (cstr "font size=\"" ++ ds ++ [34]) ++ 62 :: rest)
      = some (spec_pseudo_tok (HtmlTok.size ds), (cstr "font size=\"" ++ ds ++ [34]).length + 1) := by
  have e : ∀ x, cstr "<font size=\"" ++ (ds ++ 34 :: 62 :: x)
      = 60 :: (cstr "font size=\"" ++ ds ++ [34]) ++ 62 :: x := by
    intro x
    simp [cstr]
  have e0 : sscanf_lx "<font color=\"#" (60 :: (cstr "font size=\"" ++ ds ++ [34]) ++ 62 :: rest)
      = Scan.nomatch := by
    unfold sscanf_lx
    rw [← e, scan_lit_font_color_size]
  have e1 : sscanf_ld "<font size=\"" (60 :: (cstr "font size=\"" ++ ds ++ [34]) ++ 62 :: rest)
      = Scan.ok (if spec_dec ds > 2147483647 then 2147483647 else (spec_dec ds : Int)) := by
    unfold sscanf_ld
    rw [← e, scan_lit_font_size]
    exact scan_ld_digits ds _ h.1 h.2
  have e2 := strchr_tag (cstr "font size=\"" ++ ds ++ [34]) rest (by
    intro hx
    simp only [List.mem_append] at hx
    rcases hx with (hx | hx) | hx
    · revert hx; decide
    · exact dec_digits_ne_gt ds h.2 hx
    · revert hx; decide)
  unfold from_html_round
  rw [e0]
  simp only
  rw [e1]
  simp only
  rw [e2]
  simp only [Option.map_some', spec_pseudo_tok]
  congr 2
  by_cases h3 : spec_dec ds < 3
  · have : ¬ (spec_dec ds > 2147483647) := by omega
    simp only [this, if_false, h3, if_true]
    rw [if_pos (by omega)]
    rfl
  · by_cases h4 : spec_dec ds < 4
    · have : ¬ (spec_dec ds > 2147483647) := by omega
      simp only [this, if_false, h3, h4, if_true]
      rw [if_neg (by omega), if_pos (by omega)]
      rfl
    · simp only [h3, h4, if_false]
      by_cases h5 : spec_dec ds > 2147483647
      · simp only [h5, if_true]
        rfl
      · simp only [h5, if_false]
        rw [if_neg (by omega), if_neg (by omega)]
        rfl



theorem from_html_loop_plain_app (s rest out : List Nat) (h : ∀ c ∈ s, c ≠ 60 ∧ c ≠ 38) :
    from_html_loop 0 (s ++ rest) out = from_html_loop 0 rest (out ++ s) := by
  induction s generalizing out with
  | nil => simp
  | cons c cs ih =>
      rw [List.cons_append, from_html_loop,
        from_html_round_plain c _ (h c (List.mem_cons_self _ _)).1
          (h c (List.mem_cons_self _ _)).2]
      simp only
      rw [ih _ (fun x hx => h x (List.mem_cons_of_mem _ hx))]
      simp

theorem from_html_loop_tok (t : HtmlTok) (rest out : List Nat) (h : spec_tok_ok t) :
    from_html_loop 0 (spec_render_tok t ++ rest) out
      = from_html_loop 0 rest (out ++ spec_pseudo_tok t) := by
  cases t with
  | text ch => exact from_html_loop_plain_app ch rest out (fun x hx => (h.2.2 x hx).2)
  | tag name =>
      rcases h with h | h | h | h <;> rw [h] <;>
        simp [spec_render_tok, spec_pseudo_tok, from_html_loop, from_html_round, sscanf_lx,
          sscanf_ld, sscanf_c, scan_lit, cstr, isspace, strncasecmp_eq, strncmp_eq,
          g_ascii_tolower]
  | close name =>
      rcases h with h | h | h | h <;> rw [h] <;>
        simp [spec_render_tok, spec_pseudo_tok, from_html_loop, from_html_round, sscanf_lx,
          sscanf_ld, sscanf_c, scan_lit, cstr, isspace, strncasecmp_eq, strncmp_eq,
          g_ascii_tolower, atoi_skip]
  | color ds =>
      have := from_html_loop_jump _ rest out _ (from_html_round_color ds rest h)
      simpa [spec_render_tok, cstr] using this
  | size ds =>
      have := from_html_loop_jump _ rest out _ (from_html_round_size ds rest h)
      simpa [spec_render_tok, cstr] using this

theorem from_html_loop_render (ts : List HtmlTok) (out : List Nat)
    (h : ∀ t ∈ ts, spec_tok_ok t) :
    from_html_loop 0 (spec_render ts) out = some (out ++ spec_pseudo ts) := by
  induction ts generalizing out with
  | nil => simp [spec_render, spec_pseudo, from_html_loop]
  | cons t ts ih =>
      have e : spec_render (t :: ts) = spec_render_tok t ++ spec_render ts := rfl
      have e2 : spec_pseudo (t :: ts) = spec_pseudo_tok t ++ spec_pseudo ts := rfl
      rw [e, e2, from_html_loop_tok t _ _ (h t (List.mem_cons_self _ _)),
        ih _ (fun x hx => h x (List.mem_cons_of_mem _ hx)), List.append_assoc]

theorem from_html_convert_render (ts : List HtmlTok) (h : ∀ t ∈ ts, spec_tok_ok t) :
    from_html_convert (spec_render ts) = some (spec_pseudo ts) := by
  obtain ⟨i1, i2, i3, i4⟩ := strcasereplace_render ts h
  unfold from_html_convert gaim_strcasereplace
  simp only
  rw [i1, i2, i3, i4, from_html_loop_render ts [] h]
  rfl



theorem strstr_plain_app (body rest ps : List Nat) (h : ∀ c ∈ body, c ≠ 60) :
    (strstr (body ++ rest) (60 :: ps)).isNone = (strstr rest (60 :: ps)).isNone := by
  induction body with
  | nil => rfl
  | cons c cs ih =>
      rw [List.cons_append, strstr, strncmp_eq_ne c 60 _ ps (h c (List.mem_cons_self _ _))]
      simp only [Bool.false_eq_true, if_false]
      rw [← ih (fun x hx => h x (List.mem_cons_of_mem _ hx))]
      cases strstr (cs ++ rest) (60 :: ps) <;> rfl

theorem strstr_miss (body rest ps : List Nat) (h : ∀ c ∈ body, c ≠ 60)
    (hm : strncmp_eq (60 :: (body ++ rest)) (60 :: ps) = false) :
    (strstr (60 :: body ++ rest) (60 :: ps)).isNone = (strstr rest (60 :: ps)).isNone := by
  rw [List.cons_append, strstr, hm]
  simp only [Bool.false_eq_true, if_false]
  rw [← strstr_plain_app body rest ps h]
  cases strstr (body ++ rest) (60 :: ps) <;> rfl

theorem strstr_pseudo_tok (t : HtmlTok) (rest : List Nat) (h : spec_tok_ok t) :
    (strstr (spec_pseudo_tok t ++ rest) (cstr "<pfont")).isNone
      = (!spec_is_font t && (strstr rest (cstr "<pfont")).isNone) := by
  cases t with
  | text ch => exact strstr_plain_app ch rest _ (fun x hx => (h.2.2 x hx).2.1)
  | tag name =>
      rcases h with h | h | h | h <;> rw [h] <;>
        exact strstr_miss _ rest _ (by decide) (by simp [strncmp_eq, cstr])
  | close name =>
      rcases h with h | h | h | h <;> rw [h] <;>
        exact strstr_miss _ rest _ (by decide) (by simp [strncmp_eq, cstr])
  | color ds => simp [spec_pseudo_tok, spec_is_font, strstr, strncmp_eq, cstr]
  | size ds => simp [spec_pseudo_tok, spec_is_font, strstr, strncmp_eq, cstr]

theorem strstr_pseudo (ts : List HtmlTok) (h : ∀ t ∈ ts, spec_tok_ok t) :
    (strstr (spec_pseudo ts) (cstr "<pfont")).isNone = !ts.any spec_is_font := by
  induction ts with
  | nil => rfl
  | cons t ts ih =>
      have e2 : spec_pseudo (t :: ts) = spec_pseudo_tok t ++ spec_pseudo ts := rfl
      rw [e2, strstr_pseudo_tok t _ (h t (List.mem_cons_self _ _)),
        ih (fun x hx => h x (List.mem_cons_of_mem _ hx)), List.any_cons]
      cases spec_is_font t <;> simp

/-- Pieces put around a message without font tag. -/
theorem pt_convert_from_html_render (ts : List HtmlTok) (h : ∀ t ∈ ts, spec_tok_ok t) :
    pt_convert_from_html (spec_render ts)
      = some (spec_pseudo (if ts.any spec_is_font then ts
          else [HtmlTok.color (cstr "000000"), HtmlTok.size (cstr "3")] ++ ts
            ++ [HtmlTok.close (cstr "font"), HtmlTok.close (cstr "font")])) := by
  unfold pt_convert_from_html
  rw [from_html_convert_render ts h, Option.map_some', strstr_pseudo ts h]
  cases hf : ts.any spec_is_font
  · simp only [Bool.not_false, if_true, Bool.false_eq_true, if_false]
    congr 1
    unfold spec_pseudo
    rw [List.map_append, List.map_append, List.flatten_append, List.flatten_append]
    rfl
  · simp



theorem utf8_valid_len_ascii (s : List Nat) (h : ∀ c ∈ s, c < 128) :
    utf8_valid_len 0 s = s.length := by
  induction s with
  | nil => rfl
  | cons c cs ih =>
      have hc : c < 128 := h c (List.mem_cons_self _ _)
      have e : utf8_char_len (c :: cs) = 1 := by
        unfold utf8_char_len
        simp only
        rw [if_pos hc]
      rw [utf8_valid_len, e, if_neg (by decide), Nat.sub_self,
        ih (fun x hx => h x (List.mem_cons_of_mem _ hx)), List.length_cons, Nat.add_comm]

theorem g_utf8_validate_ascii (s : List Nat) (h : ∀ c ∈ s, c < 128) :
    g_utf8_validate s = true := by
  unfold g_utf8_validate
  rw [utf8_valid_len_ascii s h]
  simp

theorem to_html_round_plain (c : Nat) (cs : List Nat) (h1 : c ≠ 60) :
    to_html_round (c :: cs) = some ([c], 0) := by
  have e1 : sscanf_ld "<pfont color=\"#" (c :: cs) = Scan.nomatch := by
    unfold sscanf_ld
    rw [show cstr "<pfont color=\"#" = 60 :: cstr "pfont color=\"#" from rfl,
      scan_lit_ne c 60 cs _ rfl h1]
  have e2 : sscanf_ld "<pfont-size=\"" (c :: cs) = Scan.nomatch := by
    unfold sscanf_ld
    rw [show cstr "<pfont-size=\"" = 60 :: cstr "pfont-size=\"" from rfl,
      scan_lit_ne c 60 cs _ rfl h1]
  have e3 : sscanf_c "<p" (c :: cs) = Scan.nomatch := by
    unfold sscanf_c
    rw [show cstr "<p" = 60 :: cstr "p" from rfl, scan_lit_ne c 60 cs _ rfl h1]
  have e4 : sscanf_c "</p" (c :: cs) = Scan.nomatch := by
    unfold sscanf_c
    rw [show cstr "</p" = 60 :: cstr "/p" from rfl, scan_lit_ne c 60 cs _ rfl h1]
  unfold to_html_round
  rw [if_neg (by
    intro hx
    have := hx.1
    simp only [List.head?_cons, Option.some.injEq] at this
    exact h1 this)]
  rw [e1]
  simp only
  rw [e2]
  simp only
  rw [e3]
  simp only
  rw [e4]
  rfl

theorem to_html_loop_jump (body rest out add : List Nat)
    (hr : to_html_round (60 :: body ++ 62 :: rest) = some (add, body.length + 1)) :
    to_html_loop 0 (60 :: body ++ 62 :: rest) out = to_html_loop 0 rest (out ++ add) := by
  rw [List.cons_append, to_html_loop]
  rw [List.cons_append] at hr
  rw [hr]
  simp only
  have := to_html_loop_skip (body ++ [62]) rest (out ++ add)
  simpa using this

theorem scan_lit_pfont_color (x : List Nat) :
    scan_lit (cstr "<pfont color=\"#") (cstr "<pfont color=\"#" ++ x) = ScanLit.matched x := by
  simp [scan_lit, cstr, isspace, atoi_skip]

theorem to_html_round_color (ds rest : List Nat) (h : spec_tok_ok (HtmlTok.color ds)) :
    to_html_round (60 :: (cstr "pfont color=\"#" ++ printf_d (swap_red_blue (spec_hex ds)) ++ [34])
        ++ 62 :: rest)
      = some (spec_render_tok (spec_norm_tok (HtmlTok.color ds)),
          (cstr "pfont color=\"#" ++ printf_d (swap_red_blue (spec_hex ds)) ++ [34]).length + 1) := by
  have hv : spec_hex ds < 16777216 := h.2.2
  have hsw := swap_red_blue_lt (spec_hex ds) (by omega)
  obtain ⟨d1, d2, d3⟩ := dec_digits_spec (swap_red_blue (spec_hex ds))
  rw [printf_d_nat]
  have e1 : sscanf_ld "<pfont color=\"#"
      (60 :: (cstr "pfont color=\"#" ++ dec_digits (swap_red_blue (spec_hex ds)) ++ [34])
        ++ 62 :: rest)
      = Scan.ok (swap_red_blue (spec_hex ds) : Int) := by
    unfold sscanf_ld
    have := scan_lit_pfont_color (dec_digits (swap_red_blue (spec_hex ds)) ++ 34 :: 62 :: rest)
    have e : cstr "<pfont color=\"#" ++ (dec_digits (swap_red_blue (spec_hex ds)) ++ 34 :: 62 :: rest)
        = 60 :: (cstr "pfont color=\"#" ++ dec_digits (swap_red_blue (spec_hex ds)) ++ [34])
          ++ 62 :: rest := by
      simp [cstr]
    rw [e] at this
    rw [this]
    simp only
    rw [scan_ld_digits _ _ d1 d2, d3, if_neg (by omega)]
  have e2 := strchr_tag (cstr "pfont color=\"#" ++ dec_digits (swap_red_blue (spec_hex ds)) ++ [34])
    rest (by
      intro hx
      simp only [List.mem_append] at hx
      rcases hx with (hx | hx) | hx
      · revert hx; decide
      · exact dec_digits_ne_gt _ d2 hx
      · revert hx; decide)
  unfold to_html_round
  rw [if_neg (by simp [cstr]), e1]
  simp only
  rw [e2, swap_red_blue_swap _ hv]
  rfl



theorem to_html_loop_size (v : List Nat) (w : List Nat) (rest out : List Nat)
    (h : (v = cstr "8" ∧ w = cstr "2") ∨ (v = cstr "10" ∧ w = cstr "3")
      ∨ (v = cstr "12" ∧ w = cstr "4")) :
    to_html_loop 0 (cstr "<pfont-size=\"" ++ v ++ cstr "\">" ++ rest) out
      = to_html_loop 0 rest (out ++ (cstr "<font size=\"" ++ w ++ cstr "\">")) := by
  rcases h with ⟨h1, h2⟩ | ⟨h1, h2⟩ | ⟨h1, h2⟩ <;> rw [h1, h2] <;>
    simp [to_html_loop, to_html_round, sscanf_ld, sscanf_c, scan_lit, scan_ld, scan_dec, cstr,
      isspace, atoi_skip, strchr, printf_d, printf_prec_d, dec_digits, dec_digits_aux,
      List.indexOf_cons]

theorem to_html_loop_plain_app (s rest out : List Nat) (h : ∀ c ∈ s, c ≠ 60) :
    to_html_loop 0 (s ++ rest) out = to_html_loop 0 rest (out ++ s) := by
  induction s generalizing out with
  | nil => simp
  | cons c cs ih =>
      rw [List.cons_append, to_html_loop, to_html_round_plain c _ (h c (List.mem_cons_self _ _))]
      simp only
      rw [ih _ (fun x hx => h x (List.mem_cons_of_mem _ hx))]
      simp

theorem to_html_loop_tok (t : HtmlTok) (rest out : List Nat) (h : spec_tok_ok t) :
    to_html_loop 0 (spec_pseudo_tok t ++ rest) out
      = to_html_loop 0 rest (out ++ spec_render_tok (spec_norm_tok t)) := by
  cases t with
  | text ch => exact to_html_loop_plain_app ch rest out (fun x hx => (h.2.2 x hx).2.1)
  | tag name =>
      rcases h with h | h | h | h <;> rw [h] <;>
        simp [spec_render_tok, spec_pseudo_tok, spec_norm_tok, to_html_loop, to_html_round,
          sscanf_ld, sscanf_c, scan_lit, cstr, isspace, atoi_skip]
  | close name =>
      rcases h with h | h | h | h <;> rw [h] <;>
        simp [spec_render_tok, spec_pseudo_tok, spec_norm_tok, to_html_loop, to_html_round,
          sscanf_ld, sscanf_c, scan_lit, cstr, isspace, atoi_skip]
  | color ds =>
      have := to_html_loop_jump _ rest out _ (to_html_round_color ds rest h)
      simpa [spec_pseudo_tok, cstr] using this
  | size ds =>
      have := to_html_loop_size
        (if spec_dec ds < 3 then cstr "8" else if spec_dec ds < 4 then cstr "10" else cstr "12")
        (if spec_dec ds < 3 then cstr "2" else if spec_dec ds < 4 then cstr "3" else cstr "4")
        rest out (by
          by_cases h3 : spec_dec ds < 3
          · simp [h3]
          · by_cases h4 : spec_dec ds < 4
            · simp [h3, h4]
            · simp [h3, h4])
      exact this

theorem to_html_loop_pseudo (ts : List HtmlTok) (out : List Nat)
    (h : ∀ t ∈ ts, spec_tok_ok t) :
    to_html_loop 0 (spec_pseudo ts) out = some (out ++ spec_render (ts.map spec_norm_tok)) := by
  induction ts generalizing out with
  | nil => simp [spec_render, spec_pseudo, to_html_loop]
  | cons t ts ih =>
      have e : spec_render ((t :: ts).map spec_norm_tok)
          = spec_render_tok (spec_norm_tok t) ++ spec_render (ts.map spec_norm_tok) := rfl
      have e2 : spec_pseudo (t :: ts) = spec_pseudo_tok t ++ spec_pseudo ts := rfl
      rw [e, e2, to_html_loop_tok t _ _ (h t (List.mem_cons_self _ _)),
        ih _ (fun x hx => h x (List.mem_cons_of_mem _ hx)), List.append_assoc]


/-! ## UTF-8 validation of the converted text -/

theorem ite_eq_pos {C : Prop} [Decidable C] (n k : Nat) (hk : 0 < k)
    (h : (if C then n else 0) = k) : C ∧ n = k := by
  by_cases hc : C
  · rw [if_pos hc] at h
    exact ⟨hc, h⟩
  · rw [if_neg hc] at h
    omega

theorem utf8_char_len_le (l : List Nat) : utf8_char_len l ≤ 4 := by
  unfold utf8_char_len
  cases l with
  | nil => simp
  | cons b t =>
      simp only
      split_ifs <;> omega

theorem utf8_char_len_one (b : Nat) (s : List Nat) (h : utf8_char_len [b] = 1) :
    utf8_char_len (b :: s) = 1 := by
  unfold utf8_char_len at h ⊢
  simp only [List.getD_cons_succ, List.getD_cons_zero, List.getD_nil] at h ⊢
  by_cases c0 : b < 128
  · rw [if_pos c0]
  rw [if_neg c0] at h ⊢
  by_cases c1 : 194 ≤ b ∧ b ≤ 223
  · rw [if_pos c1] at h
    exact absurd (ite_eq_pos _ _ (by decide) h).2 (by decide)
  rw [if_neg c1] at h ⊢
  by_cases c2 : b = 224
  · rw [if_pos c2] at h
    exact absurd (ite_eq_pos _ _ (by decide) h).2 (by decide)
  rw [if_neg c2] at h ⊢
  by_cases c3 : b = 237
  · rw [if_pos c3] at h
    exact absurd (ite_eq_pos _ _ (by decide) h).2 (by decide)
  rw [if_neg c3] at h ⊢
  by_cases c4 : 225 ≤ b ∧ b ≤ 239
  · rw [if_pos c4] at h
    exact absurd (ite_eq_pos _ _ (by decide) h).2 (by decide)
  rw [if_neg c4] at h ⊢
  by_cases c5 : b = 240
  · rw [if_pos c5] at h
    exact absurd (ite_eq_pos _ _ (by decide) h).2 (by decide)
  rw [if_neg c5] at h ⊢
  by_cases c6 : 241 ≤ b ∧ b ≤ 243
  · rw [if_pos c6] at h
    exact absurd (ite_eq_pos _ _ (by decide) h).2 (by decide)
  rw [if_neg c6] at h ⊢
  by_cases c7 : b = 244
  · rw [if_pos c7] at h
    exact absurd (ite_eq_pos _ _ (by decide) h).2 (by decide)
  rw [if_neg c7] at h
  exact absurd h (by decide)

theorem utf8_char_len_two (b x : Nat) (s : List Nat) (h : utf8_char_len [b, x] = 2) :
    utf8_char_len (b :: x :: s) = 2 := by
  unfold utf8_char_len at h ⊢
  simp only [List.getD_cons_succ, List.getD_cons_zero, List.getD_nil] at h ⊢
  by_cases c0 : b < 128
  · rw [if_pos c0] at h
    exact absurd h (by decide)
  rw [if_neg c0] at h ⊢
  by_cases c1 : 194 ≤ b ∧ b ≤ 223
  · rw [if_pos c1] at h ⊢
    exact h
  rw [if_neg c1] at h ⊢
  by_cases c2 : b = 224
  · rw [if_pos c2] at h
    exact absurd (ite_eq_pos _ _ (by decide) h).2 (by decide)
  rw [if_neg c2] at h ⊢
  by_cases c3 : b = 237
  · rw [if_pos c3] at h
    exact absurd (ite_eq_pos _ _ (by decide) h).2 (by decide)
  rw [if_neg c3] at h ⊢
  by_cases c4 : 225 ≤ b ∧ b ≤ 239
  · rw [if_pos c4] at h
    exact absurd (ite_eq_pos _ _ (by decide) h).2 (by decide)
  rw [if_neg c4] at h ⊢
  by_cases c5 : b = 240
  · rw [if_pos c5] at h
    exact absurd (ite_eq_pos _ _ (by decide) h).2 (by decide)
  rw [if_neg c5] at h ⊢
  by_cases c6 : 241 ≤ b ∧ b ≤ 243
  · rw [if_pos c6] at h
    exact absurd (ite_eq_pos _ _ (by decide) h).2 (by decide)
  rw [if_neg c6] at h ⊢
  by_cases c7 : b = 244
  · rw [if_pos c7] at h
    exact absurd (ite_eq_pos _ _ (by decide) h).2 (by decide)
  rw [if_neg c7] at h
  exact absurd h (by decide)

theorem utf8_char_len_three (b x y : Nat) (s : List Nat) (h : utf8_char_len [b, x, y] = 3) :
    utf8_char_len (b :: x :: y :: s) = 3 := by
  unfold utf8_char_len at h ⊢
  simp only [List.getD_cons_succ, List.getD_cons_zero, List.getD_nil] at h ⊢
  by_cases c0 : b < 128
  · rw [if_pos c0] at h
    exact absurd h (by decide)
  rw [if_neg c0] at h ⊢
  by_cases c1 : 194 ≤ b ∧ b ≤ 223
  · rw [if_pos c1] at h
    exact absurd (ite_eq_pos _ _ (by decide) h).2 (by decide)
  rw [if_neg c1] at h ⊢
  by_cases c2 : b = 224
  · rw [if_pos c2] at h ⊢
    exact h
  rw [if_neg c2] at h ⊢
  by_cases c3 : b = 237
  · rw [if_pos c3] at h ⊢
    exact h
  rw [if_neg c3] at h ⊢
  by_cases c4 : 225 ≤ b ∧ b ≤ 239
  · rw [if_pos c4] at h ⊢
    exact h
  rw [if_neg c4] at h ⊢
  by_cases c5 : b = 240
  · rw [if_pos c5] at h
    exact absurd (ite_eq_pos _ _ (by decide) h).2 (by decide)
  rw [if_neg c5] at h ⊢
  by_cases c6 : 241 ≤ b ∧ b ≤ 243
  · rw [if_pos c6] at h
    exact absurd (ite_eq_pos _ _ (by decide) h).2 (by decide)
  rw [if_neg c6] at h ⊢
  by_cases c7 : b = 244
  · rw [if_pos c7] at h
    exact absurd (ite_eq_pos _ _ (by decide) h).2 (by decide)
  rw [if_neg c7] at h
  exact absurd h (by decide)

theorem utf8_char_len_four (b x y z : Nat) (s : List Nat) (h : utf8_char_len [b, x, y, z] = 4) :
    utf8_char_len (b :: x :: y :: z :: s) = 4 := by
  unfold utf8_char_len at h ⊢
  simp only [List.getD_cons_succ, List.getD_cons_zero, List.getD_nil] at h ⊢
  by_cases c0 : b < 128
  · rw [if_pos c0] at h
    exact absurd h (by decide)
  rw [if_neg c0] at h ⊢
  by_cases c1 : 194 ≤ b ∧ b ≤ 223
  · rw [if_pos c1] at h
    exact absurd (ite_eq_pos _ _ (by decide) h).2 (by decide)
  rw [if_neg c1] at h ⊢
  by_cases c2 : b = 224
  · rw [if_pos c2] at h
    exact absurd (ite_eq_pos _ _ (by decide) h).2 (by decide)
  rw [if_neg c2] at h ⊢
  by_cases c3 : b = 237
  · rw [if_pos c3] at h
    exact absurd (ite_eq_pos _ _ (by decide) h).2 (by decide)
  rw [if_neg c3] at h ⊢
  by_cases c4 : 225 ≤ b ∧ b ≤ 239
  · rw [if_pos c4] at h
    exact absurd (ite_eq_pos _ _ (by decide) h).2 (by decide)
  rw [if_neg c4] at h ⊢
  by_cases c5 : b = 240
  · rw [if_pos c5] at h ⊢
    exact h
  rw [if_neg c5] at h ⊢
  by_cases c6 : 241 ≤ b ∧ b ≤ 243
  · rw [if_pos c6] at h ⊢
    exact h
  rw [if_neg c6] at h ⊢
  by_cases c7 : b = 244
  · rw [if_pos c7] at h ⊢
    exact h
  rw [if_neg c7] at h
  exact absurd h (by decide)

theorem utf8_char_len_append (ch s : List Nat) (h0 : ch ≠ [])
    (h : utf8_char_len ch = ch.length) : utf8_char_len (ch ++ s) = ch.length := by
  have hle := utf8_char_len_le ch
  rw [h] at hle
  cases ch with
  | nil => exact absurd rfl h0
  | cons b t =>
  cases t with
  | nil => exact utf8_char_len_one b s h
  | cons x t =>
  cases t with
  | nil => exact utf8_char_len_two b x s h
  | cons y t =>
  cases t with
  | nil => exact utf8_char_len_three b x y s h
  | cons z t =>
  cases t with
  | nil => exact utf8_char_len_four b x y z s h
  | cons w t =>
      simp only [List.length_cons] at hle
      omega



theorem utf8_valid_len_skip (l s : List Nat) :
    utf8_valid_len l.length (l ++ s) = l.length + utf8_valid_len 0 s := by
  induction l with
  | nil => simp
  | cons c cs ih =>
      rw [List.length_cons, List.cons_append, utf8_valid_len, ih]
      omega

theorem utf8_valid_len_char (ch s : List Nat) (h0 : ch ≠ [])
    (h : utf8_char_len ch = ch.length) :
    utf8_valid_len 0 (ch ++ s) = ch.length + utf8_valid_len 0 s := by
  have e := utf8_char_len_append ch s h0 h
  cases ch with
  | nil => exact absurd rfl h0
  | cons b t =>
      rw [List.cons_append] at e
      rw [List.cons_append, utf8_valid_len, e, if_neg (by simp), List.length_cons,
        Nat.add_sub_cancel, utf8_valid_len_skip]
      omega

theorem utf8_valid_len_ascii_app (a s : List Nat) (h : ∀ c ∈ a, c < 128) :
    utf8_valid_len 0 (a ++ s) = a.length + utf8_valid_len 0 s := by
  induction a with
  | nil => simp
  | cons c cs ih =>
      have hc : c < 128 := h c (List.mem_cons_self _ _)
      have e : utf8_char_len (c :: (cs ++ s)) = 1 := by
        unfold utf8_char_len
        simp only
        rw [if_pos hc]
      rw [List.cons_append, utf8_valid_len, e, if_neg (by decide), Nat.sub_self,
        ih (fun x hx => h x (List.mem_cons_of_mem _ hx)), List.length_cons]
      omega

theorem digits_ascii (a ds b : List Nat) (ha : ∀ c ∈ a, c < 128) (hb : ∀ c ∈ b, c < 128)
    (hd : ∀ d ∈ ds, 48 ≤ d ∧ d ≤ 57) : ∀ c ∈ a ++ ds ++ b, c < 128 := by
  intro c hc
  simp only [List.mem_append] at hc
  rcases hc with (hc | hc) | hc
  · exact ha c hc
  · have := hd c hc
    omega
  · exact hb c hc

theorem utf8_valid_len_pseudo_tok (t : HtmlTok) (s : List Nat) (h : spec_tok_ok t) :
    utf8_valid_len 0 (spec_pseudo_tok t ++ s)
      = (spec_pseudo_tok t).length + utf8_valid_len 0 s := by
  cases t with
  | text ch => exact utf8_valid_len_char ch s h.1 h.2.1
  | tag name =>
      rcases h with h | h | h | h <;> rw [h] <;>
        exact utf8_valid_len_ascii_app _ s (by decide)
  | close name =>
      rcases h with h | h | h | h <;> rw [h] <;>
        exact utf8_valid_len_ascii_app _ s (by decide)
  | color ds =>
      apply utf8_valid_len_ascii_app
      rw [show spec_pseudo_tok (HtmlTok.color ds) = cstr "<pfont color=\"#"
        ++ printf_d (swap_red_blue (spec_hex ds)) ++ cstr "\">" from rfl, printf_d_nat]
      exact digits_ascii _ _ _ (by decide) (by decide) (dec_digits_spec _).2.1
  | size ds =>
      apply utf8_valid_len_ascii_app
      unfold spec_pseudo_tok
      simp only
      split
      · decide
      · split <;> decide

theorem g_utf8_validate_pseudo (ts : List HtmlTok) (h : ∀ t ∈ ts, spec_tok_ok t) :
    g_utf8_validate (spec_pseudo ts) = true := by
  have key : utf8_valid_len 0 (spec_pseudo ts) = (spec_pseudo ts).length := by
    induction ts with
    | nil => rfl
    | cons t ts ih =>
        have e2 : spec_pseudo (t :: ts) = spec_pseudo_tok t ++ spec_pseudo ts := rfl
        rw [e2, utf8_valid_len_pseudo_tok t _ (h t (List.mem_cons_self _ _)),
          ih (fun x hx => h x (List.mem_cons_of_mem _ hx)), List.length_append]
  unfold g_utf8_validate
  rw [key]
  simp

theorem to_html_offline_pseudo (t : HtmlTok) (ts : List HtmlTok) (h : spec_tok_ok t) :
    to_html_offline (spec_pseudo (t :: ts)) = some ([], spec_pseudo (t :: ts)) := by
  have e2 : spec_pseudo (t :: ts) = spec_pseudo_tok t ++ spec_pseudo ts := rfl
  rw [e2]
  generalize spec_pseudo ts = rest
  have key : scan_lit (cstr "<<(") (spec_pseudo_tok t ++ rest) = ScanLit.nomatch := by
    cases t with
    | text ch =>
        cases ch with
        | nil => exact absurd rfl h.1
        | cons c cs => exact scan_lit_ne c 60 _ _ rfl (h.2.2 c (List.mem_cons_self _ _)).2.1
    | tag name =>
        rcases h with h | h | h | h <;> rw [h] <;>
          simp [spec_pseudo_tok, scan_lit, cstr, isspace]
    | close name =>
        rcases h with h | h | h | h <;> rw [h] <;>
          simp [spec_pseudo_tok, scan_lit, cstr, isspace]
    | color ds => simp [spec_pseudo_tok, scan_lit, cstr, isspace]
    | size ds => simp [spec_pseudo_tok, scan_lit, cstr, isspace]
  unfold to_html_offline
  rw [key]

theorem pt_convert_to_html_pseudo (ts : List HtmlTok) (h : ∀ t ∈ ts, spec_tok_ok t)
    (hne : ts ≠ []) :
    pt_convert_to_html (spec_pseudo ts) = some (spec_render (ts.map spec_norm_tok)) := by
  cases ts with
  | nil => exact absurd rfl hne
  | cons t ts =>
      unfold pt_convert_to_html
      rw [g_utf8_validate_pseudo _ h]
      simp only [if_true]
      rw [to_html_offline_pseudo t ts (h t (List.mem_cons_self _ _))]
      simp only
      rw [to_html_loop_pseudo _ _ h]
      rfl



theorem spec_norm_tok_ok (t : HtmlTok) (h : spec_tok_ok t) : spec_tok_ok (spec_norm_tok t) := by
  cases t with
  | text ch => exact h
  | tag name => exact h
  | close name => exact h
  | color ds =>
      obtain ⟨p1, p2, p3⟩ := printf_prec_x_spec 6 (spec_hex ds)
      refine ⟨p1, p2, ?_⟩
      rw [p3]
      exact h.2.2
  | size ds =>
      unfold spec_norm_tok
      simp only
      split
      · decide
      · split <;> decide

theorem spec_norm_tok_idem (t : HtmlTok) :
    spec_norm_tok (spec_norm_tok t) = spec_norm_tok t := by
  cases t with
  | text ch => rfl
  | tag name => rfl
  | close name => rfl
  | color ds =>
      show HtmlTok.color (printf_prec_x 6 (spec_hex (printf_prec_x 6 (spec_hex ds)))) = _
      rw [(printf_prec_x_spec 6 (spec_hex ds)).2.2]
      rfl
  | size ds =>
      unfold spec_norm_tok
      simp only
      split
      · rfl
      · split <;> rfl

theorem spec_is_font_norm (t : HtmlTok) : spec_is_font (spec_norm_tok t) = spec_is_font t := by
  cases t <;> rfl

theorem spec_round_trip_ok (ts : List HtmlTok) (h : ∀ t ∈ ts, spec_tok_ok t) :
    ∀ t ∈ spec_round_trip ts, spec_tok_ok t := by
  have hm : ∀ t ∈ ts.map spec_norm_tok, spec_tok_ok t := by
    intro t ht
    rw [List.mem_map] at ht
    obtain ⟨u, hu, rfl⟩ := ht
    exact spec_norm_tok_ok u (h u hu)
  unfold spec_round_trip
  split
  · exact hm
  · intro t ht
    simp only [List.mem_append, List.mem_cons, List.mem_singleton, List.not_mem_nil,
      or_false] at ht
    rcases ht with ((rfl | rfl) | ht) | (rfl | rfl)
    · decide
    · decide
    · exact hm t ht
    · decide
    · decide

theorem spec_round_trip_font (ts : List HtmlTok) :
    (spec_round_trip ts).any spec_is_font = true := by
  unfold spec_round_trip
  split
  · rename_i hf
    rw [List.any_map]
    have : (spec_is_font ∘ spec_norm_tok) = spec_is_font := funext spec_is_font_norm
    rw [this]
    exact hf
  · rfl

theorem spec_round_trip_norm (ts : List HtmlTok) :
    (spec_round_trip ts).map spec_norm_tok = spec_round_trip ts := by
  have hm : (ts.map spec_norm_tok).map spec_norm_tok = ts.map spec_norm_tok := by
    rw [List.map_map]
    congr 1
    exact funext spec_norm_tok_idem
  unfold spec_round_trip
  split
  · exact hm
  · rw [List.map_append, List.map_append, hm]
    rfl

theorem spec_round_trip_idem (ts : List HtmlTok) :
    spec_round_trip (spec_round_trip ts) = spec_round_trip ts := by
  have e : ∀ us : List HtmlTok, us.any spec_is_font = true →
      spec_round_trip us = us.map spec_norm_tok := by
    intro us hu
    unfold spec_round_trip
    rw [if_pos hu]
  rw [e _ (spec_round_trip_font ts), spec_round_trip_norm]

theorem html_round_trip_render (ts : List HtmlTok) (h : ∀ t ∈ ts, spec_tok_ok t) :
    html_round_trip (spec_render ts) = some (spec_render (spec_round_trip ts)) := by
  unfold html_round_trip
  rw [pt_convert_from_html_render ts h, Option.some_bind]
  unfold spec_round_trip
  by_cases hf : ts.any spec_is_font = true
  · rw [if_pos hf, if_pos hf]
    apply pt_convert_to_html_pseudo ts h
    intro hn
    rw [hn] at hf
    exact absurd hf (by decide)
  · rw [if_neg hf, if_neg hf]
    rw [pt_convert_to_html_pseudo _ _ (by simp)]
    · rw [List.map_append, List.map_append]
      rfl
    · intro t ht
      simp only [List.mem_append, List.mem_cons, List.mem_singleton, List.not_mem_nil,
        or_false] at ht
      rcases ht with ((rfl | rfl) | ht) | (rfl | rfl)
      · decide
      · decide
      · exact h t ht
      · decide
      · decide



/-- C17 (amended): for every message `x` built from characters of plain text other than
`<` and `&`, the tags `<b>`, `<i>`, `<u>`, `<br>`, `<font color="#RRGGBB">` (a 24-bit colour)
and `<font size="n">` and closing tags, the round trip
`R(x) = pt_convert_to_html(pt_convert_from_html(x))` returns the text of the pieces of
`spec_round_trip`, and a second round trip returns that text again: `R(R(x)) = R(x)`.  The
red/blue swap applied twice to a 24-bit value is the identity, so a colour comes back with
its value, written with six digits; a size `n` comes back as 2, 3 or 4 (through 8, 10 and
12), and that size comes back unchanged. -/
theorem html_round_trip_idempotent (ts : List HtmlTok) (h : ∀ t ∈ ts, spec_tok_ok t) :
    html_round_trip (spec_render ts) = some (spec_render (spec_round_trip ts)) ∧
    html_round_trip (spec_render (spec_round_trip ts))
      = some (spec_render (spec_round_trip ts)) ∧
    (∀ v : Nat, v < 16777216 → swap_red_blue ((swap_red_blue (v : Int) : Nat) : Int) = v) ∧
    (∀ ds, spec_tok_ok (HtmlTok.color ds) →
      html_round_trip (spec_render [HtmlTok.color ds])
        = some (spec_render [HtmlTok.color (printf_prec_x 6 (spec_hex ds))])) ∧
    (∀ ds, spec_tok_ok (HtmlTok.size ds) →
      html_round_trip (spec_render [HtmlTok.size ds])
        = some (spec_render [HtmlTok.size (if spec_dec ds < 3 then cstr "2"
            else if spec_dec ds < 4 then cstr "3" else cstr "4")]) ∧
      html_round_trip (spec_render [HtmlTok.size (if spec_dec ds < 3 then cstr "2"
            else if spec_dec ds < 4 then cstr "3" else cstr "4")])
        = some (spec_render [HtmlTok.size (if spec_dec ds < 3 then cstr "2"
            else if spec_dec ds < 4 then cstr "3" else cstr "4")])) := by
  have one : ∀ t, spec_tok_ok t → ∀ u ∈ [t], spec_tok_ok u := by
    intro t ht u hu
    rw [List.mem_singleton] at hu
    rw [hu]
    exact ht
  refine ⟨html_round_trip_render ts h, ?_, swap_red_blue_swap, ?_, ?_⟩
  · have := html_round_trip_render _ (spec_round_trip_ok ts h)
    rw [spec_round_trip_idem] at this
    exact this
  · intro ds hd
    exact html_round_trip_render _ (one _ hd)
  · intro ds hd
    have h1 := html_round_trip_render _ (one _ hd)
    have h2 := html_round_trip_render _ (spec_round_trip_ok _ (one _ hd))
    rw [spec_round_trip_idem] at h2
    exact ⟨h1, h2⟩

set_option maxRecDepth 1000000 in
/-- C17 (witness): the message `<b>hé</b><font color="#FF8000">x</font><font
size="5">y</font><br>`. -/
theorem html_round_trip_idempotent_witness :
    (∀ t ∈ html_sample, spec_tok_ok t) ∧
    html_round_trip (spec_render html_sample)
      = some (spec_render (spec_round_trip html_sample)) ∧
    html_round_trip (spec_render (spec_round_trip html_sample))
      = some (spec_render (spec_round_trip html_sample)) :=
  ⟨by decide, (html_round_trip_idempotent html_sample (by decide)).1,
    (html_round_trip_idempotent html_sample (by decide)).2.1⟩

set_option maxRecDepth 1000000 in
/-- C17 (counterexample): the plain text `&amp;amp;` comes back from one round trip with
`&amp;` between the font tags, and that message comes back from the next round trip with
`&` there. -/
theorem html_round_trip_entity :
    spec_render html_amp_sample = cstr "&amp;amp;" ∧
    html_round_trip (cstr "&amp;amp;")
      = some (cstr "<font color=\"#000000\"><font size=\"3\">&amp;</font></font>") ∧
    html_round_trip (cstr "<font color=\"#000000\"><font size=\"3\">&amp;</font></font>")
      = some (cstr "<font color=\"#000000\"><font size=\"3\">&</font></font>") ∧
    (html_round_trip (cstr "&amp;amp;")).bind html_round_trip
      ≠ html_round_trip (cstr "&amp;amp;") :=
  ⟨rfl, rfl, rfl, by decide⟩



/-! ## The speaker timer -/

theorem check_speaker_flag_keeps (st : VoiceState) (timer : GTimer) (now : Nat)
    (htm : st.speaker_timer = some timer) (hel : g_timer_elapsed timer now ≤ 450000) :
    check_speaker_flag st now = some (true, st) := by
  unfold check_speaker_flag
  rw [htm]
  simp only
  cases st.rd.speaker with
  | none => rfl
  | some speaker =>
      simp only
      rw [if_neg (by omega)]

theorem check_speaker_flag_clears (st : VoiceState) (timer : GTimer) (speaker : List Nat)
    (c : GaimConversation) (now : Nat)
    (htm : st.speaker_timer = some timer) (hsp : st.rd.speaker = some speaker)
    (hc : st.c = some c) (hel : g_timer_elapsed timer now > 450000) :
    check_speaker_flag st now = some (true, spec_speaker_cleared st timer speaker c now) := by
  unfold check_speaker_flag
  rw [htm]
  simp only
  rw [hsp]
  simp only
  rw [if_pos hel, hc]
  rfl

theorem check_speaker_flag_idle (st : VoiceState) (timer : GTimer) (now : Nat)
    (htm : st.speaker_timer = some timer) (hsp : st.rd.speaker = none) :
    check_speaker_flag st now = some (true, st) := by
  unfold check_speaker_flag
  rw [htm]
  simp only
  rw [hsp]

theorem speaker_ticks_idle (n : Nat) (st : VoiceState) (timer : GTimer) (next : Nat)
    (htm : st.speaker_timer = some timer) (hsp : st.rd.speaker = none) :
    speaker_ticks n st next = some st := by
  induction n generalizing next with
  | zero => rfl
  | succ n ih =>
      rw [speaker_ticks, check_speaker_flag_idle st timer next htm hsp]
      exact ih _

theorem spec_speaker_cleared_idle (st : VoiceState) (timer : GTimer) (speaker : List Nat)
    (c : GaimConversation) (now : Nat) :
    (spec_speaker_cleared st timer speaker c now).speaker_timer
        = some { timer with active := false, stop := now } ∧
    (spec_speaker_cleared st timer speaker c now).rd.speaker = none :=
  ⟨rfl, rfl⟩

theorem speaker_ticks_clear (n : Nat) (st : VoiceState) (timer : GTimer) (speaker : List Nat)
    (c : GaimConversation) (next : Nat)
    (htm : st.speaker_timer = some timer) (hsp : st.rd.speaker = some speaker)
    (hc : st.c = some c) (hel : g_timer_elapsed timer next > 450000) :
    speaker_ticks (n + 1) st next = some (spec_speaker_cleared st timer speaker c next) := by
  rw [speaker_ticks, check_speaker_flag_clears st timer speaker c next htm hsp hc hel]
  exact speaker_ticks_idle n _ _ _ (spec_speaker_cleared_idle st timer speaker c next).1
    (spec_speaker_cleared_idle st timer speaker c next).2

/-- C21 (amended): for a stream whose speaker is set and whose timer was last restarted at
`s` (the last accepted packet), a call of `check_speaker_flag` at a time up to `s + 450 ms`
changes nothing, and a call after `s + 450 ms` clears the speaker, removes the flag
`SPEAKING`, writes one notice and stops the timer.  With the callback running every 500 ms,
the next call being at `next` (between `s` and `s + 500 ms`), the speaker is cleared by the
first call if that is later than `s + 450 ms` and by the second call otherwise, that is at a
time `T` with `s + 450 ms < T <= s + 950 ms`, and later calls change nothing more. -/
theorem speaker_cleared_by_tick (st : VoiceState) (timer : GTimer) (speaker : List Nat)
    (c : GaimConversation) (s next : Nat)
    (htm : st.speaker_timer = some timer) (hact : timer.active = true)
    (hst : timer.start = s) (hsp : st.rd.speaker = some speaker) (hc : st.c = some c)
    (h1 : s ≤ next) (h2 : next ≤ s + 500000) :
    (∀ now, now ≤ s + 450000 → check_speaker_flag st now = some (true, st)) ∧
    (∀ now, s + 450000 < now →
      check_speaker_flag st now = some (true, spec_speaker_cleared st timer speaker c now)) ∧
    (s + 450000 < next →
      ∀ n, speaker_ticks (n + 1) st next
        = some (spec_speaker_cleared st timer speaker c next)) ∧
    (next ≤ s + 450000 →
      speaker_ticks 1 st next = some st ∧
      s + 450000 < next + 500000 ∧ next + 500000 ≤ s + 950000 ∧
      ∀ n, speaker_ticks (n + 2) st next
        = some (spec_speaker_cleared st timer speaker c (next + 500000))) := by
  have el : ∀ now, g_timer_elapsed timer now = now - s := by
    intro now
    unfold g_timer_elapsed
    rw [hact, hst]
    rfl
  have keep : ∀ now, now ≤ s + 450000 → check_speaker_flag st now = some (true, st) := by
    intro now hn
    exact check_speaker_flag_keeps st timer now htm (by rw [el]; omega)
  refine ⟨keep, ?_, ?_, ?_⟩
  · intro now hn
    exact check_speaker_flag_clears st timer speaker c now htm hsp hc (by rw [el]; omega)
  · intro hn n
    exact speaker_ticks_clear n st timer speaker c next htm hsp hc (by rw [el]; omega)
  · intro hn
    refine ⟨?_, by omega, by omega, ?_⟩
    · rw [speaker_ticks, keep next hn]
      rfl
    · intro n
      rw [speaker_ticks, keep next hn]
      exact speaker_ticks_clear n st timer speaker c (next + 500000) htm hsp hc
        (by rw [el]; omega)

set_option maxRecDepth 1000000 in
/-- C21 (witness): the speaker trace after the packet from SSRC 222 at 400 ms, the next
call of the callback being at 500 ms: that call changes nothing, the call at 1000 ms
clears the speaker. -/
theorem speaker_cleared_by_tick_witness :
    speaker_trace_400 = some voice_state_222 ∧
    speaker_ticks 1 voice_state_222 500000 = some voice_state_222 ∧
    speaker_ticks 2 voice_state_222 500000
      = some (spec_speaker_cleared voice_state_222 { start := 400000 } (cstr "222")
          voice_chat_222 1000000) ∧
    speaker_ticks 7 voice_state_222 500000
      = some (spec_speaker_cleared voice_state_222 { start := 400000 } (cstr "222")
          voice_chat_222 1000000) :=
  ⟨rfl,
   ((speaker_cleared_by_tick voice_state_222 { start := 400000 } (cstr "222") voice_chat_222
      400000 500000 rfl rfl rfl rfl rfl (by decide) (by decide)).2.2.2 (by decide)).1,
   ((speaker_cleared_by_tick voice_state_222 { start := 400000 } (cstr "222") voice_chat_222
      400000 500000 rfl rfl rfl rfl rfl (by decide) (by decide)).2.2.2 (by decide)).2.2.2 0,
   ((speaker_cleared_by_tick voice_state_222 { start := 400000 } (cstr "222") voice_chat_222
      400000 500000 rfl rfl rfl rfl rfl (by decide) (by decide)).2.2.2 (by decide)).2.2.2 5⟩

set_option maxRecDepth 1000000 in
/-- C21 (counterexample): in the speaker trace the callback is registered by the packet at
0 ms, so it runs at 500 ms and 1000 ms: at 500 ms the speaker 222 stays, and the notice
`222 has stopped speaking.` is written by the call at 1000 ms (time stamp 1 s), not between
850 and 900 ms.  With a second stream the timer is shared: after a packet on the first
stream at 0 ms and one on the second at 100 ms, the call at 500 ms leaves the speaker of
the first stream, silent for 500 ms, in place, and no callback is registered for the
second stream. -/
theorem speaker_trace_stop_at_1000 :
    speaker_trace_400 = some voice_state_222 ∧
    speaker_ticks 1 voice_state_222 500000 = some voice_state_222 ∧
    (speaker_ticks 2 voice_state_222 500000).map speaker_view
      = some (none, some ([(cstr "111", 16), (cstr "222", 0)],
          [cstr "111 has started speaking.", cstr "222 has stopped speaking.",
           cstr "222 has started speaking.", cstr "222 has stopped speaking."])) ∧
    (speaker_ticks 2 voice_state_222 500000).map
        (fun st => st.c.map (fun c => c.lines.map (fun l => l.mtime)))
      = some (some [0, 0, 0, 1]) ∧
    two_streams_first.map (fun st => (st.rd.speaker, st.speaker_timeout, st.speaker_timer))
      = some (some (cstr "111"), 1, some { start := 0 }) ∧
    two_streams_second.map (fun st => (st.rd.speaker, st.speaker_timeout, st.speaker_timer))
      = some (some (cstr "222"), 1, some { start := 100000 }) ∧
    (two_streams_tick.bind (fun st => speaker_ticks 1 st 500000)).map
        (fun st => st.rd.speaker)
      = some (some (cstr "111")) ∧
    (two_streams_tick.bind (fun st => speaker_ticks 2 st 500000)).map
        (fun st => (st.rd.speaker, st.speaker_timer))
      = some (none, some { start := 100000, active := false, stop := 1000000 }) :=
  ⟨rfl, rfl, rfl, rfl, rfl, rfl, rfl, rfl⟩



/-! ## The file transfer handshake -/

theorem strncmp_eq_iff (tmp pat : List Nat) : strncmp_eq tmp pat = true ↔ pat <+: tmp := by
  induction pat generalizing tmp with
  | nil => simp [strncmp_eq]
  | cons p ps ih =>
      cases tmp with
      | nil => simp [strncmp_eq]
      | cons c cs =>
          simp only [strncmp_eq, Bool.and_eq_true, beq_iff_eq, ih, List.cons_prefix_cons]
          constructor
          · rintro ⟨h1, h2⟩
            exact ⟨h1.symm, h2⟩
          · rintro ⟨h1, h2⟩
            exact ⟨h1.symm, h2⟩

theorem scan_d_digits (ds rest : List Nat) (h0 : ds ≠ [])
    (hd : ∀ d ∈ ds, 48 ≤ d ∧ d ≤ 57) :
    scan_d (ds ++ 9 :: rest)
      = Scan.ok (if spec_dec ds > 2147483647 then 2147483647 else (spec_dec ds : Int),
          9 :: rest) := by
  have hs := scan_dec_digits ds rest 9 (by decide) hd 0 0
  cases ds with
  | nil => exact absurd rfl h0
  | cons d ds1 =>
      obtain ⟨h1, h2, h3, -⟩ := dec_not_space d (hd d (List.mem_cons_self _ _))
      unfold scan_d
      rw [List.cons_append, atoi_skip_cons _ _ h1]
      simp only [h2, h3, or_self, if_false]
      rw [List.cons_append] at hs
      rw [hs]
      simp only [List.length_cons, Nat.zero_add, Nat.add_one_ne_zero, if_false]
      have hne : (d == 45) = false := by simp [h2]
      simp only [hne, Bool.false_eq_true, if_false]
      have hdrop : List.drop (ds1.length + 1) (d :: (ds1 ++ 9 :: rest)) = 9 :: rest := by
        simp
      rw [hdrop]
      rfl

theorem scan_d_tab_digits (ds rest : List Nat) (h0 : ds ≠ [])
    (hd : ∀ d ∈ ds, 48 ≤ d ∧ d ≤ 57) :
    scan_d (9 :: (ds ++ 9 :: rest))
      = Scan.ok (if spec_dec ds > 2147483647 then 2147483647 else (spec_dec ds : Int),
          9 :: rest) := by
  have e : atoi_skip (9 :: (ds ++ 9 :: rest)) = atoi_skip (ds ++ 9 :: rest) := by
    rw [atoi_skip]
    rfl
  have := scan_d_digits ds rest h0 hd
  unfold scan_d at this ⊢
  rw [e]
  exact this

theorem scan_s_tab_word (w rest : List Nat) (h0 : w ≠ [])
    (hw : ∀ c ∈ w, isspace c = false) :
    scan_s (9 :: (w ++ 9 :: rest)) = some (w, 9 :: rest) := by
  have ht : ∀ (l : List Nat), (∀ c ∈ l, isspace c = false) →
      (l ++ 9 :: rest).takeWhile (fun b => !isspace b) = l ∧
      (l ++ 9 :: rest).dropWhile (fun b => !isspace b) = 9 :: rest := by
    intro l
    induction l with
    | nil => intro _; exact ⟨rfl, rfl⟩
    | cons c cs ih =>
        intro h
        have hc := h c (List.mem_cons_self _ _)
        obtain ⟨i1, i2⟩ := ih (fun x hx => h x (List.mem_cons_of_mem _ hx))
        constructor
        · rw [List.cons_append, List.takeWhile_cons, hc]
          simp only [Bool.not_false, if_true]
          rw [i1]
        · rw [List.cons_append, List.dropWhile_cons, hc]
          simp only [Bool.not_false, if_true]
          exact i2
  cases w with
  | nil => exact absurd rfl h0
  | cons c cs =>
      have hc := hw c (List.mem_cons_self _ _)
      obtain ⟨i1, i2⟩ := ht (c :: cs) hw
      unfold scan_s
      rw [atoi_skip, show isspace 9 = true from rfl]
      simp only [if_true]
      rw [List.cons_append, atoi_skip_cons _ _ hc]
      simp only
      rw [List.cons_append] at i1 i2
      rw [i1, i2]

theorem scan_lit_send (x : List Nat) :
    scan_lit (cstr "SEND\t") (cstr "SEND\t" ++ x) = ScanLit.matched (atoi_skip x) := by
  simp [scan_lit, cstr, isspace, atoi_skip]

theorem sscanf_send_line (ufrom uto nick size fn : List Nat)
    (hf0 : ufrom ≠ []) (hf : ∀ d ∈ ufrom, 48 ≤ d ∧ d ≤ 57)
    (ht0 : uto ≠ []) (ht : ∀ d ∈ uto, 48 ≤ d ∧ d ≤ 57)
    (hn0 : nick ≠ []) (hn : ∀ c ∈ nick, isspace c = false)
    (hs0 : size ≠ []) (hs : ∀ d ∈ size, 48 ≤ d ∧ d ≤ 57) (hv : spec_dec size < 2147483648) :
    ∃ k : Int, k ≠ 0 ∧
      sscanf_send (cstr "SEND\t" ++ ufrom ++ [9] ++ uto ++ [9] ++ nick ++ [9] ++ size ++ [9]
        ++ fn ++ [10]) = (k, some (spec_dec size : Int)) := by
  have e : cstr "SEND\t" ++ ufrom ++ [9] ++ uto ++ [9] ++ nick ++ [9] ++ size ++ [9]
      ++ fn ++ [10]
      = cstr "SEND\t" ++ (ufrom ++ 9 :: (uto ++ 9 :: (nick ++ 9 :: (size ++ 9 :: (fn ++ [10]))))) := by
    simp
  rw [e]
  have e0 : scan_lit (cstr "SEND\t")
      (cstr "SEND\t" ++ (ufrom ++ 9 :: (uto ++ 9 :: (nick ++ 9 :: (size ++ 9 :: (fn ++ [10]))))))
      = ScanLit.matched (ufrom ++ 9 :: (uto ++ 9 :: (nick ++ 9 :: (size ++ 9 :: (fn ++ [10]))))) := by
    rw [scan_lit_send]
    cases ufrom with
    | nil => exact absurd rfl hf0
    | cons d ds =>
        rw [List.cons_append, atoi_skip_cons _ _ (dec_not_space d (hf d (List.mem_cons_self _ _))).1]
  unfold sscanf_send
  rw [e0]
  simp only
  rw [scan_d_digits ufrom _ hf0 hf]
  simp only
  rw [scan_d_tab_digits uto _ ht0 ht]
  simp only
  rw [scan_s_tab_word nick _ hn0 hn]
  simp only
  rw [scan_d_tab_digits size _ hs0 hs, if_neg (by omega)]
  simp only
  cases scan_s (9 :: (fn ++ [10])) with
  | none => exact ⟨4, by decide, rfl⟩
  | some r => exact ⟨5, by decide, rfl⟩

theorem pt_xfer_connected_data (xfer : GaimXfer) (source : Int) (bs : List Nat)
    (hin : xfer.data.inpa ≠ -1) (hsrc : 0 ≤ source) (hlen : bs.length ≤ 255) :
    pt_xfer_connected xfer source [ReadEvent.data bs]
      = some (xfer_connected_input xfer source bs.length bs, []) := by
  unfold pt_xfer_connected sock_read
  rw [if_neg hin, if_neg (by omega)]
  simp only
  rw [if_pos hlen]
  simp only
  rw [if_neg (by omega)]

theorem pt_xfer_connected_long (xfer : GaimXfer) (source : Int) (bs : List Nat)
    (hin : xfer.data.inpa ≠ -1) (hsrc : 0 ≤ source) (hlen : ¬ bs.length ≤ 255) :
    pt_xfer_connected xfer source [ReadEvent.data bs]
      = some (xfer_connected_input xfer source 255 (bs.take 255),
          [ReadEvent.data (bs.drop 255)]) := by
  unfold pt_xfer_connected sock_read
  rw [if_neg hin, if_neg (by omega)]
  simp only
  rw [if_neg hlen]
  simp only
  rw [if_neg (by omega)]
  rfl

theorem xfer_connected_input_connect (xfer : GaimXfer) (source br : Int)
    (hph : xfer.data.phase = 0) :
    (xfer_connected_input xfer source br (cstr "CONNECT\tOK\n")).data.phase = 1 ∧
    (xfer_connected_input xfer source br (cstr "CONNECT\tOK\n")).data.inpa = 1 ∧
    (xfer_connected_input xfer source br (cstr "CONNECT\tOK\n")).data.id = xfer.data.id ∧
    (xfer_connected_input xfer source br (cstr "CONNECT\tOK\n")).type = xfer.type ∧
    (xfer_connected_input xfer source br (cstr "CONNECT\tOK\n")).writes
      = xfer.writes ++ [cstr "INTRO\t" ++ printf_d xfer.uin ++ [9] ++ printf_d xfer.data.id
          ++ [10]] ∧
    (xfer_connected_input xfer source br (cstr "CONNECT\tOK\n")).cancelled = xfer.cancelled ∧
    (xfer_connected_input xfer source br (cstr "CONNECT\tOK\n")).started = xfer.started := by
  have e : xfer_connected_input xfer source br (cstr "CONNECT\tOK\n")
      = { xfer with
          data := { xfer.data with fd := source, inpa := 1, phase := 1 },
          writes := xfer.writes ++ [cstr "INTRO\t" ++ printf_d xfer.uin ++ [9]
            ++ printf_d xfer.data.id ++ [10]] } := by
    unfold xfer_connected_input
    simp only
    rw [if_neg (by decide), if_neg (by
      intro h
      exact h.2 (by decide)), if_pos hph]
  rw [e]
  exact ⟨rfl, rfl, rfl, rfl, rfl, rfl, rfl⟩

theorem xfer_connected_input_auth (xfer : GaimXfer) (source br : Int)
    (hph : xfer.data.phase = 1) :
    xfer_connected_input xfer source br (cstr "AUTH\tOK\n")
      = { xfer with data := { xfer.data with fd := source, inpa := 1, phase := 2 } } := by
  unfold xfer_connected_input
  simp only
  rw [if_neg (by decide), if_neg (by rw [hph]; decide), if_neg (by rw [hph]; decide),
    if_neg (by
      intro h
      exact h.2 (by decide)),
    if_neg (by
      intro h
      exact absurd h.2 (by decide)),
    if_neg (by
      intro h
      exact absurd h.2 (by decide))]

theorem takeWhile_no_nul (l : List Nat) (h : ∀ c ∈ l, c ≠ 0) :
    l.takeWhile (fun b => b != 0) = l := by
  rw [List.takeWhile_eq_self_iff]
  intro c hc
  simp [h c hc]

theorem spec_send_line_no_nul (ufrom uto nick size fn : List Nat)
    (hf : ∀ d ∈ ufrom, 48 ≤ d ∧ d ≤ 57) (ht : ∀ d ∈ uto, 48 ≤ d ∧ d ≤ 57)
    (hn : ∀ c ∈ nick, c ≠ 0) (hs : ∀ d ∈ size, 48 ≤ d ∧ d ≤ 57) (hfn : ∀ c ∈ fn, c ≠ 0) :
    ∀ c ∈ spec_send_line ufrom uto nick size fn, c ≠ 0 := by
  intro c hc
  unfold spec_send_line at hc
  simp only [List.mem_append, List.mem_singleton] at hc
  rcases hc with (((((((((hc | hc) | hc) | hc) | hc) | hc) | hc) | hc) | hc) | hc) | hc
  · revert c; decide
  · have := hf c hc; omega
  · omega
  · have := ht c hc; omega
  · omega
  · exact hn c hc
  · omega
  · have := hs c hc; omega
  · omega
  · exact hfn c hc
  · omega

theorem xfer_connected_input_send (xfer : GaimXfer) (source br : Int)
    (ufrom uto nick size fn : List Nat)
    (hph : xfer.data.phase = 2) (hty : xfer.type = GaimXferType.GAIM_XFER_RECEIVE)
    (hf0 : ufrom ≠ []) (hf : ∀ d ∈ ufrom, 48 ≤ d ∧ d ≤ 57)
    (ht0 : uto ≠ []) (ht : ∀ d ∈ uto, 48 ≤ d ∧ d ≤ 57)
    (hn0 : nick ≠ []) (hn : ∀ c ∈ nick, isspace c = false ∧ c ≠ 0)
    (hs0 : size ≠ []) (hs : ∀ d ∈ size, 48 ≤ d ∧ d ≤ 57) (hv : spec_dec size < 2147483648)
    (hfn : ∀ c ∈ fn, c ≠ 0) :
    xfer_connected_input xfer source br (spec_send_line ufrom uto nick size fn)
      = { xfer with data := { xfer.data with fd := source, inpa := -1, phase := 2 },
                    size := spec_dec size, started := some source } := by
  obtain ⟨k, hk, hsc⟩ := sscanf_send_line ufrom uto nick size fn hf0 hf ht0 ht hn0
    (fun c hc => (hn c hc).1) hs0 hs hv
  have hnul := takeWhile_no_nul _ (spec_send_line_no_nul ufrom uto nick size fn hf ht
    (fun c hc => (hn c hc).2) hs hfn)
  have hhead : ¬ ((spec_send_line ufrom uto nick size fn).head? = none ∨
      (spec_send_line ufrom uto nick size fn).head? = some 0) := by
    simp [spec_send_line, cstr]
  have hpre : strncmp_eq (spec_send_line ufrom uto nick size fn) (cstr "SEND") = true := by
    simp [spec_send_line, cstr, strncmp_eq]
  unfold xfer_connected_input
  simp only
  rw [if_neg hhead, if_neg (by rw [hph]; intro h; exact absurd h.1 (by decide)), if_neg (by rw [hph]; decide),
    if_neg (by rw [hph]; intro h; exact absurd h.1 (by decide)), if_neg (by rw [hty]; intro h; exact absurd h.1 (by decide)),
    if_pos ⟨hty, hpre⟩, hnul]
  unfold spec_send_line
  rw [hsc]
  simp only
  rw [if_pos hk]
  simp only [Option.getD_some]
  rw [u32_small _ (by omega)]

theorem xfer_connected_input_cancel (xfer : GaimXfer) (source br : Int) (inbuf pat : List Nat)
    (hp : strncmp_eq inbuf pat = false)
    (hph : (xfer.data.phase = 0 ∧ pat = cstr "CONNECT\tOK\n") ∨
      (xfer.data.phase = 1 ∧ pat = cstr "AUTH\tOK\n")) :
    (xfer_connected_input xfer source br inbuf).cancelled = true ∧
    (xfer_connected_input xfer source br inbuf).writes = xfer.writes ∧
    (xfer_connected_input xfer source br inbuf).started = xfer.started := by
  unfold xfer_connected_input
  simp only
  by_cases hh : inbuf.head? = none ∨ inbuf.head? = some 0
  · rw [if_pos hh]
    exact ⟨rfl, rfl, rfl⟩
  · rw [if_neg hh]
    rcases hph with ⟨h0, hpat⟩ | ⟨h1, hpat⟩
    · rw [if_pos ⟨h0, by rw [← hpat, hp]; decide⟩]
      exact ⟨rfl, rfl, rfl⟩
    · rw [if_neg (by rw [h1]; intro h; exact absurd h.1 (by decide)),
        if_neg (by rw [h1]; decide),
        if_pos ⟨h1, by rw [← hpat, hp]; decide⟩]
      exact ⟨rfl, rfl, rfl⟩

theorem pt_xfer_connected_cancel (xfer : GaimXfer) (source : Int) (bs pat : List Nat)
    (hin : xfer.data.inpa ≠ -1) (hp : ¬ pat <+: bs)
    (hph : (xfer.data.phase = 0 ∧ pat = cstr "CONNECT\tOK\n") ∨
      (xfer.data.phase = 1 ∧ pat = cstr "AUTH\tOK\n")) :
    ∃ x sock, pt_xfer_connected xfer source [ReadEvent.data bs] = some (x, sock) ∧
      x.cancelled = true ∧ x.writes = xfer.writes ∧ x.started = xfer.started := by
  by_cases hsrc : 0 ≤ source
  · by_cases hlen : bs.length ≤ 255
    · refine ⟨_, _, pt_xfer_connected_data xfer source bs hin hsrc hlen, ?_⟩
      apply xfer_connected_input_cancel xfer source _ bs pat _ hph
      rw [Bool.eq_false_iff]
      intro h
      exact hp ((strncmp_eq_iff bs pat).mp h)
    · refine ⟨_, _, pt_xfer_connected_long xfer source bs hin hsrc hlen, ?_⟩
      apply xfer_connected_input_cancel xfer source _ (bs.take 255) pat _ hph
      rw [Bool.eq_false_iff]
      intro h
      exact hp (((strncmp_eq_iff _ pat).mp h).trans (List.take_prefix 255 bs))
  · refine ⟨xfer_cancel xfer true, [ReadEvent.data bs], ?_, rfl, rfl, rfl⟩
    unfold pt_xfer_connected
    rw [if_neg hin, if_pos (by omega)]

/-- Handshake of C22 where the claim holds: for a receive transfer with id `n` in phase 0,
the input `CONNECT\tOK\n` makes `pt_xfer_connected` write `INTRO\t<local-uid>\t<n>\n` and
enter phase 1, the input `AUTH\tOK\n` then makes it enter phase 2 and write nothing, and a line
`SEND\t<from>\t<to>\t<nick>\t<size>\t<filename>\n` of at most 255 bytes, with decimal
`<from>`, `<to>` and `<size>`, a size below 2^31 and a non-empty nickname without white
space, then makes it set the size of the transfer to `<size>` and start it, for every file
name, writing nothing.  A first input that does not start with `CONNECT\tOK\n`, or a
second that does not start with `AUTH\tOK\n`, cancels the transfer and writes nothing. -/
theorem pt_xfer_connected_handshake (xfer : GaimXfer) (source : Int)
    (ufrom uto nick size fn : List Nat)
    (hin : xfer.data.inpa ≠ -1) (hph : xfer.data.phase = 0)
    (hty : xfer.type = GaimXferType.GAIM_XFER_RECEIVE) (hsrc : 0 ≤ source)
    (hf0 : ufrom ≠ []) (hf : ∀ d ∈ ufrom, 48 ≤ d ∧ d ≤ 57)
    (ht0 : uto ≠ []) (ht : ∀ d ∈ uto, 48 ≤ d ∧ d ≤ 57)
    (hn0 : nick ≠ []) (hn : ∀ c ∈ nick, isspace c = false ∧ c ≠ 0)
    (hs0 : size ≠ []) (hs : ∀ d ∈ size, 48 ≤ d ∧ d ≤ 57) (hv : spec_dec size < 2147483648)
    (hfn : ∀ c ∈ fn, c ≠ 0) (hlen : (spec_send_line ufrom uto nick size fn).length ≤ 255) :
    (∃ x1 x2 x3 : GaimXfer,
      pt_xfer_connected xfer source [ReadEvent.data (cstr "CONNECT\tOK\n")] = some (x1, []) ∧
      x1.data.phase = 1 ∧
      x1.writes = xfer.writes ++ [cstr "INTRO\t" ++ printf_d xfer.uin ++ [9]
        ++ printf_d xfer.data.id ++ [10]] ∧
      x1.cancelled = xfer.cancelled ∧ x1.started = xfer.started ∧
      pt_xfer_connected x1 source [ReadEvent.data (cstr "AUTH\tOK\n")] = some (x2, []) ∧
      x2.data.phase = 2 ∧ x2.writes = x1.writes ∧
      x2.cancelled = xfer.cancelled ∧ x2.started = xfer.started ∧
      pt_xfer_connected x2 source [ReadEvent.data (spec_send_line ufrom uto nick size fn)]
        = some (x3, []) ∧
      x3.data.phase = 2 ∧ x3.writes = x1.writes ∧ x3.cancelled = xfer.cancelled ∧
      x3.size = spec_dec size ∧ x3.started = some source) ∧
    (∀ bs, ¬ cstr "CONNECT\tOK\n" <+: bs →
      ∃ x sock, pt_xfer_connected xfer source [ReadEvent.data bs] = some (x, sock) ∧
        x.cancelled = true ∧ x.writes = xfer.writes ∧ x.started = xfer.started) ∧
    (∀ (y : GaimXfer) bs, y.data.inpa ≠ -1 → y.data.phase = 1 → ¬ cstr "AUTH\tOK\n" <+: bs →
      ∃ x sock, pt_xfer_connected y source [ReadEvent.data bs] = some (x, sock) ∧
        x.cancelled = true ∧ x.writes = y.writes ∧ x.started = y.started) := by
  obtain ⟨c1, c2, c3, c4, c5, c6, c7⟩ :=
    xfer_connected_input_connect xfer source (cstr "CONNECT\tOK\n").length hph
  have e1 := pt_xfer_connected_data xfer source (cstr "CONNECT\tOK\n") hin hsrc (by decide)
  generalize xfer_connected_input xfer source (cstr "CONNECT\tOK\n").length
    (cstr "CONNECT\tOK\n") = x1 at c1 c2 c3 c4 c5 c6 c7 e1
  have e2 : pt_xfer_connected x1 source [ReadEvent.data (cstr "AUTH\tOK\n")]
      = some ({ x1 with data := { x1.data with fd := source, inpa := 1, phase := 2 } }, []) := by
    rw [pt_xfer_connected_data x1 source _ (by rw [c2]; decide) hsrc (by decide),
      xfer_connected_input_auth x1 source _ c1]
  generalize hx2 : ({ x1 with data := { x1.data with fd := source, inpa := 1, phase := 2 } }
    : GaimXfer) = x2 at e2
  have d1 : x2.data.phase = 2 := by rw [← hx2]
  have d2 : x2.data.inpa = 1 := by rw [← hx2]
  have d3 : x2.type = x1.type := by rw [← hx2]
  have d4 : x2.writes = x1.writes := by rw [← hx2]
  have d5 : x2.cancelled = x1.cancelled := by rw [← hx2]
  have d6 : x2.started = x1.started := by rw [← hx2]
  have e3 : pt_xfer_connected x2 source
      [ReadEvent.data (spec_send_line ufrom uto nick size fn)]
      = some ({ x2 with data := { x2.data with fd := source, inpa := -1, phase := 2 },
                        size := spec_dec size, started := some source }, []) := by
    rw [pt_xfer_connected_data x2 source _ (by rw [d2]; decide) hsrc hlen,
      xfer_connected_input_send x2 source _ ufrom uto nick size fn d1
        (d3.trans (c4.trans hty)) hf0 hf ht0 ht hn0 hn hs0 hs hv hfn]
  refine ⟨⟨x1, x2, _, e1, c1, c5, c6, c7, e2, d1, d4, d5.trans c6, d6.trans c7, e3, rfl, d4,
    d5.trans c6, rfl, rfl⟩, ?_, ?_⟩
  · intro bs hb
    exact pt_xfer_connected_cancel xfer source bs _ hin hb (Or.inl ⟨hph, rfl⟩)
  · intro y bs hy1 hy2 hb
    exact pt_xfer_connected_cancel y source bs _ hy1 hb (Or.inr ⟨hy2, rfl⟩)

set_option maxRecDepth 1000000 in
/-- Handshake of C22, an instance: the receive transfer 7 of the session 777 on descriptor 5, with the line
`SEND\t1\t2\tnick\t5678\tmy file.txt\n`. -/
theorem pt_xfer_connected_handshake_witness :
    ∃ x1 x2 x3 : GaimXfer,
      pt_xfer_connected xfer_receive_7 5 [ReadEvent.data (cstr "CONNECT\tOK\n")]
        = some (x1, []) ∧
      x1.data.phase = 1 ∧
      x1.writes = xfer_receive_7.writes ++ [cstr "INTRO\t" ++ printf_d xfer_receive_7.uin
        ++ [9] ++ printf_d xfer_receive_7.data.id ++ [10]] ∧
      x1.cancelled = xfer_receive_7.cancelled ∧ x1.started = xfer_receive_7.started ∧
      pt_xfer_connected x1 5 [ReadEvent.data (cstr "AUTH\tOK\n")] = some (x2, []) ∧
      x2.data.phase = 2 ∧ x2.writes = x1.writes ∧
      x2.cancelled = xfer_receive_7.cancelled ∧ x2.started = xfer_receive_7.started ∧
      pt_xfer_connected x2 5 [ReadEvent.data (spec_send_line (cstr "1") (cstr "2")
          (cstr "nick") (cstr "5678") (cstr "my file.txt"))]
        = some (x3, []) ∧
      x3.data.phase = 2 ∧ x3.writes = x1.writes ∧ x3.cancelled = xfer_receive_7.cancelled ∧
      x3.size = spec_dec (cstr "5678") ∧ x3.started = some 5 :=
  (pt_xfer_connected_handshake xfer_receive_7 5 (cstr "1") (cstr "2") (cstr "nick")
    (cstr "5678") (cstr "my file.txt") (by decide) rfl rfl (by decide) (by decide) (by decide)
    (by decide) (by decide) (by decide) (by decide) (by decide) (by decide) (by decide)
    (by decide) (by decide)).1

set_option maxRecDepth 1000000 in
/-- C22 (the code at the failing input): after `CONNECT\tOK\n` and `AUTH\tOK\n`, the line
`SEND\t1\t2\tmy nick\t5678\tf.txt\n` makes `sscanf` stop at `nick` and return 3, without
reaching the conversion of the size; the result is taken as success, the size of the
transfer becomes 28, the number of bytes that the read returned and that `br` still holds,
instead of 5678, and the transfer is started. -/
theorem pt_xfer_connected_nick_space :
    xfer_send_line_space
      = spec_send_line (cstr "1") (cstr "2") (cstr "my nick") (cstr "5678") (cstr "f.txt") ∧
    xfer_send_line_space.length = 28 ∧
    sscanf_send xfer_send_line_space = (3, none) ∧
    (xfer_handshake xfer_receive_7 5 (cstr "CONNECT\tOK\n") (cstr "AUTH\tOK\n")
        xfer_send_line_space).map (fun x => (x.size, x.started, x.data.phase))
      = some (28, some 5, 2) :=
  ⟨rfl, rfl, rfl, rfl⟩



/-! ## Short reads while a frame is read -/

theorem sock_read_chunk_le (c : List Nat) (rest : List ReadEvent) (k : Nat)
    (h : c.length ≤ k) :
    sock_read (ReadEvent.data c :: rest) k = some ((c.length : Int), c, rest) := by
  simp only [sock_read]
  rw [if_pos h]

theorem sock_read_chunk_gt (c : List Nat) (rest : List ReadEvent) (k : Nat)
    (h : ¬ c.length ≤ k) :
    sock_read (ReadEvent.data c :: rest) k
      = some ((k : Int), c.take k, ReadEvent.data (c.drop k) :: rest) := by
  simp only [sock_read]
  rw [if_neg h]

theorem fill_chunks (more : List ReadEvent) (n : Nat) (hn : n < 32768) :
    ∀ (chunks : List (List Nat)) (body : List Nat) (cur fuel : Nat),
      cur ≤ n → (∀ c ∈ chunks, c ≠ []) → chunks.flatten.length = n - cur →
      chunks.length + 1 ≤ fuel →
      pt_callback_fill fuel (chunks.map ReadEvent.data ++ more) body cur n
        = some (some (body ++ chunks.flatten, more)) := by
  intro chunks
  induction chunks with
  | nil =>
      intro body cur fuel hc _ hlen hf
      obtain ⟨f, rfl⟩ : ∃ f, fuel = f + 1 := ⟨fuel - 1, by omega⟩
      simp only [List.flatten_nil, List.length_nil] at hlen
      rw [fill_done f _ _ _ _ (by omega)]
      simp
  | cons c cs ih =>
      intro body cur fuel hc hne hlen hf
      obtain ⟨f, rfl⟩ : ∃ f, fuel = f + 1 := ⟨fuel - 1, by omega⟩
      simp only [List.flatten_cons, List.length_append] at hlen
      have hc0 : c ≠ [] := hne c (List.mem_cons_self _ _)
      have hcl : 0 < c.length := List.length_pos.mpr hc0
      have e : ((n : Int) - (cur : Int)).toNat = n - cur := by omega
      rw [List.map_cons, List.cons_append, pt_callback_fill, if_pos (by omega), e,
        sock_read_chunk_le c _ _ (by omega)]
      simp only
      rw [if_neg (by omega), s16_small _ (by omega) (by omega)]
      have := ih (body ++ c) (cur + c.length) f (by omega)
        (fun x hx => hne x (List.mem_cons_of_mem _ hx)) (by omega)
        (by simp only [List.length_cons] at hf; omega)
      rw [show ((cur : Int) + (c.length : Int)) = ((cur + c.length : Nat) : Int) by push_cast; rfl,
        this]
      simp

theorem fill_error (more : List ReadEvent) (n : Nat) (hn : n < 32768) :
    ∀ (chunks : List (List Nat)) (body : List Nat) (cur fuel : Nat),
      chunks.flatten.length + cur < n → chunks.length + 1 ≤ fuel →
      pt_callback_fill fuel (chunks.map ReadEvent.data ++ ReadEvent.error :: more) body cur n
        = some none := by
  intro chunks
  induction chunks with
  | nil =>
      intro body cur fuel hlen hf
      obtain ⟨f, rfl⟩ : ∃ f, fuel = f + 1 := ⟨fuel - 1, by omega⟩
      simp only [List.flatten_nil, List.length_nil] at hlen
      rw [List.map_nil, List.nil_append, pt_callback_fill, if_pos (by omega)]
      rfl
  | cons c cs ih =>
      intro body cur fuel hlen hf
      obtain ⟨f, rfl⟩ : ∃ f, fuel = f + 1 := ⟨fuel - 1, by omega⟩
      simp only [List.flatten_cons, List.length_append] at hlen
      have e : ((n : Int) - (cur : Int)).toNat = n - cur := by omega
      rw [List.map_cons, List.cons_append, pt_callback_fill, if_pos (by omega), e,
        sock_read_chunk_le c _ _ (by omega)]
      simp only
      rw [if_neg (by omega), s16_small _ (by omega) (by omega)]
      have := ih (body ++ c) (cur + c.length) f (by omega)
        (by simp only [List.length_cons] at hf; omega)
      rw [show ((cur : Int) + (c.length : Int)) = ((cur + c.length : Nat) : Int) by push_cast; rfl,
        this]

theorem fill_eof (more : List ReadEvent) (n : Nat) (hn : n < 32768) :
    ∀ (fuel : Nat) (chunks : List (List Nat)) (body : List Nat) (cur : Nat),
      chunks.flatten.length + cur < n →
      pt_callback_fill fuel (chunks.map ReadEvent.data ++ ReadEvent.eof :: more) body cur n
        = none := by
  intro fuel
  induction fuel with
  | zero => intro chunks body cur _; rfl
  | succ f ih =>
      intro chunks body cur hlen
      have e : ((n : Int) - (cur : Int)).toNat = n - cur := by omega
      cases chunks with
      | nil =>
          simp only [List.flatten_nil, List.length_nil] at hlen
          rw [List.map_nil, List.nil_append, pt_callback_fill, if_pos (by omega)]
          simp only [sock_read]
          rw [if_neg (by decide), Int.add_zero, s16_small _ (by omega) (by omega)]
          have := ih [] (body ++ []) cur (by simpa using hlen)
          simpa using this
      | cons c cs =>
          simp only [List.flatten_cons, List.length_append] at hlen
          rw [List.map_cons, List.cons_append, pt_callback_fill, if_pos (by omega), e,
            sock_read_chunk_le c _ _ (by omega)]
          simp only
          rw [if_neg (by omega), s16_small _ (by omega) (by omega)]
          have := ih cs (body ++ c) (cur + c.length) (by omega)
          rw [show ((cur : Int) + (c.length : Int)) = ((cur + c.length : Nat) : Int) by
            push_cast; rfl, this]

theorem pt_callback_frame_header (b0 b1 b2 b3 b4 b5 : Nat) (sock1 : List ReadEvent)
    (fuel : Nat) (h4 : b4 < 128) (h5 : b5 < 256)
    (hdisc : ¬ (b0 = 0 ∧ b1 = 0 ∧ b3 = 0)) :
    pt_callback_frame fuel (ReadEvent.data [b0, b1, b2, b3, b4, b5] :: sock1)
      = match pt_callback_fill fuel sock1 [] 0 ((b4 * 256 + b5 : Nat) : Int) with
        | none => none
        | some none => some FrameResult.disconnected
        | some (some (body, sock2)) =>
            some (FrameResult.frame ([b0, b1, b2, b3, b4, b5] ++ body
              ++ List.replicate (((b4 * 256 + b5 : Nat) : Int) + 2 - body.length).toNat 0)
              sock2) := by
  have hL : PACKET_GET_LENGTH [b0, b1, b2, b3, b4, b5]
      = some ((b4 * 256 + b5 : Nat) : Int) := by
    simp [PACKET_GET_LENGTH, PACKET_GET_SHORT, ntohs_at, s16_be b4 b5 (by omega) h5,
      spec_i16be, h4]
  unfold pt_callback_frame
  rw [sock_read_chunk_le _ _ 6 (by simp)]
  simp only [List.length_cons, List.length_nil]
  rw [if_neg (by decide), if_neg (by decide)]
  simp only [List.getD_cons_zero, List.getD_cons_succ]
  rw [if_neg hdisc, hL]
  simp only
  rw [if_neg (by omega)]

/-- C23: after the 6-byte header with body length `n` (below 0x8000), `pt_callback` takes
the body from the reads in arrival order, whatever their sizes, and hands the header, the
`n` body bytes and the padding to the dispatcher, leaving what follows on the socket; a
read that fails before `n` bytes have arrived ends the call with `Disconnected` and no
frame; but at a read that returns 0 (the peer closed the socket) before `n` bytes have
arrived the loop `while (cur < waitlen)` reads again with `cur` unchanged, so the call
never returns, whatever the number of rounds allowed. -/
theorem pt_callback_frame_short_reads (b0 b1 b2 b3 b4 b5 : Nat) (chunks : List (List Nat))
    (more : List ReadEvent) (h4 : b4 < 128) (h5 : b5 < 256)
    (hdisc : ¬ (b0 = 0 ∧ b1 = 0 ∧ b3 = 0)) (hne : ∀ c ∈ chunks, c ≠ []) :
    (chunks.flatten.length = b4 * 256 + b5 → ∀ fuel, chunks.length + 1 ≤ fuel →
      pt_callback_frame fuel
          (ReadEvent.data [b0, b1, b2, b3, b4, b5] :: (chunks.map ReadEvent.data ++ more))
        = some (FrameResult.frame ([b0, b1, b2, b3, b4, b5] ++ chunks.flatten ++ [0, 0])
            more)) ∧
    (chunks.flatten.length < b4 * 256 + b5 → ∀ fuel, chunks.length + 1 ≤ fuel →
      pt_callback_frame fuel
          (ReadEvent.data [b0, b1, b2, b3, b4, b5]
            :: (chunks.map ReadEvent.data ++ ReadEvent.error :: more))
        = some FrameResult.disconnected) ∧
    (chunks.flatten.length < b4 * 256 + b5 → ∀ fuel,
      pt_callback_frame fuel
          (ReadEvent.data [b0, b1, b2, b3, b4, b5]
            :: (chunks.map ReadEvent.data ++ ReadEvent.eof :: more))
        = none) := by
  have hn : b4 * 256 + b5 < 32768 := by omega
  refine ⟨?_, ?_, ?_⟩
  · intro hlen fuel hf
    rw [pt_callback_frame_header b0 b1 b2 b3 b4 b5 _ fuel h4 h5 hdisc]
    have := fill_chunks more (b4 * 256 + b5) hn chunks [] 0 fuel (by omega) hne
      (by omega) hf
    rw [show ((0 : Nat) : Int) = 0 from rfl] at this
    rw [this]
    simp only [List.nil_append]
    rw [hlen]
    have e : (((b4 * 256 + b5 : Nat) : Int) + 2 - ((b4 * 256 + b5 : Nat) : Int)).toNat = 2 := by
      omega
    rw [e]
    rfl
  · intro hlen fuel hf
    rw [pt_callback_frame_header b0 b1 b2 b3 b4 b5 _ fuel h4 h5 hdisc]
    have := fill_error more (b4 * 256 + b5) hn chunks [] 0 fuel (by omega) hf
    rw [show ((0 : Nat) : Int) = 0 from rfl] at this
    rw [this]
  · intro hlen fuel
    rw [pt_callback_frame_header b0 b1 b2 b3 b4 b5 _ fuel h4 h5 hdisc]
    have := fill_eof more (b4 * 256 + b5) hn fuel chunks [] 0 (by omega)
    rw [show ((0 : Nat) : Int) = 0 from rfl] at this
    rw [this]

set_option maxRecDepth 1000000 in
/-- C23 (witness): the header `FF EC 00 53 00 04` (body length 4) with the body arriving
as `00 00`, `00`, `1E`; with `00 00` and then a failing read; with `00 00` and then the end of the
stream. -/
theorem pt_callback_frame_short_reads_witness :
    pt_callback_frame 4
        (ReadEvent.data [0xFF, 0xEC, 0x00, 0x53, 0x00, 0x04]
          :: ([[0, 0], [0], [0x1E]].map ReadEvent.data ++ []))
      = some (FrameResult.frame ([0xFF, 0xEC, 0x00, 0x53, 0x00, 0x04]
          ++ [[0, 0], [0], [0x1E]].flatten ++ [0, 0]) []) ∧
    pt_callback_frame 2
        (ReadEvent.data [0xFF, 0xEC, 0x00, 0x53, 0x00, 0x04]
          :: ([[0, 0]].map ReadEvent.data ++ ReadEvent.error :: []))
      = some FrameResult.disconnected ∧
    pt_callback_frame 1000
        (ReadEvent.data [0xFF, 0xEC, 0x00, 0x53, 0x00, 0x04]
          :: ([[0, 0]].map ReadEvent.data ++ ReadEvent.eof :: []))
      = none :=
  ⟨(pt_callback_frame_short_reads 0xFF 0xEC 0x00 0x53 0x00 0x04 [[0, 0], [0], [0x1E]] []
      (by decide) (by decide) (by decide) (by decide)).1 (by decide) 4 (by decide),
   (pt_callback_frame_short_reads 0xFF 0xEC 0x00 0x53 0x00 0x04 [[0, 0]] []
      (by decide) (by decide) (by decide) (by decide)).2.1 (by decide) 2 (by decide),
   (pt_callback_frame_short_reads 0xFF 0xEC 0x00 0x53 0x00 0x04 [[0, 0]] []
      (by decide) (by decide) (by decide) (by decide)).2.2 (by decide) 1000⟩



/-! ## Suppression of outgoing voice -/

theorem u16_s16_succ (x : Int) : u16 (s16 (x + 1)) = (u16 x + 1) % 65536 := by
  unfold u16 s16
  split <;> omega

theorem audio_packet_sequence (uin rtpseq : Int) (now : Nat) (b0 b1 b2 b3 : List Nat) :
    (audio_packet uin rtpseq now b0 b1 b2 b3).getD 2 0 * 256
      + (audio_packet uin rtpseq now b0 b1 b2 b3).getD 3 0 = u16 rtpseq := by
  have ht : audio_packet uin rtpseq now b0 b1 b2 b3
      = (u16 0x8003 / 256) :: (u16 0x8003 % 256) :: (u16 rtpseq / 256) :: (u16 rtpseq % 256)
        :: (htonl_bytes now ++ (htonl_bytes uin ++ (b0.take 33 ++ (b1.take 33
          ++ (b2.take 33 ++ (b3.take 33 ++ host_long_bytes uin)))))) := by
    simp only [audio_packet, htons_bytes, List.cons_append, List.nil_append,
      List.append_assoc]
  rw [ht]
  simp only [List.getD_cons_succ, List.getD_cons_zero]
  omega

theorem audio_write_valid (s : GaimMediaStream) (b0 b1 b2 b3 : List Nat)
    (more : List (Option (List Nat))) (size : Nat) (rd : PTRoomData) (ptd : PTData)
    (rtpseq : Int) (now : Nat) (hsize : size ≠ 0)
    (h0 : 33 ≤ b0.length) (h1 : 33 ≤ b1.length) (h2 : 33 ≤ b2.length) (h3 : 33 ≤ b3.length) :
    pt_media_stream_audio_write (some s)
        (some (some b0 :: some b1 :: some b2 :: some b3 :: more)) size rd ptd rtpseq now
      = if rd.speaker.isSome then some (0, rtpseq, [])
        else some (148, s16 (rtpseq + 1),
          htonl_bytes 148 ++ audio_packet ptd.uin (s16 (rtpseq + 1)) now b0 b1 b2 b3) := by
  simp only [pt_media_stream_audio_write, if_neg hsize, h0, h1, h2, h3, and_self, if_true]

/-- C24 (amended): with valid arguments (a stream, four frame buffers, a non-zero size)
`pt_media_stream_audio_write` returns 0, writes nothing and leaves `rtpseq` unchanged
exactly when the speaker field of the room is set; when it is unset it returns 148 and
writes one datagram whose sequence number is one more, modulo 2^16, than the counter, which
holds the sequence number of the datagram sent before.  With an argument missing or a size
of 0 it returns -1, writes nothing and leaves `rtpseq` unchanged, whatever the speaker field
holds. -/
theorem pt_media_stream_audio_write_suppressed (s : GaimMediaStream)
    (b0 b1 b2 b3 : List Nat) (more : List (Option (List Nat))) (size : Nat) (rd : PTRoomData)
    (ptd : PTData) (rtpseq : Int) (now : Nat) (hsize : size ≠ 0)
    (h0 : 33 ≤ b0.length) (h1 : 33 ≤ b1.length) (h2 : 33 ≤ b2.length) (h3 : 33 ≤ b3.length) :
    (∃ (ret seq : Int) (out : List Nat),
      pt_media_stream_audio_write (some s)
          (some (some b0 :: some b1 :: some b2 :: some b3 :: more)) size rd ptd rtpseq now
        = some (ret, seq, out) ∧
      (ret = 0 ↔ rd.speaker.isSome) ∧ (out = [] ↔ rd.speaker.isSome) ∧
      (seq = rtpseq ↔ rd.speaker.isSome) ∧
      (rd.speaker = none →
        ∃ packet, ret = 148 ∧ out = [0, 0, 0, 148] ++ packet ∧ packet.length = 148 ∧
          packet.getD 2 0 * 256 + packet.getD 3 0 = (u16 rtpseq + 1) % 65536 ∧
          u16 seq = (u16 rtpseq + 1) % 65536)) ∧
    pt_media_stream_audio_write none (some (some b0 :: some b1 :: some b2 :: some b3 :: more))
        size rd ptd rtpseq now = some (-1, rtpseq, []) ∧
    pt_media_stream_audio_write (some s) none size rd ptd rtpseq now
      = some (-1, rtpseq, []) ∧
    pt_media_stream_audio_write (some s)
        (some (some b0 :: some b1 :: some b2 :: some b3 :: more)) 0 rd ptd rtpseq now
      = some (-1, rtpseq, []) ∧
    pt_media_stream_audio_write (some s) (some (none :: more)) size rd ptd rtpseq now
      = some (-1, rtpseq, []) := by
  have hv := audio_write_valid s b0 b1 b2 b3 more size rd ptd rtpseq now hsize h0 h1 h2 h3
  refine ⟨?_, rfl, rfl, ?_, ?_⟩
  · cases hsp : rd.speaker with
    | some name =>
        rw [hsp] at hv
        refine ⟨0, rtpseq, [], hv, by simp, by simp, by simp, ?_⟩
        intro h
        cases h
    | none =>
        rw [hsp] at hv
        refine ⟨148, s16 (rtpseq + 1), _, hv, by simp, ?_, ?_, ?_⟩
        · simp [htonl_bytes]
        · have : s16 (rtpseq + 1) ≠ rtpseq := by
            unfold s16
            split <;> omega
          simp [this]
        · intro _
          refine ⟨audio_packet ptd.uin (s16 (rtpseq + 1)) now b0 b1 b2 b3, rfl, rfl,
            audio_packet_length _ _ _ _ _ _ _ h0 h1 h2 h3, ?_, u16_s16_succ rtpseq⟩
          rw [audio_packet_sequence, u16_s16_succ]
  · simp [pt_media_stream_audio_write]
  · simp [pt_media_stream_audio_write, hsize]

set_option maxRecDepth 1000000 in
/-- C24 (witness): four frames of `0xAA`, size 4, the session 777, `rtpseq` 1233, once in
a room without speaker and once in a room with one. -/
theorem pt_media_stream_audio_write_suppressed_witness :
    (∃ (ret seq : Int) (out : List Nat),
      pt_media_stream_audio_write (some {})
          (some (some gsm_frame_aa :: some gsm_frame_aa :: some gsm_frame_aa
            :: some gsm_frame_aa :: [])) 4 {} session_777 1233 5000000
        = some (ret, seq, out) ∧
      (ret = 0 ↔ ({} : PTRoomData).speaker.isSome) ∧
      (out = [] ↔ ({} : PTRoomData).speaker.isSome) ∧
      (seq = 1233 ↔ ({} : PTRoomData).speaker.isSome) ∧
      (({} : PTRoomData).speaker = none →
        ∃ packet, ret = 148 ∧ out = [0, 0, 0, 148] ++ packet ∧ packet.length = 148 ∧
          packet.getD 2 0 * 256 + packet.getD 3 0 = (u16 1233 + 1) % 65536 ∧
          u16 seq = (u16 1233 + 1) % 65536)) ∧
    pt_media_stream_audio_write (some {})
        (some (some gsm_frame_aa :: some gsm_frame_aa :: some gsm_frame_aa
          :: some gsm_frame_aa :: [])) 4 room_speaking session_777 1233 5000000
      = some (0, 1233, []) :=
  ⟨(pt_media_stream_audio_write_suppressed {} gsm_frame_aa gsm_frame_aa gsm_frame_aa
      gsm_frame_aa [] 4 {} session_777 1233 5000000 (by decide) (by decide) (by decide)
      (by decide) (by decide)).1, rfl⟩

set_option maxRecDepth 1000000 in
/-- C24 (counterexample): in a room whose speaker field is set, a call with size 0 returns
-1, not 0. -/
theorem pt_media_stream_audio_write_size_zero :
    room_speaking.speaker.isSome = true ∧
    pt_media_stream_audio_write (some {})
        (some (some gsm_frame_aa :: some gsm_frame_aa :: some gsm_frame_aa
          :: some gsm_frame_aa :: [])) 0 room_speaking session_777 1233 5000000
      = some (-1, 1233, []) :=
  ⟨rfl, rfl⟩



/-! ## The frames after the login -/

theorem pt_encode_key_some (data : PTData) (s key : List Nat)
    (hk : data.serverkey = some key) (hlen : 7 ≤ key.length)
    (hlo : 509 ≤ atoi ((key.drop 4).take 3))
    (hhi : atoi ((key.drop 4).take 3) + s.length ≤ 863) :
    ∃ out t, pt_encode data s 1 0 = some (out, { data with time := t }) := by
  refine ⟨_, _, pt_encode_closed_form data s 1 0 (by decide) (fun _ => ⟨key, hk, hlen⟩) ?_⟩
  intro i hi
  have hb : spec_base data 1 0 = atoi ((key.drop 4).take 3) - 509 := by
    simp [spec_base, hk]
  rw [hb, lymerick_length]
  constructor <;> omega

theorem pt_encode_wierd_some (data : PTData) (s : List Nat) (hw : data.wierd = 0)
    (hs : s.length ≤ 354) :
    ∃ out t, pt_encode data s 3 0 = some (out, { data with time := t }) := by
  refine ⟨_, _, pt_encode_closed_form data s 3 0 (by decide) (fun h => ?_) ?_⟩
  · rcases h with h | h <;> exact absurd h (by decide)
  · intro i hi
    have hb : spec_base data 3 0 = 0 := by
      simp [spec_base, hw]
    rw [hb, lymerick_length]
    constructor <;> omega

theorem send_checksums_some (ptd : PTData) (key : List Nat)
    (hk : ptd.serverkey = some key) (hlen : 7 ≤ key.length)
    (hlo : 509 ≤ atoi ((key.drop 4).take 3)) (hhi : atoi ((key.drop 4).take 3) ≤ 852) :
    ∃ t out, send_checksums ptd = some ({ ptd with time := t }, out) := by
  obtain ⟨o0, t0, e0⟩ := pt_encode_key_some ptd (checksums 0) key hk hlen hlo
    (by have : (checksums 0).length = 2 := rfl
        omega)
  obtain ⟨o1, t1, e1⟩ := pt_encode_key_some { ptd with time := t0 } (checksums 1) key hk hlen
    hlo (by have : (checksums 1).length = 9 := rfl
            omega)
  obtain ⟨o2, t2, e2⟩ := pt_encode_key_some { ptd with time := t1 } (checksums 2) key hk hlen
    hlo (by have : (checksums 2).length = 10 := rfl
            omega)
  obtain ⟨o3, t3, e3⟩ := pt_encode_key_some { ptd with time := t2 } (checksums 3) key hk hlen
    hlo (by have : (checksums 3).length = 11 := rfl
            omega)
  obtain ⟨o4, t4, e4⟩ := pt_encode_key_some { ptd with time := t3 } (checksums 4) key hk hlen
    hlo (by have : (checksums 4).length = 10 := rfl
            omega)
  obtain ⟨o5, t5, e5⟩ := pt_encode_key_some { ptd with time := t4 } (cstr "0") key hk hlen
    hlo (by have : (cstr "0").length = 1 := rfl
            omega)
  refine ⟨t5, checksums_body o0 o1 o2 o3 o4 o5, ?_⟩
  unfold send_checksums
  rw [e0, Option.some_bind]
  simp only
  rw [e1, Option.some_bind]
  simp only
  rw [e2, Option.some_bind]
  simp only
  rw [e3, Option.some_bind]
  simp only
  rw [e4, Option.some_bind]
  simp only
  rw [e5, Option.some_bind]

theorem send_versions_some (ptd : PTData) (ctmp : List Nat) (hl : ctmp.length ≤ 354) :
    ∃ t s2 s3 s4 s5 s6 s7,
      send_versions ptd [VaArg.str ctmp]
        = some ({ ptd with time := t, wierd := 0 },
            versions_body { ptd with time := t, wierd := 0 } s2 s3 s4 s5 s6 s7) := by
  have hw := GET_WIERD_NUMBER_wierd ptd
  have hg : GET_WIERD_NUMBER ptd = { ptd with time := next_time ptd.time, wierd := 0 } := by
    have e : GET_WIERD_NUMBER ptd
        = { ptd with time := next_time ptd.time, wierd := (GET_WIERD_NUMBER ptd).wierd } := rfl
    rw [e, hw]
  obtain ⟨o2, t2, e2⟩ := pt_encode_wierd_some { ptd with time := next_time ptd.time, wierd := 0 }
    (g_strup (printf_prec_x 8 DEFAULT_HD_SERIAL)) rfl (by rw [hd_serial_string]; decide)
  obtain ⟨o3, t3, e3⟩ := pt_encode_wierd_some { ptd with time := t2, wierd := 0 }
    (cstr "????????") rfl (by decide)
  obtain ⟨o4, t4, e4⟩ := pt_encode_wierd_some { ptd with time := t3, wierd := 0 }
    WINBLOWS_VERSION rfl (by decide)
  obtain ⟨o5, t5, e5⟩ := pt_encode_wierd_some { ptd with time := t4, wierd := 0 }
    ctmp rfl hl
  obtain ⟨o6, t6, e6⟩ := pt_encode_wierd_some { ptd with time := t5, wierd := 0 }
    (cstr "-1") rfl (by decide)
  obtain ⟨o7, t7, e7⟩ := pt_encode_wierd_some { ptd with time := t6, wierd := 0 }
    IE_PRODUCT_ID rfl (by decide)
  refine ⟨t7, o2, o3, o4, o5, o6, o7, ?_⟩
  unfold send_versions
  simp only
  unfold send_versions_text
  rw [hg, e2, Option.some_bind]
  simp only
  rw [e3, Option.some_bind]
  simp only
  rw [e4, Option.some_bind]
  simp only
  rw [e5, Option.some_bind]
  simp only
  rw [e6, Option.some_bind]
  simp only
  rw [e7, Option.some_bind]

theorem pt_send_packet_checksums (ptd : PTData) (now : Nat) :
    pt_send_packet ptd now PACKET_CHECKSUMS []
      = (send_checksums ptd).map (fun r => (r.1, packet_header PACKET_CHECKSUMS ++ r.2)) :=
  rfl

theorem pt_send_packet_versions (ptd : PTData) (now : Nat) (args : List VaArg) :
    pt_send_packet ptd now PACKET_VERSIONS args
      = (send_versions ptd args).map (fun r => (r.1, packet_header PACKET_VERSIONS ++ r.2)) :=
  rfl

theorem pt_send_packet_fontdepth (ptd : PTData) (now : Nat) :
    pt_send_packet ptd now PACKET_UIN_FONTDEPTH_ETC []
      = (send_uin_fontdepth_etc ptd now).map
          (fun r => (r.1, packet_header PACKET_UIN_FONTDEPTH_ETC ++ r.2)) :=
  rfl

theorem pt_send_packet_version_info (ptd : PTData) (now : Nat) :
    pt_send_packet ptd now PACKET_VERSION_INFO []
      = some (ptd, packet_header PACKET_VERSION_INFO
          ++ (htons_bytes (checksums 5).length ++ checksums 5)) :=
  rfl

theorem statuschange_frames_some (ptd : PTData) (now : Nat) (key : List Nat)
    (hk : ptd.serverkey = some key) (hlen : 7 ≤ key.length)
    (hlo : 509 ≤ atoi ((key.drop 4).take 3)) (hhi : atoi ((key.drop 4).take 3) ≤ 852) :
    ∃ b1 b2 b3 b4,
      statuschange_frames ptd now
        = some ({ ptd with time := INIT_TIME now, wierd := 0 },
            [packet_header PACKET_CHECKSUMS ++ b1, packet_header PACKET_VERSIONS ++ b2,
             packet_header PACKET_UIN_FONTDEPTH_ETC ++ b3,
             packet_header PACKET_VERSION_INFO ++ b4]) := by
  obtain ⟨t1, o1, e1⟩ := send_checksums_some ptd key hk hlen hlo hhi
  obtain ⟨t2, s2, s3, s4, s5, s6, s7, e2⟩ :=
    send_versions_some { ptd with time := t1 } MAC_ADDRESS (by decide)
  refine ⟨o1, versions_body { ptd with time := t2, wierd := 0 } s2 s3 s4 s5 s6 s7,
    [0x00, 0x24] ++ ([0x00, 0x00, 0x00, 0x00, 0x00, 0x01] ++ htonl_bytes ptd.uin
      ++ [0x00, 0x00, 0x04, 0x45]
      ++ (fontdepth_loop IE_PRODUCT_ID 2
            (((List.replicate 23 0).set 0 (INIT_TIME now % 7 + 48)).set 1
              (INIT_TIME now % 3 + 48))).take 22),
    htons_bytes (checksums 5).length ++ checksums 5, ?main⟩
  case main =>
    unfold statuschange_frames
    rw [pt_send_packet_checksums, e1, Option.map_some', Option.some_bind]
    simp only
    rw [pt_send_packet_versions, e2, Option.map_some', Option.some_bind]
    simp only
    rw [pt_send_packet_fontdepth]
    unfold send_uin_fontdepth_etc
    simp only [Option.map_some', Option.some_bind]
    rw [pt_send_packet_version_info]
    rfl

theorem packet_get_type_header (b : List Nat) :
    PACKET_GET_TYPE (packet_header PACKET_CHECKSUMS ++ b) = some PACKET_CHECKSUMS
    ∧ PACKET_GET_TYPE (packet_header PACKET_VERSIONS ++ b) = some PACKET_VERSIONS
    ∧ PACKET_GET_TYPE (packet_header PACKET_UIN_FONTDEPTH_ETC ++ b)
        = some PACKET_UIN_FONTDEPTH_ETC
    ∧ PACKET_GET_TYPE (packet_header PACKET_VERSION_INFO ++ b) = some PACKET_VERSION_INFO :=
  ⟨rfl, rfl, rfl, rfl⟩

theorem packet_get_long_some (X : List Nat) (O : Nat) (h : O + 3 < X.length) :
    ∃ v, PACKET_GET_LONG X O = some v := by
  unfold PACKET_GET_LONG
  rw [ntohl_at_getD X O h]
  exact ⟨_, rfl⟩

theorem buddy_statuschange_connected (ptd : PTData) (blist : List GaimBuddy) (now : Nat)
    (waitbuf : List Nat) (hw : 14 ≤ waitbuf.length) :
    ∃ bl, pt_callback_buddy_statuschange ptd GaimConnectionState.GAIM_CONNECTED blist now
        waitbuf
      = some { ptd := ptd, state := GaimConnectionState.GAIM_CONNECTED, blist := bl,
               out := [] } := by
  obtain ⟨u, hu⟩ := packet_get_long_some waitbuf 6 (by omega)
  obtain ⟨v, hv⟩ := packet_get_long_some waitbuf 10 (by omega)
  unfold pt_callback_buddy_statuschange
  rw [hu, hv]
  simp only [Option.map_some']
  by_cases hb : (blist.any fun b => b.name == (printf_d u).take 11) = true
  · rw [if_pos hb]
    exact ⟨_, rfl⟩
  · rw [if_neg hb]
    exact ⟨_, rfl⟩

theorem buddy_statuschanges_connected (frames : List (Nat × List Nat))
    (hw : ∀ f ∈ frames, 14 ≤ f.2.length) (ptd : PTData) (blist : List GaimBuddy)
    (out : List (List Nat)) :
    ∃ bl, pt_callback_buddy_statuschanges
        { ptd := ptd, state := GaimConnectionState.GAIM_CONNECTED, blist := blist,
          out := out } frames
      = some { ptd := ptd, state := GaimConnectionState.GAIM_CONNECTED, blist := bl,
               out := out } := by
  induction frames generalizing blist with
  | nil => exact ⟨blist, rfl⟩
  | cons f rest ih =>
      obtain ⟨now, waitbuf⟩ := f
      obtain ⟨bl, e⟩ := buddy_statuschange_connected ptd blist now waitbuf
        (hw (now, waitbuf) (List.mem_cons_self _ _))
      obtain ⟨bl2, e2⟩ := ih (fun f hf => hw f (List.mem_cons_of_mem _ hf)) bl
      refine ⟨bl2, ?_⟩
      simp only [pt_callback_buddy_statuschanges]
      rw [e]
      simp only [List.append_nil]
      exact e2

/-! ## The four frames, byte by byte -/

theorem pt_encode_key_closed (d : PTData) (s key : List Nat)
    (hk : d.serverkey = some key) (hlen : 7 ≤ key.length)
    (hlo : 509 ≤ atoi ((key.drop 4).take 3)) (hhi : atoi ((key.drop 4).take 3) ≤ 852)
    (hs : s.length ≤ 11) :
    pt_encode d s 1 0 = some (spec_encode d s 1 0, spec_after d s) := by
  refine pt_encode_closed_form d s 1 0 (by decide) (fun _ => ⟨key, hk, hlen⟩) ?_
  intro i hi
  have hb : spec_base d 1 0 = atoi ((key.drop 4).take 3) - 509 := by
    simp [spec_base, hk]
  rw [hb, lymerick_length]
  constructor <;> omega

theorem pt_encode_wierd_closed (d : PTData) (s : List Nat) (hw : d.wierd = 0)
    (hs : s.length ≤ 354) :
    pt_encode d s 3 0 = some (spec_encode d s 3 0, spec_after d s) := by
  refine pt_encode_closed_form d s 3 0 (by decide) (fun h => ?_) ?_
  · rcases h with h | h <;> exact absurd h (by decide)
  · intro i hi
    have hb : spec_base d 3 0 = 0 := by
      simp [spec_base, hw]
    rw [hb, lymerick_length]
    constructor <;> omega

theorem GET_WIERD_NUMBER_eq (d : PTData) :
    GET_WIERD_NUMBER d = { d with time := next_time d.time, wierd := 0 } := by
  have e : GET_WIERD_NUMBER d
      = { d with time := next_time d.time, wierd := (GET_WIERD_NUMBER d).wierd } := rfl
  rw [e, GET_WIERD_NUMBER_wierd d]

theorem fontdepth_loop_set (i x : Nat) : ∀ (s : List Nat) (j : Int) (l : List Nat),
    (∀ k ∈ fontdepth_stores s j, k.toNat ≠ i) →
    fontdepth_loop s j (l.set i x) = (fontdepth_loop s j l).set i x := by
  intro s
  induction s with
  | nil => intro j l _; rfl
  | cons c rest ih =>
      intro j l h
      by_cases hd : g_ascii_isdigit c = true
      · have hj : j.toNat ≠ i := h j (by simp [fontdepth_stores, hd])
        have hr : ∀ k ∈ fontdepth_stores rest (s16 (j + 1)), k.toNat ≠ i := by
          intro k hk
          exact h k (by simp [fontdepth_stores, hd, hk])
        simp only [fontdepth_loop, if_pos hd]
        rw [List.set_comm _ _ _ (Ne.symm hj), ih _ _ hr]
      · have hr : ∀ k ∈ fontdepth_stores rest (s16 (j + 1)), k.toNat ≠ i := by
          intro k hk
          exact h k (by simp [fontdepth_stores, hd, hk])
        simp only [fontdepth_loop, if_neg hd]
        exact ih _ _ hr

set_option maxRecDepth 1000000 in
theorem fontdepth_blob (x y : Nat) :
    (fontdepth_loop IE_PRODUCT_ID 2 (((List.replicate 23 0).set 0 x).set 1 y)).take 22
      = [x, y, 94, 91, 99, 99, 96, 0, 93, 94, 97, 0, 98, 96, 96, 101, 97, 91, 97, 0, 92,
         102] := by
  have e : fontdepth_loop IE_PRODUCT_ID 2 (List.replicate 23 0)
      = [0, 0, 94, 91, 99, 99, 96, 0, 93, 94, 97, 0, 98, 96, 96, 101, 97, 91, 97, 0, 92,
         102, 97] := by decide
  rw [fontdepth_loop_set 1 y IE_PRODUCT_ID 2 _ (by decide),
    fontdepth_loop_set 0 x IE_PRODUCT_ID 2 _ (by decide), e]
  rfl

set_option maxRecDepth 1000000 in
theorem version_info_text :
    htons_bytes (checksums 5).length ++ checksums 5
      = [0x00, 0x26] ++ cstr "\x7b0A7FA8AB-9BC1-49b6-9C66-5AFFA4CD57AB\x7d" := by
  decide

theorem spec_after_serverkey (d : PTData) (s : List Nat) :
    (spec_after d s).serverkey = d.serverkey := rfl

theorem spec_after_set_time (d : PTData) (s : List Nat) (t : Nat) :
    ({ spec_after d s with time := t } : PTData) = { d with time := t } := rfl

theorem spec_checksums_after_set_time (d : PTData) (t : Nat) :
    ({ spec_checksums_after d with time := t } : PTData) = { d with time := t } := by
  unfold spec_checksums_after
  rw [spec_after_set_time, spec_after_set_time, spec_after_set_time, spec_after_set_time,
    spec_after_set_time, spec_after_set_time]

theorem spec_after_set_online (d : PTData) (s : List Nat) (t : Nat) :
    ({ spec_after d s with time := t, wierd := 0 } : PTData)
      = { d with time := t, wierd := 0 } := rfl

theorem spec_checksums_after_set_online (d : PTData) (t : Nat) :
    ({ spec_checksums_after d with time := t, wierd := 0 } : PTData)
      = { d with time := t, wierd := 0 } := by
  unfold spec_checksums_after
  rw [spec_after_set_online, spec_after_set_online, spec_after_set_online,
    spec_after_set_online, spec_after_set_online, spec_after_set_online]

theorem spec_versions_after_set_time (d : PTData) (t : Nat) :
    ({ spec_versions_after d with time := t } : PTData) = { d with time := t, wierd := 0 } := by
  unfold spec_versions_after
  rw [spec_after_set_time, spec_after_set_time, spec_after_set_time, spec_after_set_time,
    spec_after_set_time, spec_after_set_time]
  unfold spec_versions_start
  rfl

theorem spec_after_uin (d : PTData) (s : List Nat) : (spec_after d s).uin = d.uin := rfl

theorem spec_checksums_after_uin (d : PTData) : (spec_checksums_after d).uin = d.uin := by
  unfold spec_checksums_after
  rw [spec_after_uin, spec_after_uin, spec_after_uin, spec_after_uin, spec_after_uin,
    spec_after_uin]

theorem spec_versions_after_uin (d : PTData) : (spec_versions_after d).uin = d.uin := by
  unfold spec_versions_after
  rw [spec_after_uin, spec_after_uin, spec_after_uin, spec_after_uin, spec_after_uin,
    spec_after_uin]
  unfold spec_versions_start
  rfl

theorem send_checksums_closed (d : PTData) (key : List Nat)
    (hk : d.serverkey = some key) (hlen : 7 ≤ key.length)
    (hlo : 509 ≤ atoi ((key.drop 4).take 3)) (hhi : atoi ((key.drop 4).take 3) ≤ 852) :
    (send_checksums d).map (fun r => (r.1, packet_header PACKET_CHECKSUMS ++ r.2))
      = some (spec_checksums_after d, spec_checksums_frame d) := by
  have l0 : (checksums 0).length ≤ 11 := by
    have : (checksums 0).length = 2 := rfl
    omega
  have l1 : (checksums 1).length ≤ 11 := by
    have : (checksums 1).length = 9 := rfl
    omega
  have l2 : (checksums 2).length ≤ 11 := by
    have : (checksums 2).length = 10 := rfl
    omega
  have l3 : (checksums 3).length ≤ 11 := by
    have : (checksums 3).length = 11 := rfl
    omega
  have l4 : (checksums 4).length ≤ 11 := by
    have : (checksums 4).length = 10 := rfl
    omega
  have l5 : (cstr "0").length ≤ 11 := by
    have : (cstr "0").length = 1 := rfl
    omega
  have k1 := (spec_after_serverkey d (checksums 0)).trans hk
  have k2 := (spec_after_serverkey _ (checksums 1)).trans k1
  have k3 := (spec_after_serverkey _ (checksums 2)).trans k2
  have k4 := (spec_after_serverkey _ (checksums 3)).trans k3
  have k5 := (spec_after_serverkey _ (checksums 4)).trans k4
  unfold send_checksums
  rw [pt_encode_key_closed _ _ key hk hlen hlo hhi l0, Option.some_bind]
  simp only
  rw [pt_encode_key_closed _ _ key k1 hlen hlo hhi l1, Option.some_bind]
  simp only
  rw [pt_encode_key_closed _ _ key k2 hlen hlo hhi l2, Option.some_bind]
  simp only
  rw [pt_encode_key_closed _ _ key k3 hlen hlo hhi l3, Option.some_bind]
  simp only
  rw [pt_encode_key_closed _ _ key k4 hlen hlo hhi l4, Option.some_bind]
  simp only
  rw [pt_encode_key_closed _ _ key k5 hlen hlo hhi l5, Option.some_bind]
  rfl

theorem spec_after_wierd (d : PTData) (s : List Nat) :
    (spec_after d s).wierd = d.wierd := rfl

theorem spec_after_sin_addr (d : PTData) (s : List Nat) :
    (spec_after d s).sin_addr = d.sin_addr := rfl

theorem spec_after_sin_port (d : PTData) (s : List Nat) :
    (spec_after d s).sin_port = d.sin_port := rfl

theorem spec_versions_start_fields (d : PTData) :
    (spec_versions_start d).wierd = 0 ∧ (spec_versions_start d).uin = d.uin
    ∧ (spec_versions_start d).sin_addr = d.sin_addr
    ∧ (spec_versions_start d).sin_port = d.sin_port := by
  unfold spec_versions_start
  exact ⟨rfl, rfl, rfl, rfl⟩

theorem GET_WIERD_NUMBER_start (d : PTData) : GET_WIERD_NUMBER d = spec_versions_start d := by
  rw [GET_WIERD_NUMBER_eq]
  unfold spec_versions_start
  rfl

theorem versions_body_closed (d : PTData) (s2 s3 s4 s5 s6 s7 : List Nat) (hw : d.wierd = 0) :
    versions_body d s2 s3 s4 s5 s6 s7
      = htons_bytes (s2.length + 27 + s3.length + s4.length + s5.length + s6.length * 2
          + s7.length + 1)
        ++ ([0x00, 0x00, 0x00, 0x00, 0x00, 0x01] ++ htonl_bytes d.uin
        ++ [d.sin_addr.getD 0 0, d.sin_addr.getD 1 0, d.sin_addr.getD 2 0,
            d.sin_addr.getD 3 0]
        ++ [d.sin_port.getD 0 0, d.sin_port.getD 1 0]
        ++ cstr "0" ++ [44] ++ s2 ++ [44] ++ s3 ++ [44] ++ s4 ++ [44] ++ s5 ++ [44] ++ s6
        ++ cstr ",0,0," ++ s6 ++ [44] ++ s7) := by
  have e : printf_d 0 = cstr "0" := rfl
  unfold versions_body
  rw [hw, e]
  rfl

theorem send_versions_closed (d : PTData) :
    (send_versions d [VaArg.str MAC_ADDRESS]).map
        (fun r => (r.1, packet_header PACKET_VERSIONS ++ r.2))
      = some (spec_versions_after d, spec_versions_frame d) := by
  have l0 : (cstr "261308E2").length ≤ 354 := by
    have : (cstr "261308E2").length = 8 := rfl
    omega
  have l1 : (cstr "????????").length ≤ 354 := by
    have : (cstr "????????").length = 8 := rfl
    omega
  have l2 : WINBLOWS_VERSION.length ≤ 354 := by
    have : WINBLOWS_VERSION.length = 14 := rfl
    omega
  have l3 : MAC_ADDRESS.length ≤ 354 := by
    have : MAC_ADDRESS.length = 12 := rfl
    omega
  have l4 : (cstr "-1").length ≤ 354 := by
    have : (cstr "-1").length = 2 := rfl
    omega
  have l5 : IE_PRODUCT_ID.length ≤ 354 := by
    have : IE_PRODUCT_ID.length = 23 := rfl
    omega
  obtain ⟨w0, u0, a0, p0⟩ := spec_versions_start_fields d
  have w1 := (spec_after_wierd (spec_versions_start d) (cstr "261308E2")).trans w0
  have w2 := (spec_after_wierd _ (cstr "????????")).trans w1
  have w3 := (spec_after_wierd _ WINBLOWS_VERSION).trans w2
  have w4 := (spec_after_wierd _ MAC_ADDRESS).trans w3
  have w5 := (spec_after_wierd _ (cstr "-1")).trans w4
  have w6 := (spec_after_wierd _ IE_PRODUCT_ID).trans w5
  have hu : (spec_versions_after d).uin = d.uin := by
    unfold spec_versions_after
    rw [spec_after_uin, spec_after_uin, spec_after_uin, spec_after_uin, spec_after_uin,
      spec_after_uin, u0]
  have ha : (spec_versions_after d).sin_addr = d.sin_addr := by
    unfold spec_versions_after
    rw [spec_after_sin_addr, spec_after_sin_addr, spec_after_sin_addr, spec_after_sin_addr,
      spec_after_sin_addr, spec_after_sin_addr, a0]
  have hp : (spec_versions_after d).sin_port = d.sin_port := by
    unfold spec_versions_after
    rw [spec_after_sin_port, spec_after_sin_port, spec_after_sin_port, spec_after_sin_port,
      spec_after_sin_port, spec_after_sin_port, p0]
  have hb := versions_body_closed (spec_versions_after d)
    (spec_encode (spec_versions_start d) (cstr "261308E2") 3 0)
    (spec_encode (spec_after (spec_versions_start d) (cstr "261308E2")) (cstr "????????") 3 0)
    (spec_encode (spec_after (spec_after (spec_versions_start d) (cstr "261308E2"))
      (cstr "????????")) WINBLOWS_VERSION 3 0)
    (spec_encode (spec_after (spec_after (spec_after (spec_versions_start d)
      (cstr "261308E2")) (cstr "????????")) WINBLOWS_VERSION) MAC_ADDRESS 3 0)
    (spec_encode (spec_after (spec_after (spec_after (spec_after (spec_versions_start d)
      (cstr "261308E2")) (cstr "????????")) WINBLOWS_VERSION) MAC_ADDRESS) (cstr "-1") 3 0)
    (spec_encode (spec_after (spec_after (spec_after (spec_after (spec_after
      (spec_versions_start d) (cstr "261308E2")) (cstr "????????")) WINBLOWS_VERSION)
      MAC_ADDRESS) (cstr "-1")) IE_PRODUCT_ID 3 0) w6
  rw [hu, ha, hp] at hb
  unfold send_versions
  simp only
  unfold send_versions_text
  rw [GET_WIERD_NUMBER_start, hd_serial_string]
  rw [pt_encode_wierd_closed _ _ w0 l0, Option.some_bind]
  simp only
  rw [pt_encode_wierd_closed _ _ w1 l1, Option.some_bind]
  simp only
  rw [pt_encode_wierd_closed _ _ w2 l2, Option.some_bind]
  simp only
  rw [pt_encode_wierd_closed _ _ w3 l3, Option.some_bind]
  simp only
  rw [pt_encode_wierd_closed _ _ w4 l4, Option.some_bind]
  simp only
  rw [pt_encode_wierd_closed _ _ w5 l5, Option.some_bind]
  simp only [Option.map_some']
  refine congrArg some (Prod.ext rfl ?_)
  simp only
  exact congrArg (fun b => packet_header PACKET_VERSIONS ++ b) hb

theorem send_uin_fontdepth_etc_closed (d : PTData) (now : Nat) :
    (send_uin_fontdepth_etc d now).map
        (fun r => (r.1, packet_header PACKET_UIN_FONTDEPTH_ETC ++ r.2))
      = some ({ d with time := INIT_TIME now }, spec_fontdepth_frame d.uin now) := by
  unfold send_uin_fontdepth_etc spec_fontdepth_frame
  simp only [Option.map_some']
  rw [fontdepth_blob]

theorem pt_send_packet_version_info_closed (d : PTData) (now : Nat) :
    pt_send_packet d now PACKET_VERSION_INFO [] = some (d, spec_version_info_frame) := by
  rw [pt_send_packet_version_info, version_info_text]
  rfl

theorem statuschange_frames_closed (ptd : PTData) (now : Nat) (key : List Nat)
    (hk : ptd.serverkey = some key) (hlen : 7 ≤ key.length)
    (hlo : 509 ≤ atoi ((key.drop 4).take 3)) (hhi : atoi ((key.drop 4).take 3) ≤ 852) :
    statuschange_frames ptd now
      = some ({ ptd with time := INIT_TIME now, wierd := 0 }, spec_login_frames ptd now) := by
  unfold statuschange_frames
  rw [pt_send_packet_checksums, send_checksums_closed ptd key hk hlen hlo hhi,
    Option.some_bind]
  simp only
  rw [pt_send_packet_versions, send_versions_closed, Option.some_bind]
  simp only
  rw [pt_send_packet_fontdepth, send_uin_fontdepth_etc_closed, Option.some_bind]
  simp only
  rw [pt_send_packet_version_info_closed, Option.some_bind]
  simp only
  refine congrArg some (Prod.ext ?_ ?_)
  · exact (spec_versions_after_set_time (spec_checksums_after ptd) (INIT_TIME now)).trans
      (spec_checksums_after_set_online ptd (INIT_TIME now))
  · simp only
    rw [spec_versions_after_uin, spec_checksums_after_uin]
    unfold spec_login_frames
    exact Eq.refl _

/-- C25: a `BUDDY_STATUSCHANGE` frame handled while the connection is not in the connected
state sets the status of the session to `STATUS_ONLINE`, marks the connection connected and
writes exactly four frames, `CHECKSUMS`, `VERSIONS`, `UIN_FONTDEPTH_ETC` and `VERSION_INFO`
in this order, whose bytes are those of `spec_login_frames`: header, length field and body
of each frame; the `BUDDY_STATUSCHANGE` frames handled afterwards, however many, write no
frame and leave the session and the state of the connection as they are.  The frames are
those of a session whose server key carries a base between 509 and 852 (the key the login
leaves), and every frame holds the two `long` fields of its type. -/
theorem pt_callback_buddy_statuschange_first (ptd : PTData) (state : GaimConnectionState)
    (blist : List GaimBuddy) (now : Nat) (waitbuf key : List Nat)
    (later : List (Nat × List Nat))
    (hst : state ≠ GaimConnectionState.GAIM_CONNECTED)
    (hk : ptd.serverkey = some key) (hlen : 7 ≤ key.length)
    (hlo : 509 ≤ atoi ((key.drop 4).take 3)) (hhi : atoi ((key.drop 4).take 3) ≤ 852)
    (hw : 14 ≤ waitbuf.length) (hlater : ∀ f ∈ later, 14 ≤ f.2.length) :
    ∃ r, pt_callback_buddy_statuschange ptd state blist now waitbuf = some r
      ∧ r.ptd.status = STATUS_ONLINE
      ∧ r.state = GaimConnectionState.GAIM_CONNECTED
      ∧ r.out = spec_login_frames { ptd with status := STATUS_ONLINE } now
      ∧ r.out.length = 4
      ∧ r.out.map PACKET_GET_TYPE
          = [some PACKET_CHECKSUMS, some PACKET_VERSIONS, some PACKET_UIN_FONTDEPTH_ETC,
             some PACKET_VERSION_INFO]
      ∧ ∃ r2, pt_callback_buddy_statuschanges { r with out := [] } later = some r2
          ∧ r2.out = [] ∧ r2.ptd = r.ptd
          ∧ r2.state = GaimConnectionState.GAIM_CONNECTED := by
  obtain ⟨u, hu⟩ := packet_get_long_some waitbuf 6 (by omega)
  obtain ⟨v, hv⟩ := packet_get_long_some waitbuf 10 (by omega)
  obtain ⟨b1, b2, b3, b4, e⟩ :=
    statuschange_frames_some { ptd with status := STATUS_ONLINE } now key hk hlen hlo hhi
  have ec :=
    statuschange_frames_closed { ptd with status := STATUS_ONLINE } now key hk hlen hlo hhi
  have hfr : spec_login_frames { ptd with status := STATUS_ONLINE } now
      = [packet_header PACKET_CHECKSUMS ++ b1, packet_header PACKET_VERSIONS ++ b2,
         packet_header PACKET_UIN_FONTDEPTH_ETC ++ b3,
         packet_header PACKET_VERSION_INFO ++ b4] := by
    have h2 := ec.symm.trans e
    exact (Prod.mk.inj (Option.some.inj h2)).2
  have hr : ∃ bl, pt_callback_buddy_statuschange ptd state blist now waitbuf
      = some { ptd := { ptd with status := STATUS_ONLINE, time := INIT_TIME now, wierd := 0 },
               state := GaimConnectionState.GAIM_CONNECTED, blist := bl,
               out := [packet_header PACKET_CHECKSUMS ++ b1,
                 packet_header PACKET_VERSIONS ++ b2,
                 packet_header PACKET_UIN_FONTDEPTH_ETC ++ b3,
                 packet_header PACKET_VERSION_INFO ++ b4] } := by
    unfold pt_callback_buddy_statuschange
    rw [hu, hv]
    simp only [Option.map_some']
    by_cases hb : (blist.any fun b => b.name == (printf_d u).take 11) = true
    · rw [if_pos hb]
      simp only
      rw [if_pos hst, e]
      exact ⟨_, rfl⟩
    · rw [if_neg hb]
      simp only
      rw [if_pos hst, e]
      exact ⟨_, rfl⟩
  obtain ⟨bl, hr⟩ := hr
  obtain ⟨bl2, e2⟩ := buddy_statuschanges_connected later hlater
    { ptd with status := STATUS_ONLINE, time := INIT_TIME now, wierd := 0 } bl []
  refine ⟨_, hr, rfl, rfl, hfr.symm, rfl, ?_, _, e2, rfl, rfl, rfl⟩
  simp only [List.map_cons, List.map_nil]
  rw [(packet_get_type_header b1).1, (packet_get_type_header b2).2.1,
    (packet_get_type_header b3).2.2.1, (packet_get_type_header b4).2.2.2]

set_option maxRecDepth 1000000 in
/-- C25 (witness): the session with the key `XXXX509` and the UIN 777, not yet connected,
handles a `BUDDY_STATUSCHANGE` at the time 5: the four frames written are those of
`login_frames_777`, byte by byte, and two later frames write nothing. -/
theorem pt_callback_buddy_statuschange_first_witness :
    (pt_callback_buddy_statuschange session_login_777
        GaimConnectionState.GAIM_CONNECTING [] 5 frame_statuschange_111).map (fun r => r.out)
      = some login_frames_777
    ∧ ∃ r, pt_callback_buddy_statuschange session_login_777
        GaimConnectionState.GAIM_CONNECTING [] 5 frame_statuschange_111 = some r
      ∧ r.ptd.status = STATUS_ONLINE
      ∧ r.state = GaimConnectionState.GAIM_CONNECTED
      ∧ r.out = spec_login_frames { session_login_777 with status := STATUS_ONLINE } 5
      ∧ r.out.length = 4
      ∧ r.out.map PACKET_GET_TYPE
          = [some PACKET_CHECKSUMS, some PACKET_VERSIONS, some PACKET_UIN_FONTDEPTH_ETC,
             some PACKET_VERSION_INFO]
      ∧ ∃ r2, pt_callback_buddy_statuschanges { r with out := [] }
            [(6, frame_statuschange_111), (7, frame_statuschange_111)] = some r2
          ∧ r2.out = [] ∧ r2.ptd = r.ptd
          ∧ r2.state = GaimConnectionState.GAIM_CONNECTED :=
  ⟨by decide!,
   pt_callback_buddy_statuschange_first session_login_777
    GaimConnectionState.GAIM_CONNECTING [] 5 frame_statuschange_111 (cstr "XXXX509")
    [(6, frame_statuschange_111), (7, frame_statuschange_111)]
    (by decide) rfl (by decide) (by decide) (by decide) (by decide) (by decide)⟩



/-! ## Commands leave the ban and bounce lists alone -/

theorem spec_room_lists_update (f : PTRoomData → PTRoomData) (id : Int) (ptd : PTData)
    (hf : ∀ r, ((f r).id, (f r).ban, (f r).bounce) = (r.id, r.ban, r.bounce)) :
    spec_room_lists { ptd with chats := room_update f id ptd.chats } = spec_room_lists ptd := by
  unfold spec_room_lists
  exact room_update_map _ f id ptd.chats hf

theorem pt_send_packet_long_short (ptd : PTData) (now : Nat) (t : Int) (v w : Int)
    (ht : t = PACKET_ROOM_RED_DOT_TEXT ∨ t = PACKET_ROOM_RED_DOT_VIDEO) :
    pt_send_packet ptd now t [VaArg.num v, VaArg.num w]
      = some (ptd, packet_header t ++ ([0x00, 0x06] ++ (htonl_bytes v ++ htons_bytes w))) := by
  rcases ht with h | h <;> subst h <;> rfl

theorem pt_ban_ptd (ptd : PTData) (buddies : List (List Nat × Option (List Nat)))
    (now : Nat) (id : Int) (arg : List Nat) (data : Bool) (r : CmdResult)
    (h : pt_ban ptd buddies now id arg data = some r) : r.ptd = ptd := by
  unfold pt_ban at h
  split at h
  · cases h
  · split at h
    · cases h
    · simp only [Option.some.injEq] at h
      subst h
      rfl
    · split at h
      · simp only [Option.some.injEq] at h
        subst h
        rfl
      · obtain ⟨uin, -, h⟩ := Option.bind_eq_some.mp h
        cases data
        · rw [if_neg (by decide),
            pt_send_packet_two_longs _ _ _ _ _ (Or.inr (Or.inl rfl))] at h
          simp only [Option.map_some', Option.some.injEq] at h
          subst h
          rfl
        · rw [if_pos rfl, pt_send_packet_two_longs _ _ _ _ _ (Or.inl rfl)] at h
          simp only [Option.map_some', Option.some.injEq] at h
          subst h
          rfl

theorem pt_red_dot_ptd (ptd : PTData) (buddies : List (List Nat × Option (List Nat)))
    (now : Nat) (id : Int) (arg : List Nat) (data : Bool) (r : CmdResult)
    (h : pt_red_dot ptd buddies now id arg data = some r) : r.ptd = ptd := by
  unfold pt_red_dot at h
  split at h
  · cases h
  · split at h
    · simp only [Option.some.injEq] at h
      subst h
      rfl
    · obtain ⟨uin, -, h⟩ := Option.bind_eq_some.mp h
      cases data
      · rw [if_neg (by decide), pt_send_packet_two_longs _ _ _ _ _
          (Or.inr (Or.inr (Or.inr (Or.inr (Or.inr rfl)))))] at h
        simp only [Option.map_some', Option.some.injEq] at h
        subst h
        rfl
      · rw [if_pos rfl, pt_send_packet_two_longs _ _ _ _ _
          (Or.inr (Or.inr (Or.inr (Or.inr (Or.inl rfl)))))] at h
        simp only [Option.map_some', Option.some.injEq] at h
        subst h
        rfl

theorem pt_listbans_ptd (ptd : PTData) (now : Nat) (id : Int) (data : Bool) (r : CmdConv)
    (h : pt_listbans ptd now id data = some r) : r.res.ptd = ptd := by
  unfold pt_listbans at h
  split at h
  · cases h
  · split at h
    · simp only [Option.some.injEq] at h
      subst h
      rfl
    · split at h
      · simp only [Option.some.injEq] at h
        subst h
        rfl
      · split at h
        · simp only [Option.some.injEq] at h
          subst h
          rfl
        · split at h
          · cases h
          · rw [pt_send_packet_one_long _ _ _ _ (Or.inr rfl)] at h
            simp only [Option.map_some', Option.some.injEq] at h
            subst h
            rfl

theorem pt_bounce_lists (ptd : PTData) (buddies : List (List Nat × Option (List Nat)))
    (now : Nat) (id : Int) (arg : List Nat) (data : Bool) (r : CmdResult)
    (h : pt_bounce ptd buddies now id arg data = some r) :
    spec_room_lists r.ptd = spec_room_lists ptd := by
  unfold pt_bounce at h
  split at h
  · cases h
  · split at h
    · simp only [Option.some.injEq] at h
      subst h
      rfl
    · split at h
      · simp only [Option.some.injEq] at h
        subst h
        rfl
      · obtain ⟨uin, -, h⟩ := Option.bind_eq_some.mp h
        split at h
        · simp only [Option.some.injEq] at h
          subst h
          exact spec_room_lists_update _ id ptd (fun _ => rfl)
        · rw [pt_send_packet_two_longs _ _ _ _ _ (Or.inr (Or.inr (Or.inr (Or.inl rfl))))] at h
          simp only [Option.map_some', Option.some.injEq] at h
          subst h
          rfl

theorem pt_do_bounce_lists (ptd : PTData) (now : Nat) (id : Int)
    (reason : Option (List Nat)) (r : PTData × List Nat)
    (h : pt_do_bounce ptd now id reason = some r) :
    spec_room_lists r.1 = spec_room_lists ptd := by
  cases hrd : pt_get_room_data ptd id with
  | none =>
      unfold pt_do_bounce at h
      simp only [hrd] at h
      cases h
  | some rd =>
      by_cases hu : rd.u_bounce = 0
      · rw [pt_do_bounce_idle ptd now id reason rd hrd hu] at h
        simp only [Option.some.injEq] at h
        subst h
        rfl
      · cases reason with
        | none =>
            unfold pt_do_bounce at h
            simp only [hrd, Option.some.injEq] at h
            subst h
            rfl
        | some reason =>
            rw [pt_do_bounce_sends ptd now id reason rd hrd hu] at h
            simp only [Option.some.injEq] at h
            subst h
            exact spec_room_lists_update _ id ptd (fun _ => rfl)

theorem pt_toggle_reddot_effect_lists (ptd : PTData) (now : Nat) (id : Int) (arg : List Nat)
    (r : CmdConv) (h : pt_toggle_reddot_effect ptd now id arg = some r) :
    spec_room_lists r.res.ptd = spec_room_lists ptd := by
  unfold pt_toggle_reddot_effect at h
  split at h
  · cases h
  · split at h
    · simp only [Option.some.injEq] at h
      subst h
      rfl
    · by_cases ht : arg = cstr "text"
      · rw [if_pos ht, if_neg (by decide), if_neg (by decide),
          pt_send_packet_long_short _ _ _ _ _ (Or.inl rfl)] at h
        simp only [Option.map_some', Option.some.injEq] at h
        subst h
        exact spec_room_lists_update _ id ptd (fun _ => rfl)
      · rw [if_neg ht] at h
        by_cases hv : arg = cstr "video"
        · rw [if_pos hv, if_neg (by decide), if_pos rfl,
            pt_send_packet_long_short _ _ _ _ _ (Or.inr rfl)] at h
          simp only [Option.map_some', Option.some.injEq] at h
          subst h
          exact spec_room_lists_update _ id ptd (fun _ => rfl)
        · rw [if_neg hv, if_pos rfl] at h
          simp only [Option.some.injEq] at h
          subst h
          rfl

set_option maxRecDepth 1000000 in
/-- C26: whatever the session, the room and the arguments, each of the handlers `pt_ban`,
`pt_bounce`, `pt_do_bounce`, `pt_listbans`, `pt_red_dot` and `pt_toggle_reddot_effect`
returns with the ban list and the bounce list of every room as they were before the call;
the handler of a `ROOM_ADMIN_INFO` frame replaces both lists of the room the frame names:
the ban list by the lines after `ban=`, the bounce list by the pieces of the `bounce` value
between the occurrences of `BSEP` (the two bytes C3 88), so that a value with the byte 0xC8
between its users becomes a single entry. -/
theorem commands_keep_ban_and_bounce_lists (ptd : PTData)
    (buddies : List (List Nat × Option (List Nat))) (now : Nat) (id : Int)
    (arg : List Nat) (data : Bool) (reason : Option (List Nat)) :
    (∀ r, pt_ban ptd buddies now id arg data = some r →
        spec_room_lists r.ptd = spec_room_lists ptd)
    ∧ (∀ r, pt_bounce ptd buddies now id arg data = some r →
        spec_room_lists r.ptd = spec_room_lists ptd)
    ∧ (∀ r, pt_do_bounce ptd now id reason = some r →
        spec_room_lists r.1 = spec_room_lists ptd)
    ∧ (∀ r, pt_listbans ptd now id data = some r →
        spec_room_lists r.res.ptd = spec_room_lists ptd)
    ∧ (∀ r, pt_red_dot ptd buddies now id arg data = some r →
        spec_room_lists r.ptd = spec_room_lists ptd)
    ∧ (∀ r, pt_toggle_reddot_effect ptd now id arg = some r →
        spec_room_lists r.res.ptd = spec_room_lists ptd)
    ∧ (pt_callback_room_admin_info session_owner_42 frame_admin_info_42).map spec_room_lists
        = some [(42, [cstr "3,carol", cstr "4,dave"],
                 [cstr "1,alice" ++ [0xC8] ++ cstr "2,bob"])]
    ∧ (pt_callback_room_admin_info session_owner_42 frame_admin_info_42_bsep).map
          spec_room_lists
        = some [(42, [cstr "3,carol", cstr "4,dave"], [cstr "1,alice", cstr "2,bob"])] := by
  refine ⟨fun r h => ?_, pt_bounce_lists ptd buddies now id arg data,
    pt_do_bounce_lists ptd now id reason, fun r h => ?_, fun r h => ?_,
    pt_toggle_reddot_effect_lists ptd now id arg, rfl, rfl⟩
  · rw [pt_ban_ptd ptd buddies now id arg data r h]
  · rw [pt_listbans_ptd ptd now id data r h]
  · rw [pt_red_dot_ptd ptd buddies now id arg data r h]

set_option maxRecDepth 1000000 in
/-- C26 (witness): in the session whose user owns room 42, with one banned and one bounced
user, each of the six handlers returns, and the lists of room 42 are as before. -/
theorem commands_keep_ban_and_bounce_lists_witness :
    ∃ r1 r2 r3 r4 r5 r6,
      pt_ban session_owner_42 [] 0 42 (cstr "5") true = some r1
      ∧ spec_room_lists r1.ptd = spec_room_lists session_owner_42
      ∧ pt_bounce session_owner_42 [] 0 42 (cstr "5") true = some r2
      ∧ spec_room_lists r2.ptd = spec_room_lists session_owner_42
      ∧ pt_do_bounce session_owner_42 0 42 (some (cstr "spam")) = some r3
      ∧ spec_room_lists r3.1 = spec_room_lists session_owner_42
      ∧ pt_listbans session_owner_42 0 42 true = some r4
      ∧ spec_room_lists r4.res.ptd = spec_room_lists session_owner_42
      ∧ pt_red_dot session_owner_42 [] 0 42 (cstr "5") true = some r5
      ∧ spec_room_lists r5.ptd = spec_room_lists session_owner_42
      ∧ pt_toggle_reddot_effect session_owner_42 0 42 (cstr "video") = some r6
      ∧ spec_room_lists r6.res.ptd = spec_room_lists session_owner_42 :=
  ⟨_, _, _, _, _, _,
    rfl,
    (commands_keep_ban_and_bounce_lists session_owner_42 [] 0 42 (cstr "5") true
      (some (cstr "spam"))).1 _ rfl,
    rfl,
    (commands_keep_ban_and_bounce_lists session_owner_42 [] 0 42 (cstr "5") true
      (some (cstr "spam"))).2.1 _ rfl,
    rfl,
    (commands_keep_ban_and_bounce_lists session_owner_42 [] 0 42 (cstr "5") true
      (some (cstr "spam"))).2.2.1 _ rfl,
    rfl,
    (commands_keep_ban_and_bounce_lists session_owner_42 [] 0 42 (cstr "5") true
      (some (cstr "spam"))).2.2.2.1 _ rfl,
    rfl,
    (commands_keep_ban_and_bounce_lists session_owner_42 [] 0 42 (cstr "5") true
      (some (cstr "spam"))).2.2.2.2.1 _ rfl,
    rfl,
    (commands_keep_ban_and_bounce_lists session_owner_42 [] 0 42 (cstr "video") true
      none).2.2.2.2.2.1 _ rfl⟩



/-! ## The number `wierd` -/

theorem pt_encode_session (data d1 : PTData) (str out : List Nat) (v a : Int)
    (h : pt_encode data str v a = some (out, d1)) : ∃ t, d1 = { data with time := t } := by
  unfold pt_encode at h
  simp only at h
  revert h
  generalize (ite (v = 1 ∨ v = 2) _ _ : Option Int) = cb0
  intro h
  cases cb0 with
  | none => cases h
  | some cb =>
      simp only at h
      obtain ⟨p, -, hp⟩ := Option.map_eq_some'.mp h
      simp only [Prod.mk.injEq] at hp
      exact ⟨p.2, hp.2.symm⟩

theorem pt_encode_variant_3 (d : PTData) (str : List Nat) :
    pt_encode d str 3 0
      = (pt_encode_loop23 d.wierd str 0 d.time []).map
          (fun p => (p.1, { d with time := p.2 })) := by
  unfold pt_encode
  rw [if_neg (by decide)]
  simp only
  rfl

theorem versions_frame_text (d : PTData) (s2 s3 s4 s5 s6 s7 : List Nat) (hw : d.wierd = 0) :
    ((packet_header PACKET_VERSIONS ++ versions_body d s2 s3 s4 s5 s6 s7).drop 22).take 2
      = cstr "0," := by
  have e : printf_d 0 = [48] := rfl
  have e2 : cstr "0," = [48, 44] := rfl
  simp only [versions_body, packet_header, htons_bytes, htonl_bytes, hw, e, e2,
    List.cons_append, List.nil_append, List.append_assoc, List.drop_succ_cons, List.drop_zero,
    List.take_succ_cons, List.take_zero]

theorem send_versions_text_wierd (ptd : PTData) (ctmp : List Nat) (r : PTData × List Nat)
    (h : send_versions_text ptd ctmp = some r) :
    ∃ d s2 s3 s4 s5 s6 s7, d.wierd = 0 ∧ r.2 = versions_body d s2 s3 s4 s5 s6 s7 := by
  unfold send_versions_text at h
  obtain ⟨r2, e2, h⟩ := Option.bind_eq_some.mp h
  obtain ⟨r3, e3, h⟩ := Option.bind_eq_some.mp h
  obtain ⟨r4, e4, h⟩ := Option.bind_eq_some.mp h
  obtain ⟨r5, e5, h⟩ := Option.bind_eq_some.mp h
  obtain ⟨r6, e6, h⟩ := Option.bind_eq_some.mp h
  obtain ⟨r7, e7, h⟩ := Option.bind_eq_some.mp h
  simp only [Option.some.injEq] at h
  obtain ⟨t2, h2⟩ := pt_encode_session _ r2.2 _ r2.1 _ _ e2
  obtain ⟨t3, h3⟩ := pt_encode_session _ r3.2 _ r3.1 _ _ e3
  obtain ⟨t4, h4⟩ := pt_encode_session _ r4.2 _ r4.1 _ _ e4
  obtain ⟨t5, h5⟩ := pt_encode_session _ r5.2 _ r5.1 _ _ e5
  obtain ⟨t6, h6⟩ := pt_encode_session _ r6.2 _ r6.1 _ _ e6
  obtain ⟨t7, h7⟩ := pt_encode_session _ r7.2 _ r7.1 _ _ e7
  refine ⟨r7.2, r2.1, r3.1, r4.1, r5.1, r6.1, r7.1, ?_, ?_⟩
  · rw [h7, h6, h5, h4, h3, h2]
    exact GET_WIERD_NUMBER_wierd ptd
  · rw [← h]

/-- C27: whatever the time counter of the session, `GET_WIERD_NUMBER` leaves `wierd` at 0;
so variant 3 of `pt_encode`, on a session that went through `GET_WIERD_NUMBER`, runs its
loop with the base offset 0, and in every `VERSIONS` frame that `pt_send_packet` builds the
text (from offset 22 of the frame) begins with `0,`; the frame is built whenever the string
argument has at most 354 characters. -/
theorem wierd_number_is_zero (X : PTData) (now : Nat) (str ctmp : List Nat) :
    (GET_WIERD_NUMBER X).wierd = 0
    ∧ pt_encode (GET_WIERD_NUMBER X) str 3 0
        = (pt_encode_loop23 0 str 0 (GET_WIERD_NUMBER X).time []).map
            (fun p => (p.1, { GET_WIERD_NUMBER X with time := p.2 }))
    ∧ (∀ r, pt_send_packet X now PACKET_VERSIONS [VaArg.str ctmp] = some r →
        (r.2.drop 22).take 2 = cstr "0,")
    ∧ (ctmp.length ≤ 354 →
        (pt_send_packet X now PACKET_VERSIONS [VaArg.str ctmp]).isSome = true) := by
  refine ⟨GET_WIERD_NUMBER_wierd X, ?_, ?_, ?_⟩
  · rw [pt_encode_variant_3]
    simp only [GET_WIERD_NUMBER_wierd X]
  · intro r h
    rw [pt_send_packet_versions] at h
    obtain ⟨r1, e1, h⟩ := Option.map_eq_some'.mp h
    obtain ⟨d, s2, s3, s4, s5, s6, s7, hw, hb⟩ := send_versions_text_wierd X ctmp r1 e1
    rw [← h, hb]
    exact versions_frame_text d s2 s3 s4 s5 s6 s7 hw
  · intro hl
    obtain ⟨t, s2, s3, s4, s5, s6, s7, e⟩ := send_versions_some X ctmp hl
    rw [pt_send_packet_versions, e]
    rfl

set_option maxRecDepth 1000000 in
/-- C27 (witness): the `VERSIONS` frame of the session with the key `XXXX509`, built with
the string `MAC_ADDRESS` as the plugin does. -/
theorem wierd_number_is_zero_witness :
    ∃ r, pt_send_packet session_509 5 PACKET_VERSIONS [VaArg.str MAC_ADDRESS] = some r
      ∧ (r.2.drop 22).take 2 = cstr "0,"
      ∧ (pt_send_packet session_509 5 PACKET_VERSIONS [VaArg.str MAC_ADDRESS]).isSome = true :=
  ⟨_, rfl, (wierd_number_is_zero session_509 5 [] MAC_ADDRESS).2.2.1 _ rfl,
    (wierd_number_is_zero session_509 5 [] MAC_ADDRESS).2.2.2 (by decide)⟩



/-! ## The product-id loop leaves the block -/

set_option maxRecDepth 1000000 in
/-- C28 (the code on the product id): the loop over `"51873-335-9659427-09862"` stores at
the indices 2..6, 8..10, 12..18 and 20..24.  The indices 22, 23 and 24 are not below 22:
22 is the terminating byte of the block of 23 bytes, 23 and 24 lie behind the block, and
the 22 bytes that are sent hold 17 of the 20 digits. -/
theorem fontdepth_stores_product_id :
    fontdepth_stores IE_PRODUCT_ID 2
      = [2, 3, 4, 5, 6, 8, 9, 10, 12, 13, 14, 15, 16, 17, 18, 20, 21, 22, 23, 24]
    ∧ (fontdepth_stores IE_PRODUCT_ID 2).filter (fun j => decide (¬ (2 ≤ j ∧ j < 22)))
      = [22, 23, 24]
    ∧ fontdepth_block.length = 23
    ∧ (IE_PRODUCT_ID.filter g_ascii_isdigit).length = 20
    ∧ (((fontdepth_loop IE_PRODUCT_ID 2 fontdepth_block).take 22).drop 2).map
        (fun b => decide (b ≠ 0))
      = [true, true, true, true, true, false, true, true, true, false, true, true, true,
         true, true, true, true, false, true, true] :=
  ⟨by decide, by decide, rfl, by decide, by decide⟩



/-! ## One frame for each line before the first empty line -/

theorem pt_send_packet_room_message (ptd : PTData) (now : Nat) (tmp : List Nat) (id : Int) :
    pt_send_packet ptd now PACKET_ROOM_MESSAGE_OUT [VaArg.str tmp, VaArg.num id]
      = some (ptd, room_message_out tmp id) := rfl

theorem chat_send_loop_lines (now : Nat) (conv echo : Bool) (id : Int)
    (hc : conv = true ∨ echo = false) :
    ∀ (tokens : List (List Nat)) (texts : List (List Nat)) (st : ChatSend),
      List.Forall₂ (fun t o => pt_convert_from_html t = some o)
        (tokens.takeWhile (fun t => !t.isEmpty)) texts →
      chat_send_loop now conv echo id tokens st
        = some { st with
            out := st.out ++ texts.map (fun o => room_message_out o id),
            shown := st.shown
              ++ (if echo then tokens.takeWhile (fun t => !t.isEmpty) else []) } := by
  intro tokens
  induction tokens with
  | nil =>
      intro texts st h
      simp only [List.takeWhile_nil] at h
      cases h
      cases echo <;> simp [chat_send_loop]
  | cons tok rest ih =>
      intro texts st h
      by_cases he : tok.isEmpty = true
      · have e : (tok :: rest).takeWhile (fun t => !t.isEmpty) = [] := by
          simp [List.takeWhile_cons, he]
        rw [e] at h
        cases h
        simp only [chat_send_loop, if_pos he, e]
        cases echo <;> simp
      · have e : (tok :: rest).takeWhile (fun t => !t.isEmpty)
            = tok :: rest.takeWhile (fun t => !t.isEmpty) := by
          simp [List.takeWhile_cons, he]
        rw [e] at h
        cases h with
        | cons h1 h2 =>
            rename_i o os
            have hg : ¬ ((echo && !conv) = true) := by
              rcases hc with hc | hc <;> subst hc <;> simp
            simp only [chat_send_loop, if_neg he, if_neg hg, h1, pt_send_packet_room_message]
            rw [ih os _ h2, e]
            cases echo <;> simp

/-- C29 (amended): for a message that contains a line break, `pt_chat_send` returns 1 and
writes one `ROOM_MESSAGE_OUT` frame for each line before the first empty line, in order,
each with `pt_convert_from_html` of that line and the room id, and no other frame.  The
conversation of the chat exists (or the message holds `/w `, and is not echoed), and the
conversion of each of these lines is defined. -/
theorem pt_chat_send_leading_lines (ptd : PTData) (now : Nat) (conv : Bool) (id : Int)
    (what : List Nat) (texts : List (List Nat))
    (hnl : 10 ∈ what)
    (hc : conv = true ∨ (strstr what (cstr "/w ")).isSome = true)
    (ht : List.Forall₂ (fun t o => pt_convert_from_html t = some o)
      (spec_leading_lines what) texts) :
    ∃ r, pt_chat_send ptd now conv id what = some r
      ∧ r.ret = 1 ∧ r.ptd = ptd
      ∧ r.out = texts.map (fun o => room_message_out o id) := by
  have h1 : (strchr what 10).isSome = true := by
    unfold strchr
    rw [if_pos (by simpa using hnl)]
    rfl
  have hc2 : conv = true ∨ (strstr what (cstr "/w ")).isNone = false := by
    rcases hc with hc | hc
    · exact Or.inl hc
    · right
      cases hs : strstr what (cstr "/w ") with
      | none => rw [hs] at hc; cases hc
      | some k => rfl
  unfold pt_chat_send
  simp only
  rw [if_pos h1, chat_send_loop_lines now conv _ id hc2 (g_strsplit what 10) texts _ ht]
  exact ⟨_, rfl, rfl, rfl, by simp⟩

set_option maxRecDepth 1000000 in
/-- C29 (witness): the message of the two lines `hi` and `you`. -/
theorem pt_chat_send_leading_lines_witness :
    ∃ r, pt_chat_send session_nick_42 0 true 42 (cstr "hi\nyou") = some r
      ∧ r.ret = 1 ∧ r.ptd = session_nick_42
      ∧ r.out = [cstr "<pfont color=\"#0\"><pfont-size=\"10\">hi</pfont></pfont>",
                 cstr "<pfont color=\"#0\"><pfont-size=\"10\">you</pfont></pfont>"].map
                  (fun o => room_message_out o 42) :=
  pt_chat_send_leading_lines session_nick_42 0 true 42 (cstr "hi\nyou") _ (by decide)
    (Or.inl rfl) (List.Forall₂.cons rfl (List.Forall₂.cons rfl List.Forall₂.nil))

set_option maxRecDepth 1000000 in
/-- C29 (counterexample): the message `a`, empty line, `b` has the two non-empty lines `a`
and `b`, and `pt_chat_send` writes the frame of `a` only. -/
theorem pt_chat_send_stops_at_empty_line :
    spec_nonempty_lines (cstr "a\n\nb") = [cstr "a", cstr "b"]
    ∧ (pt_chat_send session_nick_42 0 true 42 (cstr "a\n\nb")).map (fun r => r.out)
      = some [room_message_out
          (cstr "<pfont color=\"#0\"><pfont-size=\"10\">a</pfont></pfont>") 42] :=
  ⟨by decide, rfl⟩



/-! ## A handle outlives the unref that brings its count to 0 -/

theorem spec_order_ok_take : ∀ (ops : List DevOp) (c n : Nat),
    spec_order_ok c ops = true → spec_order_ok c (ops.take n) = true := by
  intro ops
  induction ops with
  | nil => intro c n h; simpa using h
  | cons op rest ih =>
      intro c n h
      cases n with
      | zero => rfl
      | succ n =>
          cases op with
          | ref =>
              simp only [List.take_succ_cons, spec_order_ok] at h ⊢
              exact ih _ n h
          | unref =>
              simp only [List.take_succ_cons, spec_order_ok, Bool.and_eq_true] at h ⊢
              exact ⟨h.1, ih _ n h.2⟩

theorem devop_count_ref_ref (l : List DevOp) :
    List.count DevOp.ref (DevOp.ref :: l) = List.count DevOp.ref l + 1 :=
  List.count_cons_self _ _

theorem devop_count_unref_unref (l : List DevOp) :
    List.count DevOp.unref (DevOp.unref :: l) = List.count DevOp.unref l + 1 :=
  List.count_cons_self _ _

theorem devop_count_ref_unref (l : List DevOp) :
    List.count DevOp.ref (DevOp.unref :: l) = List.count DevOp.ref l :=
  List.count_cons_of_ne (by decide) l

theorem devop_count_unref_ref (l : List DevOp) :
    List.count DevOp.unref (DevOp.ref :: l) = List.count DevOp.unref l :=
  List.count_cons_of_ne (by decide) l

theorem spec_order_ok_count : ∀ (ops : List DevOp) (c : Nat),
    spec_order_ok c ops = true → ops.count DevOp.unref ≤ c + ops.count DevOp.ref := by
  intro ops
  induction ops with
  | nil => intro c _; simp
  | cons op rest ih =>
      intro c h
      cases op with
      | ref =>
          simp only [spec_order_ok] at h
          have := ih (c + 1) h
          rw [devop_count_ref_ref, devop_count_unref_ref]
          omega
      | unref =>
          simp only [spec_order_ok, Bool.and_eq_true, decide_eq_true_eq] at h
          have := ih (c - 1) h.2
          rw [devop_count_ref_unref, devop_count_unref_unref]
          omega

theorem oss_dev_ops_count : ∀ (ops : List DevOp) (c : Nat) (p : Bool),
    spec_order_ok c ops = true → c + ops.count DevOp.ref < 4294967296 →
    oss_dev_ops { refc := c, paused := p, destroyed := false } ops
      = some { refc := c + ops.count DevOp.ref - ops.count DevOp.unref, paused := p,
               destroyed := false } := by
  intro ops
  induction ops with
  | nil => intro c p _ _; simp [oss_dev_ops]
  | cons op rest ih =>
      intro c p ho hlt
      cases op with
      | ref =>
          rw [devop_count_ref_ref] at hlt
          simp only [spec_order_ok] at ho
          have hm : (c + 1) % 4294967296 = c + 1 := Nat.mod_eq_of_lt (by omega)
          have e : oss_dev_ref { refc := c, paused := p, destroyed := false }
              = some { refc := c + 1, paused := p, destroyed := false } := by
            simp only [oss_dev_ref, Bool.false_eq_true, if_false, hm]
          rw [devop_count_ref_ref, devop_count_unref_ref]
          simp only [oss_dev_ops, e]
          rw [ih (c + 1) p ho (by omega)]
          simp only [GaimMediaDeviceHandle.mk.injEq, Option.some.injEq, and_true]
          omega
      | unref =>
          rw [devop_count_ref_unref] at hlt
          simp only [spec_order_ok, Bool.and_eq_true, decide_eq_true_eq] at ho
          have hc : ¬ c = 0 := by omega
          have e : oss_dev_unref { refc := c, paused := p, destroyed := false }
              = some { refc := c - 1, paused := p, destroyed := false } := by
            simp only [oss_dev_unref, Bool.false_eq_true, if_false, hc]
          have hle := spec_order_ok_count rest (c - 1) ho.2
          rw [devop_count_ref_unref, devop_count_unref_unref]
          simp only [oss_dev_ops, e]
          rw [ih (c - 1) p ho.2 (by omega)]
          simp only [GaimMediaDeviceHandle.mk.injEq, Option.some.injEq, and_true]
          omega

/-- C30 (amended): a handle returned by `oss_open` has the count 1; after `k` calls of
ref and `k+1` calls of unref, in any order in which no unref comes at the count 0 (and
with `k+1` below 2^32, so that the `guint` does not wrap), the count is 0 and the handle
has not been destroyed, neither by the last unref nor by one before it; the playback
thread ends its loop, and the next unref (or `oss_close`) destroys the handle. -/
theorem oss_dev_unref_last_keeps_handle (id : List Nat) (k : Nat) (ops : List DevOp)
    (hk : k + 1 < 4294967296)
    (href : ops.count DevOp.ref = k) (hunref : ops.count DevOp.unref = k + 1)
    (hord : spec_order_ok 1 ops = true) :
    ∃ h0 h, oss_open (some id) true = some h0 ∧ h0.refc = 1
      ∧ (∀ n, (oss_dev_ops h0 (ops.take n)).map (fun d => d.destroyed) = some false)
      ∧ oss_dev_ops h0 ops = some h
      ∧ h.refc = 0 ∧ h.destroyed = false
      ∧ oss_dev_write_thread_runs h = false
      ∧ (oss_dev_unref h).map (fun d => d.destroyed) = some true
      ∧ (oss_close h).map (fun d => d.destroyed) = some true := by
  have hall := oss_dev_ops_count ops 1 false hord (by omega)
  refine ⟨{ refc := 1 }, { refc := 0 }, rfl, rfl, ?_, ?_, rfl, rfl, rfl, rfl, rfl⟩
  · intro n
    have hc : (ops.take n).count DevOp.ref ≤ ops.count DevOp.ref :=
      (List.take_sublist n ops).count_le _
    have e := oss_dev_ops_count (ops.take n) 1 false (spec_order_ok_take ops 1 n hord)
      (by omega)
    exact (congrArg (Option.map fun d => d.destroyed) e).trans rfl
  · refine hall.trans ?_
    rw [href, hunref]
    simp only [GaimMediaDeviceHandle.mk.injEq, Option.some.injEq, and_true]
    omega

/-- C30 (witness): one call of ref and two of unref, the first unref coming first. -/
theorem oss_dev_unref_last_keeps_handle_witness :
    ∃ h0 h, oss_open (some (cstr "/dev/dsp")) true = some h0 ∧ h0.refc = 1
      ∧ (oss_dev_ops h0 ([DevOp.unref, DevOp.ref, DevOp.unref].take 1)).map
            (fun d => d.destroyed) = some false
      ∧ oss_dev_ops h0 [DevOp.unref, DevOp.ref, DevOp.unref] = some h
      ∧ h.refc = 0 ∧ h.destroyed = false
      ∧ oss_dev_write_thread_runs h = false
      ∧ (oss_dev_unref h).map (fun d => d.destroyed) = some true
      ∧ (oss_close h).map (fun d => d.destroyed) = some true := by
  obtain ⟨h0, h, a1, a2, a3, a4, a5, a6, a7, a8, a9⟩ :=
    oss_dev_unref_last_keeps_handle (cstr "/dev/dsp") 1 [DevOp.unref, DevOp.ref, DevOp.unref]
      (by decide) (by decide) (by decide) (by decide)
  exact ⟨h0, h, a1, a2, a3 1, a4, a5, a6, a7, a8, a9⟩

/-- C30 (counterexample): with `k = 0`, the one call of unref on a handle fresh from
`oss_open` leaves the handle with the count 0 and not destroyed. -/
theorem oss_dev_unref_once_not_destroyed :
    (oss_open (some (cstr "/dev/dsp")) true).bind (fun h => oss_dev_ops h [DevOp.unref])
      = some { refc := 0, paused := false, destroyed := false } :=
  rfl



end Paltalk
